import Mathlib

/-!
# Octopus RFB server: region accounting, unacked queue, splitter, CopyRect order, rate control

A shallow embedding of `hw/vnc/rfbserver.c` (the server side of the RFB
protocol with the sequence-numbered datagram transport) and theorems about it.

Conventions of the embedding

* C `int` values are `Int`; `CARD32` and `unsigned long` values are `Nat` with
  explicit reduction modulo `2 ^ 32` / `ULONG_MOD` where the C code can wrap.
* The process-wide variables of `rfbserver.c` are the fields of `Globals`; the
  fields of `rfbClientRec` that the embedded functions read or write are the
  fields of the structure of the same name (statistics counters are left out).
* Functions defined in other files of the X server (encoders, socket
  primitives, the cursor sprite, the region enumeration) are the fields of
  `Env`; every theorem quantifies over `Env` unless it evaluates a concrete run.
* `GetTimeInMillis()` is an argument `now` of the functions that read the clock.
-/

namespace Octopus

/-! ## Regions -/

/-- Modelled from the spec: the 2D region library (`REGION_*`, `miregion.c`) is
not part of `rfbserver.c`.  The spec describes a region as a "set of pixel
rectangles with standard set algebra (union, intersect, subtract, translate,
empty-test, extents, rect-enumeration)"; a region is the finite set of the
pixels `(x, y)` it covers. -/
abbrev Region := Finset (Int × Int)

/-- The `BoxRec` of the X server: the half-open rectangle `[x1, x2) × [y1, y2)`. -/
structure BoxRec where
  x1 : Int
  y1 : Int
  x2 : Int
  y2 : Int
deriving DecidableEq, Repr, Inhabited

/-- Pixels of a box. -/
def BoxRec.pixels (b : BoxRec) : Region :=
  Finset.Ico b.x1 b.x2 ×ˢ Finset.Ico b.y1 b.y2

/-- Modelled from the spec: `REGION_INIT(pScreen, &reg, &box, 0)`, the region of one box. -/
def REGION_INIT (box : BoxRec) : Region := box.pixels

/-- Modelled from the spec: `REGION_UNION`. -/
def REGION_UNION (a b : Region) : Region := a ∪ b

/-- Modelled from the spec: `REGION_INTERSECT`. -/
def REGION_INTERSECT (a b : Region) : Region := a ∩ b

/-- Modelled from the spec: `REGION_SUBTRACT(pScreen, dst, a, b)`, `a` minus `b`. -/
def REGION_SUBTRACT (a b : Region) : Region := a \ b

/-- Modelled from the spec: `REGION_TRANSLATE(pScreen, reg, dx, dy)`. -/
def REGION_TRANSLATE (r : Region) (dx dy : Int) : Region :=
  r.image (fun p => (p.1 + dx, p.2 + dy))

/-- Modelled from the spec: `REGION_NOTEMPTY`. -/
def REGION_NOTEMPTY (r : Region) : Bool := decide (r ≠ ∅)

/-- Modelled from the spec: `REGION_EMPTY` (make the region empty). -/
def REGION_EMPTY : Region := ∅

/-- Modelled from the spec: the field `extents` of a region, its bounding box
(the box `(0, 0, 0, 0)` for the empty region). -/
def regionExtents (r : Region) : BoxRec :=
  { x1 := ((r.image Prod.fst).min).untop' 0,
    y1 := ((r.image Prod.snd).min).untop' 0,
    x2 := ((r.image (fun p => p.1 + 1)).max).unbot' 0,
    y2 := ((r.image (fun p => p.2 + 1)).max).unbot' 0 }

/-- A rectangle enumeration of a region for concrete runs: one `1 × 1` box per
pixel, rows from top to bottom and each row from left to right. -/
def pixelRects (r : Region) : List BoxRec :=
  (List.range ((regionExtents r).y2 - (regionExtents r).y1).toNat).flatMap (fun j =>
    (List.range ((regionExtents r).x2 - (regionExtents r).x1).toNat).filterMap (fun i =>
      if ((regionExtents r).x1 + i, (regionExtents r).y1 + j) ∈ r then
        some { x1 := (regionExtents r).x1 + i, y1 := (regionExtents r).y1 + j,
               x2 := (regionExtents r).x1 + i + 1, y2 := (regionExtents r).y1 + j + 1 }
      else none))

/-! ## Session and server state -/

/-- The values of `cl->state` that `rfbProcessClientMessage` dispatches on. -/
inductive ClientState where
  | RFB_PROTOCOL_VERSION
  | RFB_SECURITY_TYPE
  | RFB_TUNNELING_TYPE
  | RFB_AUTH_TYPE
  | RFB_AUTHENTICATION
  | RFB_INITIALISATION
  | RFB_NORMAL
deriving DecidableEq, Repr

/-- The fields of `rfbClientRec` used by the embedded functions. -/
structure rfbClientRec where
  sock : Int
  state : ClientState
  viewOnly : Bool
  reverseConnection : Bool
  protocol_minor_ver : Int
  protocol_tightvnc : Bool
  useCopyRect : Bool
  enableLastRectEncoding : Bool
  useRichCursorEncoding : Bool
  cursorX : Int
  cursorY : Int
  isOctopus : Bool
  measuring : Bool
  useUdp : Bool
  readyForSetColourMapEntries : Bool
  /-- The field `format.trueColour`. -/
  formatTrueColour : Bool
  preferredEncoding : Int
  correMaxWidth : Int
  correMaxHeight : Int
  copyRegion : Region
  copyDX : Int
  copyDY : Int
  modifiedRegion : Region
  requestedRegion : Region
  tightQualityLevel : Int
  enableCursorShapeUpdates : Bool
  enableCursorPosUpdates : Bool
  cursorWasChanged : Bool
  cursorWasMoved : Bool
  rfbFramebufferUpdateMessagesSent : Int
deriving DecidableEq

/-- An entry of the unacked queue (`struct SendRegionRec` without its links). -/
structure SendRegionRec where
  seqNum : Nat
  time : Nat
  numBytes : Int
  region : Region
deriving DecidableEq

/-- A framebuffer update that was handed completely to the transport: the
sequence number and rectangle count of its header and the channel it used. -/
structure SentUpdate where
  seqNum : Nat
  nRects : Int
  udp : Bool
deriving DecidableEq, Repr

/-- The process-wide variables of `rfbserver.c`.  The doubly linked list
`srRecFirst .. srRecLast` is the list `srRec` (head first); `cursorIsDrawn` is
`rfbScreen.cursorIsDrawn`; `send_count`, `sent_count`, `last_check` and
`last_update` are the function-local statics; `sentUpdates` records the
updates handed to the transport, oldest first. -/
structure Globals where
  ublen : Int
  serverPushInterval : Nat
  retransmitTimeout : Nat
  srtt : ℚ
  rttvar : ℚ
  tickSentBytes : Int
  sendingThroughput : ℚ
  receivingThroughput : ℚ
  lastChange : Nat
  seqNumCounter : Nat
  lastAckSeqNum : Nat
  lastAckTime : Nat
  handleNewBlock : Int
  frameSeqNumCounter : Nat
  lastEventId : Nat
  srRec : List SendRegionRec
  srRecCount : Nat
  canSend : Bool
  send_count : Int
  sent_count : Int
  last_check : Nat
  last_update : Nat
  cursorIsDrawn : Bool
  sentUpdates : List SentUpdate
deriving DecidableEq

/-- The constant `MAX_UPDATE_SIZE`, `2 * 1500 - 100`. -/
def MAX_UPDATE_SIZE : Int := 2 * 1500 - 100

/-- Modulus of `CARD32` arithmetic. -/
def CARD32_MOD : Nat := 2 ^ 32

/-- Modulus of `unsigned long` arithmetic (LP64). -/
def ULONG_MOD : Nat := 2 ^ 64

/-- Modulus of `unsigned int` arithmetic. -/
def UINT_MOD : Nat := 2 ^ 32

/-- Subtraction of two `unsigned long` values. -/
def ulongSub (a b : Nat) : Nat := (a + ULONG_MOD - b % ULONG_MOD) % ULONG_MOD

/-- Size of the update header `{u8 type, u8 pad, u16 nRects, u32 eventId, u32 seqNum}`. -/
def sz_rfbFramebufferUpdateMsg : Int := 12

/-- Size of a rectangle header `{u16 x, u16 y, u16 w, u16 h, u32 encoding}`. -/
def sz_rfbFramebufferUpdateRectHeader : Int := 12

/-- Size of the CopyRect payload `{u16 srcX, u16 srcY}`. -/
def sz_rfbCopyRect : Int := 4

/-- Encoding numbers of the RFB protocol (`rfbproto.h`). -/
def rfbEncodingRaw : Int := 0

/-- Encoding number of CopyRect. -/
def rfbEncodingCopyRect : Int := 1

/-- Encoding number of RRE. -/
def rfbEncodingRRE : Int := 2

/-- Encoding number of CoRRE. -/
def rfbEncodingCoRRE : Int := 4

/-- Encoding number of Hextile. -/
def rfbEncodingHextile : Int := 5

/-- Encoding number of Zlib. -/
def rfbEncodingZlib : Int := 6

/-- Encoding number of Tight. -/
def rfbEncodingTight : Int := 7

/-- Functions and constants that `rfbserver.c` uses and that are defined in
other files.  An encoder or cursor sender gets the session and the current
buffer length and returns the new buffer length, or `none` when it fails. -/
structure Env where
  /-- The constant `UPDATE_BUF_SIZE` of `rfb.h`. -/
  UPDATE_BUF_SIZE : Int
  /-- The macro `ZLIB_MAX_SIZE` of `rfb.h`. -/
  ZLIB_MAX_SIZE : Int → Int
  /-- The macro `FB_UPDATE_PENDING` of `rfb.h`. -/
  FB_UPDATE_PENDING : Globals → rfbClientRec → Bool
  /-- The rectangles `REGION_RECTS(reg)[0 .. REGION_NUM_RECTS(reg) - 1]`. -/
  REGION_RECTS : Region → List BoxRec
  /-- Value of `rfbScreen.cursorIsDrawn` after `rfbSpriteRemoveCursor`. -/
  rfbSpriteRemoveCursor : Bool → Bool
  /-- Value of `rfbScreen.cursorIsDrawn` after `rfbSpriteRestoreCursor`. -/
  rfbSpriteRestoreCursor : Bool → Bool
  rfbNumCodedRectsTight : rfbClientRec → Int → Int → Int → Int → Int
  rfbSendCursorShape : rfbClientRec → Int → Option Int
  rfbSendCursorPos : rfbClientRec → Int → Option Int
  /-- The rectangle encoders `rfbSendRectEncodingRaw`, `..RRE`, `..CoRRE`,
  `..Hextile`, `..Zlib`, `..Tight`, selected by the encoding number. -/
  rfbSendRectEncoding : Int → rfbClientRec → Int → Int → Int → Int → Int → Option Int
  /-- Return value of `sendto` for a datagram of the given length. -/
  sendto : Globals → Int → Int
  /-- Return value of `WriteExact` for the given length. -/
  WriteExact : Globals → Int → Int
  /-- Return value of `rfbSetClientColourMap(cl, 0, 0)`. -/
  rfbSetClientColourMap : rfbClientRec → Bool
  /-- Content of freshly allocated memory read as an `int`. -/
  uninitialised : Int
  /-- The clock `GetTimeInMillis()`, read in the given state. -/
  GetTimeInMillis : Globals → Nat

/-! ## The update builder -/

/-- Transcription of `rfbSendUpdateBuf`: returns the C return value and the new globals. -/
def rfbSendUpdateBuf (env : Env) (g : Globals) (cl : rfbClientRec) : Bool × Globals :=
  if cl.measuring then (true, g)
  else if cl.useUdp then
    if g.ublen > MAX_UPDATE_SIZE then (false, g)
    else
      let sent_size := env.sendto g g.ublen
      if sent_size = -1 then (false, g)
      else if sent_size ≠ g.ublen then (false, g)
      else (true, { g with ublen := 0 })
  else if g.ublen > 0 ∧ env.WriteExact g g.ublen < 0 then (false, g)
  else (true, { g with ublen := 0 })

/-- A CopyRect as `rfbSendCopyRegion` writes it: the rectangle header fields
and the source position, before their conversion to 16-bit wire values. -/
structure CopyRectMsg where
  x : Int
  y : Int
  w : Int
  h : Int
  srcX : Int
  srcY : Int
deriving DecidableEq, Repr

/-- The read `REGION_RECTS(reg)[i]`; the default box stands for a read outside the array. -/
def rectAt (rects : List BoxRec) (i : Int) : BoxRec :=
  if 0 ≤ i then rects.getD i.toNat default else default

/-- The band-counting loop of `rfbSendCopyRegion`:
`while (nrects > 0 && rects[firstInNextBand].y1 == rects[thisRect].y1)`.
Returns `(nrects, firstInNextBand, nrectsInBand)`. -/
def bandScan (rects : List BoxRec) (y_inc thisRect : Int) : Nat → Int → Nat → Nat × Int × Nat
  | 0, firstInNextBand, nrectsInBand => (0, firstInNextBand, nrectsInBand)
  | nrects + 1, firstInNextBand, nrectsInBand =>
    if (rectAt rects firstInNextBand).y1 = (rectAt rects thisRect).y1 then
      bandScan rects y_inc thisRect nrects (firstInNextBand + y_inc) (nrectsInBand + 1)
    else (nrects + 1, firstInNextBand, nrectsInBand)

/-- The emitting loop of `rfbSendCopyRegion`, `while (nrectsInBand > 0)`.
Returns whether no flush failed, the globals and the CopyRects written so far. -/
def emitBand (env : Env) (cl : rfbClientRec) (rects : List BoxRec) (dx dy x_inc : Int) :
    Nat → Int → Globals → List CopyRectMsg → Bool × Globals × List CopyRectMsg
  | 0, _, g, out => (true, g, out)
  | nrectsInBand + 1, thisRect, g, out =>
    let flushed :=
      if g.ublen + sz_rfbFramebufferUpdateRectHeader + sz_rfbCopyRect > env.UPDATE_BUF_SIZE then
        rfbSendUpdateBuf env g cl
      else (true, g)
    if flushed.1 = false then (false, flushed.2, out)
    else
      let x := (rectAt rects thisRect).x1
      let y := (rectAt rects thisRect).y1
      let w := (rectAt rects thisRect).x2 - x
      let h := (rectAt rects thisRect).y2 - y
      let g1 := { flushed.2 with
        ublen := flushed.2.ublen + sz_rfbFramebufferUpdateRectHeader + sz_rfbCopyRect }
      emitBand env cl rects dx dy x_inc nrectsInBand (thisRect + x_inc) g1
        (out ++ [{ x := x, y := y, w := w, h := h, srcX := x - dx, srcY := y - dy }])

/-- The outer loop of `rfbSendCopyRegion`, `while (nrects > 0)`, one band per
iteration.  `none` means that `fuel` iterations did not finish the loop. -/
def copyLoop (env : Env) (cl : rfbClientRec) (rects : List BoxRec) (dx dy x_inc y_inc : Int) :
    Nat → Nat → Int → Globals → List CopyRectMsg → Option (Bool × Globals × List CopyRectMsg)
  | _, 0, _, g, out => some (true, g, out)
  | 0, _ + 1, _, _, _ => none
  | fuel + 1, nrects + 1, thisRect, g, out =>
    let scan := bandScan rects y_inc thisRect (nrects + 1) thisRect 0
    let firstInNextBand := scan.2.1
    let start := if x_inc ≠ y_inc then firstInNextBand - y_inc else thisRect
    let band := emitBand env cl rects dx dy x_inc scan.2.2 start g out
    if band.1 = false then some (false, band.2)
    else copyLoop env cl rects dx dy x_inc y_inc fuel scan.1 firstInNextBand band.2.1 band.2.2

/-- Transcription of `rfbSendCopyRegion` on the rectangle array of `reg`: the C
return value, the globals and the CopyRects written, in order.  The outer loop
consumes at least one rectangle per iteration, so `nrects` units of fuel finish
it (`copyLoop_isSome`) and the last branch is never taken. -/
def rfbSendCopyRegion (env : Env) (g : Globals) (cl : rfbClientRec) (rects : List BoxRec)
    (dx dy : Int) : Bool × Globals × List CopyRectMsg :=
  let nrects := rects.length
  let x_inc : Int := if dx ≤ 0 then 1 else -1
  let thisRect : Int := if dy ≤ 0 then 0 else (nrects : Int) - 1
  let y_inc : Int := if dy ≤ 0 then 1 else -1
  match copyLoop env cl rects dx dy x_inc y_inc nrects nrects thisRect g [] with
  | some r => r
  | none => (false, g, [])

/-- Transcription of `rfbSendLastRectMarker`. -/
def rfbSendLastRectMarker (env : Env) (g : Globals) (cl : rfbClientRec) : Bool × Globals :=
  let flushed :=
    if g.ublen + sz_rfbFramebufferUpdateRectHeader > env.UPDATE_BUF_SIZE then
      rfbSendUpdateBuf env g cl
    else (true, g)
  if flushed.1 = false then (false, flushed.2)
  else (true, { flushed.2 with ublen := flushed.2.ublen + sz_rfbFramebufferUpdateRectHeader })

/-- The rectangle count for CoRRE: the sum over the rectangles of
`((w-1) / correMaxWidth + 1) * ((h-1) / correMaxHeight + 1)`. -/
def nRectsCoRRE (cl : rfbClientRec) (rects : List BoxRec) : Int :=
  rects.foldl (fun n r =>
    n + (((r.x2 - r.x1 - 1).tdiv cl.correMaxWidth + 1)
          * ((r.y2 - r.y1 - 1).tdiv cl.correMaxHeight + 1))) 0

/-- The rectangle count for Zlib: the sum of `((h-1) / (ZLIB_MAX_SIZE(w) / w)) + 1`. -/
def nRectsZlib (env : Env) (rects : List BoxRec) : Int :=
  rects.foldl (fun n r =>
    n + ((r.y2 - r.y1 - 1).tdiv ((env.ZLIB_MAX_SIZE (r.x2 - r.x1)).tdiv (r.x2 - r.x1)) + 1)) 0

/-- The rectangle count for Tight: the sum of `rfbNumCodedRectsTight`, or
`0xFFFF` as soon as one of them is `0`. -/
def nRectsTight (env : Env) (cl : rfbClientRec) : List BoxRec → Int → Int
  | [], n => n
  | r :: rest, n =>
    let k := env.rfbNumCodedRectsTight cl r.x1 r.y1 (r.x2 - r.x1) (r.y2 - r.y1)
    if k = 0 then 0xFFFF else nRectsTight env cl rest (n + k)

/-- The variable `nUpdateRegionRects` of the builder. -/
def nUpdateRegionRects (env : Env) (cl : rfbClientRec) (rects : List BoxRec) : Int :=
  if cl.preferredEncoding = rfbEncodingCoRRE then nRectsCoRRE cl rects
  else if cl.preferredEncoding = rfbEncodingZlib then nRectsZlib env rects
  else if cl.preferredEncoding = rfbEncodingTight then nRectsTight env cl rects 0
  else (rects.length : Int)

/-- The loop of the builder that sends every rectangle of `updateRegion` with
the preferred encoding; the buffer length afterwards, or `none` when an encoder fails. -/
def sendRects (env : Env) (cl : rfbClientRec) : List BoxRec → Int → Option Int
  | [], ublen => some ublen
  | r :: rest, ublen =>
    if cl.preferredEncoding = rfbEncodingRaw ∨ cl.preferredEncoding = rfbEncodingRRE
        ∨ cl.preferredEncoding = rfbEncodingCoRRE ∨ cl.preferredEncoding = rfbEncodingHextile
        ∨ cl.preferredEncoding = rfbEncodingZlib ∨ cl.preferredEncoding = rfbEncodingTight then
      match env.rfbSendRectEncoding cl.preferredEncoding cl ublen
          r.x1 r.y1 (r.x2 - r.x1) (r.y2 - r.y1) with
      | none => none
      | some u => sendRects env cl rest u
    else sendRects env cl rest ublen

/-- What a call of `rfbSendFramebufferUpdate_numBytes` returns and leaves behind. -/
structure UpdateResult where
  /-- The C return value. -/
  ok : Bool
  g : Globals
  cl : rfbClientRec
  /-- False when the call took the return for "nothing to send". -/
  built : Bool
  /-- The region copied to `*theRegionPtr` when `theRegionPtr` is not `NULL`. -/
  theRegion : Region
  /-- The local `updateRegion` after the CopyRect part was removed: the pixel-data region. -/
  updateRegion : Region
  /-- The local `updateCopyRegion`: the CopyRect region. -/
  updateCopyRegion : Region
  /-- The CopyRects written by `rfbSendCopyRegion`. -/
  copyRects : List CopyRectMsg
  /-- The header field `nRects`. -/
  nRects : Int
  /-- Whether the LastRect marker was written. -/
  lastRect : Bool
  /-- The value stored in `*numBytes`, when the call got that far. -/
  numBytes : Option Int
deriving DecidableEq

/-- The value `!!b` of a flag. -/
def flagInt (b : Bool) : Int := if b then 1 else 0

/-- Last part of the builder, from `handleNewBlock = 1` on: pixel rectangles,
LastRect marker, `*numBytes`, final flush. -/
def sendPixelData (env : Env) (seqNum : Nat) (nUpd : Int) (r : UpdateResult) : UpdateResult :=
  let g1 := { r.g with handleNewBlock := 1 }
  match sendRects env r.cl (env.REGION_RECTS r.updateRegion) g1.ublen with
  | none => { r with ok := false, g := g1 }
  | some u =>
    let g2 := { g1 with ublen := u, handleNewBlock := 0 }
    let marker := if nUpd = 0xFFFF then rfbSendLastRectMarker env g2 r.cl else (true, g2)
    if nUpd = 0xFFFF ∧ marker.1 = false then { r with ok := false, g := marker.2 }
    else
      let g3 := marker.2
      let flushed := rfbSendUpdateBuf env g3 r.cl
      if flushed.1 = false then
        { r with ok := false, g := flushed.2, lastRect := decide (nUpd = 0xFFFF),
                 numBytes := some g3.ublen }
      else
        let g4 := if r.cl.measuring then flushed.2 else
          { flushed.2 with sentUpdates := flushed.2.sentUpdates ++
              [{ seqNum := seqNum, nRects := r.nRects, udp := r.cl.useUdp }] }
        { r with ok := true, g := g4, lastRect := decide (nUpd = 0xFFFF),
                 numBytes := some g3.ublen }

/-- The step `if (sendCursorShape) { cl->cursorWasChanged = FALSE; if (!rfbSendCursorShape(..)) return FALSE; }`.
The first component is false when the builder returns here. -/
def sendCursorShapeStep (env : Env) (sendCursorShape : Bool) (r : UpdateResult) :
    Bool × UpdateResult :=
  if sendCursorShape then
    match env.rfbSendCursorShape { r.cl with cursorWasChanged := false } r.g.ublen with
    | none => (false, { r with ok := false, cl := { r.cl with cursorWasChanged := false } })
    | some u =>
      (true, { r with cl := { r.cl with cursorWasChanged := false }, g := { r.g with ublen := u } })
  else (true, r)

/-- The step `if (sendCursorPos) { cl->cursorWasMoved = FALSE; if (!rfbSendCursorPos(..)) return FALSE; }`. -/
def sendCursorPosStep (env : Env) (sendCursorPos : Bool) (r : UpdateResult) :
    Bool × UpdateResult :=
  if sendCursorPos then
    match env.rfbSendCursorPos { r.cl with cursorWasMoved := false } r.g.ublen with
    | none => (false, { r with ok := false, cl := { r.cl with cursorWasMoved := false } })
    | some u =>
      (true, { r with cl := { r.cl with cursorWasMoved := false }, g := { r.g with ublen := u } })
  else (true, r)

/-- The step `if (REGION_NOTEMPTY(updateCopyRegion)) { if (!rfbSendCopyRegion(..)) return FALSE; }`. -/
def sendCopyStep (env : Env) (dx dy : Int) (r : UpdateResult) : Bool × UpdateResult :=
  if REGION_NOTEMPTY r.updateCopyRegion then
    let sent := rfbSendCopyRegion env r.g r.cl (env.REGION_RECTS r.updateCopyRegion) dx dy
    if sent.1 = false then (false, { r with ok := false, g := sent.2.1, copyRects := sent.2.2 })
    else (true, { r with g := sent.2.1, copyRects := sent.2.2 })
  else (true, r)

/-- The header field `nRects` computed by the builder. -/
def headerNRects (env : Env) (sendCursorShape sendCursorPos : Bool) (r : UpdateResult) : Int :=
  let nUpd := nUpdateRegionRects env r.cl (env.REGION_RECTS r.updateRegion)
  if nUpd ≠ 0xFFFF then
    (((env.REGION_RECTS r.updateCopyRegion).length : Int) + nUpd
      + flagInt sendCursorShape + flagInt sendCursorPos) % 65536
  else 0xFFFF

/-- The builder after the header was written: cursor shape, cursor position,
CopyRects, then `sendPixelData`. -/
def sendUpdateRest (env : Env) (seqNum : Nat) (sendCursorShape sendCursorPos : Bool)
    (dx dy : Int) (nUpd : Int) (r1 : UpdateResult) : UpdateResult :=
  let shape := sendCursorShapeStep env sendCursorShape r1
  if shape.1 = false then shape.2
  else
    let pos := sendCursorPosStep env sendCursorPos shape.2
    if pos.1 = false then pos.2
    else
      let copied := sendCopyStep env dx dy pos.2
      if copied.1 = false then copied.2
      else sendPixelData env seqNum nUpd copied.2

/-- Middle part of the builder, from the header on: the header with its
rectangle count, then `sendUpdateRest`. -/
def sendUpdateBody (env : Env) (seqNum : Nat) (sendCursorShape sendCursorPos : Bool)
    (dx dy : Int) (r : UpdateResult) : UpdateResult :=
  sendUpdateRest env seqNum sendCursorShape sendCursorPos dx dy
    (nUpdateRegionRects env r.cl (env.REGION_RECTS r.updateRegion))
    { r with nRects := headerNRects env sendCursorShape sendCursorPos r,
             g := { r.g with ublen := sz_rfbFramebufferUpdateMsg } }

/-- The first step of the builder: `rfbScreen.cursorIsDrawn` after the sprite
was removed (client with cursor shape updates) or put back (client without). -/
def cursorIsDrawnAfter (env : Env) (g : Globals) (cl : rfbClientRec) : Bool :=
  if cl.enableCursorShapeUpdates then
    (if g.cursorIsDrawn then env.rfbSpriteRemoveCursor g.cursorIsDrawn else g.cursorIsDrawn)
  else
    (if !g.cursorIsDrawn then env.rfbSpriteRestoreCursor g.cursorIsDrawn else g.cursorIsDrawn)

/-- The local `sendCursorShape` of the builder. -/
def planCursorShape (env : Env) (g : Globals) (cl : rfbClientRec) : Bool :=
  cl.enableCursorShapeUpdates && (!cursorIsDrawnAfter env g cl && cl.cursorWasChanged)

/-- The local `sendCursorPos` of the builder. -/
def planCursorPos (cl : rfbClientRec) : Bool :=
  cl.enableCursorPosUpdates && cl.cursorWasMoved

/-- Transcription of `rfbSendFramebufferUpdate_numBytes(cl, theRegionPtr, seqNum, numBytes)`. -/
def rfbSendFramebufferUpdate_numBytes (env : Env) (g : Globals) (cl : rfbClientRec)
    (seqNum : Nat) : UpdateResult :=
  let cursorIsDrawn : Bool := cursorIsDrawnAfter env g cl
  let sendCursorShape : Bool := planCursorShape env g cl
  let sendCursorPos : Bool := planCursorPos cl
  let g0 := { g with cursorIsDrawn := cursorIsDrawn }
  let copyRegion := REGION_SUBTRACT cl.copyRegion cl.modifiedRegion
  let updateRegion0 :=
    REGION_INTERSECT cl.requestedRegion (REGION_UNION copyRegion cl.modifiedRegion)
  if !REGION_NOTEMPTY updateRegion0 && !sendCursorShape && !sendCursorPos then
    { ok := true, g := g0, cl := { cl with copyRegion := copyRegion }, built := false,
      theRegion := updateRegion0, updateRegion := updateRegion0, updateCopyRegion := ∅,
      copyRects := [], nRects := 0, lastRect := false, numBytes := none }
  else
    let updateCopyRegion0 := REGION_INTERSECT copyRegion cl.requestedRegion
    let requestedRegion := REGION_TRANSLATE cl.requestedRegion cl.copyDX cl.copyDY
    let updateCopyRegion := REGION_INTERSECT updateCopyRegion0 requestedRegion
    let dx := cl.copyDX
    let dy := cl.copyDY
    let updateRegion := REGION_SUBTRACT updateRegion0 updateCopyRegion
    let cl1 : rfbClientRec :=
      if !cl.measuring then
        { cl with
          modifiedRegion :=
            REGION_SUBTRACT
              (REGION_SUBTRACT (REGION_UNION cl.modifiedRegion copyRegion) updateRegion)
              updateCopyRegion,
          requestedRegion := REGION_EMPTY,
          copyRegion := REGION_EMPTY,
          copyDX := 0,
          copyDY := 0,
          rfbFramebufferUpdateMessagesSent := cl.rfbFramebufferUpdateMessagesSent + 1 }
      else
        { cl with copyRegion := copyRegion, requestedRegion := requestedRegion }
    sendUpdateBody env seqNum sendCursorShape sendCursorPos dx dy
      { ok := true, g := g0, cl := cl1, built := true,
        theRegion := updateRegion0, updateRegion := updateRegion,
        updateCopyRegion := updateCopyRegion,
        copyRects := [], nRects := 0, lastRect := false, numBytes := none }

/-- Transcription of `rfbSendFramebufferUpdate(cl, theRegionPtr, seqNum)`. -/
def rfbSendFramebufferUpdate (env : Env) (g : Globals) (cl : rfbClientRec)
    (seqNum : Nat) : UpdateResult :=
  rfbSendFramebufferUpdate_numBytes env g cl seqNum

/-- The part of the builder's result that the emission stage never writes: the
region accounting of the session, its `measuring` and `useUdp` flags, and the
regions computed for the update. -/
def SameAccounting (a b : UpdateResult) : Prop :=
  a.cl.modifiedRegion = b.cl.modifiedRegion ∧ a.cl.copyRegion = b.cl.copyRegion
  ∧ a.cl.requestedRegion = b.cl.requestedRegion ∧ a.cl.copyDX = b.cl.copyDX
  ∧ a.cl.copyDY = b.cl.copyDY ∧ a.cl.measuring = b.cl.measuring ∧ a.cl.useUdp = b.cl.useUdp
  ∧ a.updateRegion = b.updateRegion ∧ a.updateCopyRegion = b.updateCopyRegion
  ∧ a.theRegion = b.theRegion ∧ a.built = b.built

/-! ## The unacked queue -/

/-- Transcription of `srRecFree`: every entry is freed and the queue is empty
afterwards.  No function of `rfbserver.c` calls it (the call in `rfbNewClient`
is commented out). -/
def srRecFree (g : Globals) : Globals :=
  { g with srRec := [], srRecCount := 0 }

/-- Transcription of `srRecAdd`: append at the tail. -/
def srRecAdd (g : Globals) (srRec : SendRegionRec) : Globals :=
  { g with srRec := g.srRec ++ [srRec], srRecCount := (g.srRecCount + 1) % UINT_MOD }

/-- The loop of `srRecDeleteSeqNum` from the entry `cur` on: the values
returned through the return value and `*numBytes`, and the entries that stay. -/
def srRecDeleteSeqNumLoop (seqNum : Nat) :
    List SendRegionRec → (Nat × Int) × List SendRegionRec
  | [] => ((0, 0), [])
  | cur :: next =>
    if cur.seqNum = seqNum then ((cur.time, cur.numBytes), next)
    else ((srRecDeleteSeqNumLoop seqNum next).1, cur :: (srRecDeleteSeqNumLoop seqNum next).2)

/-- Transcription of `srRecDeleteSeqNum(seqNum, numBytes)`: returns
`(time, *numBytes)` and the new globals; each `srRecDelete` decrements `srRecCount`. -/
def srRecDeleteSeqNum (g : Globals) (seqNum : Nat) : (Nat × Int) × Globals :=
  let res := srRecDeleteSeqNumLoop seqNum g.srRec
  (res.1, { g with srRec := res.2,
                   srRecCount := (g.srRecCount + UINT_MOD
                      - (g.srRec.length - res.2.length) % UINT_MOD) % UINT_MOD })

/-- The loop of `srRecSetupRetransmit` from the entry `cur` on: the entries
that stay and the new `cl->modifiedRegion`. -/
def srRecSetupRetransmitLoop (now retransmitTimeout : Nat) :
    List SendRegionRec → Region → List SendRegionRec × Region
  | [], modifiedRegion => ([], modifiedRegion)
  | cur :: next, modifiedRegion =>
    if ulongSub now cur.time > retransmitTimeout then
      srRecSetupRetransmitLoop now retransmitTimeout next
        (REGION_UNION modifiedRegion cur.region)
    else (cur :: next, modifiedRegion)

/-- Transcription of `srRecSetupRetransmit(cl)`. -/
def srRecSetupRetransmit (env : Env) (g : Globals) (cl : rfbClientRec) :
    Globals × rfbClientRec :=
  let now := env.GetTimeInMillis g
  let res := srRecSetupRetransmitLoop now g.retransmitTimeout g.srRec cl.modifiedRegion
  ({ g with srRec := res.1,
            srRecCount := (g.srRecCount + UINT_MOD
              - (g.srRec.length - res.1.length) % UINT_MOD) % UINT_MOD },
   { cl with modifiedRegion := res.2 })

/-- The loop of `srRecSendRegion` from the entry `cur` on. -/
def srRecSendRegionLoop (region : Region) : List SendRegionRec → List SendRegionRec
  | [] => []
  | cur :: next =>
    if !REGION_NOTEMPTY (REGION_SUBTRACT cur.region region) then
      srRecSendRegionLoop region next
    else { cur with region := REGION_SUBTRACT cur.region region }
      :: srRecSendRegionLoop region next

/-- Transcription of `srRecSendRegion(regionPtr)`. -/
def srRecSendRegion (g : Globals) (region : Region) : Globals :=
  let res := srRecSendRegionLoop region g.srRec
  { g with srRec := res,
           srRecCount := (g.srRecCount + UINT_MOD
             - (g.srRec.length - res.length) % UINT_MOD) % UINT_MOD }

/-! ## Measuring, sending and splitting -/

/-- The opening shared by `measureRegion`, `sendRegion` and the handler of
`FramebufferUpdateRequest`: `tmpRegion` is united into the requested region and
a session that was not yet ready for colour map entries is marked ready. -/
def addRequested (cl : rfbClientRec) (tmpRegion : Region) : rfbClientRec :=
  if !cl.readyForSetColourMapEntries then
    { cl with requestedRegion := REGION_UNION cl.requestedRegion tmpRegion,
              readyForSetColourMapEntries := true }
  else { cl with requestedRegion := REGION_UNION cl.requestedRegion tmpRegion }

/-- Whether the shared opening leaves through its `return`: the session was
not ready, its format is not true colour and `rfbSetClientColourMap` failed. -/
def colourMapFailed (env : Env) (cl : rfbClientRec) (tmpRegion : Region) : Bool :=
  !cl.readyForSetColourMapEntries && !cl.formatTrueColour
    && !env.rfbSetClientColourMap (addRequested cl tmpRegion)

/-- Transcription of `measureRegion(cl, x_low, y_low, x_high, y_high)`; the box
holds the four coordinates.  Returns the measured size and the new state.  The
bare `return;` after a failed colour map yields an unspecified value. -/
def measureRegion (env : Env) (g : Globals) (cl : rfbClientRec) (box : BoxRec) :
    Int × Globals × rfbClientRec :=
  let tmpRegion := REGION_INIT box
  if colourMapFailed env cl tmpRegion then
    (env.uninitialised, g, addRequested cl tmpRegion)
  else
    let res := rfbSendFramebufferUpdate env g
      { addRequested cl tmpRegion with measuring := true } 0xFFFFFFFF
    let measured_size := res.g.ublen
    (measured_size, { res.g with ublen := 0 },
      { res.cl with measuring := false, requestedRegion := REGION_EMPTY })

/-- Transcription of `sendRegion(cl, x_low, y_low, x_high, y_high)`. -/
def sendRegion (env : Env) (g : Globals) (cl : rfbClientRec) (box : BoxRec) :
    Globals × rfbClientRec :=
  let g0 := { g with sent_count := g.sent_count + 1 }
  let tmpRegion := REGION_INIT box
  if colourMapFailed env cl tmpRegion then
    (g0, addRequested cl tmpRegion)
  else
    let seqNum := g0.seqNumCounter
    let g1 := { g0 with seqNumCounter := (g0.seqNumCounter + 1) % CARD32_MOD }
    let res := rfbSendFramebufferUpdate_numBytes env g1
      { addRequested cl tmpRegion with useUdp := true } seqNum
    let srRec : SendRegionRec :=
      { seqNum := seqNum,
        time := env.GetTimeInMillis res.g,
        numBytes := res.numBytes.getD env.uninitialised,
        region := res.theRegion }
    (srRecAdd res.g srRec, { res.cl with useUdp := false })

/-- The strip number `i` of a box split into strips of the given width along x. -/
def xStrip (box : BoxRec) (x_width i : Int) : BoxRec :=
  { x1 := box.x1 + i * x_width, y1 := box.y1, x2 := box.x1 + (i + 1) * x_width, y2 := box.y2 }

/-- The strip number `i` of a box split into strips of the given height along y. -/
def yStrip (box : BoxRec) (y_width i : Int) : BoxRec :=
  { x1 := box.x1, y1 := box.y1 + i * y_width, x2 := box.x2, y2 := box.y1 + (i + 1) * y_width }

/-- The strips `recursiveSend` recurses on when the measured size of the box
is `measured_size` (at least `MAX_UPDATE_SIZE`), in order. -/
def splitBoxes (box : BoxRec) (measured_size : Int) : List BoxRec :=
  let region_count0 := measured_size.tdiv MAX_UPDATE_SIZE + 1
  let region_count := if region_count0 > 8 then 8 else region_count0
  if (box.x2 - box.x1) > (box.y2 - box.y1) then
    (List.range region_count.toNat).map
      (fun i => xStrip box ((box.x2 - box.x1).tdiv region_count) (i : Int))
  else
    (List.range region_count.toNat).map
      (fun i => yStrip box ((box.y2 - box.y1).tdiv region_count) (i : Int))

/-- Transcription of `recursiveSend(cl, x_low, y_low, x_high, y_high)` with a
bound `fuel` on the depth of the recursion.  Returns the new state and the
boxes handed to `sendRegion`, in order; `none` when the depth bound is hit. -/
def recursiveSend (env : Env) :
    Nat → Globals → rfbClientRec → BoxRec → Option (Globals × rfbClientRec × List BoxRec)
  | 0, _, _, _ => none
  | fuel + 1, g, cl, box =>
    let m := measureRegion env g cl box
    let measured_size := m.1
    if measured_size < MAX_UPDATE_SIZE then
      let g1 := { m.2.1 with tickSentBytes := m.2.1.tickSentBytes + measured_size }
      let s := sendRegion env g1 m.2.2 box
      some (s.1, s.2, [box])
    else
      (splitBoxes box measured_size).foldl
        (fun acc strip =>
          match acc with
          | none => none
          | some st =>
            match recursiveSend env fuel st.1 st.2.1 strip with
            | none => none
            | some st1 => some (st1.1, st1.2.1, st.2.2 ++ st1.2.2))
        (some (m.2.1, m.2.2, []))

/-! ## Message handlers and the push scheduler -/

/-- The fields of a `FramebufferUpdateRequest` message after byte swapping
(`incremental` is a byte, the others are 16-bit values). -/
structure rfbFramebufferUpdateRequestMsg where
  incremental : Nat
  x : Nat
  y : Nat
  w : Nat
  h : Nat
deriving DecidableEq, Repr

/-- The step `if (!msg.fur.incremental) { .. }` of the request handler. -/
def markNonIncremental (cl : rfbClientRec) (incremental : Nat) (tmpRegion : Region) :
    rfbClientRec :=
  if incremental = 0 then
    { cl with modifiedRegion := REGION_UNION cl.modifiedRegion tmpRegion,
              copyRegion := REGION_SUBTRACT cl.copyRegion tmpRegion }
  else cl

/-- The case `rfbFramebufferUpdateRequest` of `rfbProcessClientNormalMessage`,
after the message was read. -/
def rfbProcessClientNormalMessage_FramebufferUpdateRequest (env : Env) (g : Globals)
    (cl : rfbClientRec) (msg : rfbFramebufferUpdateRequestMsg) : Globals × rfbClientRec :=
  let g1 := if cl.isOctopus then { g with send_count := g.send_count + 1 } else g
  if cl.isOctopus && decide (g1.send_count > 10) then
    ({ g1 with canSend := true }, cl)
  else
    let box : BoxRec :=
      { x1 := msg.x, y1 := msg.y, x2 := (msg.x : Int) + msg.w, y2 := (msg.y : Int) + msg.h }
    let tmpRegion := REGION_INIT box
    if colourMapFailed env cl tmpRegion then
      (g1, addRequested cl tmpRegion)
    else
      let cl3 := markNonIncremental (addRequested cl tmpRegion) msg.incremental tmpRegion
      if env.FB_UPDATE_PENDING g1 cl3 then
        let res := rfbSendFramebufferUpdate env g1 cl3 0xFFFFFFFF
        (res.g, res.cl)
      else (g1, cl3)

/-- The conversion `(unsigned long) x` of a `double`, computed exactly:
truncation toward zero (a negative value gives `0`). -/
def toUnsignedLong (x : ℚ) : Nat := (Int.toNat ⌊x⌋) % ULONG_MOD

/-- The update of the round-trip estimate in the ack handler for the sample
`r`: `if (srtt == 0.0) { .. } else { .. }`; `double` arithmetic is exact. -/
def rttSample (g : Globals) (r : ℚ) : Globals :=
  if g.srtt = 0 then { g with srtt := r, rttvar := r / 2 }
  else
    let diff0 := g.srtt - r
    let diff := if diff0 < 0 then -diff0 else diff0
    { g with rttvar := (3 / 4) * g.rttvar + (1 / 4) * diff,
             srtt := (7 / 8) * g.srtt + (1 / 8) * r }

/-- The statements `retransmitTimeout = (unsigned long) (srtt + 2 * rttvar);
if (retransmitTimeout < 50) retransmitTimeout = 50;` of the ack handler. -/
def setRetransmitTimeout (g : Globals) : Globals :=
  { g with retransmitTimeout :=
      if toUnsignedLong (g.srtt + 2 * g.rttvar) < 50 then 50
      else toUnsignedLong (g.srtt + 2 * g.rttvar) }

/-- The block `if (lastAckSeqNum + 1 == seqNum) { .. }` of the ack handler: the
update of `receivingThroughput` from an ack that follows the last one. -/
def throughputSample (g : Globals) (seqNum : Nat) (numBytes : Int) (timeCurrent : Nat) :
    Globals :=
  if (g.lastAckSeqNum + 1) % CARD32_MOD = seqNum then
    let diff0 := ulongSub timeCurrent g.lastAckTime
    let diff := if diff0 < 1 then 1 else diff0
    let t : ℚ := 1000 * (numBytes : ℚ) / (diff : ℚ)
    if g.receivingThroughput = 0 then { g with receivingThroughput := t }
    else { g with receivingThroughput := (7 / 8) * g.receivingThroughput + (1 / 8) * t }
  else g

/-- The case `rfbFramebufferUpdateAck` of `rfbProcessClientNormalMessage`,
after the message was read; `double` arithmetic is carried out exactly. -/
def rfbProcessClientNormalMessage_FramebufferUpdateAck (env : Env) (g : Globals)
    (seqNum : Nat) : Globals :=
  let del := srRecDeleteSeqNum g seqNum
  let timeSent := del.1.1
  let numBytes := del.1.2
  let g1 := del.2
  if timeSent ≠ 0 then
    let timeCurrent := env.GetTimeInMillis g1
    let r : ℚ := (timeCurrent : ℚ) - (timeSent : ℚ)
    let g3 := setRetransmitTimeout (rttSample g1 r)
    let g4 := throughputSample g3 seqNum numBytes timeCurrent
    { g4 with lastAckSeqNum := seqNum, lastAckTime := timeCurrent }
  else g1

/-- The constant `tickInterval`. -/
def tickInterval : Nat := 66

/-- The throughput estimate at the start of a tick of `rfbServerPushClient`:
`sendingThroughput` is updated from `tickSentBytes`, `last_check` and
`tickSentBytes` are reset; `double` arithmetic is exact. -/
def tickThroughput (g : Globals) (now : Nat) : Globals :=
  { g with
    sendingThroughput :=
      if g.sendingThroughput = 0 then
        1000 * (g.tickSentBytes : ℚ) / ((ulongSub now g.last_check : Nat) : ℚ)
      else (3 / 4) * g.sendingThroughput
        + (1 / 4) * (1000 * (g.tickSentBytes : ℚ) / ((ulongSub now g.last_check : Nat) : ℚ)),
    last_check := now,
    tickSentBytes := 0 }

/-- The local `qualityPercentage`, `(tightQualityLevel - 3.0) / (3.0 - 1.0)`. -/
def qualityPercentage (cl : rfbClientRec) : ℚ := ((cl.tightQualityLevel : ℚ) - 3) / (3 - 1)

/-- The local `intervalPercentage`, `(1000.0 - serverPushInterval) / (1000.0 - 42.0)`. -/
def intervalPercentage (g : Globals) : ℚ := (1000 - (g.serverPushInterval : ℚ)) / (1000 - 42)

/-- The statements `serverPushInterval += 5; if (serverPushInterval > 1000)
serverPushInterval = 1000;` on an `unsigned long`. -/
def longerInterval (serverPushInterval : Nat) : Nat :=
  if (serverPushInterval + 5) % ULONG_MOD > 1000 then 1000
  else (serverPushInterval + 5) % ULONG_MOD

/-- The statements `serverPushInterval -= 5; if (serverPushInterval < 42)
serverPushInterval = 42;` on an `unsigned long`. -/
def shorterInterval (serverPushInterval : Nat) : Nat :=
  if ulongSub serverPushInterval 5 < 42 then 42 else ulongSub serverPushInterval 5

/-- The ramp-down branch: lower the quality level (not below 1) or lengthen
the push interval by 5 (not above 1000), and note the time of the change. -/
def rampDown (g : Globals) (cl : rfbClientRec) (now : Nat) : Globals × rfbClientRec :=
  if qualityPercentage cl ≥ intervalPercentage g then
    ({ g with lastChange := now },
     { cl with tightQualityLevel :=
         if cl.tightQualityLevel - 1 < 1 then 1 else cl.tightQualityLevel - 1 })
  else
    ({ g with serverPushInterval := longerInterval g.serverPushInterval,
              lastChange := now }, cl)

/-- The ramp-up branch: raise the quality level (not above 3) or shorten the
push interval by 5 (not below 42), and note the time of the change. -/
def rampUp (g : Globals) (cl : rfbClientRec) (now : Nat) : Globals × rfbClientRec :=
  if qualityPercentage cl ≤ intervalPercentage g then
    ({ g with lastChange := now },
     { cl with tightQualityLevel :=
         if cl.tightQualityLevel + 1 > 3 then 3 else cl.tightQualityLevel + 1 })
  else
    ({ g with serverPushInterval := shorterInterval g.serverPushInterval,
              lastChange := now }, cl)

/-- The adaptation after the throughput estimate: ramp down when sending is
faster than receiving, ramp up when it is slower than `0.9` of it, in both
cases only when more than `20 * tickInterval` ms passed since `lastChange`. -/
def adaptRate (g : Globals) (cl : rfbClientRec) (now : Nat) : Globals × rfbClientRec :=
  if g.sendingThroughput > g.receivingThroughput then
    if ulongSub now g.lastChange > 20 * tickInterval then rampDown g cl now else (g, cl)
  else if g.sendingThroughput < (9 / 10) * g.receivingThroughput then
    if ulongSub now g.lastChange > 20 * tickInterval then rampUp g cl now else (g, cl)
  else (g, cl)

/-- The first part of `rfbServerPushClient`, run when more than `tickInterval`
ms passed since `last_check`: throughput estimate, then adaptation of quality
level and push interval. -/
def adaptStep (g : Globals) (cl : rfbClientRec) (now : Nat) : Globals × rfbClientRec :=
  if ulongSub now g.last_check > tickInterval then adaptRate (tickThroughput g now) cl now
  else (g, cl)

/-- The statements `seqNumCounter++; frameSeqNumCounter++;` that open a frame. -/
def newFrame (g : Globals) : Globals :=
  { g with seqNumCounter := (g.seqNumCounter + 1) % CARD32_MOD,
           frameSeqNumCounter := (g.frameSeqNumCounter + 1) % CARD32_MOD }

/-- Transcription of `rfbServerPushClient(cl)`; `fuel` bounds the depth of the
recursion of `recursiveSend`.  Returns the new state and the boxes handed to
`sendRegion`; `none` when the depth bound is hit. -/
def rfbServerPushClient (env : Env) (fuel : Nat) (g : Globals) (cl : rfbClientRec) :
    Option (Globals × rfbClientRec × List BoxRec) :=
  let now := env.GetTimeInMillis g
  let a := adaptStep g cl now
  if env.FB_UPDATE_PENDING a.1 a.2 then
    if ulongSub now a.1.last_update > a.1.serverPushInterval then
      if a.1.canSend = false then some (a.1, a.2, [])
      else
        let r := srRecSetupRetransmit env a.1 a.2
        let box := regionExtents r.2.modifiedRegion
        let g1 := srRecSendRegion r.1 r.2.modifiedRegion
        let g2 := newFrame g1
        match recursiveSend env fuel g2 r.2 box with
        | none => none
        | some s => some ({ s.1 with last_update := now }, s.2.1, s.2.2)
    else some (a.1, a.2, [])
  else some (a.1, a.2, [])

/-! ## Runs of a session -/

/-- The operations of a run: the two message handlers, the scheduler tick, the
functions they are built from when called on their own, and any other
activity on the session record (drawing that marks pixels modified or copied,
the other messages), which may change every field of the session except
`measuring` and `useUdp` (only `measureRegion` and `sendRegion` write these). -/
inductive Op where
  | request (msg : rfbFramebufferUpdateRequestMsg)
  | ack (seqNum : Nat)
  | push (fuel : Nat)
  | measure (box : BoxRec)
  | send (box : BoxRec)
  | frame
  | setupRetransmit
  | subtract (region : Region)
  | deleteSeqNum (seqNum : Nat)
  | external (cl : rfbClientRec)

/-- One operation: the new state and the number of times the operation
advanced `seqNumCounter` at most; `none` when `recursiveSend` hit its depth bound. -/
def Op.step (env : Env) (g : Globals) (cl : rfbClientRec) :
    Op → Option (Globals × rfbClientRec × Nat)
  | .request msg =>
    let r := rfbProcessClientNormalMessage_FramebufferUpdateRequest env g cl msg
    some (r.1, r.2, 0)
  | .ack seqNum => some (rfbProcessClientNormalMessage_FramebufferUpdateAck env g seqNum, cl, 0)
  | .push fuel =>
    match rfbServerPushClient env fuel g cl with
    | none => none
    | some s => some (s.1, s.2.1, 1 + s.2.2.length)
  | .measure box => some ((measureRegion env g cl box).2.1, (measureRegion env g cl box).2.2, 0)
  | .send box => some ((sendRegion env g cl box).1, (sendRegion env g cl box).2, 1)
  | .frame => some (newFrame g, cl, 1)
  | .setupRetransmit =>
    some ((srRecSetupRetransmit env g cl).1, (srRecSetupRetransmit env g cl).2, 0)
  | .subtract region => some (srRecSendRegion g region, cl, 0)
  | .deleteSeqNum seqNum => some ((srRecDeleteSeqNum g seqNum).2, cl, 0)
  | .external cl1 => some (g, { cl1 with measuring := cl.measuring, useUdp := cl.useUdp }, 0)

/-- A run: the operations one after another.  The last component adds up the
bounds of `Op.step`: how often `seqNumCounter` was advanced at most. -/
def runOps (env : Env) : List Op → Globals → rfbClientRec → Option (Globals × rfbClientRec × Nat)
  | [], g, cl => some (g, cl, 0)
  | op :: ops, g, cl =>
    match op.step env g cl with
    | none => none
    | some s =>
      match runOps env ops s.1 s.2.1 with
      | none => none
      | some s1 => some (s1.1, s1.2.1, s.2.2 + s1.2.2)

/-- The sequence numbers of the updates sent over the datagram channel (push
mode), oldest first. -/
def pushSeqNums (g : Globals) : List Nat :=
  (g.sentUpdates.filter (fun u => u.udp)).map (fun u => u.seqNum)

/-- The sequence numbers of the updates sent over the reliable stream (pull
mode), oldest first. -/
def pullSeqNums (g : Globals) : List Nat :=
  (g.sentUpdates.filter (fun u => !u.udp)).map (fun u => u.seqNum)

/-- The globals that only `sendRegion`, the frame start and the queue
functions write: the sequence counter and the queue; and the record of sent updates. -/
def SameQueue (a b : Globals) : Prop :=
  a.seqNumCounter = b.seqNumCounter ∧ a.srRec = b.srRec ∧ a.sentUpdates = b.sentUpdates

/-- What one call of the builder with sequence number `seqNum` does to these
globals (`a` after, `b` before): counter and queue stay, and at most one sent
update with this sequence number is recorded, none in measure mode. -/
def QueueEffect (seqNum : Nat) (udp measuring : Bool) (a b : Globals) : Prop :=
  a.seqNumCounter = b.seqNumCounter ∧ a.srRec = b.srRec
  ∧ (a.sentUpdates = b.sentUpdates
      ∨ (measuring = false
          ∧ ∃ n, a.sentUpdates = b.sentUpdates ++ [{ seqNum := seqNum, nRects := n, udp := udp }]))

/-- The invariant behind the order of sequence numbers.  `U` is the number of
times `seqNumCounter` was advanced (at most `d` times), so the counter holds
`U mod 2^32`; the queue entries and the datagram updates carry, in order, the
residues of strictly increasing counter values below `U`; every update sent
over the reliable stream carries `0xFFFFFFFF`. -/
def CounterInv (g : Globals) (d : Nat) : Prop :=
  ∃ U : Nat, U ≤ d ∧ g.seqNumCounter = U % CARD32_MOD
    ∧ (∃ us : List Nat, us.Pairwise (fun a b => a < b) ∧ (∀ u ∈ us, u < U)
        ∧ g.srRec.map (fun e => e.seqNum) = us.map (fun u => u % CARD32_MOD))
    ∧ (∃ ws : List Nat, ws.Pairwise (fun a b => a < b) ∧ (∀ w ∈ ws, w < U)
        ∧ pushSeqNums g = ws.map (fun w => w % CARD32_MOD))
    ∧ (∀ x ∈ pullSeqNums g, x = 0xFFFFFFFF)

/-- The invariant of a run between two operations: `CounterInv`, and the
session is neither in measure mode nor switched to the datagram channel. -/
def SeqInv (g : Globals) (cl : rfbClientRec) (d : Nat) : Prop :=
  cl.useUdp = false ∧ cl.measuring = false ∧ CounterInv g d

/-! ## CopyRect order: reference framebuffer and banded regions -/

/-- The CopyRect that `rfbSendCopyRegion` writes for the rectangle `r`. -/
def copyRectOf (dx dy : Int) (r : BoxRec) : CopyRectMsg :=
  { x := r.x1, y := r.y1, w := r.x2 - r.x1, h := r.y2 - r.y1,
    srcX := r.x1 - dx, srcY := r.y1 - dy }

/-- Destination pixels of a CopyRect. -/
def CopyRectMsg.dest (m : CopyRectMsg) : Region :=
  BoxRec.pixels { x1 := m.x, y1 := m.y, x2 := m.x + m.w, y2 := m.y + m.h }

/-- Source pixels of a CopyRect. -/
def CopyRectMsg.src (m : CopyRectMsg) : Region :=
  BoxRec.pixels { x1 := m.srcX, y1 := m.srcY, x2 := m.srcX + m.w, y2 := m.srcY + m.h }

/-- A reference framebuffer: the value of every pixel. -/
abbrev Framebuffer := Int × Int → Nat

/-- The effect of one CopyRect on the client's framebuffer: every destination
pixel takes the value the matching source pixel had before. -/
def applyCopyRect (fb : Framebuffer) (m : CopyRectMsg) : Framebuffer :=
  fun p => if p ∈ m.dest then fb (m.srcX + (p.1 - m.x), m.srcY + (p.2 - m.y)) else fb p

/-- Replaying CopyRects one after another. -/
def replayCopyRects (fb : Framebuffer) (ms : List CopyRectMsg) : Framebuffer :=
  ms.foldl applyCopyRect fb

/-- A single bulk copy of the region made of `rects` by `(dx, dy)`: every
pixel of the region takes the old value of the pixel `(dx, dy)` before it. -/
def bulkCopy (fb : Framebuffer) (rects : List BoxRec) (dx dy : Int) : Framebuffer :=
  fun p => if ∃ r ∈ rects, p ∈ r.pixels then fb (p.1 - dx, p.2 - dy) else fb p

/-- The order of two rectangles `a`, `b` (with `a` first) in the rectangle
array of a region in y-x banded form: either they lie in the same band (same
`y1` and `y2`) with `a` left of `b`, or the band of `a` ends above the band of `b`. -/
def bandBefore (a b : BoxRec) : Prop :=
  (a.y1 = b.y1 ∧ a.y2 = b.y2 ∧ a.x2 ≤ b.x1) ∨ (a.y1 < b.y1 ∧ a.y2 ≤ b.y1)

instance bandBeforeDecidable : DecidableRel bandBefore := fun a b => by
  unfold bandBefore
  infer_instance

/-- The rectangle array of a region in canonical y-x banded form (the form the
region library keeps): rectangles sorted by `y1` then `x1`, the rectangles of
one band sharing `y1` and `y2` and being disjoint, bands not overlapping. -/
def CanonicalBands (rects : List BoxRec) : Prop :=
  rects.Pairwise bandBefore

instance canonicalBandsDecidable (rects : List BoxRec) : Decidable (CanonicalBands rects) := by
  unfold CanonicalBands
  infer_instance

/-- The rectangle array as the outer loop of `rfbSendCopyRegion` walks it:
forwards when `y_inc = 1`, backwards otherwise. -/
def bandView (rects : List BoxRec) (y_inc : Int) : List BoxRec :=
  if y_inc = 1 then rects else rects.reverse

/-- The index of the rectangle that the walk reaches after `j` steps. -/
def walkIndex (rects : List BoxRec) (y_inc : Int) (j : Nat) : Int :=
  if y_inc = 1 then (j : Int) else (rects.length : Int) - 1 - j

/-- The number of leading rectangles of `l` whose `y1` is `y0`. -/
def runLength (y0 : Int) (l : List BoxRec) : Nat :=
  (l.takeWhile (fun r => decide (r.y1 = y0))).length

/-- The CopyRects written by a loop of `rfbSendCopyRegion` that started with
`out` already written: `out` followed by a leading part of `target`, and by
all of `target` when no flush failed. -/
def emittedPartOf (res : Bool × Globals × List CopyRectMsg)
    (out target : List CopyRectMsg) : Prop :=
  ∃ pre suf, res.2.2 = out ++ pre ∧ pre ++ suf = target ∧ (res.1 = true → suf = [])

/-- The first band of a list: the leading rectangles with the `y1` of its head. -/
def firstBand : List BoxRec → List BoxRec
  | [] => []
  | h :: t => (h :: t).takeWhile (fun r => decide (r.y1 = h.y1))

/-- What follows the first band. -/
def afterFirstBand : List BoxRec → List BoxRec
  | [] => []
  | h :: t => (h :: t).dropWhile (fun r => decide (r.y1 = h.y1))

/-- A list band by band, every band reversed when `flip` is set; `fuel`
bounds the number of bands. -/
def bandOrder (flip : Bool) : Nat → List BoxRec → List BoxRec
  | 0, _ => []
  | _ + 1, [] => []
  | fuel + 1, h :: t =>
    (if flip then (firstBand (h :: t)).reverse else firstBand (h :: t))
      ++ bandOrder flip fuel (afterFirstBand (h :: t))

/-- The order in which `rfbSendCopyRegion` writes the rectangles of `rects` for
the copy offset `(dx, dy)`: bands from the top when `dy ≤ 0` and from the
bottom otherwise, each band from the left when `dx ≤ 0` and from the right otherwise. -/
def copyOrder (rects : List BoxRec) (dx dy : Int) : List BoxRec :=
  bandOrder (decide ((if dx ≤ 0 then (1 : Int) else -1) ≠ (if dy ≤ 0 then (1 : Int) else -1)))
    rects.length (if dy ≤ 0 then rects else rects.reverse)

/-! ## Initial state and concrete collaborators for worked examples -/

/-- The session record that `rfbNewClient` builds for a screen of the given
size; `first` says whether it is the first client (`clientNumber == 0`) and
`trueColour` is `rfbServerFormat.trueColour`.  The cursor flags that
`rfbNewClient` leaves unset are taken as false, the protocol version and the
cursor position that it leaves unset as `0`; the socket is `0` (a server with
several sessions gives each its own, `{ rfbNewClient .. with sock := .. }`). -/
def rfbNewClient (width height : Int) (first trueColour : Bool) : rfbClientRec :=
  { sock := 0,
    state := ClientState.RFB_PROTOCOL_VERSION,
    viewOnly := false,
    reverseConnection := false,
    protocol_minor_ver := 0,
    protocol_tightvnc := false,
    useCopyRect := false,
    enableLastRectEncoding := false,
    useRichCursorEncoding := false,
    cursorX := 0,
    cursorY := 0,
    isOctopus := first,
    measuring := false,
    useUdp := false,
    readyForSetColourMapEntries := false,
    formatTrueColour := trueColour,
    preferredEncoding := rfbEncodingRaw,
    correMaxWidth := 48,
    correMaxHeight := 48,
    copyRegion := ∅,
    copyDX := 0,
    copyDY := 0,
    modifiedRegion := REGION_INIT { x1 := 0, y1 := 0, x2 := width, y2 := height },
    requestedRegion := ∅,
    tightQualityLevel := -1,
    enableCursorShapeUpdates := false,
    enableCursorPosUpdates := false,
    cursorWasChanged := false,
    cursorWasMoved := false,
    rfbFramebufferUpdateMessagesSent := 0 }

/-- The initial values of the process-wide variables. -/
def initGlobals : Globals :=
  { ublen := 0,
    serverPushInterval := 66,
    retransmitTimeout := 25,
    srtt := 0,
    rttvar := 0,
    tickSentBytes := 0,
    sendingThroughput := 0,
    receivingThroughput := 100000,
    lastChange := 0,
    seqNumCounter := 0,
    lastAckSeqNum := 0,
    lastAckTime := 0,
    handleNewBlock := 0,
    frameSeqNumCounter := 0,
    lastEventId := 0,
    srRec := [],
    srRecCount := 0,
    canSend := false,
    send_count := 0,
    sent_count := 0,
    last_check := 0,
    last_update := 0,
    cursorIsDrawn := false,
    sentUpdates := [] }

/-- Collaborators that never fail: every rectangle costs its header and four
bytes per pixel, the transport accepts every buffer, and the pending test is
the one of the TightVNC `rfb.h`. -/
def envOk : Env :=
  { UPDATE_BUF_SIZE := 30000,
    ZLIB_MAX_SIZE := fun w => if w * 2 > 128 * 256 then w * 2 else 128 * 256,
    FB_UPDATE_PENDING := fun g cl =>
      (!cl.enableCursorShapeUpdates && !g.cursorIsDrawn)
      || (cl.enableCursorShapeUpdates && cl.cursorWasChanged)
      || (cl.enableCursorPosUpdates && cl.cursorWasMoved)
      || REGION_NOTEMPTY cl.copyRegion || REGION_NOTEMPTY cl.modifiedRegion,
    REGION_RECTS := pixelRects,
    rfbSpriteRemoveCursor := fun _ => false,
    rfbSpriteRestoreCursor := fun _ => true,
    rfbNumCodedRectsTight := fun _ _ _ _ _ => 1,
    rfbSendCursorShape := fun _ u => some (u + 20),
    rfbSendCursorPos := fun _ u => some (u + 12),
    rfbSendRectEncoding := fun _ _ u _ _ w h => some (u + 12 + 4 * w * h),
    sendto := fun _ n => n,
    WriteExact := fun _ _ => 0,
    rfbSetClientColourMap := fun _ => true,
    uninitialised := 0,
    GetTimeInMillis := fun g => 1000 + 100 * g.sentUpdates.length }

/-- A session on a `4 × 1` screen in which the client asked for pixel `(0, 0)`
while only pixel `(3, 0)` is modified and nothing is to be copied. -/
def clIdle : rfbClientRec :=
  { rfbNewClient 4 1 true true with
    modifiedRegion := {(3, 0)},
    requestedRegion := {(0, 0)} }

/-- A session on a `4 × 1` screen with pixels `0, 1` modified, pixels `1, 2, 3`
pending as a copy by `(1, 0)` and pixels `1, 2, 3` requested. -/
def clBusy : rfbClientRec :=
  { rfbNewClient 4 1 true true with
    modifiedRegion := {(0, 0), (1, 0)},
    copyRegion := {(1, 0), (2, 0), (3, 0)},
    copyDX := 1,
    requestedRegion := {(1, 0), (2, 0), (3, 0)} }

/-- A queue of three unacked updates sent at times 100, 200 and 950. -/
def queue3 : List SendRegionRec :=
  [ { seqNum := 1, time := 100, numBytes := 40, region := {(0, 0), (1, 0)} },
    { seqNum := 2, time := 200, numBytes := 50, region := {(1, 0)} },
    { seqNum := 4, time := 950, numBytes := 60, region := {(2, 0), (3, 0)} } ]

/-- The initial globals with `queue3` in flight. -/
def globalsQueue3 : Globals :=
  { initGlobals with srRec := queue3, srRecCount := 3, seqNumCounter := 5,
                     retransmitTimeout := 100 }

/-- Collaborators as in `envOk`, with an encoder that needs 600 bytes per pixel
(dense content). -/
def envDense : Env :=
  { envOk with rfbSendRectEncoding := fun _ _ u _ _ w h => some (u + 600 * w * h) }

/-- The boxes that `recursiveSend` hands to `sendRegion`, when it returns. -/
def sentBoxes (res : Option (Globals × rfbClientRec × List BoxRec)) : Option (List BoxRec) :=
  res.map (fun st => st.2.2)

/-- The region of scenario S5: the rectangles `(0,0,10,10)` and `(0,10,10,20)`. -/
def rectsS5 : List BoxRec := [⟨0, 0, 10, 10⟩, ⟨0, 10, 10, 20⟩]

/-- A region of two bands with two rectangles each. -/
def rectsTwoBands : List BoxRec := [⟨0, 0, 2, 1⟩, ⟨3, 0, 5, 1⟩, ⟨0, 1, 1, 3⟩, ⟨2, 1, 5, 3⟩]

/-- An incremental request for the whole `4 × 1` screen. -/
def requestAll : rfbFramebufferUpdateRequestMsg :=
  { incremental := 1, x := 0, y := 0, w := 4, h := 1 }

/-- A non-incremental request for the whole `4 × 1` screen. -/
def requestAllFresh : rfbFramebufferUpdateRequestMsg :=
  { incremental := 0, x := 0, y := 0, w := 4, h := 1 }

/-- A session on the `4 × 1` screen whose pixels `(1, 0)` and `(2, 0)` were drawn on. -/
def clDrawn : rfbClientRec :=
  { rfbNewClient 4 1 true true with modifiedRegion := {(1, 0), (2, 0)} }

/-- A run of the primary client: eleven update requests (the eleventh enables
server push), drawing, a scheduler tick, more drawing and a second tick. -/
def runPullThenPush : List Op :=
  List.replicate 11 (Op.request requestAll)
    ++ [Op.external clDrawn, Op.push 3, Op.external clDrawn, Op.push 3]

/-- A run in which `seqNumCounter` is advanced `2^32 - 1` times by frame starts
(the statement `seqNumCounter++` that opens every pushed frame) and two boxes
are then handed to `sendRegion`. -/
def runWrap : List Op :=
  List.replicate 4294967295 Op.frame ++ [Op.send ⟨0, 0, 2, 1⟩, Op.send ⟨2, 0, 4, 1⟩]

/-- A run of queue operations: two boxes of one frame are sent, the first is
acknowledged, a second frame sends one more box and the retransmit scan runs. -/
def runQueueOps : List Op :=
  [Op.frame, Op.send ⟨0, 0, 2, 1⟩, Op.send ⟨2, 0, 4, 1⟩, Op.deleteSeqNum 1,
    Op.external clDrawn, Op.frame, Op.send ⟨1, 0, 2, 1⟩, Op.subtract {(2, 0)}]


/-! ## Frames: what the builder leaves alone -/

/-- The emission stage of the builder and the functions it calls write only
these process-wide variables: the buffer length, `handleNewBlock` and the
record of sent updates. -/
def BufferOnly (a b : Globals) : Prop :=
  a = { b with ublen := a.ublen, handleNewBlock := a.handleNewBlock,
               sentUpdates := a.sentUpdates }

/-- The builder writes only these fields of the session: the three regions, the
copy offset, the two cursor flags and the counter of updates sent. -/
def ClientKept (a b : rfbClientRec) : Prop :=
  a = { b with copyRegion := a.copyRegion, copyDX := a.copyDX, copyDY := a.copyDY,
               modifiedRegion := a.modifiedRegion, requestedRegion := a.requestedRegion,
               cursorWasChanged := a.cursorWasChanged, cursorWasMoved := a.cursorWasMoved,
               rfbFramebufferUpdateMessagesSent := a.rfbFramebufferUpdateMessagesSent }

/-- Both frames for a result of the builder. -/
def Framed (a b : UpdateResult) : Prop := BufferOnly a.g b.g ∧ ClientKept a.cl b.cl

/-- The variables that the rate controller and the ack handler tune, and that
everything else leaves alone: push interval, retransmit timeout, quality level. -/
def SameTuning (g1 : Globals) (cl1 : rfbClientRec) (g : Globals) (cl : rfbClientRec) : Prop :=
  g1.serverPushInterval = g.serverPushInterval ∧ g1.retransmitTimeout = g.retransmitTimeout
  ∧ cl1.tightQualityLevel = cl.tightQualityLevel

/-! ## SetEncodings -/

/-- Modelled from the spec: the pseudo-encoding "cursor shape, X style" of
`rfbproto.h` (the header is not part of the sources; the spec names the
encodings, the numbers are those of the TightVNC protocol). -/
def rfbEncodingXCursor : Nat := 0xFFFFFF10

/-- Modelled from the spec: the pseudo-encoding "cursor shape, rich colour". -/
def rfbEncodingRichCursor : Nat := 0xFFFFFF11

/-- Modelled from the spec: the pseudo-encoding "cursor position". -/
def rfbEncodingPointerPos : Nat := 0xFFFFFF18

/-- Modelled from the spec: the pseudo-encoding "last-rect marker". -/
def rfbEncodingLastRect : Nat := 0xFFFFFF20

/-- Modelled from the spec: the first of the pseudo-encodings `CompressLevel0..9`. -/
def rfbEncodingCompressLevel0 : Nat := 0xFFFFFF00

/-- Modelled from the spec: the last of the pseudo-encodings `CompressLevel0..9`. -/
def rfbEncodingCompressLevel9 : Nat := 0xFFFFFF09

/-- Modelled from the spec: the first of the pseudo-encodings `QualityLevel0..9`. -/
def rfbEncodingQualityLevel0 : Nat := 0xFFFFFFE0

/-- Modelled from the spec: the last of the pseudo-encodings `QualityLevel0..9`. -/
def rfbEncodingQualityLevel9 : Nat := 0xFFFFFFE9

/-- The body of the loop of the case `rfbSetEncodings`: the `switch (enc)` for
one encoding number, on the fields of the session record of this embedding
(the two compression levels are not among them). -/
def setEncodingsStep (cl : rfbClientRec) (enc : Nat) : rfbClientRec :=
  if (enc : Int) = rfbEncodingCopyRect then { cl with useCopyRect := true }
  else if (enc : Int) = rfbEncodingRaw ∨ (enc : Int) = rfbEncodingRRE
      ∨ (enc : Int) = rfbEncodingCoRRE ∨ (enc : Int) = rfbEncodingHextile
      ∨ (enc : Int) = rfbEncodingZlib ∨ (enc : Int) = rfbEncodingTight then
    if cl.preferredEncoding = -1 then { cl with preferredEncoding := enc } else cl
  else if enc = rfbEncodingXCursor then
    { cl with enableCursorShapeUpdates := true, useRichCursorEncoding := false,
              cursorWasChanged := true }
  else if enc = rfbEncodingRichCursor then
    if !cl.enableCursorShapeUpdates then
      { cl with enableCursorShapeUpdates := true, useRichCursorEncoding := true,
                cursorWasChanged := true }
    else cl
  else if enc = rfbEncodingPointerPos then
    if !cl.enableCursorPosUpdates then
      { cl with enableCursorPosUpdates := true, cursorWasMoved := true,
                cursorX := -1, cursorY := -1 }
    else cl
  else if enc = rfbEncodingLastRect then
    if !cl.enableLastRectEncoding then { cl with enableLastRectEncoding := true } else cl
  else if rfbEncodingCompressLevel0 ≤ enc ∧ enc ≤ rfbEncodingCompressLevel9 then cl
  else if rfbEncodingQualityLevel0 ≤ enc ∧ enc ≤ rfbEncodingQualityLevel9 then
    { cl with tightQualityLevel := ((enc % 16 : Nat) : Int) }
  else cl

/-- The case `rfbSetEncodings` of `rfbProcessClientNormalMessage`, after the
head of the message was read.  `encs` are the encoding numbers read in the
loop, in order, and `complete` says whether all `nEncodings` of them could be
read (a failed read returns from inside the loop). -/
def rfbProcessClientNormalMessage_SetEncodings (cl : rfbClientRec) (encs : List Nat)
    (complete : Bool) : rfbClientRec :=
  let cl0 := { cl with preferredEncoding := -1, useCopyRect := false,
                       enableCursorShapeUpdates := false, enableCursorPosUpdates := false,
                       enableLastRectEncoding := false, tightQualityLevel := -1 }
  let cl1 := encs.foldl setEncodingsStep cl0
  if complete then
    let cl2 := if cl1.preferredEncoding = -1 then { cl1 with preferredEncoding := rfbEncodingRaw }
      else cl1
    if cl2.enableCursorPosUpdates && !cl2.enableCursorShapeUpdates then
      { cl2 with enableCursorPosUpdates := false }
    else cl2
  else cl1

/-- Collaborators as in `envOk`, with a clock that stands at 5000 ms. -/
def envLate : Env :=
  { envOk with GetTimeInMillis := fun _ => 5000 }

/-- Process-wide variables as at the start, after a tick in which a million
bytes were sent. -/
def globalsBusy : Globals :=
  { initGlobals with tickSentBytes := 1000000 }

/-- A session on the `4 × 1` screen with quality level 2 and drawn pixels. -/
def clQuality2 : rfbClientRec :=
  { clDrawn with tightQualityLevel := 2 }

/-- The queue of scenario S3: the update with sequence number 7 was sent at
1000 ms, the one with sequence number 8 (1400 bytes) at 1150 ms. -/
def queueS3 : List SendRegionRec :=
  [ { seqNum := 7, time := 1000, numBytes := 1200, region := {(0, 0)} },
    { seqNum := 8, time := 1150, numBytes := 1400, region := {(1, 0)} } ]

/-- The initial globals with `queueS3` in flight. -/
def globalsS3 : Globals :=
  { initGlobals with srRec := queueS3, srRecCount := 2, seqNumCounter := 9 }

/-- Collaborators as in `envOk`, with the clock of scenario S3: 1100 ms when
the first ack is processed (one entry left in the queue), 1180 ms afterwards. -/
def envS3 : Env :=
  { envOk with GetTimeInMillis := fun g => if g.srRec.length = 1 then 1100 else 1180 }

/-- A queue as in scenario S3, but the first update was sent at 1100 ms, the
very millisecond in which its ack is processed. -/
def queueSameMs : List SendRegionRec :=
  [ { seqNum := 7, time := 1100, numBytes := 1200, region := {(0, 0)} },
    { seqNum := 8, time := 1150, numBytes := 1400, region := {(1, 0)} } ]

/-- The initial globals with `queueSameMs` in flight. -/
def globalsSameMs : Globals :=
  { initGlobals with srRec := queueSameMs, srRecCount := 2, seqNumCounter := 9 }

/-- The local `timeCurrent` of the ack handler: the clock, read after the
acknowledged entry was taken from the queue. -/
def ackTimeCurrent (env : Env) (g : Globals) (seqNum : Nat) : Nat :=
  env.GetTimeInMillis (srRecDeleteSeqNum g seqNum).2

/-- The local `r` of the ack handler, `(double) timeCurrent - timeSent`. -/
def ackSample (env : Env) (g : Globals) (seqNum : Nat) : ℚ :=
  (ackTimeCurrent env g seqNum : ℚ) - ((srRecDeleteSeqNum g seqNum).1.1 : ℚ)

/-- The session is past the colour map set-up of the shared opening. -/
def ColourMapReady (cl : rfbClientRec) : Prop := cl.readyForSetColourMapEntries = true

/-- No cursor shape update will be planned, now or after further calls of the
builder: the session has no shape updates, or the shape is not marked changed,
or the cursor is drawn and removing it leaves it drawn. -/
def ShapeSettled (env : Env) (g : Globals) (cl : rfbClientRec) : Prop :=
  cl.enableCursorShapeUpdates = true →
    cl.cursorWasChanged = false ∨ (g.cursorIsDrawn = true ∧ env.rfbSpriteRemoveCursor true = true)

/-- No cursor position update is planned. -/
def PosSettled (cl : rfbClientRec) : Prop := planCursorPos cl = false

/-- The state that a measurement leaves behind once the cursor updates are
settled: nothing is requested, the buffer is empty, no cursor update is planned. -/
def Quiet (env : Env) (g : Globals) (cl : rfbClientRec) : Prop :=
  ColourMapReady cl ∧ ShapeSettled env g cl ∧ PosSettled cl ∧ g.ublen = 0
  ∧ cl.requestedRegion = ∅

/-- The builder only clears the two cursor flags of the session, it never sets them. -/
def FlagsCleared (a b : rfbClientRec) : Prop :=
  (a.cursorWasChanged = true → b.cursorWasChanged = true)
  ∧ (a.cursorWasMoved = true → b.cursorWasMoved = true)

/-- Width plus height of a box, the measure that the splitting decreases. -/
def boxSize (b : BoxRec) : Nat := ((b.x2 - b.x1) + (b.y2 - b.y1)).toNat

/-! ## Connections: the client list, the pointer owner, the sharing policy -/

/-- The address of a session record, a value of the C type `rfbClientPtr`. -/
abbrev rfbClientPtr := Nat

/-- A call `PtrAddEvent(buttonMask, x, y, cl)` of the pointer device. -/
structure PtrEvent where
  buttonMask : Nat
  x : Int
  y : Int
  cl : rfbClientPtr
deriving DecidableEq, Repr

/-- The server with its sessions.  `g` holds the process-wide variables of the
update path; `rfbClientHead` is the linked list of sessions (head first, each
with its address); `pointerClient` is the owner of the pointer (`none` for
`NULL`); then the four policy flags.  Three records keep what the handlers
hand to other files: the sockets given to `rfbCloseSock`, the calls of
`PtrAddEvent`, and the sessions given to `rfbAuthNewClient`, oldest first. -/
structure Server where
  g : Globals
  rfbClientHead : List (rfbClientPtr × rfbClientRec)
  pointerClient : Option rfbClientPtr
  rfbAlwaysShared : Bool
  rfbNeverShared : Bool
  rfbDontDisconnect : Bool
  rfbViewOnly : Bool
  closedSocks : List Int
  ptrEvents : List PtrEvent
  authClients : List rfbClientPtr
deriving DecidableEq

/-- The session record at an address (`*cl`), when the address is in the list. -/
def Server.deref (s : Server) (cl : rfbClientPtr) : Option rfbClientRec :=
  (s.rfbClientHead.find? (fun p => decide (p.1 = cl))).map Prod.snd

/-- A write through the address `cl`: the record at this address is changed by `f`. -/
def Server.modify (s : Server) (cl : rfbClientPtr) (f : rfbClientRec → rfbClientRec) : Server :=
  { s with rfbClientHead := s.rfbClientHead.map (fun p => if p.1 = cl then (p.1, f p.2) else p) }

/-- Transcription of `rfbClientConnectionGone(sock)`: the first session of the
list with this socket is unlinked and freed, `canSend` becomes false and the
pointer is released when this session owned it; an unknown socket changes nothing. -/
def rfbClientConnectionGone (s : Server) (sock : Int) : Server :=
  match s.rfbClientHead.find? (fun p => decide (p.2.sock = sock)) with
  | none => s
  | some p =>
    { s with g := { s.g with canSend := false },
             pointerClient := if s.pointerClient = some p.1 then none else s.pointerClient,
             rfbClientHead := s.rfbClientHead.eraseP (fun q => decide (q.2.sock = sock)) }

/-- Modelled from the spec: `rfbCloseSock(sock)` of `sockets.c`, which is not
part of `rfbserver.c`.  The spec has a session "destroyed on disconnect" while
"remaining clients are unaffected", and `rfbserver.c` says of
`rfbClientConnectionGone` that it "is called from sockets.c just after a
connection has gone away": the socket is recorded as closed and
`rfbClientConnectionGone` runs for it. -/
def rfbCloseSock (s : Server) (sock : Int) : Server :=
  rfbClientConnectionGone { s with closedSocks := s.closedSocks ++ [sock] } sock

/-- The write `cl->state = RFB_NORMAL`. -/
def enterNormal (r : rfbClientRec) : rfbClientRec :=
  { r with state := ClientState.RFB_NORMAL }

/-- The writes `cl->cursorX = x; cl->cursorY = y`. -/
def storeCursor (x y : Int) (r : rfbClientRec) : rfbClientRec :=
  { r with cursorX := x, cursorY := y }

/-- The fields of a `PointerEvent` message (`x` and `y` after byte swapping). -/
structure rfbPointerEventMsg where
  buttonMask : Nat
  x : Nat
  y : Nat
  eventId : Nat
deriving DecidableEq, Repr

/-- The case `rfbPointerEvent` of `rfbProcessClientNormalMessage`, after the
message was read. -/
def rfbProcessClientNormalMessage_PointerEvent (s : Server) (cl : rfbClientPtr)
    (msg : rfbPointerEventMsg) : Server :=
  match s.deref cl with
  | none => s
  | some r =>
    if s.pointerClient.isSome ∧ s.pointerClient ≠ some cl then s
    else
      let s1 := { s with g := { s.g with lastEventId := msg.eventId },
                         pointerClient := if msg.buttonMask = 0 then none else some cl }
      if !s1.rfbViewOnly && !r.viewOnly then
        { s1.modify cl (storeCursor msg.x msg.y) with
          ptrEvents := s1.ptrEvents ++
            [{ buttonMask := msg.buttonMask, x := msg.x, y := msg.y, cl := cl }] }
      else s1

/-- A message of a session in the state `RFB_NORMAL` as the reads of
`rfbProcessClientNormalMessage` deliver it: a read that failed (`ReadExact`
returned `n ≤ 0` for the type byte or for the rest of the message), or the
message with its fields; `setEncodings` carries the encodings read in its loop
and whether all of them could be read. -/
inductive ClientMsg where
  | readFailed
  | fixColourMapEntries
  | setEncodings (encs : List Nat) (complete : Bool)
  | pointerEvent (msg : rfbPointerEventMsg)
  | framebufferUpdateAck (seqNum : Nat)
  | unknownType (type : Nat)

/-- Transcription of `rfbProcessClientNormalMessage(cl)` for the messages of
`ClientMsg`.  (The cases `SetPixelFormat`, `KeyEvent` and `ClientCutText` hand
the message to other files; the case `FramebufferUpdateRequest` is
`rfbProcessClientNormalMessage_FramebufferUpdateRequest`.) -/
def rfbProcessClientNormalMessage (env : Env) (s : Server) (cl : rfbClientPtr)
    (msg : ClientMsg) : Server :=
  match s.deref cl with
  | none => s
  | some r =>
    match msg with
    | .readFailed => rfbCloseSock s r.sock
    | .fixColourMapEntries => rfbCloseSock s r.sock
    | .setEncodings encs complete =>
      let s1 := s.modify cl (fun r1 => rfbProcessClientNormalMessage_SetEncodings r1 encs complete)
      if complete then s1 else rfbCloseSock s1 r.sock
    | .pointerEvent m => rfbProcessClientNormalMessage_PointerEvent s cl m
    | .framebufferUpdateAck seqNum =>
      { s with g := rfbProcessClientNormalMessage_FramebufferUpdateAck env s.g seqNum }
    | .unknownType _ => rfbCloseSock s r.sock

/-- The version that `rfbProcessClientProtocolVersion` stores for the minor
version `minor` of the client: "always use one of the three standard versions". -/
def negotiatedMinor (minor : Int) : Int :=
  if minor > 8 then 8
  else if minor > 3 ∧ minor < 7 then 3
  else if minor < 3 then 3
  else minor

/-- The writes `cl->protocol_minor_ver = ..; cl->protocol_tightvnc = FALSE` of
`rfbProcessClientProtocolVersion` for the minor version `minor` of the client. -/
def storeVersion (minor : Int) (r : rfbClientRec) : rfbClientRec :=
  { r with protocol_minor_ver := negotiatedMinor minor, protocol_tightvnc := false }

/-- Transcription of `rfbProcessClientProtocolVersion(cl)`.  `pv` is what the
reads deliver: `none` when `ReadExact` returned `n ≤ 0`, `some none` when
`sscanf` did not find the two numbers, `some (some (major, minor))` otherwise.
The final call `rfbAuthNewClient(cl)` is recorded in `authClients`. -/
def rfbProcessClientProtocolVersion (s : Server) (cl : rfbClientPtr)
    (pv : Option (Option (Int × Int))) : Server :=
  match s.deref cl with
  | none => s
  | some r =>
    match pv with
    | none => rfbCloseSock s r.sock
    | some none => rfbCloseSock s r.sock
    | some (some (major, minor)) =>
      if major ≠ 3 then rfbCloseSock s r.sock
      else
        { s.modify cl (storeVersion minor) with authClients := s.authClients ++ [cl] }

/-- Transcription of `rfbSendInteractionCaps(cl)`; `wrote` says whether the two
`WriteExact` calls succeeded.  The count of the capability list is the
constant `N_ENC_CAPS`, so the assertion before the writes never fails. -/
def rfbSendInteractionCaps (s : Server) (cl : rfbClientPtr) (wrote : Bool) : Server :=
  match s.deref cl with
  | none => s
  | some r =>
    if !wrote then rfbCloseSock s r.sock
    else s.modify cl enterNormal

/-- The test `(otherCl != cl) && (otherCl->state == RFB_NORMAL)` of both loops
of `rfbProcessClientInitMessage`, for an entry of the list. -/
def isOtherNormal (cl : rfbClientPtr) (p : rfbClientPtr × rfbClientRec) : Bool :=
  decide (p.1 ≠ cl) && decide (p.2.state = ClientState.RFB_NORMAL)

/-- The loop of `rfbProcessClientInitMessage` that closes the other sessions:
`for (otherCl = rfbClientHead; otherCl; otherCl = nextCl)` with `nextCl` read
before the session is closed, so the loop visits the addresses that were in
the list when it started. -/
def closeOtherClients (cl : rfbClientPtr) : List rfbClientPtr → Server → Server
  | [], s => s
  | otherCl :: nextCl, s =>
    match s.deref otherCl with
    | none => closeOtherClients cl nextCl s
    | some o =>
      if isOtherNormal cl (otherCl, o) then
        closeOtherClients cl nextCl (rfbCloseSock s o.sock)
      else closeOtherClients cl nextCl s

/-- The condition of the sharing policy in `rfbProcessClientInitMessage`:
`!cl->reverseConnection && (rfbNeverShared || (!rfbAlwaysShared && !ci.shared))`. -/
def exclusiveAccess (s : Server) (r : rfbClientRec) (shared : Nat) : Bool :=
  !r.reverseConnection && (s.rfbNeverShared || (!s.rfbAlwaysShared && decide (shared = 0)))

/-- Whether the loop of the `rfbDontDisconnect` branch finds a session other
than `cl` in the state `RFB_NORMAL`. -/
def otherClientNormal (s : Server) (cl : rfbClientPtr) : Bool :=
  s.rfbClientHead.any (isOtherNormal cl)

/-- Transcription of `rfbProcessClientInitMessage(cl)`.  `ci` is the `shared`
byte of the `ClientInit` message (`none` when `ReadExact` returned `n ≤ 0`),
`wrote` says whether the `ServerInit` message could be written and `capsWrote`
whether `rfbSendInteractionCaps` could write its lists. -/
def rfbProcessClientInitMessage (s : Server) (cl : rfbClientPtr) (ci : Option Nat)
    (wrote capsWrote : Bool) : Server :=
  match s.deref cl with
  | none => s
  | some r =>
    match ci with
    | none => rfbCloseSock s r.sock
    | some shared =>
      if !wrote then rfbCloseSock s r.sock
      else
        let s1 := if r.protocol_tightvnc then rfbSendInteractionCaps s cl capsWrote else s
        let s2 := s1.modify cl enterNormal
        if exclusiveAccess s2 r shared then
          if s2.rfbDontDisconnect then
            if otherClientNormal s2 cl then rfbCloseSock s2 r.sock else s2
          else closeOtherClients cl (s2.rfbClientHead.map Prod.fst) s2
        else s2

/-- A server with no session yet, all policy flags off. -/
def initServer : Server :=
  { g := initGlobals,
    rfbClientHead := [],
    pointerClient := none,
    rfbAlwaysShared := false,
    rfbNeverShared := false,
    rfbDontDisconnect := false,
    rfbViewOnly := false,
    closedSocks := [],
    ptrEvents := [],
    authClients := [] }

/-- What an ack may change besides `lastAckSeqNum` and `lastAckTime`: the
queue, the round-trip estimate with its variance, the retransmit timeout and
the receiving throughput. -/
def ackView (g : Globals) : List SendRegionRec × ℚ × ℚ × Nat × ℚ :=
  (g.srRec, g.srtt, g.rttvar, g.retransmitTimeout, g.receivingThroughput)

/-- The primary session on the `4 × 1` screen in the state `RFB_NORMAL`, with socket 4. -/
def clNormalA : rfbClientRec :=
  { rfbNewClient 4 1 true true with sock := 4, state := ClientState.RFB_NORMAL }

/-- A second session in the state `RFB_NORMAL`, with socket 5. -/
def clNormalB : rfbClientRec :=
  { rfbNewClient 4 1 false true with sock := 5, state := ClientState.RFB_NORMAL }

/-- A server with the session `clNormalA` at address 1 and `queue3` in flight. -/
def serverQueue3 : Server :=
  { initServer with g := globalsQueue3, rfbClientHead := [(1, clNormalA)] }

/-- The encoding numbers of the six rectangle encodings that the `switch` of
the case `rfbSetEncodings` accepts as preferred encoding. -/
def pixelEncoding (enc : Nat) : Bool :=
  decide ((enc : Int) = rfbEncodingRaw ∨ (enc : Int) = rfbEncodingRRE
    ∨ (enc : Int) = rfbEncodingCoRRE ∨ (enc : Int) = rfbEncodingHextile
    ∨ (enc : Int) = rfbEncodingZlib ∨ (enc : Int) = rfbEncodingTight)

/-- The encoding numbers that the `switch` of the case `rfbSetEncodings` names:
every other number reaches the branch "ignoring unknown encoding". -/
def knownEncoding (enc : Nat) : Bool :=
  decide ((enc : Int) = rfbEncodingCopyRect) || pixelEncoding enc
    || decide (enc = rfbEncodingXCursor) || decide (enc = rfbEncodingRichCursor)
    || decide (enc = rfbEncodingPointerPos) || decide (enc = rfbEncodingLastRect)
    || decide (rfbEncodingCompressLevel0 ≤ enc ∧ enc ≤ rfbEncodingCompressLevel9)
    || decide (rfbEncodingQualityLevel0 ≤ enc ∧ enc ≤ rfbEncodingQualityLevel9)

/-- The first rectangle encoding of a list of encoding numbers, `Raw` when it has none. -/
def firstPixelEncoding (encs : List Nat) : Int :=
  match encs.find? pixelEncoding with
  | some enc => (enc : Int)
  | none => rfbEncodingRaw

/-- A session that has just connected (state `RFB_PROTOCOL_VERSION`), with socket 6. -/
def clFresh : rfbClientRec :=
  { rfbNewClient 4 1 false true with sock := 6 }

/-- A server with the freshly connected session `clFresh` at address 3. -/
def serverFresh : Server :=
  { initServer with rfbClientHead := [(3, clFresh)] }

/-- A server with the sessions `clNormalA` at address 1 and `clNormalB` at
address 2 (the head of the list is the session that connected last). -/
def serverAB : Server :=
  { initServer with rfbClientHead := [(2, clNormalB), (1, clNormalA)] }

/-- Pointer events of several sessions, handled in order. -/
def pointerEvents (s : Server) (events : List (rfbClientPtr × rfbPointerEventMsg)) : Server :=
  events.foldl (fun t e => rfbProcessClientNormalMessage_PointerEvent t e.1 e.2) s

/-- A pointer event at `(10, 20)` with the given button mask and event id. -/
def pointerAt (buttonMask eventId : Nat) : rfbPointerEventMsg :=
  { buttonMask := buttonMask, x := 10, y := 20, eventId := eventId }

/-- The events of scenario S6: A presses, B presses, A releases, B presses. -/
def eventsS6 : List (rfbClientPtr × rfbPointerEventMsg) :=
  [(1, pointerAt 1 100), (2, pointerAt 1 200), (1, pointerAt 0 101), (2, pointerAt 1 201)]

/-- A session that has authenticated and sends its `ClientInit` message
(state `RFB_INITIALISATION`), with socket 6. -/
def clInit : rfbClientRec :=
  { rfbNewClient 4 1 false true with sock := 6, state := ClientState.RFB_INITIALISATION }

/-- A server with the sessions A and B in the state `RFB_NORMAL` and the new
session `clInit` at address 3. -/
def serverABC : Server :=
  { initServer with rfbClientHead := [(3, clInit), (2, clNormalB), (1, clNormalA)] }

/-- The emission order of CopyRects for the copy offset `(dx, dy)`, for a
rectangle `a` written before a rectangle `b`: in one band (same `y1`) `a` lies
left of `b` when `dx ≤ 0` and right of it when `dx > 0`; in different bands `a`
lies above `b` when `dy ≤ 0` and below it when `dy > 0`. -/
def emittedBefore (dx dy : Int) (a b : BoxRec) : Prop :=
  (a.y1 = b.y1 ∧ ((dx ≤ 0 ∧ a.x2 ≤ b.x1) ∨ (0 < dx ∧ b.x2 ≤ a.x1)))
  ∨ (a.y1 ≠ b.y1 ∧ ((dy ≤ 0 ∧ a.y1 < b.y1) ∨ (0 < dy ∧ b.y1 < a.y1)))

instance emittedBeforeDecidable (dx dy : Int) : DecidableRel (emittedBefore dx dy) := fun a b => by
  unfold emittedBefore
  infer_instance

/-! ## Pull mode and the switch to server push -/

/-- The statements of the case `rfbFramebufferUpdateRequest` that follow the
test for the switch to server push (from `box.x1 = ..` on): the request is
answered in pull mode.  `g1` holds the process-wide variables after the test. -/
def pullUpdate (env : Env) (g1 : Globals) (cl : rfbClientRec)
    (msg : rfbFramebufferUpdateRequestMsg) : Globals × rfbClientRec :=
  let box : BoxRec :=
    { x1 := msg.x, y1 := msg.y, x2 := (msg.x : Int) + msg.w, y2 := (msg.y : Int) + msg.h }
  let tmpRegion := REGION_INIT box
  if colourMapFailed env cl tmpRegion then
    (g1, addRequested cl tmpRegion)
  else
    let cl3 := markNonIncremental (addRequested cl tmpRegion) msg.incremental tmpRegion
    if env.FB_UPDATE_PENDING g1 cl3 then
      let res := rfbSendFramebufferUpdate env g1 cl3 0xFFFFFFFF
      (res.g, res.cl)
    else (g1, cl3)

/-- Whether an operation of a run is a `FramebufferUpdateRequest`. -/
def Op.isRequest : Op → Bool
  | .request _ => true
  | _ => false

/-- The operations through which a running server reaches the session: the two
message handlers, the scheduler tick, and other activity that leaves the
primary flag `isOctopus` of the session as it is. -/
def Op.isServerOp : Op → Bool
  | .request _ => true
  | .ack _ => true
  | .push _ => true
  | .external cl1 => cl1.isOctopus
  | _ => false

/-- The number of `FramebufferUpdateRequest` messages of a run. -/
def requestCount (ops : List Op) : Nat := (ops.filter Op.isRequest).length

/-- The state of the primary session and the process-wide variables in pull
mode, after `n` requests: server push is not enabled, the queue is empty, no
sequence counter was advanced, and every update sent so far went over the
reliable stream with the sequence number `0xFFFFFFFF`. -/
def PullState (n : Nat) (g : Globals) (cl : rfbClientRec) : Prop :=
  cl.isOctopus = true ∧ cl.useUdp = false ∧ cl.measuring = false
  ∧ g.send_count = n ∧ g.canSend = false
  ∧ g.srRec = [] ∧ g.seqNumCounter = 0 ∧ g.frameSeqNumCounter = 0
  ∧ (∀ u ∈ g.sentUpdates, u.udp = false ∧ u.seqNum = 0xFFFFFFFF)

/-- Ten requests of the primary client with a scheduler tick after the fifth,
then the eleventh request, drawing, and a tick. -/
def runS2 : List Op :=
  List.replicate 5 (Op.request requestAll) ++ [Op.external clDrawn, Op.push 3]
    ++ List.replicate 5 (Op.request requestAll)
    ++ [Op.request requestAll, Op.external clDrawn, Op.push 3]

/-- The controller of `rfbServerPushClient` (the throughput estimate and the
adaptation) writes only these variables: the sending throughput, `last_check`,
`tickSentBytes`, the push interval, `lastChange`, and the quality level of the session. -/
def ControllerFrame (g1 : Globals) (cl1 : rfbClientRec) (g : Globals) (cl : rfbClientRec) :
    Prop :=
  g1 = { g with sendingThroughput := g1.sendingThroughput, last_check := g1.last_check,
                tickSentBytes := g1.tickSentBytes,
                serverPushInterval := g1.serverPushInterval, lastChange := g1.lastChange }
  ∧ cl1 = { cl with tightQualityLevel := cl1.tightQualityLevel }

/-! ## A stipple pattern: a region of 65534 rectangles -/

/-- The pixel number `i` of a stipple pattern on the `660 × 668` screen: every
second pixel of every second row, row by row. -/
def stipplePixel (i : Nat) : Int × Int :=
  (2 * ((i % 330 : Nat) : Int), 2 * ((i / 330 : Nat) : Int))

/-- The number of pixels of the stipple pattern that are drawn. -/
@[irreducible]
def stippleCount : Nat := 65534

/-- The region of the first 65534 pixels of the stipple pattern: no two of them
are neighbours, so the region has one rectangle per pixel. -/
def stippleRegion : Region := (Finset.range stippleCount).image stipplePixel

/-- The rectangles of `stippleRegion`, rows from the top and each row from the left. -/
def stippleRects : List BoxRec :=
  (List.range stippleCount).map (fun i =>
    { x1 := (stipplePixel i).1, y1 := (stipplePixel i).2,
      x2 := (stipplePixel i).1 + 1, y2 := (stipplePixel i).2 + 1 })

/-- Collaborators as in `envOk`, with a rectangle enumeration that knows the
rectangles of `stippleRegion`. -/
def envStipple : Env :=
  { envOk with
    REGION_RECTS := fun r => if r = stippleRegion then stippleRects else pixelRects r }

/-- A session on the `660 × 668` screen with Raw encoding and cursor shape
updates, whose cursor shape changed, after the stipple pattern was drawn and
the client asked for the whole screen. -/
def clStipple : rfbClientRec :=
  { rfbNewClient 660 668 true true with
    modifiedRegion := stippleRegion,
    requestedRegion := REGION_INIT { x1 := 0, y1 := 0, x2 := 660, y2 := 668 },
    readyForSetColourMapEntries := true,
    enableCursorShapeUpdates := true,
    cursorWasChanged := true }

/-! ## Worked examples for the splitter and the scheduler -/

/-- Collaborators as in `envOk`, with a datagram socket that refuses every
datagram (`sendto` returns `-1`). -/
def envDown : Env :=
  { envOk with sendto := fun _ _ => -1 }


/-- A session on the `4 × 1` screen with pixels `(1, 0)` and `(2, 0)` drawn on,
cursor shape and cursor position updates enabled, and both a new cursor shape
and a cursor move pending. -/
def clCursorPending : rfbClientRec :=
  { clDrawn with
    enableCursorShapeUpdates := true,
    enableCursorPosUpdates := true,
    cursorWasChanged := true,
    cursorWasMoved := true }

/-- Collaborators as in `envOk`, for which `rfbSetClientColourMap` fails. -/
def envNoColourMap : Env :=
  { envOk with rfbSetClientColourMap := fun _ => false }

/-- Process-wide variables with server push enabled, before the first push. -/
def globalsPush : Globals :=
  { initGlobals with canSend := true }

/-- Process-wide variables with server push enabled and the last push at 4990 ms. -/
def globalsRecent : Globals :=
  { initGlobals with canSend := true, last_update := 4990 }

/-- The number of strips in the words of the specification:
`min(⌊size / MAX_UPDATE_SIZE⌋ + 1, 8)`. -/
def stripCount (size : Int) : Int := min (size / MAX_UPDATE_SIZE + 1) 8

/-- The strips of a box in the words of the specification: `n` vertical strips
of width `⌊(xHi − xLo) / n⌋` when the box is wider than it is high, `n`
horizontal strips of height `⌊(yHi − yLo) / n⌋` otherwise, each from the low
coordinate on. -/
def stripsOf (box : BoxRec) (n : Int) : List BoxRec :=
  if box.x2 - box.x1 > box.y2 - box.y1 then
    (List.range n.toNat).map (fun (i : Nat) =>
      { x1 := box.x1 + (i : Int) * ((box.x2 - box.x1) / n), y1 := box.y1,
        x2 := box.x1 + ((i : Int) + 1) * ((box.x2 - box.x1) / n), y2 := box.y2 })
  else
    (List.range n.toNat).map (fun (i : Nat) =>
      { x1 := box.x1, y1 := box.y1 + (i : Int) * ((box.y2 - box.y1) / n),
        x2 := box.x2, y2 := box.y1 + ((i : Int) + 1) * ((box.y2 - box.y1) / n) })

/-- Recursing on the strips one after the other, in the words of the
specification: the call for a strip starts in the state that the call for the
strip before it left, and the boxes sent are collected in order. -/
def recurseInOrder (env : Env) (fuel : Nat) :
    List BoxRec → Globals × rfbClientRec × List BoxRec →
      Option (Globals × rfbClientRec × List BoxRec)
  | [], st => some st
  | strip :: rest, st =>
    match recursiveSend env fuel st.1 st.2.1 strip with
    | none => none
    | some st1 => recurseInOrder env fuel rest (st1.1, st1.2.1, st.2.2 ++ st1.2.2)

/-- Collaborators as in `envOk`, with an encoder that needs 1444 bytes for
every rectangle: an update of two rectangles has `12 + 2 * 1444 = 2900` bytes. -/
def envExact : Env :=
  { envOk with rfbSendRectEncoding := fun _ _ u _ _ _ _ => some (u + 1444) }

/-- The box `a` lies inside the box `b`. -/
def BoxRec.inside (a b : BoxRec) : Prop :=
  b.x1 ≤ a.x1 ∧ a.x2 ≤ b.x2 ∧ b.y1 ≤ a.y1 ∧ a.y2 ≤ b.y2

/-- The boxes `a` and `b` do not overlap: along `x` or along `y`, one of them
ends where the other begins, or before. -/
def BoxRec.apart (a b : BoxRec) : Prop :=
  a.x2 ≤ b.x1 ∨ b.x2 ≤ a.x1 ∨ a.y2 ≤ b.y1 ∨ b.y2 ≤ a.y1

/-- The sequence numbers `c, c + 1, .., c + k - 1` as 32-bit values. -/
def seqNumsFrom (c k : Nat) : List Nat := (List.range k).map (fun (i : Nat) => (c + i) % CARD32_MOD)

/-- What handing `k` boxes to `sendRegion` does to the sequence counter, the
unacked queue and the record of sent updates (`a` after, `b` before): the
counter advances by `k`, the queue gains `k` entries that carry the sequence
numbers from the old counter value on, and the updates handed to the
transport went over the datagram channel and carry some of these numbers, in
increasing order. -/
def Numbered (k : Nat) (a b : Globals) : Prop :=
  a.seqNumCounter = (b.seqNumCounter + k) % CARD32_MOD
  ∧ a.srRec.map (fun e => e.seqNum)
      = b.srRec.map (fun e => e.seqNum) ++ seqNumsFrom b.seqNumCounter k
  ∧ ∃ sent : List SentUpdate, a.sentUpdates = b.sentUpdates ++ sent
      ∧ (sent.map (fun u => u.seqNum)).Sublist (seqNumsFrom b.seqNumCounter k)
      ∧ ∀ u ∈ sent, u.udp = true

/-- Collaborators as in `envExact`, with a clock that stands 1000 ms after the
last push. -/
def envS4 : Env :=
  { envExact with GetTimeInMillis := fun g => 1000 + g.last_update }

/-- A session on the `4 × 1` screen whose pixels `(0, 0)` and `(3, 0)` were drawn on. -/
def clDrawnEnds : rfbClientRec :=
  { rfbNewClient 4 1 true true with modifiedRegion := {(0, 0), (3, 0)} }

/-- The first part of scenario S4: eleven update requests (the eleventh enables
server push), drawing on pixels `(1, 0)` and `(2, 0)`, and a scheduler tick
that sends the two pixels as two updates. -/
def runS4InFlight : List Op :=
  List.replicate 11 (Op.request requestAll) ++ [Op.external clDrawn, Op.push 3]

/-- Scenario S4: after `runS4InFlight` no ack arrives, pixels `(0, 0)` and
`(3, 0)` are drawn on, and the scheduler ticks again. -/
def runS4 : List Op :=
  runS4InFlight ++ [Op.external clDrawnEnds, Op.push 4]

/-- The state that `runS4InFlight` reaches from the initial state. -/
def stateS4 : Globals × rfbClientRec × Nat :=
  (runOps envS4 runS4InFlight initGlobals (rfbNewClient 4 1 true true)).getD
    (initGlobals, rfbNewClient 4 1 true true, 0)

/-- The session of `stateS4` after the drawing on pixels `(0, 0)` and `(3, 0)`. -/
def clS4 : rfbClientRec :=
  { clDrawnEnds with measuring := stateS4.2.1.measuring, useUdp := stateS4.2.1.useUdp }

/-! ## The colour map set-up and the calls of `measureRegion` -/

/-- The state of the process and a session with respect to the colour map
set-up of the shared opening: no request of the primary client was processed
yet and server push is off, or the session is past the set-up. -/
def PastSetup (g : Globals) (cl : rfbClientRec) : Prop :=
  (g.send_count = 0 ∧ g.canSend = false) ∨ cl.readyForSetColourMapEntries = true

/-- The operation does not clear `readyForSetColourMapEntries`: no statement of
`rfbserver.c` sets the flag of an existing session to FALSE (`rfbNewClient`
initialises it, the `SetPixelFormat` case and the shared opening set it to
TRUE), so this restricts only the other activity on the session record. -/
def Op.keepsReady (cl : rfbClientRec) : Op → Prop
  | .external cl1 => cl.readyForSetColourMapEntries = true → cl1.readyForSetColourMapEntries = true
  | _ => True

/-- No operation of the run clears `readyForSetColourMapEntries`. -/
def KeepsReady (env : Env) : List Op → Globals → rfbClientRec → Prop
  | [], _, _ => True
  | op :: ops, g, cl =>
    op.keepsReady cl ∧
      match op.step env g cl with
      | none => True
      | some s => KeepsReady env ops s.1 s.2.1

/-- The session of a client whose pixel format is not true colour, on the
`4 × 1` screen, after its first update request (the handler ran the colour map
set-up) and after pixels `(1, 0)` and `(2, 0)` were drawn on. -/
def clMappedDrawn : rfbClientRec :=
  { (rfbProcessClientNormalMessage_FramebufferUpdateRequest envOk initGlobals
      (rfbNewClient 4 1 true false) requestAll).2 with modifiedRegion := {(1, 0), (2, 0)} }

/-! ## Theorems -/

theorem SameAccounting.same (a : UpdateResult) : SameAccounting a a := by
  simp [SameAccounting]

theorem SameAccounting.chain {a b c : UpdateResult} (h1 : SameAccounting a b)
    (h2 : SameAccounting b c) : SameAccounting a c := by
  simp only [SameAccounting] at *
  obtain ⟨a1, a2, a3, a4, a5, a6, a7, a8, a9, a10, a11⟩ := h1
  obtain ⟨b1, b2, b3, b4, b5, b6, b7, b8, b9, b10, b11⟩ := h2
  exact ⟨a1.trans b1, a2.trans b2, a3.trans b3, a4.trans b4, a5.trans b5, a6.trans b6,
    a7.trans b7, a8.trans b8, a9.trans b9, a10.trans b10, a11.trans b11⟩

theorem sendPixelData_same (env : Env) (seqNum : Nat) (nUpd : Int) (r : UpdateResult) :
    SameAccounting (sendPixelData env seqNum nUpd r) r := by
  unfold sendPixelData
  dsimp only
  split
  · simp [SameAccounting]
  · split_ifs <;> simp [SameAccounting]

theorem sendCursorShapeStep_same (env : Env) (b : Bool) (r : UpdateResult) :
    SameAccounting (sendCursorShapeStep env b r).2 r := by
  unfold sendCursorShapeStep
  split_ifs
  · split <;> simp [SameAccounting]
  · simp [SameAccounting]

theorem sendCursorPosStep_same (env : Env) (b : Bool) (r : UpdateResult) :
    SameAccounting (sendCursorPosStep env b r).2 r := by
  unfold sendCursorPosStep
  split_ifs
  · split <;> simp [SameAccounting]
  · simp [SameAccounting]

theorem sendCopyStep_same (env : Env) (dx dy : Int) (r : UpdateResult) :
    SameAccounting (sendCopyStep env dx dy r).2 r := by
  unfold sendCopyStep
  dsimp only
  split_ifs <;> simp [SameAccounting]

theorem sendUpdateRest_same (env : Env) (seqNum : Nat) (cs cp : Bool) (dx dy nUpd : Int)
    (r : UpdateResult) : SameAccounting (sendUpdateRest env seqNum cs cp dx dy nUpd r) r := by
  unfold sendUpdateRest
  dsimp only
  split_ifs
  · exact sendCursorShapeStep_same _ _ _
  · exact (sendCursorPosStep_same _ _ _).chain (sendCursorShapeStep_same _ _ _)
  · exact (sendCopyStep_same _ _ _ _).chain
      ((sendCursorPosStep_same _ _ _).chain (sendCursorShapeStep_same _ _ _))
  · exact (sendPixelData_same _ _ _ _).chain ((sendCopyStep_same _ _ _ _).chain
      ((sendCursorPosStep_same _ _ _).chain (sendCursorShapeStep_same _ _ _)))

theorem sendUpdateBody_same (env : Env) (seqNum : Nat) (cs cp : Bool) (dx dy : Int)
    (r : UpdateResult) : SameAccounting (sendUpdateBody env seqNum cs cp dx dy r) r := by
  unfold sendUpdateBody
  refine (sendUpdateRest_same _ _ _ _ _ _ _ _).chain ?_
  simp [SameAccounting]

/-! ### The region accounting of the builder -/

/-- What the builder does to the regions, on its two paths.  On the return for
"nothing to send" only `copyRegion` changes; otherwise the regions of the
update are the ones of the C code and, outside measure mode, the accounting of
the session is advanced. -/
theorem builder_accounting (env : Env) (g : Globals) (cl : rfbClientRec) (seqNum : Nat) :
    ((rfbSendFramebufferUpdate env g cl seqNum).built = false
      ∧ (rfbSendFramebufferUpdate env g cl seqNum).cl
          = { cl with copyRegion := cl.copyRegion \ cl.modifiedRegion }
      ∧ cl.requestedRegion ∩ (cl.copyRegion \ cl.modifiedRegion ∪ cl.modifiedRegion) = ∅
      ∧ planCursorShape env g cl = false ∧ planCursorPos cl = false)
    ∨ ((rfbSendFramebufferUpdate env g cl seqNum).built = true
      ∧ ¬ (cl.requestedRegion ∩ (cl.copyRegion \ cl.modifiedRegion ∪ cl.modifiedRegion) = ∅
            ∧ planCursorShape env g cl = false ∧ planCursorPos cl = false)
      ∧ (rfbSendFramebufferUpdate env g cl seqNum).updateCopyRegion
          = (cl.copyRegion \ cl.modifiedRegion) ∩ cl.requestedRegion
              ∩ REGION_TRANSLATE cl.requestedRegion cl.copyDX cl.copyDY
      ∧ (rfbSendFramebufferUpdate env g cl seqNum).updateRegion
          = (cl.requestedRegion ∩ (cl.copyRegion \ cl.modifiedRegion ∪ cl.modifiedRegion))
              \ (rfbSendFramebufferUpdate env g cl seqNum).updateCopyRegion
      ∧ (rfbSendFramebufferUpdate env g cl seqNum).theRegion
          = cl.requestedRegion ∩ (cl.copyRegion \ cl.modifiedRegion ∪ cl.modifiedRegion)
      ∧ (cl.measuring = false →
          (rfbSendFramebufferUpdate env g cl seqNum).cl.modifiedRegion
            = ((cl.modifiedRegion ∪ cl.copyRegion \ cl.modifiedRegion)
                \ (rfbSendFramebufferUpdate env g cl seqNum).updateRegion)
                \ (rfbSendFramebufferUpdate env g cl seqNum).updateCopyRegion
          ∧ (rfbSendFramebufferUpdate env g cl seqNum).cl.requestedRegion = ∅
          ∧ (rfbSendFramebufferUpdate env g cl seqNum).cl.copyRegion = ∅
          ∧ (rfbSendFramebufferUpdate env g cl seqNum).cl.copyDX = 0
          ∧ (rfbSendFramebufferUpdate env g cl seqNum).cl.copyDY = 0)) := by
  unfold rfbSendFramebufferUpdate rfbSendFramebufferUpdate_numBytes
  dsimp only
  split_ifs with h hm
  · left
    simp only [Bool.and_eq_true, Bool.not_eq_true', REGION_NOTEMPTY, decide_eq_false_iff_not,
      ne_eq, not_not] at h
    exact ⟨rfl, rfl, h.1.1, h.1.2, h.2⟩
  · right
    have hc : ¬ (cl.requestedRegion ∩ (cl.copyRegion \ cl.modifiedRegion ∪ cl.modifiedRegion) = ∅
        ∧ planCursorShape env g cl = false ∧ planCursorPos cl = false) := by
      intro hc
      apply h
      simp only [REGION_NOTEMPTY, REGION_INTERSECT, REGION_UNION, REGION_SUBTRACT, hc.1, hc.2.1,
        hc.2.2]
      decide
    obtain ⟨h1, h2, h3, h4, h5, h6, h7, h8, h9, h10, h11⟩ :=
      sendUpdateBody_same env seqNum _ _ _ _ _
    rw [h1, h2, h3, h4, h5, h8, h9, h10, h11]
    refine ⟨rfl, hc, ?_⟩
    simp [REGION_INTERSECT, REGION_SUBTRACT, REGION_UNION, REGION_EMPTY]
  · right
    have hc : ¬ (cl.requestedRegion ∩ (cl.copyRegion \ cl.modifiedRegion ∪ cl.modifiedRegion) = ∅
        ∧ planCursorShape env g cl = false ∧ planCursorPos cl = false) := by
      intro hc
      apply h
      simp only [REGION_NOTEMPTY, REGION_INTERSECT, REGION_UNION, REGION_SUBTRACT, hc.1, hc.2.1,
        hc.2.2]
      decide
    obtain ⟨h1, h2, h3, h4, h5, h6, h7, h8, h9, h10, h11⟩ :=
      sendUpdateBody_same env seqNum _ _ _ _ _
    rw [h8, h9, h10, h11]
    simp only [Bool.not_eq_true', Bool.not_eq_false] at hm
    refine ⟨rfl, hc, ?_⟩
    simp [REGION_INTERSECT, REGION_SUBTRACT, REGION_UNION, hm]

/-- Whether the builder takes the return for "nothing to send" is decided by the
inputs: it does exactly when the update region is empty and neither cursor
update is planned. -/
theorem built_eq_false_iff (env : Env) (g : Globals) (cl : rfbClientRec) (seqNum : Nat) :
    (rfbSendFramebufferUpdate env g cl seqNum).built = false ↔
      (cl.requestedRegion ∩ (cl.copyRegion \ cl.modifiedRegion ∪ cl.modifiedRegion) = ∅
        ∧ planCursorShape env g cl = false ∧ planCursorPos cl = false) := by
  rcases builder_accounting env g cl seqNum with h | h
  · exact ⟨fun _ => h.2.2, fun _ => h.1⟩
  · constructor
    · intro hb
      rw [h.1] at hb
      cases hb
    · intro hc
      exact absurd hc h.2.1

/-- Set algebra behind the accounting step: with `K` the CopyRect region and
`U` the pixel-data region, what stays modified is `(M ∪ C) \ R`, and it
partitions `M ∪ C` together with `U ∪ K`. -/
theorem accounting_algebra {α : Type} [DecidableEq α] (M C R T : Finset α) :
    ((M ∪ C \ M) \ ((R ∩ (C \ M ∪ M)) \ ((C \ M) ∩ R ∩ T))) \ ((C \ M) ∩ R ∩ T) = (M ∪ C) \ R
    ∧ (((R ∩ (C \ M ∪ M)) \ ((C \ M) ∩ R ∩ T)) ∪ ((C \ M) ∩ R ∩ T)) ∪ ((M ∪ C) \ R) = M ∪ C
    ∧ Disjoint (((R ∩ (C \ M ∪ M)) \ ((C \ M) ∩ R ∩ T)) ∪ ((C \ M) ∩ R ∩ T)) ((M ∪ C) \ R)
    ∧ Disjoint ((R ∩ (C \ M ∪ M)) \ ((C \ M) ∩ R ∩ T)) ((C \ M) ∩ R ∩ T)
    ∧ ((R ∩ (C \ M ∪ M)) \ ((C \ M) ∩ R ∩ T)) ∪ ((C \ M) ∩ R ∩ T) = R ∩ (C \ M ∪ M)
    ∧ R ∩ (C \ M ∪ M) = (C ∪ M) ∩ R := by
  refine ⟨?_, ?_, ?_, ?_, ?_, ?_⟩
  · ext p
    simp only [Finset.mem_sdiff, Finset.mem_union, Finset.mem_inter]
    tauto
  · ext p
    simp only [Finset.mem_sdiff, Finset.mem_union, Finset.mem_inter]
    tauto
  · rw [Finset.disjoint_left]
    intro p
    simp only [Finset.mem_sdiff, Finset.mem_union, Finset.mem_inter]
    tauto
  · rw [Finset.disjoint_left]
    intro p
    simp only [Finset.mem_sdiff, Finset.mem_union, Finset.mem_inter]
    tauto
  · ext p
    simp only [Finset.mem_sdiff, Finset.mem_union, Finset.mem_inter]
    tauto
  · ext p
    simp only [Finset.mem_sdiff, Finset.mem_union, Finset.mem_inter]
    tauto

/-- C1. Outside measure mode, when the builder does not take the return for
"nothing to send": the new modified region is `(modified ∪ copy) \ requested`
of the old state; the pixels sent (pixel-data region together with the
CopyRect region) and the new modified region make up exactly the old
`modified ∪ copy`, and no pixel is in both. -/
theorem C1_owed_pixels_conserved (env : Env) (g : Globals) (cl : rfbClientRec) (seqNum : Nat)
    (hm : cl.measuring = false)
    (hb : (rfbSendFramebufferUpdate env g cl seqNum).built = true) :
    (rfbSendFramebufferUpdate env g cl seqNum).cl.modifiedRegion
        = (cl.modifiedRegion ∪ cl.copyRegion) \ cl.requestedRegion
    ∧ ((rfbSendFramebufferUpdate env g cl seqNum).updateRegion
          ∪ (rfbSendFramebufferUpdate env g cl seqNum).updateCopyRegion)
        ∪ (rfbSendFramebufferUpdate env g cl seqNum).cl.modifiedRegion
        = cl.modifiedRegion ∪ cl.copyRegion
    ∧ Disjoint ((rfbSendFramebufferUpdate env g cl seqNum).updateRegion
          ∪ (rfbSendFramebufferUpdate env g cl seqNum).updateCopyRegion)
        (rfbSendFramebufferUpdate env g cl seqNum).cl.modifiedRegion := by
  rcases builder_accounting env g cl seqNum with h | h
  · rw [h.1] at hb
    cases hb
  · obtain ⟨_, _, hcopy, hupd, _, hacc⟩ := h
    obtain ⟨hmod, _, _, _, _⟩ := hacc hm
    have key := accounting_algebra cl.modifiedRegion cl.copyRegion cl.requestedRegion
      (REGION_TRANSLATE cl.requestedRegion cl.copyDX cl.copyDY)
    rw [hmod, hupd, hcopy, key.1]
    exact ⟨rfl, key.2.1, key.2.2.1⟩

/-- Witness for C1: a session with two modified pixels, a pending copy and a
request covering part of both. -/
theorem C1_owed_pixels_conserved_witness :
    (rfbSendFramebufferUpdate envOk initGlobals clBusy 5).cl.modifiedRegion
        = (clBusy.modifiedRegion ∪ clBusy.copyRegion) \ clBusy.requestedRegion
    ∧ ((rfbSendFramebufferUpdate envOk initGlobals clBusy 5).updateRegion
          ∪ (rfbSendFramebufferUpdate envOk initGlobals clBusy 5).updateCopyRegion)
        ∪ (rfbSendFramebufferUpdate envOk initGlobals clBusy 5).cl.modifiedRegion
        = clBusy.modifiedRegion ∪ clBusy.copyRegion
    ∧ Disjoint ((rfbSendFramebufferUpdate envOk initGlobals clBusy 5).updateRegion
          ∪ (rfbSendFramebufferUpdate envOk initGlobals clBusy 5).updateCopyRegion)
        (rfbSendFramebufferUpdate envOk initGlobals clBusy 5).cl.modifiedRegion :=
  C1_owed_pixels_conserved envOk initGlobals clBusy 5 (by decide) (by decide)

/-- C2, counterexample. The client asked for pixel `(0, 0)`, only pixel
`(3, 0)` is modified, no cursor update is planned: the call outside measure
mode returns on the "nothing to send" path and the requested region is still
`{(0, 0)}` afterwards. -/
theorem C2_requested_kept_when_nothing_to_send :
    clIdle.measuring = false
    ∧ (rfbSendFramebufferUpdate envOk initGlobals clIdle 0xFFFFFFFF).ok = true
    ∧ (rfbSendFramebufferUpdate envOk initGlobals clIdle 0xFFFFFFFF).cl.requestedRegion
        = {(0, 0)}
    ∧ ¬ ((rfbSendFramebufferUpdate envOk initGlobals clIdle 0xFFFFFFFF).cl.requestedRegion = ∅
        ∧ (rfbSendFramebufferUpdate envOk initGlobals clIdle 0xFFFFFFFF).cl.copyRegion = ∅
        ∧ (rfbSendFramebufferUpdate envOk initGlobals clIdle 0xFFFFFFFF).cl.copyDX = 0
        ∧ (rfbSendFramebufferUpdate envOk initGlobals clIdle 0xFFFFFFFF).cl.copyDY = 0) := by
  decide

/-- C2, amended. Outside measure mode, a call that builds an update (does not
return on the "nothing to send" path) leaves the requested region empty, the
copy region empty and `copyDelta = (0, 0)`; a call that returns on the
"nothing to send" path leaves the requested region and `copyDelta` as they
were and only replaces the copy region by `copy \ modified`. -/
theorem C2_requested_copy_reset_after_build (env : Env) (g : Globals) (cl : rfbClientRec)
    (seqNum : Nat) (hm : cl.measuring = false) :
    ((rfbSendFramebufferUpdate env g cl seqNum).built = true →
        (rfbSendFramebufferUpdate env g cl seqNum).cl.requestedRegion = ∅
        ∧ (rfbSendFramebufferUpdate env g cl seqNum).cl.copyRegion = ∅
        ∧ (rfbSendFramebufferUpdate env g cl seqNum).cl.copyDX = 0
        ∧ (rfbSendFramebufferUpdate env g cl seqNum).cl.copyDY = 0)
    ∧ ((rfbSendFramebufferUpdate env g cl seqNum).built = false →
        (rfbSendFramebufferUpdate env g cl seqNum).cl.requestedRegion = cl.requestedRegion
        ∧ (rfbSendFramebufferUpdate env g cl seqNum).cl.copyRegion
            = cl.copyRegion \ cl.modifiedRegion
        ∧ (rfbSendFramebufferUpdate env g cl seqNum).cl.copyDX = cl.copyDX
        ∧ (rfbSendFramebufferUpdate env g cl seqNum).cl.copyDY = cl.copyDY) := by
  rcases builder_accounting env g cl seqNum with h | h
  · refine ⟨fun hb => ?_, fun _ => ?_⟩
    · rw [h.1] at hb
      cases hb
    · rw [h.2.1]
      exact ⟨rfl, rfl, rfl, rfl⟩
  · refine ⟨fun _ => (h.2.2.2.2.2 hm).2, fun hb => ?_⟩
    rw [h.1] at hb
    cases hb

/-- Witness for the amended C2: the busy session builds an update and ends
with empty requested and copy regions. -/
theorem C2_requested_copy_reset_after_build_witness :
    (rfbSendFramebufferUpdate envOk initGlobals clBusy 6).built = true
    ∧ (rfbSendFramebufferUpdate envOk initGlobals clBusy 6).cl.requestedRegion = ∅
    ∧ (rfbSendFramebufferUpdate envOk initGlobals clBusy 6).cl.copyRegion = ∅
    ∧ (rfbSendFramebufferUpdate envOk initGlobals clBusy 6).cl.copyDX = 0
    ∧ (rfbSendFramebufferUpdate envOk initGlobals clBusy 6).cl.copyDY = 0 :=
  ⟨by decide,
   (C2_requested_copy_reset_after_build envOk initGlobals clBusy 6 (by decide)).1 (by decide)⟩

/-- C10. In every update the builder builds, with `copy' = copy \ modified`:
the CopyRect region is `copy' ∩ requested ∩ (requested translated by
copyDelta)`, the pixel-data region is `((copy' ∪ modified) ∩ requested)` minus
the CopyRect region, the two are disjoint, their union is the region reported
through `theRegionPtr`, and that region is `(copy ∪ modified) ∩ requested`. -/
theorem C10_update_regions (env : Env) (g : Globals) (cl : rfbClientRec) (seqNum : Nat)
    (hb : (rfbSendFramebufferUpdate env g cl seqNum).built = true) :
    (rfbSendFramebufferUpdate env g cl seqNum).updateCopyRegion
        = (cl.copyRegion \ cl.modifiedRegion) ∩ cl.requestedRegion
            ∩ REGION_TRANSLATE cl.requestedRegion cl.copyDX cl.copyDY
    ∧ (rfbSendFramebufferUpdate env g cl seqNum).updateRegion
        = (((cl.copyRegion \ cl.modifiedRegion) ∪ cl.modifiedRegion) ∩ cl.requestedRegion)
            \ (rfbSendFramebufferUpdate env g cl seqNum).updateCopyRegion
    ∧ Disjoint (rfbSendFramebufferUpdate env g cl seqNum).updateRegion
        (rfbSendFramebufferUpdate env g cl seqNum).updateCopyRegion
    ∧ (rfbSendFramebufferUpdate env g cl seqNum).updateRegion
          ∪ (rfbSendFramebufferUpdate env g cl seqNum).updateCopyRegion
        = (rfbSendFramebufferUpdate env g cl seqNum).theRegion
    ∧ (rfbSendFramebufferUpdate env g cl seqNum).theRegion
        = (cl.copyRegion ∪ cl.modifiedRegion) ∩ cl.requestedRegion := by
  rcases builder_accounting env g cl seqNum with h | h
  · rw [h.1] at hb
    cases hb
  · obtain ⟨_, _, hcopy, hupd, hthe, _⟩ := h
    have key := accounting_algebra cl.modifiedRegion cl.copyRegion cl.requestedRegion
      (REGION_TRANSLATE cl.requestedRegion cl.copyDX cl.copyDY)
    rw [hupd, hthe, hcopy]
    refine ⟨rfl, ?_, key.2.2.2.1, key.2.2.2.2.1, key.2.2.2.2.2⟩
    rw [Finset.inter_comm cl.requestedRegion]

/-- Witness for C10: the busy session, where pixel `(1, 0)` goes out as pixel
data and pixels `(2, 0)`, `(3, 0)` as CopyRects. -/
theorem C10_update_regions_witness :
    (rfbSendFramebufferUpdate envOk initGlobals clBusy 7).updateCopyRegion = {(2, 0), (3, 0)}
    ∧ (rfbSendFramebufferUpdate envOk initGlobals clBusy 7).updateRegion = {(1, 0)}
    ∧ (rfbSendFramebufferUpdate envOk initGlobals clBusy 7).updateRegion
          ∪ (rfbSendFramebufferUpdate envOk initGlobals clBusy 7).updateCopyRegion
        = (rfbSendFramebufferUpdate envOk initGlobals clBusy 7).theRegion :=
  ⟨by decide, by decide,
   (C10_update_regions envOk initGlobals clBusy 7 (by decide)).2.2.2.1⟩

/-! ### The unacked queue -/

theorem ulongSub_eq (a b : Nat) (ha : a < ULONG_MOD) (hb : b ≤ a) : ulongSub a b = a - b := by
  unfold ulongSub ULONG_MOD at *
  omega

theorem srRecSetupRetransmitLoop_eq (now T : Nat) (hnow : now < ULONG_MOD) :
    ∀ (q : List SendRegionRec) (m : Region), (∀ e ∈ q, e.time ≤ now) →
      srRecSetupRetransmitLoop now T q m
        = (q.dropWhile (fun e => decide ((now : Int) - e.time > T)),
           m ∪ ((q.takeWhile (fun e => decide ((now : Int) - e.time > T))).map
                  (fun e => e.region)).foldr (fun a b => a ∪ b) ∅) := by
  intro q
  induction q with
  | nil => intro m _; simp [srRecSetupRetransmitLoop]
  | cons cur next ih =>
    intro m hq
    have hcur : cur.time ≤ now := hq cur (List.mem_cons_self _ _)
    have hnext : ∀ e ∈ next, e.time ≤ now := fun e he => hq e (List.mem_cons_of_mem _ he)
    have hiff : ulongSub now cur.time > T ↔ (now : Int) - cur.time > T := by
      rw [ulongSub_eq now cur.time hnow hcur]
      omega
    unfold srRecSetupRetransmitLoop
    by_cases hc : ulongSub now cur.time > T
    · have hc2 := hiff.1 hc
      rw [if_pos hc, ih _ hnext]
      simp [List.dropWhile_cons, List.takeWhile_cons, hc2, REGION_UNION, Finset.union_assoc]
    · have hc2 : ¬ (now : Int) - cur.time > T := fun h => hc (hiff.2 h)
      rw [if_neg hc]
      simp [List.dropWhile_cons, List.takeWhile_cons, hc2]

theorem takeWhile_eq_filter_of_sorted (now T : Nat) :
    ∀ (q : List SendRegionRec), q.Pairwise (fun a b => a.time ≤ b.time) →
      q.takeWhile (fun e => decide ((now : Int) - e.time > T))
          = q.filter (fun e => decide ((e.time : Int) < (now : Int) - T))
      ∧ q.dropWhile (fun e => decide ((now : Int) - e.time > T))
          = q.filter (fun e => decide (¬ (e.time : Int) < (now : Int) - T)) := by
  intro q
  induction q with
  | nil => intro _; simp
  | cons cur next ih =>
    intro hs
    rw [List.pairwise_cons] at hs
    obtain ⟨ih1, ih2⟩ := ih hs.2
    by_cases hc : (now : Int) - cur.time > T
    · have hc2 : (cur.time : Int) < (now : Int) - T := by omega
      simp only [List.takeWhile_cons, List.dropWhile_cons, List.filter_cons, hc, hc2,
        decide_True, decide_False, if_true, not_true_eq_false, if_false, ih1, ih2]
      simp
    · have hc2 : ¬ (cur.time : Int) < (now : Int) - T := by omega
      have hall : ∀ e ∈ next, ¬ (e.time : Int) < (now : Int) - T := by
        intro e he
        have := hs.1 e he
        omega
      have h1 : next.filter (fun e => decide ((e.time : Int) < (now : Int) - T)) = [] := by
        rw [List.filter_eq_nil_iff]
        intro e he
        simpa using hall e he
      have h2 : next.filter (fun e => decide (¬ (e.time : Int) < (now : Int) - T)) = next := by
        rw [List.filter_eq_self]
        intro e he
        simpa using hall e he
      simp only [List.takeWhile_cons, List.dropWhile_cons, List.filter_cons, hc, hc2,
        decide_True, decide_False, if_true, not_false_eq_true, if_false, h1, h2]
      simp

/-- C5. With `now` the clock value and `T` the retransmit timeout, and no entry
stamped later than `now`: `srRecSetupRetransmit` removes exactly the longest
prefix of entries that each satisfy `now - sendTime > T` (every removed entry
satisfies it, the first entry that stays does not), the modified region becomes
the old one united with the regions of the removed entries, the entries that
stay are unchanged and in order; when the queue is ordered by `sendTime` the
removed entries are exactly those with `sendTime < now - T`. -/
theorem C5_retransmit_removes_old_entries (env : Env) (g : Globals) (cl : rfbClientRec)
    (hnow : env.GetTimeInMillis g < ULONG_MOD)
    (hts : ∀ e ∈ g.srRec, e.time ≤ env.GetTimeInMillis g) :
    g.srRec
        = g.srRec.takeWhile
            (fun e => decide ((env.GetTimeInMillis g : Int) - e.time > g.retransmitTimeout))
          ++ (srRecSetupRetransmit env g cl).1.srRec
    ∧ (∀ e ∈ g.srRec.takeWhile
            (fun e => decide ((env.GetTimeInMillis g : Int) - e.time > g.retransmitTimeout)),
          (env.GetTimeInMillis g : Int) - e.time > g.retransmitTimeout)
    ∧ (∀ e, (srRecSetupRetransmit env g cl).1.srRec.head? = some e →
          ¬ (env.GetTimeInMillis g : Int) - e.time > g.retransmitTimeout)
    ∧ (srRecSetupRetransmit env g cl).2.modifiedRegion
        = cl.modifiedRegion ∪
            ((g.srRec.takeWhile
                (fun e => decide ((env.GetTimeInMillis g : Int) - e.time > g.retransmitTimeout))).map
              (fun e => e.region)).foldr (fun a b => a ∪ b) ∅
    ∧ (g.srRec.Pairwise (fun a b => a.time ≤ b.time) →
        g.srRec.takeWhile
            (fun e => decide ((env.GetTimeInMillis g : Int) - e.time > g.retransmitTimeout))
          = g.srRec.filter
            (fun e => decide ((e.time : Int) < (env.GetTimeInMillis g : Int) - g.retransmitTimeout))
        ∧ (srRecSetupRetransmit env g cl).1.srRec
          = g.srRec.filter
            (fun e => decide (¬ (e.time : Int) < (env.GetTimeInMillis g : Int) - g.retransmitTimeout))) := by
  have hloop := srRecSetupRetransmitLoop_eq (env.GetTimeInMillis g) g.retransmitTimeout hnow
    g.srRec cl.modifiedRegion hts
  have hq : (srRecSetupRetransmit env g cl).1.srRec
      = g.srRec.dropWhile
          (fun e => decide ((env.GetTimeInMillis g : Int) - e.time > g.retransmitTimeout)) := by
    simp only [srRecSetupRetransmit, hloop]
  have hm : (srRecSetupRetransmit env g cl).2.modifiedRegion
      = cl.modifiedRegion ∪
          ((g.srRec.takeWhile
              (fun e => decide ((env.GetTimeInMillis g : Int) - e.time > g.retransmitTimeout))).map
            (fun e => e.region)).foldr (fun a b => a ∪ b) ∅ := by
    simp only [srRecSetupRetransmit, hloop]
  refine ⟨?_, ?_, ?_, hm, ?_⟩
  · rw [hq, List.takeWhile_append_dropWhile]
  · intro e he
    simpa using List.mem_takeWhile_imp he
  · intro e he
    rw [hq] at he
    have h := List.head?_dropWhile_not
      (fun e => decide ((env.GetTimeInMillis g : Int) - e.time > g.retransmitTimeout)) g.srRec
    rw [he] at h
    simpa using h
  · intro hs
    rw [hq]
    exact takeWhile_eq_filter_of_sorted _ _ _ hs

/-- Witness for C5: at time 1000 with timeout 100 the entries sent at 100 and
200 are removed and folded into the modified region, the entry sent at 950 stays. -/
theorem C5_retransmit_removes_old_entries_witness :
    envOk.GetTimeInMillis globalsQueue3 < ULONG_MOD
    ∧ (∀ e ∈ globalsQueue3.srRec, e.time ≤ envOk.GetTimeInMillis globalsQueue3)
    ∧ (srRecSetupRetransmit envOk globalsQueue3 clIdle).1.srRec
        = [{ seqNum := 4, time := 950, numBytes := 60, region := {(2, 0), (3, 0)} }]
    ∧ (srRecSetupRetransmit envOk globalsQueue3 clIdle).2.modifiedRegion
        = {(3, 0), (0, 0), (1, 0)} :=
  ⟨by decide, by decide, by decide,
   (C5_retransmit_removes_old_entries envOk globalsQueue3 clIdle (by decide)
      (by decide)).2.2.2.1.trans (by decide)⟩

theorem srRecSendRegionLoop_eq (r : Region) (q : List SendRegionRec) :
    srRecSendRegionLoop r q
      = (q.filter (fun e => decide (¬ e.region ⊆ r))).map
          (fun e => { e with region := e.region \ r }) := by
  induction q with
  | nil => simp [srRecSendRegionLoop]
  | cons cur next ih =>
    unfold srRecSendRegionLoop
    rw [ih]
    by_cases hc : cur.region ⊆ r
    · have he : cur.region \ r = ∅ := Finset.sdiff_eq_empty_iff_subset.2 hc
      simp [REGION_NOTEMPTY, REGION_SUBTRACT, hc, he]
    · have he : ¬ cur.region \ r = ∅ := fun h => hc (Finset.sdiff_eq_empty_iff_subset.1 h)
      simp [REGION_NOTEMPTY, REGION_SUBTRACT, hc, he]

/-- C6. After `srRecSendRegion(r)` every entry of the queue has a region that
is disjoint from `r` and not empty; the entries are exactly the old entries
whose region was not contained in `r`, in their old order, each with its
region replaced by `region \ r` and with the same `seqNum`, `sendTime` and
`numBytes`. -/
theorem C6_subtract_region (g : Globals) (r : Region) :
    (∀ e ∈ (srRecSendRegion g r).srRec, Disjoint e.region r ∧ e.region ≠ ∅)
    ∧ (srRecSendRegion g r).srRec
        = (g.srRec.filter (fun e => decide (¬ e.region ⊆ r))).map
            (fun e => { seqNum := e.seqNum, time := e.time, numBytes := e.numBytes,
                        region := e.region \ r }) := by
  have hq : (srRecSendRegion g r).srRec
      = (g.srRec.filter (fun e => decide (¬ e.region ⊆ r))).map
          (fun e => { e with region := e.region \ r }) := by
    simp only [srRecSendRegion, srRecSendRegionLoop_eq]
  refine ⟨?_, hq⟩
  intro e he
  rw [hq] at he
  simp only [List.mem_map, List.mem_filter, decide_eq_true_eq] at he
  obtain ⟨e0, ⟨_, hsub⟩, rfl⟩ := he
  refine ⟨Finset.sdiff_disjoint, ?_⟩
  intro h
  exact hsub (Finset.sdiff_eq_empty_iff_subset.1 h)

theorem srRecDeleteSeqNumLoop_found (seqNum : Nat) (e : SendRegionRec)
    (post : List SendRegionRec) (he : e.seqNum = seqNum) :
    ∀ pre : List SendRegionRec, (∀ x ∈ pre, x.seqNum ≠ seqNum) →
      srRecDeleteSeqNumLoop seqNum (pre ++ e :: post) = ((e.time, e.numBytes), pre ++ post) := by
  intro pre
  induction pre with
  | nil => intro _; simp [srRecDeleteSeqNumLoop, he]
  | cons x xs ih =>
    intro hpre
    have hx : x.seqNum ≠ seqNum := hpre x (List.mem_cons_self _ _)
    have hxs := ih (fun y hy => hpre y (List.mem_cons_of_mem _ hy))
    simp [srRecDeleteSeqNumLoop, hx, hxs]

theorem srRecDeleteSeqNumLoop_absent (seqNum : Nat) :
    ∀ q : List SendRegionRec, (∀ x ∈ q, x.seqNum ≠ seqNum) →
      srRecDeleteSeqNumLoop seqNum q = ((0, 0), q) := by
  intro q
  induction q with
  | nil => intro _; simp [srRecDeleteSeqNumLoop]
  | cons x xs ih =>
    intro hq
    have hx : x.seqNum ≠ seqNum := hq x (List.mem_cons_self _ _)
    have hxs := ih (fun y hy => hq y (List.mem_cons_of_mem _ hy))
    simp [srRecDeleteSeqNumLoop, hx, hxs]

/-- C7. `srRecDeleteSeqNum` returns the `sendTime` and `numBytes` of the first
entry from the head whose `seqNum` matches and removes exactly that entry, the
other entries staying unchanged and in order; when no entry matches it returns
time `0` and `numBytes` `0` and leaves the queue as it was. -/
theorem C7_delete_by_seqNum (g : Globals) (seqNum : Nat) :
    (∀ (pre : List SendRegionRec) (e : SendRegionRec) (post : List SendRegionRec),
        g.srRec = pre ++ e :: post → (∀ x ∈ pre, x.seqNum ≠ seqNum) → e.seqNum = seqNum →
        (srRecDeleteSeqNum g seqNum).1 = (e.time, e.numBytes)
        ∧ (srRecDeleteSeqNum g seqNum).2.srRec = pre ++ post)
    ∧ ((∀ x ∈ g.srRec, x.seqNum ≠ seqNum) →
        (srRecDeleteSeqNum g seqNum).1 = (0, 0)
        ∧ (srRecDeleteSeqNum g seqNum).2.srRec = g.srRec) := by
  constructor
  · intro pre e post hq hpre he
    simp only [srRecDeleteSeqNum, hq, srRecDeleteSeqNumLoop_found seqNum e post he pre hpre,
      and_self]
  · intro hq
    simp only [srRecDeleteSeqNum, srRecDeleteSeqNumLoop_absent seqNum g.srRec hq, and_self]

/-- Witness for C7: acking sequence number 2 in the three-entry queue returns
`(200, 50)` and removes the middle entry; acking the absent number 3 returns
`(0, 0)` and changes nothing. -/
theorem C7_delete_by_seqNum_witness :
    ((srRecDeleteSeqNum globalsQueue3 2).1 = (200, 50)
      ∧ (srRecDeleteSeqNum globalsQueue3 2).2.srRec
          = [{ seqNum := 1, time := 100, numBytes := 40, region := {(0, 0), (1, 0)} }]
            ++ [{ seqNum := 4, time := 950, numBytes := 60, region := {(2, 0), (3, 0)} }])
    ∧ ((srRecDeleteSeqNum globalsQueue3 3).1 = (0, 0)
      ∧ (srRecDeleteSeqNum globalsQueue3 3).2.srRec = globalsQueue3.srRec) :=
  ⟨(C7_delete_by_seqNum globalsQueue3 2).1
      [{ seqNum := 1, time := 100, numBytes := 40, region := {(0, 0), (1, 0)} }]
      { seqNum := 2, time := 200, numBytes := 50, region := {(1, 0)} }
      [{ seqNum := 4, time := 950, numBytes := 60, region := {(2, 0), (3, 0)} }]
      (by decide) (by decide) (by decide),
   (C7_delete_by_seqNum globalsQueue3 3).2 (by decide)⟩

/-! ### The recursive splitter -/

/-- C3, the code at the failing input. On a `10 × 1` screen that is modified
everywhere, with an encoder that needs 600 bytes per pixel, the box
`[0, 0, 10, 1]` measures `6012 ≥ MAX_UPDATE_SIZE`, so it is split into
`6012 / 2900 + 1 = 3` strips of width `10 / 3 = 3`; the three strips are sent
and column 9 of the box is in none of them (it stays in the modified region). -/
theorem C3_split_drops_remainder_column :
    (measureRegion envDense initGlobals (rfbNewClient 10 1 true true) ⟨0, 0, 10, 1⟩).1 = 6012
    ∧ sentBoxes (recursiveSend envDense 2 initGlobals (rfbNewClient 10 1 true true) ⟨0, 0, 10, 1⟩)
        = some [⟨0, 0, 3, 1⟩, ⟨3, 0, 6, 1⟩, ⟨6, 0, 9, 1⟩]
    ∧ ((9, 0) : Int × Int) ∈ (BoxRec.pixels ⟨0, 0, 10, 1⟩)
    ∧ (∀ b ∈ [(⟨0, 0, 3, 1⟩ : BoxRec), ⟨3, 0, 6, 1⟩, ⟨6, 0, 9, 1⟩],
        ((9, 0) : Int × Int) ∉ b.pixels)
    ∧ (recursiveSend envDense 2 initGlobals (rfbNewClient 10 1 true true) ⟨0, 0, 10, 1⟩).map
          (fun st => st.2.1.modifiedRegion)
        = some {(9, 0)} := by
  refine ⟨by decide, by decide, by decide, by decide, by decide⟩

/-! ### The order of CopyRects -/

theorem bandView_length (rects : List BoxRec) (y_inc : Int) :
    (bandView rects y_inc).length = rects.length := by
  unfold bandView
  split_ifs <;> simp

theorem walkIndex_succ (rects : List BoxRec) (y_inc : Int) (hy : y_inc = 1 ∨ y_inc = -1)
    (j : Nat) : walkIndex rects y_inc j + y_inc = walkIndex rects y_inc (j + 1) := by
  unfold walkIndex
  rcases hy with h | h
  · subst h
    simp
  · subst h
    simp
    omega

theorem rectAt_walkIndex (rects : List BoxRec) (y_inc : Int) (hy : y_inc = 1 ∨ y_inc = -1)
    (j : Nat) (hj : j < rects.length) :
    rectAt rects (walkIndex rects y_inc j) = (bandView rects y_inc).getD j default := by
  unfold walkIndex bandView rectAt
  rcases hy with h | h
  · subst h
    simp
  · subst h
    have h0 : (0 : Int) ≤ (rects.length : Int) - 1 - j := by omega
    have h1 : ((rects.length : Int) - 1 - j).toNat = rects.length - 1 - j := by omega
    have h2 : rects.length - 1 - j < rects.length := by omega
    have h3 : j < rects.reverse.length := by simpa using hj
    simp only [show ¬ ((-1 : Int) = 1) by decide, if_false, h0, if_true, h1]
    rw [List.getD_eq_getElem _ _ h2, List.getD_eq_getElem _ _ h3, List.getElem_reverse]

theorem runLength_cons (y0 : Int) (a : BoxRec) (l : List BoxRec) :
    runLength y0 (a :: l) = if a.y1 = y0 then runLength y0 l + 1 else 0 := by
  unfold runLength
  by_cases h : a.y1 = y0 <;> simp [List.takeWhile_cons, h]

theorem runLength_le (y0 : Int) (l : List BoxRec) : runLength y0 l ≤ l.length := by
  induction l with
  | nil => simp [runLength]
  | cons a l ih =>
    rw [runLength_cons]
    by_cases h : a.y1 = y0
    · rw [if_pos h, List.length_cons]
      omega
    · rw [if_neg h]
      omega

theorem takeWhile_eq_take_runLength (y0 : Int) (l : List BoxRec) :
    l.takeWhile (fun r => decide (r.y1 = y0)) = l.take (runLength y0 l) := by
  induction l with
  | nil => simp
  | cons a l ih =>
    rw [runLength_cons]
    by_cases h : a.y1 = y0 <;> simp [List.takeWhile_cons, h, ih]

theorem dropWhile_eq_drop_runLength (y0 : Int) (l : List BoxRec) :
    l.dropWhile (fun r => decide (r.y1 = y0)) = l.drop (runLength y0 l) := by
  induction l with
  | nil => simp
  | cons a l ih =>
    rw [runLength_cons]
    by_cases h : a.y1 = y0 <;> simp [List.dropWhile_cons, h, ih]

theorem bandScan_spec (rects : List BoxRec) (y_inc : Int) (hy : y_inc = 1 ∨ y_inc = -1)
    (p : Nat) (hp : p < rects.length) :
    ∀ (n i k : Nat), p + i + n = rects.length →
      bandScan rects y_inc (walkIndex rects y_inc p) n (walkIndex rects y_inc (p + i)) k
        = (n - runLength ((bandView rects y_inc).getD p default).y1
                  ((bandView rects y_inc).drop (p + i)),
           walkIndex rects y_inc
             (p + i + runLength ((bandView rects y_inc).getD p default).y1
                  ((bandView rects y_inc).drop (p + i))),
           k + runLength ((bandView rects y_inc).getD p default).y1
                  ((bandView rects y_inc).drop (p + i))) := by
  intro n
  induction n with
  | zero =>
    intro i k h
    have hd : (bandView rects y_inc).drop (p + i) = [] := by
      apply List.drop_eq_nil_of_le
      rw [bandView_length]
      omega
    simp [bandScan, hd, runLength]
  | succ n ih =>
    intro i k h
    have hlt : p + i < (bandView rects y_inc).length := by
      rw [bandView_length]
      omega
    have hd : (bandView rects y_inc).drop (p + i)
        = (bandView rects y_inc)[p + i] :: (bandView rects y_inc).drop (p + i + 1) :=
      List.drop_eq_getElem_cons hlt
    have hr : rectAt rects (walkIndex rects y_inc (p + i)) = (bandView rects y_inc)[p + i] := by
      rw [rectAt_walkIndex rects y_inc hy (p + i) (by omega), List.getD_eq_getElem _ _ hlt]
    have hp0 : rectAt rects (walkIndex rects y_inc p) = (bandView rects y_inc).getD p default :=
      rectAt_walkIndex rects y_inc hy p hp
    unfold bandScan
    rw [hr, hp0, hd, runLength_cons]
    by_cases hc : (bandView rects y_inc)[p + i].y1 = ((bandView rects y_inc).getD p default).y1
    · rw [if_pos hc, if_pos hc, walkIndex_succ rects y_inc hy,
        show p + i + 1 = p + (i + 1) by omega, ih (i + 1) (k + 1) (by omega)]
      refine Prod.ext ?_ (Prod.ext ?_ ?_)
      · show n - _ = n + 1 - (_ + 1)
        omega
      · show walkIndex _ _ _ = walkIndex _ _ _
        congr 1
        omega
      · show k + 1 + _ = k + (_ + 1)
        omega
    · rw [if_neg hc, if_neg hc]
      simp

theorem emitBand_succ_cases (env : Env) (cl : rfbClientRec) (rects : List BoxRec)
    (dx dy x_inc : Int) (k : Nat) (t : Int) (g : Globals) (out : List CopyRectMsg) :
    (∃ gf, emitBand env cl rects dx dy x_inc (k + 1) t g out = (false, gf, out))
    ∨ (∃ g1, emitBand env cl rects dx dy x_inc (k + 1) t g out
        = emitBand env cl rects dx dy x_inc k (t + x_inc) g1
            (out ++ [copyRectOf dx dy (rectAt rects t)])) := by
  rw [emitBand]
  dsimp only
  split_ifs
  · exact Or.inl ⟨_, rfl⟩
  · exact Or.inr ⟨_, rfl⟩
  · exact Or.inl ⟨_, rfl⟩
  · exact Or.inr ⟨_, rfl⟩

theorem emitBand_step (env : Env) (cl : rfbClientRec) (rects : List BoxRec) (dx dy x_inc : Int)
    (k : Nat) (t : Int) (g : Globals) (out target : List CopyRectMsg)
    (h : ∀ g1, emittedPartOf
      (emitBand env cl rects dx dy x_inc k (t + x_inc) g1
        (out ++ [copyRectOf dx dy (rectAt rects t)]))
      (out ++ [copyRectOf dx dy (rectAt rects t)]) target) :
    emittedPartOf (emitBand env cl rects dx dy x_inc (k + 1) t g out) out
      (copyRectOf dx dy (rectAt rects t) :: target) := by
  rcases emitBand_succ_cases env cl rects dx dy x_inc k t g out with ⟨gf, e⟩ | ⟨g1, e⟩
  · rw [e]
    exact ⟨[], copyRectOf dx dy (rectAt rects t) :: target, by simp, by simp,
      by intro hh; cases hh⟩
  · rw [e]
    obtain ⟨pre, suf, e1, e2, e3⟩ := h g1
    refine ⟨copyRectOf dx dy (rectAt rects t) :: pre, suf, ?_, ?_, e3⟩
    · rw [e1]
      simp
    · simp [e2]

theorem emitBand_zero (env : Env) (cl : rfbClientRec) (rects : List BoxRec) (dx dy x_inc : Int)
    (t : Int) (g : Globals) (out : List CopyRectMsg) :
    emittedPartOf (emitBand env cl rects dx dy x_inc 0 t g out) out [] := by
  unfold emitBand
  exact ⟨[], [], by simp, rfl, fun _ => rfl⟩

theorem emitBand_forward (env : Env) (cl : rfbClientRec) (rects : List BoxRec) (dx dy : Int)
    (y_inc : Int) (hy : y_inc = 1 ∨ y_inc = -1) :
    ∀ (k p : Nat) (g : Globals) (out : List CopyRectMsg), p + k ≤ rects.length →
      emittedPartOf
        (emitBand env cl rects dx dy y_inc k (walkIndex rects y_inc p) g out) out
        ((((bandView rects y_inc).drop p).take k).map (copyRectOf dx dy)) := by
  intro k
  induction k with
  | zero =>
    intro p g out _
    simpa using emitBand_zero env cl rects dx dy y_inc _ g out
  | succ k ih =>
    intro p g out h
    have hlt : p < (bandView rects y_inc).length := by
      rw [bandView_length]
      omega
    have hr : rectAt rects (walkIndex rects y_inc p) = (bandView rects y_inc)[p] := by
      rw [rectAt_walkIndex rects y_inc hy p (by omega), List.getD_eq_getElem _ _ hlt]
    rw [List.drop_eq_getElem_cons hlt, List.take_succ_cons, List.map_cons, ← hr]
    apply emitBand_step
    intro g1
    rw [walkIndex_succ rects y_inc hy]
    exact ih (p + 1) g1 _ (by omega)

theorem emitBand_backward (env : Env) (cl : rfbClientRec) (rects : List BoxRec) (dx dy : Int)
    (y_inc : Int) (hy : y_inc = 1 ∨ y_inc = -1) (p : Nat) :
    ∀ (k : Nat) (g : Globals) (out : List CopyRectMsg), p + k ≤ rects.length →
      emittedPartOf
        (emitBand env cl rects dx dy (-y_inc) k (walkIndex rects y_inc (p + k) - y_inc) g out)
        out
        (((((bandView rects y_inc).drop p).take k).reverse).map (copyRectOf dx dy)) := by
  intro k
  induction k with
  | zero =>
    intro g out _
    simpa using emitBand_zero env cl rects dx dy (-y_inc) _ g out
  | succ k ih =>
    intro g out h
    have hlt : p + k < (bandView rects y_inc).length := by
      rw [bandView_length]
      omega
    have hidx : walkIndex rects y_inc (p + (k + 1)) - y_inc = walkIndex rects y_inc (p + k) := by
      rw [show p + (k + 1) = (p + k) + 1 by omega, ← walkIndex_succ rects y_inc hy]
      omega
    have hr : rectAt rects (walkIndex rects y_inc (p + k)) = (bandView rects y_inc)[p + k] := by
      rw [rectAt_walkIndex rects y_inc hy (p + k) (by omega), List.getD_eq_getElem _ _ hlt]
    have htake : ((bandView rects y_inc).drop p).take (k + 1)
        = ((bandView rects y_inc).drop p).take k ++ [(bandView rects y_inc)[p + k]] := by
      rw [List.take_succ, List.getElem?_drop, List.getElem?_eq_getElem hlt]
      rfl
    rw [hidx, htake, List.reverse_append, List.reverse_singleton, List.singleton_append,
      List.map_cons, ← hr]
    apply emitBand_step
    intro g1
    rw [show walkIndex rects y_inc (p + k) + -y_inc = walkIndex rects y_inc (p + k) - y_inc by
      omega]
    exact ih g1 _ (by omega)

theorem emittedPartOf_failed (gf : Globals) (out target : List CopyRectMsg) (pre : List CopyRectMsg)
    (h : ∃ suf, pre ++ suf = target) :
    emittedPartOf (false, gf, out ++ pre) out target := by
  obtain ⟨suf, hs⟩ := h
  exact ⟨pre, suf, rfl, hs, by intro hh; cases hh⟩

theorem copyLoop_succ (env : Env) (cl : rfbClientRec) (rects : List BoxRec) (dx dy : Int)
    (x_inc y_inc : Int) (fuel n : Nat) (t : Int) (g : Globals) (out : List CopyRectMsg) :
    copyLoop env cl rects dx dy x_inc y_inc (fuel + 1) (n + 1) t g out
      = if (emitBand env cl rects dx dy x_inc (bandScan rects y_inc t (n + 1) t 0).2.2
              (if x_inc ≠ y_inc then (bandScan rects y_inc t (n + 1) t 0).2.1 - y_inc else t)
              g out).1 = false
        then some (false,
          (emitBand env cl rects dx dy x_inc (bandScan rects y_inc t (n + 1) t 0).2.2
              (if x_inc ≠ y_inc then (bandScan rects y_inc t (n + 1) t 0).2.1 - y_inc else t)
              g out).2)
        else copyLoop env cl rects dx dy x_inc y_inc fuel (bandScan rects y_inc t (n + 1) t 0).1
          (bandScan rects y_inc t (n + 1) t 0).2.1
          (emitBand env cl rects dx dy x_inc (bandScan rects y_inc t (n + 1) t 0).2.2
              (if x_inc ≠ y_inc then (bandScan rects y_inc t (n + 1) t 0).2.1 - y_inc else t)
              g out).2.1
          (emitBand env cl rects dx dy x_inc (bandScan rects y_inc t (n + 1) t 0).2.2
              (if x_inc ≠ y_inc then (bandScan rects y_inc t (n + 1) t 0).2.1 - y_inc else t)
              g out).2.2 := by
  rw [copyLoop]

theorem copyLoop_spec (env : Env) (cl : rfbClientRec) (rects : List BoxRec) (dx dy : Int)
    (x_inc y_inc : Int) (hy : y_inc = 1 ∨ y_inc = -1) (hx : x_inc = y_inc ∨ x_inc = -y_inc) :
    ∀ (fuel n p : Nat) (g : Globals) (out : List CopyRectMsg),
      p + n = rects.length → n ≤ fuel →
      ∃ res, copyLoop env cl rects dx dy x_inc y_inc fuel n (walkIndex rects y_inc p) g out
          = some res
        ∧ emittedPartOf res out
            ((bandOrder (decide (x_inc ≠ y_inc)) fuel ((bandView rects y_inc).drop p)).map
              (copyRectOf dx dy)) := by
  intro fuel
  induction fuel with
  | zero =>
    intro n p g out _ hn
    have hn0 : n = 0 := by omega
    subst hn0
    exact ⟨(true, g, out), by simp [copyLoop], ⟨[], [], by simp, by simp [bandOrder], fun _ => rfl⟩⟩
  | succ fuel ih =>
    intro n p g out hpn hn
    cases n with
    | zero =>
      have hd : (bandView rects y_inc).drop p = [] := by
        apply List.drop_eq_nil_of_le
        rw [bandView_length]
        omega
      exact ⟨(true, g, out), by simp [copyLoop],
        ⟨[], [], by simp, by simp [bandOrder, hd], fun _ => rfl⟩⟩
    | succ n =>
      have hp : p < rects.length := by omega
      have hlt : p < (bandView rects y_inc).length := by
        rw [bandView_length]
        exact hp
      have hd : (bandView rects y_inc).drop p
          = (bandView rects y_inc)[p] :: (bandView rects y_inc).drop (p + 1) :=
        List.drop_eq_getElem_cons hlt
      have hscan := bandScan_spec rects y_inc hy p hp (n + 1) 0 0 (by omega)
      rw [List.getD_eq_getElem _ _ hlt] at hscan
      simp only [Nat.add_zero, Nat.zero_add] at hscan
      -- the length of the first band
      generalize hc : runLength (bandView rects y_inc)[p].y1 ((bandView rects y_inc).drop p) = c
        at hscan
      have hc1 : 1 ≤ c := by
        rw [← hc, hd, runLength_cons, if_pos rfl]
        omega
      have hc2 : c ≤ n + 1 := by
        have := runLength_le (bandView rects y_inc)[p].y1 ((bandView rects y_inc).drop p)
        rw [hc, List.length_drop, bandView_length] at this
        omega
      have hfirst : firstBand ((bandView rects y_inc).drop p)
          = ((bandView rects y_inc).drop p).take c := by
        rw [← hc]
        conv_lhs => rw [hd]
        rw [firstBand, ← hd, takeWhile_eq_take_runLength]
      have hafter : afterFirstBand ((bandView rects y_inc).drop p)
          = (bandView rects y_inc).drop (p + c) := by
        rw [← hc]
        conv_lhs => rw [hd]
        rw [afterFirstBand, ← hd, dropWhile_eq_drop_runLength, List.drop_drop]
      have horder : bandOrder (decide (x_inc ≠ y_inc)) (fuel + 1) ((bandView rects y_inc).drop p)
          = (if decide (x_inc ≠ y_inc) = true
              then (((bandView rects y_inc).drop p).take c).reverse
              else ((bandView rects y_inc).drop p).take c)
            ++ bandOrder (decide (x_inc ≠ y_inc)) fuel ((bandView rects y_inc).drop (p + c)) := by
        rw [← hfirst, ← hafter]
        conv_lhs => rw [hd]
        rw [bandOrder, ← hd]
      -- the emitting loop
      have hemit : ∀ g0 out0, emittedPartOf
          (emitBand env cl rects dx dy x_inc c
            (if x_inc ≠ y_inc then walkIndex rects y_inc (p + c) - y_inc
              else walkIndex rects y_inc p) g0 out0) out0
          ((if decide (x_inc ≠ y_inc) = true
              then (((bandView rects y_inc).drop p).take c).reverse
              else ((bandView rects y_inc).drop p).take c).map (copyRectOf dx dy)) := by
        intro g0 out0
        rcases hx with hxe | hxe
        · have hne : ¬ (x_inc ≠ y_inc) := fun h => h hxe
          simp only [hne, if_false, decide_False]
          rw [hxe]
          exact emitBand_forward env cl rects dx dy y_inc hy c p g0 out0 (by omega)
        · have hne : x_inc ≠ y_inc := by
            rcases hy with h | h <;> omega
          simp only [hne, if_true, decide_True, ne_eq, not_false_eq_true]
          rw [hxe]
          exact emitBand_backward env cl rects dx dy y_inc hy p c g0 out0 (by omega)
      rw [copyLoop_succ, hscan]
      obtain ⟨pre1, suf1, e1, e2, e3⟩ := hemit g out
      rw [horder, List.map_append]
      by_cases hfail : (emitBand env cl rects dx dy x_inc c
            (if x_inc ≠ y_inc then walkIndex rects y_inc (p + c) - y_inc
              else walkIndex rects y_inc p) g out).1 = false
      · rw [if_pos hfail]
        refine ⟨_, rfl, ?_⟩
        refine ⟨pre1, suf1 ++ List.map (copyRectOf dx dy)
            (bandOrder (decide (x_inc ≠ y_inc)) fuel ((bandView rects y_inc).drop (p + c))),
          e1, ?_, ?_⟩
        · rw [← List.append_assoc, e2]
        · intro hh
          cases hh
      · rw [if_neg hfail]
        have hok : (emitBand env cl rects dx dy x_inc c
            (if x_inc ≠ y_inc then walkIndex rects y_inc (p + c) - y_inc
              else walkIndex rects y_inc p) g out).1 = true := by
          simpa using hfail
        have hs1 := e3 hok
        subst hs1
        rw [List.append_nil] at e2
        obtain ⟨res, hres, pre2, suf2, f1, f2, f3⟩ :=
          ih (n + 1 - c) (p + c)
            (emitBand env cl rects dx dy x_inc c
              (if x_inc ≠ y_inc then walkIndex rects y_inc (p + c) - y_inc
                else walkIndex rects y_inc p) g out).2.1
            (emitBand env cl rects dx dy x_inc c
              (if x_inc ≠ y_inc then walkIndex rects y_inc (p + c) - y_inc
                else walkIndex rects y_inc p) g out).2.2 (by omega) (by omega)
        refine ⟨res, hres, ?_⟩
        refine ⟨pre1 ++ pre2, suf2, ?_, ?_, f3⟩
        · rw [f1, e1, List.append_assoc]
        · rw [List.append_assoc, f2, e2]

theorem firstBand_append_after (l : List BoxRec) : firstBand l ++ afterFirstBand l = l := by
  cases l with
  | nil => rfl
  | cons h t => exact List.takeWhile_append_dropWhile _ _

theorem afterFirstBand_length_lt (h : BoxRec) (t : List BoxRec) :
    (afterFirstBand (h :: t)).length < (h :: t).length := by
  have h1 : afterFirstBand (h :: t) = (h :: t).drop (runLength h.y1 (h :: t)) :=
    dropWhile_eq_drop_runLength h.y1 (h :: t)
  have h2 : 1 ≤ runLength h.y1 (h :: t) := by
    rw [runLength_cons, if_pos rfl]
    omega
  rw [h1, List.length_drop]
  simp only [List.length_cons]
  omega

theorem firstBand_y1 (h : BoxRec) (t : List BoxRec) :
    ∀ a ∈ firstBand (h :: t), a.y1 = h.y1 := by
  intro a ha
  simpa using List.mem_takeWhile_imp ha

theorem bandOrder_false (fuel : Nat) :
    ∀ l : List BoxRec, l.length ≤ fuel → bandOrder false fuel l = l := by
  induction fuel with
  | zero =>
    intro l hl
    have : l = [] := List.length_eq_zero.1 (by omega)
    subst this
    rfl
  | succ fuel ih =>
    intro l hl
    cases l with
    | nil => rfl
    | cons h t =>
      have hlt := afterFirstBand_length_lt h t
      rw [bandOrder, ih _ (by omega)]
      simp only [Bool.false_eq_true, if_false]
      exact firstBand_append_after (h :: t)

theorem bandOrder_perm (flip : Bool) (fuel : Nat) :
    ∀ l : List BoxRec, l.length ≤ fuel → (bandOrder flip fuel l).Perm l := by
  induction fuel with
  | zero =>
    intro l hl
    have : l = [] := List.length_eq_zero.1 (by omega)
    subst this
    exact List.Perm.refl _
  | succ fuel ih =>
    intro l hl
    cases l with
    | nil => exact List.Perm.refl _
    | cons h t =>
      have hlt := afterFirstBand_length_lt h t
      rw [bandOrder]
      have h1 : (if flip = true then (firstBand (h :: t)).reverse else firstBand (h :: t)).Perm
          (firstBand (h :: t)) := by
        split_ifs
        · exact List.reverse_perm _
        · exact List.Perm.refl _
      have h2 := ih (afterFirstBand (h :: t)) (by omega)
      have h3 := List.Perm.append h1 h2
      rw [firstBand_append_after] at h3
      exact h3

theorem afterFirstBand_y1 (S : BoxRec → BoxRec → Prop)
    (hcontig : ∀ a b c, S a b → S b c → a.y1 = c.y1 → b.y1 = a.y1)
    (h : BoxRec) (t : List BoxRec) (hS : (h :: t).Pairwise S) :
    ∀ b ∈ afterFirstBand (h :: t), b.y1 ≠ h.y1 := by
  have happ := firstBand_append_after (h :: t)
  have hh : h ∈ firstBand (h :: t) := by
    simp [firstBand, List.takeWhile_cons]
  rw [← happ, List.pairwise_append] at hS
  obtain ⟨_, hrest, hcross⟩ := hS
  cases hr : afterFirstBand (h :: t) with
  | nil => intro b hb; cases hb
  | cons r0 rest =>
    have hr0 : r0.y1 ≠ h.y1 := by
      have := List.head?_dropWhile_not (fun r => decide (r.y1 = h.y1)) (h :: t)
      rw [show List.dropWhile (fun r => decide (r.y1 = h.y1)) (h :: t) = afterFirstBand (h :: t)
        from rfl, hr] at this
      simpa using this
    rw [hr] at hrest hcross
    intro b hb
    rcases List.mem_cons.1 hb with rfl | hb'
    · exact hr0
    · intro hby
      have s1 : S h r0 := hcross h hh r0 (List.mem_cons_self _ _)
      have s2 : S r0 b := (List.pairwise_cons.1 hrest).1 b hb'
      exact hr0 (hcontig h r0 b s1 s2 hby.symm)

theorem bandOrder_true_pairwise (S : BoxRec → BoxRec → Prop)
    (hcontig : ∀ a b c, S a b → S b c → a.y1 = c.y1 → b.y1 = a.y1) (fuel : Nat) :
    ∀ l : List BoxRec, l.length ≤ fuel → l.Pairwise S →
      (bandOrder true fuel l).Pairwise
        (fun a b => (a.y1 = b.y1 ∧ S b a) ∨ (a.y1 ≠ b.y1 ∧ S a b)) := by
  induction fuel with
  | zero =>
    intro l _ _
    simp [bandOrder]
  | succ fuel ih =>
    intro l hl hS
    cases l with
    | nil => simp [bandOrder]
    | cons h t =>
      have hlt := afterFirstBand_length_lt h t
      have happ := firstBand_append_after (h :: t)
      have hy1 := firstBand_y1 h t
      have hy2 := afterFirstBand_y1 S hcontig h t hS
      have hS' := hS
      rw [← happ, List.pairwise_append] at hS'
      obtain ⟨hband, hrest, hcross⟩ := hS'
      rw [bandOrder]
      simp only [if_true]
      rw [List.pairwise_append]
      refine ⟨?_, ih _ (by omega) hrest, ?_⟩
      · rw [List.pairwise_reverse]
        refine List.Pairwise.imp_of_mem ?_ hband
        intro a b ha hb hab
        exact Or.inl ⟨by rw [hy1 a ha, hy1 b hb], hab⟩
      · intro a ha b hb
        have ha' : a ∈ firstBand (h :: t) := List.mem_reverse.1 ha
        have hb' : b ∈ afterFirstBand (h :: t) :=
          (bandOrder_perm true fuel _ (by omega)).mem_iff.1 hb
        refine Or.inr ⟨?_, hcross a ha' b hb'⟩
        rw [hy1 a ha']
        exact fun e => hy2 b hb' e.symm

theorem mem_pixels (b : BoxRec) (p : Int × Int) :
    p ∈ b.pixels ↔ b.x1 ≤ p.1 ∧ p.1 < b.x2 ∧ b.y1 ≤ p.2 ∧ p.2 < b.y2 := by
  unfold BoxRec.pixels
  rw [Finset.mem_product, Finset.mem_Ico, Finset.mem_Ico]
  tauto

theorem mem_dest_copyRectOf (dx dy : Int) (r : BoxRec) (p : Int × Int) :
    p ∈ (copyRectOf dx dy r).dest ↔ p ∈ r.pixels := by
  unfold CopyRectMsg.dest copyRectOf
  rw [mem_pixels, mem_pixels]
  dsimp only
  constructor <;> intro h <;> refine ⟨?_, ?_, ?_, ?_⟩ <;> omega

theorem mem_src_copyRectOf (dx dy : Int) (r : BoxRec) (p : Int × Int) :
    p ∈ (copyRectOf dx dy r).src ↔ (p.1 + dx, p.2 + dy) ∈ r.pixels := by
  unfold CopyRectMsg.src copyRectOf
  rw [mem_pixels, mem_pixels]
  dsimp only
  constructor <;> intro h <;> refine ⟨?_, ?_, ?_, ?_⟩ <;> omega

theorem rfbSendCopyRegion_spec (env : Env) (g : Globals) (cl : rfbClientRec)
    (rects : List BoxRec) (dx dy : Int) :
    emittedPartOf (rfbSendCopyRegion env g cl rects dx dy) []
      ((copyOrder rects dx dy).map (copyRectOf dx dy)) := by
  have hy : (if dy ≤ 0 then (1 : Int) else -1) = 1 ∨ (if dy ≤ 0 then (1 : Int) else -1) = -1 := by
    split_ifs
    · exact Or.inl rfl
    · exact Or.inr rfl
  have hx : (if dx ≤ 0 then (1 : Int) else -1) = (if dy ≤ 0 then (1 : Int) else -1)
      ∨ (if dx ≤ 0 then (1 : Int) else -1) = -(if dy ≤ 0 then (1 : Int) else -1) := by
    split_ifs <;> simp
  obtain ⟨res, hres, hpart⟩ := copyLoop_spec env cl rects dx dy _ _ hy hx rects.length
    rects.length 0 g [] (by omega) (Nat.le_refl _)
  have hw : walkIndex rects (if dy ≤ 0 then (1 : Int) else -1) 0
      = if dy ≤ 0 then 0 else (rects.length : Int) - 1 := by
    unfold walkIndex
    split_ifs <;> simp_all
  have hv : bandView rects (if dy ≤ 0 then (1 : Int) else -1)
      = if dy ≤ 0 then rects else rects.reverse := by
    unfold bandView
    split_ifs <;> simp_all
  rw [hw] at hres
  rw [List.drop_zero, hv] at hpart
  unfold rfbSendCopyRegion
  dsimp only
  rw [hres]
  exact hpart

theorem noClobber_same_direction_neg (dx dy : Int) (hdx : dx ≤ 0) (hdy : dy ≤ 0) (a b : BoxRec)
    (h : bandBefore a b) :
    Disjoint (copyRectOf dx dy a).dest (copyRectOf dx dy b).src := by
  rw [Finset.disjoint_left]
  intro p hp hq
  rw [mem_dest_copyRectOf, mem_pixels] at hp
  rw [mem_src_copyRectOf, mem_pixels] at hq
  dsimp only at hq
  rcases h with h | h <;> omega

theorem noClobber_same_direction_pos (dx dy : Int) (hdx : 0 < dx) (hdy : 0 < dy) (a b : BoxRec)
    (h : bandBefore b a) :
    Disjoint (copyRectOf dx dy a).dest (copyRectOf dx dy b).src := by
  rw [Finset.disjoint_left]
  intro p hp hq
  rw [mem_dest_copyRectOf, mem_pixels] at hp
  rw [mem_src_copyRectOf, mem_pixels] at hq
  dsimp only at hq
  rcases h with h | h <;> omega

theorem noClobber_down_right (dx dy : Int) (hdx : 0 < dx) (hdy : dy ≤ 0) (a b : BoxRec)
    (h : (a.y1 = b.y1 ∧ bandBefore b a) ∨ (a.y1 ≠ b.y1 ∧ bandBefore a b)) :
    Disjoint (copyRectOf dx dy a).dest (copyRectOf dx dy b).src := by
  rw [Finset.disjoint_left]
  intro p hp hq
  rw [mem_dest_copyRectOf, mem_pixels] at hp
  rw [mem_src_copyRectOf, mem_pixels] at hq
  dsimp only at hq
  rcases h with ⟨h1, h | h⟩ | ⟨h1, h | h⟩ <;> omega

theorem noClobber_up_left (dx dy : Int) (hdx : dx ≤ 0) (hdy : 0 < dy) (a b : BoxRec)
    (h : (a.y1 = b.y1 ∧ bandBefore a b) ∨ (a.y1 ≠ b.y1 ∧ bandBefore b a)) :
    Disjoint (copyRectOf dx dy a).dest (copyRectOf dx dy b).src := by
  rw [Finset.disjoint_left]
  intro p hp hq
  rw [mem_dest_copyRectOf, mem_pixels] at hp
  rw [mem_src_copyRectOf, mem_pixels] at hq
  dsimp only at hq
  rcases h with ⟨h1, h | h⟩ | ⟨h1, h | h⟩ <;> omega

theorem copyOrder_perm (rects : List BoxRec) (dx dy : Int) :
    (copyOrder rects dx dy).Perm rects := by
  unfold copyOrder
  have h := bandOrder_perm
    (decide ((if dx ≤ 0 then (1 : Int) else -1) ≠ (if dy ≤ 0 then (1 : Int) else -1)))
    rects.length (if dy ≤ 0 then rects else rects.reverse) (by split_ifs <;> simp)
  refine h.trans ?_
  split_ifs
  · exact List.Perm.refl _
  · exact List.reverse_perm _

theorem copyOrder_pairwise (rects : List BoxRec) (dx dy : Int) (hc : CanonicalBands rects) :
    (copyOrder rects dx dy).Pairwise
      (fun a b => Disjoint (copyRectOf dx dy a).dest (copyRectOf dx dy b).src) := by
  unfold CanonicalBands at hc
  unfold copyOrder
  by_cases hdy : dy ≤ 0
  · by_cases hdx : dx ≤ 0
    · simp only [hdy, hdx, if_true, ne_eq, not_true_eq_false, decide_False]
      rw [bandOrder_false _ _ (Nat.le_refl _)]
      exact hc.imp (fun h => noClobber_same_direction_neg dx dy hdx hdy _ _ h)
    · simp only [hdy, hdx, if_true, if_false, ne_eq, show ¬ ((-1 : Int) = 1) by decide,
        not_false_eq_true, decide_True]
      have h := bandOrder_true_pairwise bandBefore
        (by
          intro a b c h1 h2 h3
          rcases h1 with h1 | h1 <;> rcases h2 with h2 | h2 <;> omega)
        rects.length rects (Nat.le_refl _) hc
      exact h.imp (fun h => noClobber_down_right dx dy (by omega) hdy _ _ h)
  · by_cases hdx : dx ≤ 0
    · simp only [hdy, hdx, if_true, if_false, ne_eq, show ¬ ((1 : Int) = -1) by decide,
        not_false_eq_true, decide_True]
      have hrev : rects.reverse.Pairwise (fun a b => bandBefore b a) :=
        List.pairwise_reverse.2 hc
      have h := bandOrder_true_pairwise (fun a b => bandBefore b a)
        (by
          intro a b c h1 h2 h3
          rcases h1 with h1 | h1 <;> rcases h2 with h2 | h2 <;> omega)
        rects.length rects.reverse (by simp) hrev
      exact h.imp (fun h => noClobber_up_left dx dy hdx (by omega) _ _ h)
    · simp only [hdy, hdx, if_false, ne_eq, not_true_eq_false, decide_False]
      rw [bandOrder_false _ _ (by simp)]
      have hrev : rects.reverse.Pairwise (fun a b => bandBefore b a) :=
        List.pairwise_reverse.2 hc
      exact hrev.imp (fun h => noClobber_same_direction_pos dx dy (by omega) (by omega) _ _ h)

theorem applyCopyRect_copyRectOf (fb : Framebuffer) (dx dy : Int) (r : BoxRec) (p : Int × Int) :
    applyCopyRect fb (copyRectOf dx dy r) p
      = if p ∈ r.pixels then fb (p.1 - dx, p.2 - dy) else fb p := by
  unfold applyCopyRect
  by_cases hp : p ∈ r.pixels
  · rw [if_pos ((mem_dest_copyRectOf dx dy r p).2 hp), if_pos hp]
    unfold copyRectOf
    dsimp only
    congr 2 <;> omega
  · rw [if_neg (fun h => hp ((mem_dest_copyRectOf dx dy r p).1 h)), if_neg hp]

theorem replay_eq_bulk (dx dy : Int) :
    ∀ (order : List BoxRec) (fb : Framebuffer),
      order.Pairwise
        (fun a b => Disjoint (copyRectOf dx dy a).dest (copyRectOf dx dy b).src) →
      ∀ p, replayCopyRects fb (order.map (copyRectOf dx dy)) p = bulkCopy fb order dx dy p := by
  intro order
  induction order with
  | nil =>
    intro fb _ p
    simp [replayCopyRects, bulkCopy]
  | cons r rest ih =>
    intro fb hpw p
    rw [List.pairwise_cons] at hpw
    have hrec := ih (applyCopyRect fb (copyRectOf dx dy r)) hpw.2 p
    unfold replayCopyRects at hrec ⊢
    rw [List.map_cons, List.foldl_cons, hrec]
    unfold bulkCopy
    by_cases hrest : ∃ b ∈ rest, p ∈ b.pixels
    · obtain ⟨b, hb, hpb⟩ := hrest
      have hex : ∃ q ∈ r :: rest, p ∈ q.pixels := ⟨b, List.mem_cons_of_mem _ hb, hpb⟩
      rw [if_pos ⟨b, hb, hpb⟩, if_pos hex, applyCopyRect_copyRectOf]
      have hdis := hpw.1 b hb
      rw [Finset.disjoint_left] at hdis
      have hsrc : (p.1 - dx, p.2 - dy) ∈ (copyRectOf dx dy b).src := by
        rw [mem_src_copyRectOf]
        simpa using hpb
      have hnot : (p.1 - dx, p.2 - dy) ∉ r.pixels := by
        intro hin
        exact hdis ((mem_dest_copyRectOf dx dy r _).2 hin) hsrc
      rw [if_neg hnot]
    · rw [if_neg hrest, applyCopyRect_copyRectOf]
      by_cases hp : p ∈ r.pixels
      · rw [if_pos hp, if_pos ⟨r, List.mem_cons_self _ _, hp⟩]
      · have hno : ¬ ∃ q ∈ r :: rest, p ∈ q.pixels := by
          rintro ⟨q, hq, hpq⟩
          rcases List.mem_cons.1 hq with rfl | hq'
          · exact hp hpq
          · exact hrest ⟨q, hq', hpq⟩
        rw [if_neg hp, if_neg hno]

theorem bulkCopy_perm (fb : Framebuffer) (l1 l2 : List BoxRec) (h : l1.Perm l2) (dx dy : Int)
    (p : Int × Int) : bulkCopy fb l1 dx dy p = bulkCopy fb l2 dx dy p := by
  unfold bulkCopy
  have : (∃ r ∈ l1, p ∈ r.pixels) ↔ (∃ r ∈ l2, p ∈ r.pixels) := by
    constructor
    · rintro ⟨r, hr, hp⟩
      exact ⟨r, h.mem_iff.1 hr, hp⟩
    · rintro ⟨r, hr, hp⟩
      exact ⟨r, h.mem_iff.2 hr, hp⟩
  by_cases h1 : ∃ r ∈ l1, p ∈ r.pixels
  · rw [if_pos h1, if_pos (this.1 h1)]
  · rw [if_neg h1, if_neg (fun h2 => h1 (this.2 h2))]

/-- How `CanonicalBands` reads in words: a rectangle array with non-empty
rectangles, sorted by `y1` then `x1`, whose rectangles of equal `y1` share
`y2`, whose rectangles are pairwise disjoint and whose bands do not overlap
vertically, satisfies `CanonicalBands`. -/
theorem canonicalBands_of_sorted_disjoint (rects : List BoxRec)
    (hne : ∀ r ∈ rects, r.x1 < r.x2 ∧ r.y1 < r.y2)
    (hsorted : rects.Pairwise (fun a b => a.y1 < b.y1 ∨ (a.y1 = b.y1 ∧ a.x1 ≤ b.x1)))
    (hband : ∀ a ∈ rects, ∀ b ∈ rects, a.y1 = b.y1 → a.y2 = b.y2)
    (hdisj : rects.Pairwise (fun a b => Disjoint a.pixels b.pixels))
    (hsep : ∀ a ∈ rects, ∀ b ∈ rects, a.y1 < b.y1 → a.y2 ≤ b.y1) :
    CanonicalBands rects := by
  unfold CanonicalBands
  refine List.Pairwise.imp_of_mem ?_ (hsorted.and hdisj)
  intro a b ha hb hab
  obtain ⟨hs, hd⟩ := hab
  rcases hs with hlt | ⟨hy, hx⟩
  · exact Or.inr ⟨hlt, hsep a ha b hb hlt⟩
  · refine Or.inl ⟨hy, hband a ha b hb hy, ?_⟩
    by_contra hcon
    rw [Finset.disjoint_left] at hd
    have h1 := hne a ha
    have h2 := hne b hb
    have h3 := hband a ha b hb hy
    refine @hd (b.x1, a.y1) ?_ ?_
    · rw [mem_pixels]
      dsimp only
      omega
    · rw [mem_pixels]
      dsimp only
      omega

/-- The outer loop of `rfbSendCopyRegion` never runs out of the `nrects` units
of fuel it is given: the function always takes the first branch of its last `match`. -/
theorem copyLoop_isSome (env : Env) (g : Globals) (cl : rfbClientRec) (rects : List BoxRec)
    (dx dy : Int) :
    ∃ res, copyLoop env cl rects dx dy (if dx ≤ 0 then 1 else -1) (if dy ≤ 0 then 1 else -1)
        rects.length rects.length (if dy ≤ 0 then 0 else (rects.length : Int) - 1) g []
      = some res := by
  have hy : (if dy ≤ 0 then (1 : Int) else -1) = 1 ∨ (if dy ≤ 0 then (1 : Int) else -1) = -1 := by
    split_ifs
    · exact Or.inl rfl
    · exact Or.inr rfl
  have hx : (if dx ≤ 0 then (1 : Int) else -1) = (if dy ≤ 0 then (1 : Int) else -1)
      ∨ (if dx ≤ 0 then (1 : Int) else -1) = -(if dy ≤ 0 then (1 : Int) else -1) := by
    split_ifs <;> simp
  obtain ⟨res, hres, _⟩ := copyLoop_spec env cl rects dx dy _ _ hy hx rects.length
    rects.length 0 g [] (by omega) (Nat.le_refl _)
  have hw : walkIndex rects (if dy ≤ 0 then (1 : Int) else -1) 0
      = if dy ≤ 0 then 0 else (rects.length : Int) - 1 := by
    unfold walkIndex
    split_ifs <;> simp_all
  rw [hw] at hres
  exact ⟨res, hres⟩

/-- C4. For every `(dx, dy)` and every region whose rectangle array is in
canonical banded form: in the order in which `rfbSendCopyRegion` writes the
CopyRects, the destination of a CopyRect never overlaps the source of a
CopyRect written later; and when the function returns `TRUE`, replaying the
written CopyRects one after another on a reference framebuffer gives, at every
pixel, the result of one bulk copy of the region by `(dx, dy)`. -/
theorem C4_copyRect_order_safe (env : Env) (g : Globals) (cl : rfbClientRec)
    (rects : List BoxRec) (dx dy : Int) (hc : CanonicalBands rects) :
    (rfbSendCopyRegion env g cl rects dx dy).2.2.Pairwise
        (fun earlier later => Disjoint earlier.dest later.src)
    ∧ ((rfbSendCopyRegion env g cl rects dx dy).1 = true →
        ∀ (fb : Framebuffer) (p : Int × Int),
          replayCopyRects fb (rfbSendCopyRegion env g cl rects dx dy).2.2 p
            = bulkCopy fb rects dx dy p) := by
  obtain ⟨pre, suf, e1, e2, e3⟩ := rfbSendCopyRegion_spec env g cl rects dx dy
  rw [List.nil_append] at e1
  have hpw : ((copyOrder rects dx dy).map (copyRectOf dx dy)).Pairwise
      (fun earlier later => Disjoint earlier.dest later.src) := by
    rw [List.pairwise_map]
    exact copyOrder_pairwise rects dx dy hc
  constructor
  · rw [e1]
    rw [← e2, List.pairwise_append] at hpw
    exact hpw.1
  · intro hok fb p
    have hs := e3 hok
    subst hs
    rw [List.append_nil] at e2
    rw [e1, e2, replay_eq_bulk dx dy _ fb (copyOrder_pairwise rects dx dy hc) p]
    exact bulkCopy_perm fb _ _ (copyOrder_perm rects dx dy) dx dy p

/-- Witness for C4: scenario S5, the rectangles `(0,0,10,10)` and
`(0,10,10,20)` copied by `(5, 5)`: the lower rectangle is written first. -/
theorem C4_copyRect_order_safe_witness :
    CanonicalBands rectsS5
    ∧ rfbSendCopyRegion envOk initGlobals clBusy rectsS5 5 5
        = (true, { initGlobals with ublen := 32 },
            [{ x := 0, y := 10, w := 10, h := 10, srcX := -5, srcY := 5 },
             { x := 0, y := 0, w := 10, h := 10, srcX := -5, srcY := -5 }])
    ∧ (rfbSendCopyRegion envOk initGlobals clBusy rectsS5 5 5).2.2.Pairwise
        (fun earlier later => Disjoint earlier.dest later.src)
    ∧ (∀ (fb : Framebuffer) (p : Int × Int),
          replayCopyRects fb (rfbSendCopyRegion envOk initGlobals clBusy rectsS5 5 5).2.2 p
            = bulkCopy fb rectsS5 5 5 p) :=
  ⟨by decide, by decide,
   (C4_copyRect_order_safe envOk initGlobals clBusy rectsS5 5 5 (by decide)).1,
   (C4_copyRect_order_safe envOk initGlobals clBusy rectsS5 5 5 (by decide)).2 (by decide)⟩

/-! ### Sequence numbers -/

theorem SameQueue.refl (a : Globals) : SameQueue a a := ⟨rfl, rfl, rfl⟩

theorem SameQueue.trans {a b c : Globals} (h1 : SameQueue a b) (h2 : SameQueue b c) :
    SameQueue a c :=
  ⟨h1.1.trans h2.1, h1.2.1.trans h2.2.1, h1.2.2.trans h2.2.2⟩

theorem rfbSendUpdateBuf_sameQueue (env : Env) (g : Globals) (cl : rfbClientRec) :
    SameQueue (rfbSendUpdateBuf env g cl).2 g := by
  unfold rfbSendUpdateBuf
  dsimp only
  split_ifs <;> exact ⟨rfl, rfl, rfl⟩

theorem emitBand_sameQueue (env : Env) (cl : rfbClientRec) (rects : List BoxRec)
    (dx dy x_inc : Int) :
    ∀ (k : Nat) (t : Int) (g : Globals) (out : List CopyRectMsg),
      SameQueue (emitBand env cl rects dx dy x_inc k t g out).2.1 g := by
  intro k
  induction k with
  | zero =>
    intro t g out
    rw [emitBand]
    exact SameQueue.refl g
  | succ k ih =>
    intro t g out
    rw [emitBand]
    dsimp only
    split_ifs
    · exact rfbSendUpdateBuf_sameQueue env g cl
    · refine (ih _ _ _).trans ?_
      have h := rfbSendUpdateBuf_sameQueue env g cl
      exact ⟨h.1, h.2.1, h.2.2⟩
    · exact SameQueue.refl g
    · refine (ih _ _ _).trans ?_
      exact ⟨rfl, rfl, rfl⟩

theorem copyLoop_sameQueue (env : Env) (cl : rfbClientRec) (rects : List BoxRec)
    (dx dy x_inc y_inc : Int) :
    ∀ (fuel n : Nat) (t : Int) (g : Globals) (out : List CopyRectMsg) res,
      copyLoop env cl rects dx dy x_inc y_inc fuel n t g out = some res →
      SameQueue res.2.1 g := by
  intro fuel
  induction fuel with
  | zero =>
    intro n t g out res h
    cases n with
    | zero =>
      simp only [copyLoop, Option.some.injEq] at h
      subst h
      exact SameQueue.refl g
    | succ n => simp [copyLoop] at h
  | succ fuel ih =>
    intro n t g out res h
    cases n with
    | zero =>
      simp only [copyLoop, Option.some.injEq] at h
      subst h
      exact SameQueue.refl g
    | succ n =>
      rw [copyLoop_succ] at h
      generalize (if x_inc ≠ y_inc then (bandScan rects y_inc t (n + 1) t 0).2.1 - y_inc
        else t) = start at h
      split_ifs at h
      · simp only [Option.some.injEq] at h
        subst h
        exact emitBand_sameQueue env cl rects dx dy x_inc _ _ g out
      · exact (ih _ _ _ _ _ h).trans (emitBand_sameQueue env cl rects dx dy x_inc _ _ g out)

theorem rfbSendCopyRegion_sameQueue (env : Env) (g : Globals) (cl : rfbClientRec)
    (rects : List BoxRec) (dx dy : Int) :
    SameQueue (rfbSendCopyRegion env g cl rects dx dy).2.1 g := by
  unfold rfbSendCopyRegion
  dsimp only
  split
  · rename_i r hr
    exact copyLoop_sameQueue env cl rects dx dy _ _ _ _ _ _ _ _ hr
  · exact SameQueue.refl g

theorem rfbSendLastRectMarker_sameQueue (env : Env) (g : Globals) (cl : rfbClientRec) :
    SameQueue (rfbSendLastRectMarker env g cl).2 g := by
  unfold rfbSendLastRectMarker
  dsimp only
  have h := rfbSendUpdateBuf_sameQueue env g cl
  split_ifs
  · exact h
  · exact ⟨h.1, h.2.1, h.2.2⟩
  · exact SameQueue.refl g
  · exact ⟨rfl, rfl, rfl⟩

theorem sendCursorShapeStep_sameQueue (env : Env) (b : Bool) (r : UpdateResult) :
    SameQueue (sendCursorShapeStep env b r).2.g r.g := by
  unfold sendCursorShapeStep
  split_ifs
  · split <;> exact ⟨rfl, rfl, rfl⟩
  · exact ⟨rfl, rfl, rfl⟩

theorem sendCursorPosStep_sameQueue (env : Env) (b : Bool) (r : UpdateResult) :
    SameQueue (sendCursorPosStep env b r).2.g r.g := by
  unfold sendCursorPosStep
  split_ifs
  · split <;> exact ⟨rfl, rfl, rfl⟩
  · exact ⟨rfl, rfl, rfl⟩

theorem sendCopyStep_sameQueue (env : Env) (dx dy : Int) (r : UpdateResult) :
    SameQueue (sendCopyStep env dx dy r).2.g r.g := by
  unfold sendCopyStep
  dsimp only
  split_ifs
  · exact rfbSendCopyRegion_sameQueue env r.g r.cl _ dx dy
  · exact rfbSendCopyRegion_sameQueue env r.g r.cl _ dx dy
  · exact SameQueue.refl _

theorem QueueEffect.of_sameQueue {seqNum : Nat} {udp m : Bool} {a b c : Globals}
    (h1 : QueueEffect seqNum udp m a b) (h2 : SameQueue b c) : QueueEffect seqNum udp m a c := by
  obtain ⟨e1, e2, e3⟩ := h1
  refine ⟨e1.trans h2.1, e2.trans h2.2.1, ?_⟩
  rcases e3 with e3 | ⟨hm, n, e3⟩
  · exact Or.inl (e3.trans h2.2.2)
  · exact Or.inr ⟨hm, n, by rw [e3, h2.2.2]⟩

theorem SameQueue.queueEffect {seqNum : Nat} {udp m : Bool} {a b : Globals}
    (h : SameQueue a b) : QueueEffect seqNum udp m a b :=
  ⟨h.1, h.2.1, Or.inl h.2.2⟩

theorem sendPixelData_queueEffect (env : Env) (seqNum : Nat) (nUpd : Int) (r : UpdateResult) :
    QueueEffect seqNum r.cl.useUdp r.cl.measuring (sendPixelData env seqNum nUpd r).g r.g := by
  unfold sendPixelData
  dsimp only
  split
  · exact ⟨rfl, rfl, Or.inl rfl⟩
  · rename_i u hu
    have hm : SameQueue
        (if nUpd = 65535 then
          rfbSendLastRectMarker env { r.g with ublen := u, handleNewBlock := 0 } r.cl
        else (true, { r.g with ublen := u, handleNewBlock := 0 })).2 r.g := by
      split_ifs
      · exact (rfbSendLastRectMarker_sameQueue env _ r.cl).trans ⟨rfl, rfl, rfl⟩
      · exact ⟨rfl, rfl, rfl⟩
    generalize (if nUpd = 65535 then
          rfbSendLastRectMarker env { r.g with ublen := u, handleNewBlock := 0 } r.cl
        else (true, { r.g with ublen := u, handleNewBlock := 0 })) = marker at hm
    have hf := (rfbSendUpdateBuf_sameQueue env marker.2 r.cl).trans hm
    split_ifs with h1 h2 h3
    · exact hm.queueEffect
    · exact hf.queueEffect
    · exact hf.queueEffect
    · refine ⟨hf.1, hf.2.1, Or.inr ⟨by simpa using h3, r.nRects, ?_⟩⟩
      show _ ++ _ = _ ++ _
      rw [hf.2.2]

theorem sendUpdateRest_queueEffect (env : Env) (seqNum : Nat) (cs cp : Bool) (dx dy nUpd : Int)
    (r : UpdateResult) :
    QueueEffect seqNum r.cl.useUdp r.cl.measuring
      (sendUpdateRest env seqNum cs cp dx dy nUpd r).g r.g := by
  have a1 := sendCursorShapeStep_sameQueue env cs r
  have a2 := sendCursorPosStep_sameQueue env cp (sendCursorShapeStep env cs r).2
  have a3 := sendCopyStep_sameQueue env dx dy
    (sendCursorPosStep env cp (sendCursorShapeStep env cs r).2).2
  have b1 := sendCursorShapeStep_same env cs r
  have b2 := sendCursorPosStep_same env cp (sendCursorShapeStep env cs r).2
  have b3 := sendCopyStep_same env dx dy
    (sendCursorPosStep env cp (sendCursorShapeStep env cs r).2).2
  have hflags := (b3.chain (b2.chain b1))
  unfold sendUpdateRest
  dsimp only
  split_ifs
  · exact a1.queueEffect
  · exact (a2.trans a1).queueEffect
  · exact (a3.trans (a2.trans a1)).queueEffect
  · have h := sendPixelData_queueEffect env seqNum nUpd
      (sendCopyStep env dx dy (sendCursorPosStep env cp (sendCursorShapeStep env cs r).2).2).2
    rw [hflags.2.2.2.2.2.1, hflags.2.2.2.2.2.2.1] at h
    exact h.of_sameQueue (a3.trans (a2.trans a1))

theorem sendUpdateBody_queueEffect (env : Env) (seqNum : Nat) (cs cp : Bool) (dx dy : Int)
    (r : UpdateResult) :
    QueueEffect seqNum r.cl.useUdp r.cl.measuring (sendUpdateBody env seqNum cs cp dx dy r).g
      r.g := by
  unfold sendUpdateBody
  exact (sendUpdateRest_queueEffect env seqNum cs cp dx dy _ _).of_sameQueue ⟨rfl, rfl, rfl⟩

/-- What the builder does to counter, queue and the record of sent updates,
and that it leaves the flags `measuring` and `useUdp` alone. -/
theorem builder_queueEffect (env : Env) (g : Globals) (cl : rfbClientRec) (seqNum : Nat) :
    QueueEffect seqNum cl.useUdp cl.measuring (rfbSendFramebufferUpdate_numBytes env g cl seqNum).g g
    ∧ (rfbSendFramebufferUpdate_numBytes env g cl seqNum).cl.useUdp = cl.useUdp
    ∧ (rfbSendFramebufferUpdate_numBytes env g cl seqNum).cl.measuring = cl.measuring := by
  unfold rfbSendFramebufferUpdate_numBytes
  dsimp only
  split_ifs with h hm
  · exact ⟨⟨rfl, rfl, Or.inl rfl⟩, rfl, rfl⟩
  · have h1 := sendUpdateBody_queueEffect env seqNum (planCursorShape env g cl)
      (planCursorPos cl) cl.copyDX cl.copyDY
    have h2 := sendUpdateBody_same env seqNum (planCursorShape env g cl)
      (planCursorPos cl) cl.copyDX cl.copyDY
    refine ⟨(h1 _).of_sameQueue ⟨rfl, rfl, rfl⟩, (h2 _).2.2.2.2.2.2.1, (h2 _).2.2.2.2.2.1⟩
  · have h1 := sendUpdateBody_queueEffect env seqNum (planCursorShape env g cl)
      (planCursorPos cl) cl.copyDX cl.copyDY
    have h2 := sendUpdateBody_same env seqNum (planCursorShape env g cl)
      (planCursorPos cl) cl.copyDX cl.copyDY
    refine ⟨(h1 _).of_sameQueue ⟨rfl, rfl, rfl⟩, (h2 _).2.2.2.2.2.2.1, (h2 _).2.2.2.2.2.1⟩

theorem pushSeqNums_append_udp (g g1 : Globals) (s : Nat) (n : Int)
    (h : g1.sentUpdates = g.sentUpdates ++ [{ seqNum := s, nRects := n, udp := true }]) :
    pushSeqNums g1 = pushSeqNums g ++ [s] ∧ pullSeqNums g1 = pullSeqNums g := by
  unfold pushSeqNums pullSeqNums
  rw [h]
  simp [List.filter_append]

theorem pushSeqNums_append_stream (g g1 : Globals) (s : Nat) (n : Int)
    (h : g1.sentUpdates = g.sentUpdates ++ [{ seqNum := s, nRects := n, udp := false }]) :
    pushSeqNums g1 = pushSeqNums g ∧ pullSeqNums g1 = pullSeqNums g ++ [s] := by
  unfold pushSeqNums pullSeqNums
  rw [h]
  simp [List.filter_append]

theorem pushSeqNums_congr (g g1 : Globals) (h : g1.sentUpdates = g.sentUpdates) :
    pushSeqNums g1 = pushSeqNums g ∧ pullSeqNums g1 = pullSeqNums g := by
  unfold pushSeqNums pullSeqNums
  rw [h]
  exact ⟨rfl, rfl⟩

theorem CounterInv.mono {g : Globals} {d d1 : Nat} (h : CounterInv g d) (hd : d ≤ d1) :
    CounterInv g d1 := by
  obtain ⟨U, hU, rest⟩ := h
  exact ⟨U, le_trans hU hd, rest⟩

/-- A step that does not advance the counter: entries may leave the queue, and
an update with the sequence number `0xFFFFFFFF` may go out over the reliable stream. -/
theorem CounterInv.keep {g g1 : Globals} {d : Nat} (h : CounterInv g d)
    (hc : g1.seqNumCounter = g.seqNumCounter)
    (hq : (g1.srRec.map (fun e => e.seqNum)).Sublist (g.srRec.map (fun e => e.seqNum)))
    (hs : g1.sentUpdates = g.sentUpdates
      ∨ ∃ n, g1.sentUpdates
          = g.sentUpdates ++ [{ seqNum := 0xFFFFFFFF, nRects := n, udp := false }]) :
    CounterInv g1 d := by
  obtain ⟨U, hU, hcnt, ⟨us, hus1, hus2, hus3⟩, ⟨ws, hws1, hws2, hws3⟩, hpull⟩ := h
  refine ⟨U, hU, hc.trans hcnt, ?_, ?_, ?_⟩
  · rw [hus3] at hq
    obtain ⟨us1, hsub, heq⟩ := List.sublist_map_iff.1 hq
    exact ⟨us1, hus1.sublist hsub, fun u hu => hus2 u (hsub.subset hu), heq⟩
  · rcases hs with hs | ⟨n, hs⟩
    · exact ⟨ws, hws1, hws2, by rw [(pushSeqNums_congr g g1 hs).1, hws3]⟩
    · exact ⟨ws, hws1, hws2, by rw [(pushSeqNums_append_stream g g1 _ n hs).1, hws3]⟩
  · rcases hs with hs | ⟨n, hs⟩
    · rw [(pushSeqNums_congr g g1 hs).2]
      exact hpull
    · rw [(pushSeqNums_append_stream g g1 _ n hs).2]
      intro x hx
      rcases List.mem_append.1 hx with hx | hx
      · exact hpull x hx
      · simpa using hx

/-- A step that advances the counter once: the old counter value may be
appended to the queue and may go out as the sequence number of a datagram update. -/
theorem CounterInv.advance {g g1 : Globals} {d : Nat} (h : CounterInv g d)
    (hc : g1.seqNumCounter = (g.seqNumCounter + 1) % CARD32_MOD)
    (hq : g1.srRec.map (fun e => e.seqNum) = g.srRec.map (fun e => e.seqNum)
      ∨ g1.srRec.map (fun e => e.seqNum) = g.srRec.map (fun e => e.seqNum) ++ [g.seqNumCounter])
    (hs : g1.sentUpdates = g.sentUpdates
      ∨ ∃ n, g1.sentUpdates
          = g.sentUpdates ++ [{ seqNum := g.seqNumCounter, nRects := n, udp := true }]) :
    CounterInv g1 (d + 1) := by
  obtain ⟨U, hU, hcnt, ⟨us, hus1, hus2, hus3⟩, ⟨ws, hws1, hws2, hws3⟩, hpull⟩ := h
  refine ⟨U + 1, by omega, ?_, ?_, ?_, ?_⟩
  · rw [hc, hcnt]
    exact Nat.mod_add_mod _ _ _
  · rcases hq with hq | hq
    · exact ⟨us, hus1, fun u hu => Nat.lt_succ_of_lt (hus2 u hu), hq.trans hus3⟩
    · refine ⟨us ++ [U], ?_, ?_, ?_⟩
      · rw [List.pairwise_append]
        refine ⟨hus1, List.pairwise_singleton _ _, ?_⟩
        intro a ha b hb
        rw [List.mem_singleton] at hb
        rw [hb]
        exact hus2 a ha
      · intro u hu
        rcases List.mem_append.1 hu with hu | hu
        · exact Nat.lt_succ_of_lt (hus2 u hu)
        · rw [List.mem_singleton] at hu
          omega
      · rw [hq, hus3, hcnt, List.map_append]
        rfl
  · rcases hs with hs | ⟨n, hs⟩
    · exact ⟨ws, hws1, fun w hw => Nat.lt_succ_of_lt (hws2 w hw),
        by rw [(pushSeqNums_congr g g1 hs).1, hws3]⟩
    · refine ⟨ws ++ [U], ?_, ?_, ?_⟩
      · rw [List.pairwise_append]
        refine ⟨hws1, List.pairwise_singleton _ _, ?_⟩
        intro a ha b hb
        rw [List.mem_singleton] at hb
        rw [hb]
        exact hws2 a ha
      · intro w hw
        rcases List.mem_append.1 hw with hw | hw
        · exact Nat.lt_succ_of_lt (hws2 w hw)
        · rw [List.mem_singleton] at hw
          omega
      · rw [(pushSeqNums_append_udp g g1 _ n hs).1, hws3, hcnt, List.map_append]
        rfl
  · rcases hs with hs | ⟨n, hs⟩
    · rw [(pushSeqNums_congr g g1 hs).2]
      exact hpull
    · rw [(pushSeqNums_append_udp g g1 _ n hs).2]
      exact hpull

theorem srRecDeleteSeqNumLoop_sublist (seqNum : Nat) (q : List SendRegionRec) :
    (srRecDeleteSeqNumLoop seqNum q).2.Sublist q := by
  induction q with
  | nil => simp [srRecDeleteSeqNumLoop]
  | cons cur next ih =>
    unfold srRecDeleteSeqNumLoop
    split_ifs
    · exact List.sublist_cons_self _ _
    · exact ih.cons₂ _

theorem srRecSetupRetransmitLoop_sublist (now T : Nat) :
    ∀ (q : List SendRegionRec) (m : Region), (srRecSetupRetransmitLoop now T q m).1.Sublist q := by
  intro q
  induction q with
  | nil => intro m; simp [srRecSetupRetransmitLoop]
  | cons cur next ih =>
    intro m
    unfold srRecSetupRetransmitLoop
    split_ifs
    · exact (ih _).trans (List.sublist_cons_self _ _)
    · exact List.Sublist.refl _

theorem srRecSendRegionLoop_sublist (r : Region) (q : List SendRegionRec) :
    ((srRecSendRegionLoop r q).map (fun e => e.seqNum)).Sublist (q.map (fun e => e.seqNum)) := by
  induction q with
  | nil => simp [srRecSendRegionLoop]
  | cons cur next ih =>
    unfold srRecSendRegionLoop
    split_ifs
    · exact ih.trans (List.sublist_cons_self _ _)
    · simpa using ih.cons₂ cur.seqNum

theorem sublist_of_eq {α : Type} {l1 l2 : List α} (h : l1 = l2) : l1.Sublist l2 :=
  h ▸ List.Sublist.refl _

theorem addRequested_flags (cl : rfbClientRec) (r : Region) :
    (addRequested cl r).useUdp = cl.useUdp ∧ (addRequested cl r).measuring = cl.measuring
    ∧ (addRequested cl r).formatTrueColour = cl.formatTrueColour := by
  unfold addRequested
  split_ifs <;> exact ⟨rfl, rfl, rfl⟩

theorem markNonIncremental_flags (cl : rfbClientRec) (i : Nat) (r : Region) :
    (markNonIncremental cl i r).useUdp = cl.useUdp
    ∧ (markNonIncremental cl i r).measuring = cl.measuring := by
  unfold markNonIncremental
  split_ifs <;> exact ⟨rfl, rfl⟩

theorem measureRegion_seqInv (env : Env) (g : Globals) (cl : rfbClientRec) (box : BoxRec)
    (d : Nat) (h : SeqInv g cl d) :
    SeqInv (measureRegion env g cl box).2.1 (measureRegion env g cl box).2.2 d := by
  obtain ⟨hu, hm, hc⟩ := h
  obtain ⟨a1, a2, _⟩ := addRequested_flags cl (REGION_INIT box)
  unfold measureRegion
  dsimp only
  split_ifs with h1
  · exact ⟨a1.trans hu, a2.trans hm, hc⟩
  · obtain ⟨⟨q1, q2, q3⟩, f1, _⟩ := builder_queueEffect env g
      { addRequested cl (REGION_INIT box) with measuring := true } 0xFFFFFFFF
    refine ⟨f1.trans (a1.trans hu), rfl, hc.keep q1 (sublist_of_eq (congrArg (List.map (fun e => e.seqNum)) q2)) ?_⟩
    rcases q3 with q3 | ⟨hf, _⟩
    · exact Or.inl q3
    · cases hf

theorem sendRegion_seqInv (env : Env) (g : Globals) (cl : rfbClientRec) (box : BoxRec)
    (d : Nat) (h : SeqInv g cl d) :
    SeqInv (sendRegion env g cl box).1 (sendRegion env g cl box).2 (d + 1) := by
  obtain ⟨hu, hm, hc⟩ := h
  obtain ⟨a1, a2, _⟩ := addRequested_flags cl (REGION_INIT box)
  unfold sendRegion
  dsimp only
  split_ifs with h1
  · refine ⟨a1.trans hu, a2.trans hm, CounterInv.mono ?_ (Nat.le_succ d)⟩
    exact hc.keep rfl (List.Sublist.refl _) (Or.inl rfl)
  · obtain ⟨⟨q1, q2, q3⟩, _, f2⟩ := builder_queueEffect env
      { g with sent_count := g.sent_count + 1,
               seqNumCounter := (g.seqNumCounter + 1) % CARD32_MOD }
      { addRequested cl (REGION_INIT box) with useUdp := true } g.seqNumCounter
    refine ⟨rfl, f2.trans (a2.trans hm), hc.advance ?_ ?_ ?_⟩
    · exact q1
    · right
      show List.map _ (_ ++ _) = _
      rw [List.map_append]
      exact congrArg (fun l => l ++ [g.seqNumCounter])
        (congrArg (List.map (fun e => e.seqNum)) q2)
    · rcases q3 with q3 | ⟨_, n, q3⟩
      · exact Or.inl q3
      · exact Or.inr ⟨n, q3⟩

theorem request_seqInv (env : Env) (g : Globals) (cl : rfbClientRec)
    (msg : rfbFramebufferUpdateRequestMsg) (d : Nat) (h : SeqInv g cl d) :
    SeqInv (rfbProcessClientNormalMessage_FramebufferUpdateRequest env g cl msg).1
      (rfbProcessClientNormalMessage_FramebufferUpdateRequest env g cl msg).2 d := by
  obtain ⟨hu, hm, hc⟩ := h
  have hg1 : CounterInv (if cl.isOctopus = true then { g with send_count := g.send_count + 1 }
      else g) d := by
    split_ifs
    · exact hc.keep rfl (List.Sublist.refl _) (Or.inl rfl)
    · exact hc
  unfold rfbProcessClientNormalMessage_FramebufferUpdateRequest
  dsimp only
  generalize (if cl.isOctopus = true then { g with send_count := g.send_count + 1 }
      else g) = g1 at hg1
  generalize REGION_INIT (BoxRec.mk msg.x msg.y ((msg.x : Int) + msg.w) ((msg.y : Int) + msg.h))
    = tmp
  obtain ⟨a1, a2, _⟩ := addRequested_flags cl tmp
  obtain ⟨b1, b2⟩ := markNonIncremental_flags (addRequested cl tmp) msg.incremental tmp
  split_ifs with h1 h2 h3
  · exact ⟨hu, hm, hg1.keep rfl (List.Sublist.refl _) (Or.inl rfl)⟩
  · exact ⟨a1.trans hu, a2.trans hm, hg1⟩
  · obtain ⟨⟨q1, q2, q3⟩, f1, f2⟩ := builder_queueEffect env g1
      (markNonIncremental (addRequested cl tmp) msg.incremental tmp) 0xFFFFFFFF
    refine ⟨f1.trans (b1.trans (a1.trans hu)), f2.trans (b2.trans (a2.trans hm)),
      hg1.keep q1 (sublist_of_eq (congrArg (List.map (fun e => e.seqNum)) q2)) ?_⟩
    rcases q3 with q3 | ⟨_, n, q3⟩
    · exact Or.inl q3
    · right
      rw [b1.trans (a1.trans hu)] at q3
      exact ⟨n, q3⟩
  · exact ⟨b1.trans (a1.trans hu), b2.trans (a2.trans hm), hg1⟩

theorem ack_queue (env : Env) (g : Globals) (seqNum : Nat) :
    (rfbProcessClientNormalMessage_FramebufferUpdateAck env g seqNum).seqNumCounter
        = g.seqNumCounter
    ∧ (rfbProcessClientNormalMessage_FramebufferUpdateAck env g seqNum).sentUpdates
        = g.sentUpdates
    ∧ (rfbProcessClientNormalMessage_FramebufferUpdateAck env g seqNum).srRec
        = (srRecDeleteSeqNumLoop seqNum g.srRec).2 := by
  unfold rfbProcessClientNormalMessage_FramebufferUpdateAck srRecDeleteSeqNum
    throughputSample setRetransmitTimeout rttSample
  dsimp only
  split_ifs <;> exact ⟨rfl, rfl, rfl⟩

theorem ack_seqInv (env : Env) (g : Globals) (cl : rfbClientRec) (seqNum : Nat) (d : Nat)
    (h : SeqInv g cl d) :
    SeqInv (rfbProcessClientNormalMessage_FramebufferUpdateAck env g seqNum) cl d := by
  obtain ⟨hu, hm, hc⟩ := h
  obtain ⟨a1, a2, a3⟩ := ack_queue env g seqNum
  refine ⟨hu, hm, hc.keep a1 ?_ (Or.inl a2)⟩
  rw [a3]
  exact (srRecDeleteSeqNumLoop_sublist seqNum g.srRec).map _

theorem deleteSeqNum_seqInv (g : Globals) (cl : rfbClientRec) (seqNum : Nat) (d : Nat)
    (h : SeqInv g cl d) : SeqInv (srRecDeleteSeqNum g seqNum).2 cl d := by
  obtain ⟨hu, hm, hc⟩ := h
  refine ⟨hu, hm, hc.keep rfl ?_ (Or.inl rfl)⟩
  exact (srRecDeleteSeqNumLoop_sublist seqNum g.srRec).map _

theorem setupRetransmit_seqInv (env : Env) (g : Globals) (cl : rfbClientRec) (d : Nat)
    (h : SeqInv g cl d) :
    SeqInv (srRecSetupRetransmit env g cl).1 (srRecSetupRetransmit env g cl).2 d := by
  obtain ⟨hu, hm, hc⟩ := h
  refine ⟨hu, hm, hc.keep rfl ?_ (Or.inl rfl)⟩
  exact (srRecSetupRetransmitLoop_sublist _ _ g.srRec cl.modifiedRegion).map _

theorem subtract_seqInv (g : Globals) (cl : rfbClientRec) (r : Region) (d : Nat)
    (h : SeqInv g cl d) : SeqInv (srRecSendRegion g r) cl d := by
  obtain ⟨hu, hm, hc⟩ := h
  exact ⟨hu, hm, hc.keep rfl (srRecSendRegionLoop_sublist r g.srRec) (Or.inl rfl)⟩

theorem newFrame_seqInv (g : Globals) (cl : rfbClientRec) (d : Nat) (h : SeqInv g cl d) :
    SeqInv (newFrame g) cl (d + 1) := by
  obtain ⟨hu, hm, hc⟩ := h
  exact ⟨hu, hm, hc.advance rfl (Or.inl rfl) (Or.inl rfl)⟩

theorem rampDown_seqInv (g : Globals) (cl : rfbClientRec) (now : Nat) (d : Nat)
    (h : SeqInv g cl d) : SeqInv (rampDown g cl now).1 (rampDown g cl now).2 d := by
  obtain ⟨hu, hm, hc⟩ := h
  by_cases hq : qualityPercentage cl ≥ intervalPercentage g
  · rw [rampDown, if_pos hq]
    exact ⟨hu, hm, hc.keep rfl (List.Sublist.refl _) (Or.inl rfl)⟩
  · rw [rampDown, if_neg hq]
    exact ⟨hu, hm, hc.keep rfl (List.Sublist.refl _) (Or.inl rfl)⟩

theorem rampUp_seqInv (g : Globals) (cl : rfbClientRec) (now : Nat) (d : Nat)
    (h : SeqInv g cl d) : SeqInv (rampUp g cl now).1 (rampUp g cl now).2 d := by
  obtain ⟨hu, hm, hc⟩ := h
  by_cases hq : qualityPercentage cl ≤ intervalPercentage g
  · rw [rampUp, if_pos hq]
    exact ⟨hu, hm, hc.keep rfl (List.Sublist.refl _) (Or.inl rfl)⟩
  · rw [rampUp, if_neg hq]
    refine ⟨hu, hm, ?_⟩
    dsimp only
    apply hc.keep
    · exact rfl
    · exact List.Sublist.refl _
    · exact Or.inl rfl

theorem adaptRate_seqInv (g : Globals) (cl : rfbClientRec) (now : Nat) (d : Nat)
    (h : SeqInv g cl d) : SeqInv (adaptRate g cl now).1 (adaptRate g cl now).2 d := by
  unfold adaptRate
  split_ifs
  · exact rampDown_seqInv g cl now d h
  · exact h
  · exact rampUp_seqInv g cl now d h
  · exact h
  · exact h

theorem adaptStep_seqInv (g : Globals) (cl : rfbClientRec) (now : Nat) (d : Nat)
    (h : SeqInv g cl d) : SeqInv (adaptStep g cl now).1 (adaptStep g cl now).2 d := by
  unfold adaptStep
  split_ifs
  · apply adaptRate_seqInv
    exact ⟨h.1, h.2.1, h.2.2.keep rfl (List.Sublist.refl _) (Or.inl rfl)⟩
  · exact h

theorem recursiveSend_seqInv (env : Env) :
    ∀ (fuel : Nat) (g : Globals) (cl : rfbClientRec) (box : BoxRec) (d : Nat) res,
      recursiveSend env fuel g cl box = some res → SeqInv g cl d →
      SeqInv res.1 res.2.1 (d + res.2.2.length) := by
  intro fuel
  induction fuel with
  | zero =>
    intro g cl box d res h _
    simp [recursiveSend] at h
  | succ fuel ih =>
    intro g cl box d res h hinv
    have hmeas := measureRegion_seqInv env g cl box d hinv
    rw [recursiveSend] at h
    dsimp only at h
    split_ifs at h with hsmall
    · simp only [Option.some.injEq] at h
      subst h
      have hg1 : SeqInv
          { (measureRegion env g cl box).2.1 with
            tickSentBytes := (measureRegion env g cl box).2.1.tickSentBytes
              + (measureRegion env g cl box).1 }
          (measureRegion env g cl box).2.2 d :=
        ⟨hmeas.1, hmeas.2.1, hmeas.2.2.keep rfl (List.Sublist.refl _) (Or.inl rfl)⟩
      exact sendRegion_seqInv env _ _ box d hg1
    · -- the loop over the strips
      have hloop : ∀ (strips : List BoxRec) (acc : Option (Globals × rfbClientRec × List BoxRec))
          res1,
          (∀ st, acc = some st → SeqInv st.1 st.2.1 (d + st.2.2.length)) →
          strips.foldl
            (fun acc strip =>
              match acc with
              | none => none
              | some st =>
                match recursiveSend env fuel st.1 st.2.1 strip with
                | none => none
                | some st1 => some (st1.1, st1.2.1, st.2.2 ++ st1.2.2)) acc = some res1 →
          SeqInv res1.1 res1.2.1 (d + res1.2.2.length) := by
        intro strips
        induction strips with
        | nil =>
          intro acc res1 hacc hfold
          exact hacc res1 hfold
        | cons strip rest ihs =>
          intro acc res1 hacc hfold
          rw [List.foldl_cons] at hfold
          refine ihs _ res1 ?_ hfold
          intro st hst
          cases acc with
          | none => simp at hst
          | some st0 =>
            dsimp only at hst
            cases hrec : recursiveSend env fuel st0.1 st0.2.1 strip with
            | none =>
              rw [hrec] at hst
              simp at hst
            | some st1 =>
              rw [hrec] at hst
              simp only [Option.some.injEq] at hst
              subst hst
              have := ih st0.1 st0.2.1 strip (d + st0.2.2.length) st1 hrec (hacc st0 rfl)
              simpa [Nat.add_assoc] using this
      refine hloop _ _ res ?_ h
      intro st hst
      simp only [Option.some.injEq] at hst
      subst hst
      simpa using hmeas

theorem rfbServerPushClient_seqInv (env : Env) (fuel : Nat) (g : Globals) (cl : rfbClientRec)
    (d : Nat) (res : Globals × rfbClientRec × List BoxRec)
    (h : rfbServerPushClient env fuel g cl = some res) (hinv : SeqInv g cl d) :
    SeqInv res.1 res.2.1 (d + (1 + res.2.2.length)) := by
  have ha := adaptStep_seqInv g cl (env.GetTimeInMillis g) d hinv
  unfold rfbServerPushClient at h
  dsimp only at h
  generalize adaptStep g cl (env.GetTimeInMillis g) = a at h ha
  split_ifs at h with h1 h2 h3
  · simp only [Option.some.injEq] at h
    subst h
    exact ⟨ha.1, ha.2.1, ha.2.2.mono (by omega)⟩
  · have hr := setupRetransmit_seqInv env a.1 a.2 d ha
    generalize srRecSetupRetransmit env a.1 a.2 = r at h hr
    have hs := subtract_seqInv r.1 r.2 r.2.modifiedRegion d hr
    have hf := newFrame_seqInv _ _ d hs
    cases hrec : recursiveSend env fuel (newFrame (srRecSendRegion r.1 r.2.modifiedRegion)) r.2
        (regionExtents r.2.modifiedRegion) with
    | none =>
      rw [hrec] at h
      simp at h
    | some s =>
      rw [hrec] at h
      simp only [Option.some.injEq] at h
      subst h
      have := recursiveSend_seqInv env fuel _ _ _ (d + 1) s hrec hf
      refine ⟨this.1, this.2.1, ?_⟩
      have hc := @CounterInv.keep s.1 { s.1 with last_update := env.GetTimeInMillis g } _
        this.2.2 rfl (List.Sublist.refl _) (Or.inl rfl)
      rw [Nat.add_assoc] at hc
      exact hc
  · simp only [Option.some.injEq] at h
    subst h
    exact ⟨ha.1, ha.2.1, ha.2.2.mono (by omega)⟩
  · simp only [Option.some.injEq] at h
    subst h
    exact ⟨ha.1, ha.2.1, ha.2.2.mono (by omega)⟩

theorem step_seqInv (env : Env) (op : Op) (g : Globals) (cl : rfbClientRec) (d : Nat)
    (res : Globals × rfbClientRec × Nat) (h : op.step env g cl = some res)
    (hinv : SeqInv g cl d) : SeqInv res.1 res.2.1 (d + res.2.2) := by
  cases op with
  | request msg =>
    simp only [Op.step, Option.some.injEq] at h
    subst h
    exact request_seqInv env g cl msg d hinv
  | ack seqNum =>
    simp only [Op.step, Option.some.injEq] at h
    subst h
    exact ack_seqInv env g cl seqNum d hinv
  | push fuel =>
    simp only [Op.step] at h
    cases hp : rfbServerPushClient env fuel g cl with
    | none =>
      rw [hp] at h
      simp at h
    | some s =>
      rw [hp] at h
      simp only [Option.some.injEq] at h
      subst h
      exact rfbServerPushClient_seqInv env fuel g cl d s hp hinv
  | measure box =>
    simp only [Op.step, Option.some.injEq] at h
    subst h
    exact measureRegion_seqInv env g cl box d hinv
  | send box =>
    simp only [Op.step, Option.some.injEq] at h
    subst h
    exact sendRegion_seqInv env g cl box d hinv
  | frame =>
    simp only [Op.step, Option.some.injEq] at h
    subst h
    exact newFrame_seqInv g cl d hinv
  | setupRetransmit =>
    simp only [Op.step, Option.some.injEq] at h
    subst h
    exact setupRetransmit_seqInv env g cl d hinv
  | subtract region =>
    simp only [Op.step, Option.some.injEq] at h
    subst h
    exact subtract_seqInv g cl region d hinv
  | deleteSeqNum seqNum =>
    simp only [Op.step, Option.some.injEq] at h
    subst h
    exact deleteSeqNum_seqInv g cl seqNum d hinv
  | external cl1 =>
    simp only [Op.step, Option.some.injEq] at h
    subst h
    exact ⟨hinv.1, hinv.2.1, hinv.2.2⟩

theorem runOps_seqInv (env : Env) :
    ∀ (ops : List Op) (g : Globals) (cl : rfbClientRec) (d : Nat)
      (res : Globals × rfbClientRec × Nat),
      runOps env ops g cl = some res → SeqInv g cl d → SeqInv res.1 res.2.1 (d + res.2.2) := by
  intro ops
  induction ops with
  | nil =>
    intro g cl d res h hinv
    simp only [runOps, Option.some.injEq] at h
    subst h
    exact hinv
  | cons op ops ih =>
    intro g cl d res h hinv
    rw [runOps] at h
    cases hs : op.step env g cl with
    | none =>
      rw [hs] at h
      simp at h
    | some s =>
      rw [hs] at h
      dsimp only at h
      cases hr : runOps env ops s.1 s.2.1 with
      | none =>
        rw [hr] at h
        simp at h
      | some s1 =>
        rw [hr] at h
        simp only [Option.some.injEq] at h
        subst h
        have h1 := step_seqInv env op g cl d s hs hinv
        have h2 := ih s.1 s.2.1 (d + s.2.2) s1 hr h1
        rw [Nat.add_assoc] at h2
        exact h2

theorem seqInv_init (width height : Int) (first trueColour : Bool) :
    SeqInv initGlobals (rfbNewClient width height first trueColour) 0 := by
  refine ⟨rfl, rfl, 0, Nat.le_refl _, rfl, ⟨[], List.Pairwise.nil, ?_, rfl⟩,
    ⟨[], List.Pairwise.nil, ?_, rfl⟩, ?_⟩
  · intro u hu
    cases hu
  · intro u hu
    cases hu
  · intro u hu
    simp [pullSeqNums, initGlobals] at hu

theorem CounterInv.strict {g : Globals} {d : Nat} (h : CounterInv g d) (hd : d < CARD32_MOD) :
    (g.srRec.map (fun e => e.seqNum)).Pairwise (fun a b => a < b)
    ∧ (pushSeqNums g).Pairwise (fun a b => a < b)
    ∧ (∀ x ∈ pullSeqNums g, x = 0xFFFFFFFF) := by
  obtain ⟨U, hU, _, ⟨us, hus1, hus2, hus3⟩, ⟨ws, hws1, hws2, hws3⟩, hpull⟩ := h
  have hid : ∀ l : List Nat, (∀ u ∈ l, u < U) → l.map (fun u => u % CARD32_MOD) = l := by
    intro l hl
    conv_rhs => rw [← List.map_id l]
    apply List.map_congr_left
    intro u hu
    exact Nat.mod_eq_of_lt (by have := hl u hu; omega)
  rw [hus3, hws3, hid us hus2, hid ws hws2]
  exact ⟨hus1, hws1, hpull⟩

/-- C8, counterexample. The client sends two non-incremental requests for the
whole screen; both are answered in pull mode and both updates carry the
sequence number `0xFFFFFFFF` in their header, so the emitted sequence numbers
are not strictly increasing. -/
theorem C8_pull_updates_repeat_seqNum :
    (runOps envOk [Op.request requestAllFresh, Op.request requestAllFresh] initGlobals
        (rfbNewClient 4 1 true true)).map (fun s => s.1.sentUpdates.map (fun u => u.seqNum))
      = some [4294967295, 4294967295]
    ∧ ¬ ([4294967295, 4294967295] : List Nat).Pairwise (fun a b => a < b) := by
  decide

/-- C8, amended. Over any run from the initial state in which `seqNumCounter`
was advanced fewer than `2^32` times: the sequence numbers in the headers of
the updates sent in push mode (over the datagram channel, by `sendRegion`) are
strictly increasing, and every update sent in pull mode (over the reliable
stream) carries the fixed sequence number `0xFFFFFFFF`. -/
theorem C8_push_seqNums_strictly_increasing (env : Env) (ops : List Op) (width height : Int)
    (first trueColour : Bool) (res : Globals × rfbClientRec × Nat)
    (hrun : runOps env ops initGlobals (rfbNewClient width height first trueColour) = some res)
    (hd : res.2.2 < CARD32_MOD) :
    (pushSeqNums res.1).Pairwise (fun a b => a < b)
    ∧ (∀ x ∈ pullSeqNums res.1, x = 0xFFFFFFFF) := by
  have h := runOps_seqInv env ops _ _ 0 res hrun (seqInv_init width height first trueColour)
  rw [Nat.zero_add] at h
  exact (h.2.2.strict hd).2

/-- Witness for the amended C8: eleven requests, then two scheduler ticks with
drawing in between; the pull update carries `0xFFFFFFFF`, the two push updates
carry `1` and `3`. -/
theorem C8_push_seqNums_strictly_increasing_witness :
    ∃ res, runOps envOk runPullThenPush initGlobals (rfbNewClient 4 1 true true) = some res
      ∧ res.2.2 < CARD32_MOD
      ∧ pushSeqNums res.1 = [1, 3] ∧ pullSeqNums res.1 = [4294967295]
      ∧ (pushSeqNums res.1).Pairwise (fun a b => a < b)
      ∧ (∀ x ∈ pullSeqNums res.1, x = 0xFFFFFFFF) := by
  have hval : (runOps envOk runPullThenPush initGlobals (rfbNewClient 4 1 true true)).map
        (fun s => (pushSeqNums s.1, pullSeqNums s.1, s.2.2))
      = some ([1, 3], [4294967295], 4) := by decide!
  cases hres : runOps envOk runPullThenPush initGlobals (rfbNewClient 4 1 true true) with
  | none => rw [hres] at hval; exact absurd hval (by simp)
  | some res =>
    rw [hres] at hval
    simp only [Option.map_some', Option.some.injEq, Prod.mk.injEq] at hval
    have hd : res.2.2 < CARD32_MOD := by rw [hval.2.2]; decide
    exact ⟨res, rfl, hd, hval.1, hval.2.1,
      C8_push_seqNums_strictly_increasing envOk runPullThenPush 4 1 true true res hres hd⟩

theorem runOps_frames (env : Env) (rest : List Op) (cl : rfbClientRec) :
    ∀ (k : Nat) (g : Globals), g.seqNumCounter < CARD32_MOD → g.frameSeqNumCounter < CARD32_MOD →
      runOps env (List.replicate k Op.frame ++ rest) g cl
        = (runOps env rest
            { g with seqNumCounter := (g.seqNumCounter + k) % CARD32_MOD,
                     frameSeqNumCounter := (g.frameSeqNumCounter + k) % CARD32_MOD } cl).map
            (fun s => (s.1, s.2.1, k + s.2.2)) := by
  intro k
  induction k with
  | zero =>
    intro g hc hf
    simp only [List.replicate_zero, List.nil_append, Nat.add_zero, Nat.zero_add,
      Nat.mod_eq_of_lt hc, Nat.mod_eq_of_lt hf]
    cases runOps env rest g cl <;> rfl
  | succ k ih =>
    intro g hc hf
    have hM : 0 < CARD32_MOD := by decide
    rw [List.replicate_succ, List.cons_append, runOps]
    simp only [Op.step]
    rw [ih (newFrame g) (Nat.mod_lt _ hM) (Nat.mod_lt _ hM)]
    have e1 : ((newFrame g).seqNumCounter + k) % CARD32_MOD
        = (g.seqNumCounter + (k + 1)) % CARD32_MOD := by
      simp only [newFrame]
      rw [Nat.add_mod, Nat.mod_mod, ← Nat.add_mod]
      congr 1
      omega
    have e2 : ((newFrame g).frameSeqNumCounter + k) % CARD32_MOD
        = (g.frameSeqNumCounter + (k + 1)) % CARD32_MOD := by
      simp only [newFrame]
      rw [Nat.add_mod, Nat.mod_mod, ← Nat.add_mod]
      congr 1
      omega
    rw [e1, e2]
    simp only [newFrame]
    cases runOps env rest _ cl with
    | none => rfl
    | some s => simp only [Option.map_some', Option.some.injEq, Prod.mk.injEq, true_and]; omega

/-- C9, counterexample. After `2^32 - 1` frame starts `seqNumCounter` holds
`0xFFFFFFFF`; the next box handed to `sendRegion` is queued with that sequence
number and the counter wraps to `0`, so the box after it is queued with sequence
number `0` behind it: the queue holds `[4294967295, 0]` from head to tail. -/
theorem C9_queue_seqNums_wrap :
    (runOps envOk runWrap initGlobals (rfbNewClient 4 1 true true)).map
        (fun s => s.1.srRec.map (fun e => e.seqNum)) = some [4294967295, 0]
    ∧ ¬ ([4294967295, 0] : List Nat).Pairwise (fun a b => a < b) := by
  refine ⟨?_, by decide⟩
  rw [runWrap, runOps_frames envOk _ _ 4294967295 initGlobals (by decide) (by decide),
    Option.map_map]
  decide

/-- C9, amended. After any run of operations from the initial state (updates
built, boxes sent, acks, retransmit scans, region subtractions) in which
`seqNumCounter` was advanced fewer than `2^32` times, the sequence numbers of
the queue entries are strictly increasing from head to tail. -/
theorem C9_queue_seqNums_strictly_increasing (env : Env) (ops : List Op) (width height : Int)
    (first trueColour : Bool) (res : Globals × rfbClientRec × Nat)
    (hrun : runOps env ops initGlobals (rfbNewClient width height first trueColour) = some res)
    (hd : res.2.2 < CARD32_MOD) :
    (res.1.srRec.map (fun e => e.seqNum)).Pairwise (fun a b => a < b) := by
  have h := runOps_seqInv env ops _ _ 0 res hrun (seqInv_init width height first trueColour)
  rw [Nat.zero_add] at h
  exact (h.2.2.strict hd).1

/-- Witness for the amended C9: two boxes of one frame are sent, the first is
acknowledged, a second frame sends one more box and a region is subtracted;
the queue then holds the sequence numbers `2` and `4`. -/
theorem C9_queue_seqNums_strictly_increasing_witness :
    ∃ res, runOps envOk runQueueOps initGlobals (rfbNewClient 4 1 true true) = some res
      ∧ res.2.2 < CARD32_MOD
      ∧ res.1.srRec.map (fun e => e.seqNum) = [2, 4]
      ∧ (res.1.srRec.map (fun e => e.seqNum)).Pairwise (fun a b => a < b) := by
  have hval : (runOps envOk runQueueOps initGlobals (rfbNewClient 4 1 true true)).map
        (fun s => (s.1.srRec.map (fun e => e.seqNum), s.2.2)) = some ([2, 4], 5) := by decide
  cases hres : runOps envOk runQueueOps initGlobals (rfbNewClient 4 1 true true) with
  | none => rw [hres] at hval; exact absurd hval (by simp)
  | some res =>
    rw [hres] at hval
    simp only [Option.map_some', Option.some.injEq, Prod.mk.injEq] at hval
    have hd : res.2.2 < CARD32_MOD := by rw [hval.2]; decide
    exact ⟨res, rfl, hd, hval.1,
      C9_queue_seqNums_strictly_increasing envOk runQueueOps 4 1 true true res hres hd⟩

/-! ### Frames of the builder -/

theorem bufferOnly_refl (a : Globals) : BufferOnly a a := rfl

theorem bufferOnly_trans {a b c : Globals} (h1 : BufferOnly a b) (h2 : BufferOnly b c) :
    BufferOnly a c := by
  unfold BufferOnly at *
  rw [h1, h2]

theorem clientKept_refl (a : rfbClientRec) : ClientKept a a := rfl

theorem clientKept_trans {a b c : rfbClientRec} (h1 : ClientKept a b) (h2 : ClientKept b c) :
    ClientKept a c := by
  unfold ClientKept at *
  rw [h1, h2]

theorem framed_refl (a : UpdateResult) : Framed a a := ⟨rfl, rfl⟩

theorem framed_trans {a b c : UpdateResult} (h1 : Framed a b) (h2 : Framed b c) : Framed a c :=
  ⟨bufferOnly_trans h1.1 h2.1, clientKept_trans h1.2 h2.2⟩

theorem rfbSendUpdateBuf_bufferOnly (env : Env) (g : Globals) (cl : rfbClientRec) :
    BufferOnly (rfbSendUpdateBuf env g cl).2 g := by
  unfold rfbSendUpdateBuf
  dsimp only
  split_ifs <;> exact rfl

theorem emitBand_bufferOnly (env : Env) (cl : rfbClientRec) (rects : List BoxRec)
    (dx dy x_inc : Int) :
    ∀ (k : Nat) (t : Int) (g : Globals) (out : List CopyRectMsg),
      BufferOnly (emitBand env cl rects dx dy x_inc k t g out).2.1 g := by
  intro k
  induction k with
  | zero =>
    intro t g out
    rw [emitBand]
    exact bufferOnly_refl g
  | succ k ih =>
    intro t g out
    rw [emitBand]
    dsimp only
    split_ifs
    · exact rfbSendUpdateBuf_bufferOnly env g cl
    · refine bufferOnly_trans (ih _ _ _) ?_
      exact bufferOnly_trans rfl (rfbSendUpdateBuf_bufferOnly env g cl)
    · exact bufferOnly_refl g
    · refine bufferOnly_trans (ih _ _ _) ?_
      exact rfl

theorem copyLoop_bufferOnly (env : Env) (cl : rfbClientRec) (rects : List BoxRec)
    (dx dy x_inc y_inc : Int) :
    ∀ (fuel n : Nat) (t : Int) (g : Globals) (out : List CopyRectMsg) res,
      copyLoop env cl rects dx dy x_inc y_inc fuel n t g out = some res →
      BufferOnly res.2.1 g := by
  intro fuel
  induction fuel with
  | zero =>
    intro n t g out res h
    cases n with
    | zero =>
      simp only [copyLoop, Option.some.injEq] at h
      subst h
      exact bufferOnly_refl g
    | succ n => simp [copyLoop] at h
  | succ fuel ih =>
    intro n t g out res h
    cases n with
    | zero =>
      simp only [copyLoop, Option.some.injEq] at h
      subst h
      exact bufferOnly_refl g
    | succ n =>
      rw [copyLoop_succ] at h
      generalize (if x_inc ≠ y_inc then (bandScan rects y_inc t (n + 1) t 0).2.1 - y_inc
        else t) = start at h
      split_ifs at h
      · simp only [Option.some.injEq] at h
        subst h
        exact emitBand_bufferOnly env cl rects dx dy x_inc _ _ g out
      · exact bufferOnly_trans (ih _ _ _ _ _ h)
          (emitBand_bufferOnly env cl rects dx dy x_inc _ _ g out)

theorem rfbSendCopyRegion_bufferOnly (env : Env) (g : Globals) (cl : rfbClientRec)
    (rects : List BoxRec) (dx dy : Int) :
    BufferOnly (rfbSendCopyRegion env g cl rects dx dy).2.1 g := by
  unfold rfbSendCopyRegion
  dsimp only
  split
  · rename_i r hr
    exact copyLoop_bufferOnly env cl rects dx dy _ _ _ _ _ _ _ _ hr
  · exact bufferOnly_refl g

theorem rfbSendLastRectMarker_bufferOnly (env : Env) (g : Globals) (cl : rfbClientRec) :
    BufferOnly (rfbSendLastRectMarker env g cl).2 g := by
  unfold rfbSendLastRectMarker
  dsimp only
  have h := rfbSendUpdateBuf_bufferOnly env g cl
  split_ifs
  · exact h
  · exact bufferOnly_trans rfl h
  · exact bufferOnly_refl g
  · exact rfl

theorem sendCursorShapeStep_framed (env : Env) (b : Bool) (r : UpdateResult) :
    Framed (sendCursorShapeStep env b r).2 r := by
  unfold sendCursorShapeStep
  split_ifs
  · split <;> exact ⟨rfl, rfl⟩
  · exact ⟨rfl, rfl⟩

theorem sendCursorPosStep_framed (env : Env) (b : Bool) (r : UpdateResult) :
    Framed (sendCursorPosStep env b r).2 r := by
  unfold sendCursorPosStep
  split_ifs
  · split <;> exact ⟨rfl, rfl⟩
  · exact ⟨rfl, rfl⟩

theorem sendCopyStep_framed (env : Env) (dx dy : Int) (r : UpdateResult) :
    Framed (sendCopyStep env dx dy r).2 r := by
  unfold sendCopyStep
  dsimp only
  split_ifs
  · exact ⟨rfbSendCopyRegion_bufferOnly env r.g r.cl _ dx dy, rfl⟩
  · exact ⟨rfbSendCopyRegion_bufferOnly env r.g r.cl _ dx dy, rfl⟩
  · exact framed_refl _

theorem sendPixelData_framed (env : Env) (seqNum : Nat) (nUpd : Int) (r : UpdateResult) :
    Framed (sendPixelData env seqNum nUpd r) r := by
  unfold sendPixelData
  dsimp only
  split
  · exact ⟨rfl, rfl⟩
  · rename_i u hu
    have hm : BufferOnly
        (if nUpd = 65535 then
          rfbSendLastRectMarker env { r.g with ublen := u, handleNewBlock := 0 } r.cl
        else (true, { r.g with ublen := u, handleNewBlock := 0 })).2 r.g := by
      split_ifs
      · exact bufferOnly_trans (rfbSendLastRectMarker_bufferOnly env _ r.cl) rfl
      · exact rfl
    generalize (if nUpd = 65535 then
          rfbSendLastRectMarker env { r.g with ublen := u, handleNewBlock := 0 } r.cl
        else (true, { r.g with ublen := u, handleNewBlock := 0 })) = marker at hm
    have hf := bufferOnly_trans (rfbSendUpdateBuf_bufferOnly env marker.2 r.cl) hm
    split_ifs with h1 h2 h3
    · exact ⟨hm, rfl⟩
    · exact ⟨hf, rfl⟩
    · exact ⟨hf, rfl⟩
    · exact ⟨bufferOnly_trans rfl hf, rfl⟩

theorem sendUpdateRest_framed (env : Env) (seqNum : Nat) (cs cp : Bool) (dx dy nUpd : Int)
    (r : UpdateResult) : Framed (sendUpdateRest env seqNum cs cp dx dy nUpd r) r := by
  have a1 := sendCursorShapeStep_framed env cs r
  have a2 := sendCursorPosStep_framed env cp (sendCursorShapeStep env cs r).2
  have a3 := sendCopyStep_framed env dx dy
    (sendCursorPosStep env cp (sendCursorShapeStep env cs r).2).2
  unfold sendUpdateRest
  dsimp only
  split_ifs
  · exact a1
  · exact framed_trans a2 a1
  · exact framed_trans a3 (framed_trans a2 a1)
  · exact framed_trans (sendPixelData_framed env seqNum nUpd _)
      (framed_trans a3 (framed_trans a2 a1))

theorem sendUpdateBody_framed (env : Env) (seqNum : Nat) (cs cp : Bool) (dx dy : Int)
    (r : UpdateResult) : Framed (sendUpdateBody env seqNum cs cp dx dy r) r := by
  unfold sendUpdateBody
  exact framed_trans (sendUpdateRest_framed env seqNum cs cp dx dy _ _) ⟨rfl, rfl⟩

/-- The builder changes nothing but the cursor flag of the screen (in its
first step), the buffer variables of the process and the region accounting,
cursor flags and update counter of the session. -/
theorem builder_framed (env : Env) (g : Globals) (cl : rfbClientRec) (seqNum : Nat) :
    BufferOnly (rfbSendFramebufferUpdate_numBytes env g cl seqNum).g
      { g with cursorIsDrawn := cursorIsDrawnAfter env g cl }
    ∧ ClientKept (rfbSendFramebufferUpdate_numBytes env g cl seqNum).cl cl := by
  unfold rfbSendFramebufferUpdate_numBytes
  dsimp only
  split_ifs with h hm
  · exact ⟨rfl, rfl⟩
  · exact framed_trans (sendUpdateBody_framed env seqNum _ _ _ _ _) ⟨rfl, rfl⟩
  · exact framed_trans (sendUpdateBody_framed env seqNum _ _ _ _ _) ⟨rfl, rfl⟩

/-- C11. After every call of the builder, on each of its paths (the return for
"nothing to send", measure mode, a completed update, a failing encoder or
transport), the copy region and the modified region of the session have no
pixel in common. -/
theorem C11_copy_modified_disjoint (env : Env) (g : Globals) (cl : rfbClientRec)
    (seqNum : Nat) :
    Disjoint (rfbSendFramebufferUpdate env g cl seqNum).cl.copyRegion
      (rfbSendFramebufferUpdate env g cl seqNum).cl.modifiedRegion := by
  unfold rfbSendFramebufferUpdate rfbSendFramebufferUpdate_numBytes
  dsimp only
  split_ifs with h hm
  · exact Finset.sdiff_disjoint
  · obtain ⟨h1, h2, -⟩ := sendUpdateBody_same env seqNum _ _ _ _ _
    rw [h1, h2]
    exact Finset.disjoint_empty_left _
  · obtain ⟨h1, h2, -⟩ := sendUpdateBody_same env seqNum _ _ _ _ _
    rw [h1, h2]
    exact Finset.sdiff_disjoint

/-! ### The handler of `FramebufferUpdateRequest` -/

/-- C12, counterexample. The primary client sends non-incremental requests for
the whole `4 × 1` screen.  After ten of them `send_count` is `10` and the
requested and modified regions are empty (each request was answered).  The
eleventh request only sets `canSend`: afterwards the requested region and the
modified region are still empty although the requested rectangle is not, and
no eleventh update was built. -/
theorem C12_eleventh_request_not_recorded :
    (runOps envOk (List.replicate 10 (Op.request requestAllFresh)) initGlobals
        (rfbNewClient 4 1 true true)).map
        (fun s => (s.1.send_count, s.2.1.requestedRegion, s.2.1.modifiedRegion,
          s.1.sentUpdates.length))
      = some (10, ∅, ∅, 10)
    ∧ (runOps envOk (List.replicate 11 (Op.request requestAllFresh)) initGlobals
        (rfbNewClient 4 1 true true)).map
        (fun s => (s.1.canSend, s.2.1.requestedRegion, s.2.1.modifiedRegion,
          s.1.sentUpdates.length))
      = some (true, ∅, ∅, 10)
    ∧ REGION_INIT ⟨0, 0, 4, 1⟩ ≠ ∅ := by
  decide

/-- C12, amended. For a request that the switch to server push does not
swallow (the client is not the primary client, or this is one of its first ten
requests), with `rect` the requested rectangle: there is a session state `cl3`
with `requested = requested ∪ rect` that the handler either leaves behind or
hands to the builder.  Unless the colour map could not be set, a
non-incremental request has in `cl3` also `modified = modified ∪ rect` and
`copy = copy \ rect`, an incremental one the old `modified` and `copy`, and the
builder runs on `cl3` exactly when an update is pending there.  When the colour
map could not be set only `requested` was extended. -/
theorem C12_request_regions (env : Env) (g : Globals) (cl : rfbClientRec)
    (msg : rfbFramebufferUpdateRequestMsg)
    (hsw : ¬ (cl.isOctopus = true ∧ g.send_count + 1 > 10)) :
    ∃ (g1 : Globals) (cl3 : rfbClientRec),
      cl3.requestedRegion
        = cl.requestedRegion
            ∪ REGION_INIT ⟨msg.x, msg.y, (msg.x : Int) + msg.w, (msg.y : Int) + msg.h⟩
      ∧ (msg.incremental = 0 ∧ colourMapFailed env cl
            (REGION_INIT ⟨msg.x, msg.y, (msg.x : Int) + msg.w, (msg.y : Int) + msg.h⟩) = false →
          cl3.modifiedRegion
            = cl.modifiedRegion
                ∪ REGION_INIT ⟨msg.x, msg.y, (msg.x : Int) + msg.w, (msg.y : Int) + msg.h⟩
          ∧ cl3.copyRegion
            = cl.copyRegion
                \ REGION_INIT ⟨msg.x, msg.y, (msg.x : Int) + msg.w, (msg.y : Int) + msg.h⟩)
      ∧ (msg.incremental ≠ 0 ∨ colourMapFailed env cl
            (REGION_INIT ⟨msg.x, msg.y, (msg.x : Int) + msg.w, (msg.y : Int) + msg.h⟩) = true →
          cl3.modifiedRegion = cl.modifiedRegion ∧ cl3.copyRegion = cl.copyRegion)
      ∧ rfbProcessClientNormalMessage_FramebufferUpdateRequest env g cl msg
          = (if colourMapFailed env cl
                (REGION_INIT ⟨msg.x, msg.y, (msg.x : Int) + msg.w, (msg.y : Int) + msg.h⟩) = false
                ∧ env.FB_UPDATE_PENDING g1 cl3 = true then
              ((rfbSendFramebufferUpdate env g1 cl3 0xFFFFFFFF).g,
               (rfbSendFramebufferUpdate env g1 cl3 0xFFFFFFFF).cl)
            else (g1, cl3)) := by
  have hsw1 : (cl.isOctopus && decide
      ((if cl.isOctopus then { g with send_count := g.send_count + 1 } else g).send_count > 10))
      = false := by
    cases hO : cl.isOctopus
    · rfl
    · simp only [hO, if_true, Bool.true_and, decide_eq_false_iff_not]
      intro h
      exact hsw ⟨hO, h⟩
  have hreq : ∀ r : Region, (addRequested cl r).requestedRegion = cl.requestedRegion ∪ r
      ∧ (addRequested cl r).modifiedRegion = cl.modifiedRegion
      ∧ (addRequested cl r).copyRegion = cl.copyRegion := by
    intro r
    unfold addRequested
    split_ifs <;> exact ⟨rfl, rfl, rfl⟩
  unfold rfbProcessClientNormalMessage_FramebufferUpdateRequest
  dsimp only
  rw [hsw1]
  simp only [Bool.false_eq_true, if_false]
  generalize (if cl.isOctopus then { g with send_count := g.send_count + 1 } else g) = g1
  generalize hbox : REGION_INIT ⟨msg.x, msg.y, (msg.x : Int) + msg.w, (msg.y : Int) + msg.h⟩ = rect
  obtain ⟨q1, q2, q3⟩ := hreq rect
  cases hf : colourMapFailed env cl rect
  · refine ⟨g1, markNonIncremental (addRequested cl rect) msg.incremental rect, ?_, ?_, ?_, ?_⟩
    · unfold markNonIncremental
      split_ifs <;> exact q1
    · intro h
      unfold markNonIncremental
      rw [if_pos h.1]
      simp only [REGION_UNION, REGION_SUBTRACT, q2, q3]
      trivial
    · intro h
      rcases h with h | h
      · unfold markNonIncremental
        rw [if_neg h]
        exact ⟨q2, q3⟩
      · cases h
    · simp only [Bool.false_eq_true, if_false, true_and]
  · refine ⟨g1, addRequested cl rect, q1, ?_, ?_, ?_⟩
    · intro h
      cases h.2
    · intro _
      exact ⟨q2, q3⟩
    · simp

/-- Witness for the amended C12: the first request of the primary client, a
non-incremental one for the whole `4 × 1` screen. -/
theorem C12_request_regions_witness :
    ∃ (g1 : Globals) (cl3 : rfbClientRec),
      cl3.requestedRegion
        = clIdle.requestedRegion
            ∪ REGION_INIT ⟨requestAllFresh.x, requestAllFresh.y,
                (requestAllFresh.x : Int) + requestAllFresh.w,
                (requestAllFresh.y : Int) + requestAllFresh.h⟩
      ∧ (requestAllFresh.incremental = 0 ∧ colourMapFailed envOk clIdle
            (REGION_INIT ⟨requestAllFresh.x, requestAllFresh.y,
                (requestAllFresh.x : Int) + requestAllFresh.w,
                (requestAllFresh.y : Int) + requestAllFresh.h⟩) = false →
          cl3.modifiedRegion
            = clIdle.modifiedRegion
                ∪ REGION_INIT ⟨requestAllFresh.x, requestAllFresh.y,
                    (requestAllFresh.x : Int) + requestAllFresh.w,
                    (requestAllFresh.y : Int) + requestAllFresh.h⟩
          ∧ cl3.copyRegion
            = clIdle.copyRegion
                \ REGION_INIT ⟨requestAllFresh.x, requestAllFresh.y,
                    (requestAllFresh.x : Int) + requestAllFresh.w,
                    (requestAllFresh.y : Int) + requestAllFresh.h⟩)
      ∧ (requestAllFresh.incremental ≠ 0 ∨ colourMapFailed envOk clIdle
            (REGION_INIT ⟨requestAllFresh.x, requestAllFresh.y,
                (requestAllFresh.x : Int) + requestAllFresh.w,
                (requestAllFresh.y : Int) + requestAllFresh.h⟩) = true →
          cl3.modifiedRegion = clIdle.modifiedRegion ∧ cl3.copyRegion = clIdle.copyRegion)
      ∧ rfbProcessClientNormalMessage_FramebufferUpdateRequest envOk initGlobals clIdle
            requestAllFresh
          = (if colourMapFailed envOk clIdle
                (REGION_INIT ⟨requestAllFresh.x, requestAllFresh.y,
                    (requestAllFresh.x : Int) + requestAllFresh.w,
                    (requestAllFresh.y : Int) + requestAllFresh.h⟩) = false
                ∧ envOk.FB_UPDATE_PENDING g1 cl3 = true then
              ((rfbSendFramebufferUpdate envOk g1 cl3 0xFFFFFFFF).g,
               (rfbSendFramebufferUpdate envOk g1 cl3 0xFFFFFFFF).cl)
            else (g1, cl3)) :=
  C12_request_regions envOk initGlobals clIdle requestAllFresh (by decide)

/-! ### The tuned variables: retransmit timeout, push interval, quality level -/

theorem sameTuning_trans {g2 g1 g : Globals} {cl2 cl1 cl : rfbClientRec}
    (h1 : SameTuning g2 cl2 g1 cl1) (h2 : SameTuning g1 cl1 g cl) : SameTuning g2 cl2 g cl :=
  ⟨h1.1.trans h2.1, h1.2.1.trans h2.2.1, h1.2.2.trans h2.2.2⟩

theorem builder_tuning (env : Env) (g : Globals) (cl : rfbClientRec) (seqNum : Nat) :
    SameTuning (rfbSendFramebufferUpdate_numBytes env g cl seqNum).g
      (rfbSendFramebufferUpdate_numBytes env g cl seqNum).cl g cl := by
  obtain ⟨h1, h2⟩ := builder_framed env g cl seqNum
  unfold BufferOnly at h1
  unfold ClientKept at h2
  refine ⟨?_, ?_, ?_⟩
  · rw [h1]
  · rw [h1]
  · rw [h2]

theorem addRequested_tuning (g : Globals) (cl : rfbClientRec) (r : Region) :
    SameTuning g (addRequested cl r) g cl := by
  unfold addRequested
  split_ifs <;> exact ⟨rfl, rfl, rfl⟩

theorem measureRegion_tuning (env : Env) (g : Globals) (cl : rfbClientRec) (box : BoxRec) :
    SameTuning (measureRegion env g cl box).2.1 (measureRegion env g cl box).2.2 g cl := by
  unfold measureRegion
  dsimp only
  split_ifs
  · exact addRequested_tuning g cl _
  · have h := builder_tuning env g { addRequested cl (REGION_INIT box) with measuring := true }
      0xFFFFFFFF
    have h2 := addRequested_tuning g cl (REGION_INIT box)
    exact ⟨h.1, h.2.1, h.2.2.trans h2.2.2⟩

theorem sendRegion_tuning (env : Env) (g : Globals) (cl : rfbClientRec) (box : BoxRec) :
    SameTuning (sendRegion env g cl box).1 (sendRegion env g cl box).2 g cl := by
  unfold sendRegion
  dsimp only
  split_ifs
  · exact addRequested_tuning g cl _
  · have h := builder_tuning env
      { g with sent_count := g.sent_count + 1,
               seqNumCounter := (g.seqNumCounter + 1) % CARD32_MOD }
      { addRequested cl (REGION_INIT box) with useUdp := true } g.seqNumCounter
    have h2 := addRequested_tuning g cl (REGION_INIT box)
    exact ⟨h.1, h.2.1, h.2.2.trans h2.2.2⟩

/-- Induction principle for `recursiveSend`: a property of the state that
`measureRegion`, the addition to `tickSentBytes` and `sendRegion` keep is kept
by `recursiveSend`. -/
theorem recursiveSend_keeps (env : Env) (P : Globals → rfbClientRec → Prop)
    (hmeas : ∀ g cl box, P g cl →
      P (measureRegion env g cl box).2.1 (measureRegion env g cl box).2.2)
    (htick : ∀ g cl (n : Int), P g cl → P { g with tickSentBytes := n } cl)
    (hsend : ∀ g cl box, P g cl → P (sendRegion env g cl box).1 (sendRegion env g cl box).2) :
    ∀ (fuel : Nat) (g : Globals) (cl : rfbClientRec) (box : BoxRec) res,
      recursiveSend env fuel g cl box = some res → P g cl → P res.1 res.2.1 := by
  intro fuel
  induction fuel with
  | zero =>
    intro g cl box res h _
    simp [recursiveSend] at h
  | succ fuel ih =>
    intro g cl box res h hinv
    have hm := hmeas g cl box hinv
    rw [recursiveSend] at h
    dsimp only at h
    split_ifs at h with hsmall
    · simp only [Option.some.injEq] at h
      subst h
      exact hsend _ _ box (htick _ _ _ hm)
    · have hloop : ∀ (strips : List BoxRec) (acc : Option (Globals × rfbClientRec × List BoxRec))
          res1,
          (∀ st, acc = some st → P st.1 st.2.1) →
          strips.foldl
            (fun acc strip =>
              match acc with
              | none => none
              | some st =>
                match recursiveSend env fuel st.1 st.2.1 strip with
                | none => none
                | some st1 => some (st1.1, st1.2.1, st.2.2 ++ st1.2.2)) acc = some res1 →
          P res1.1 res1.2.1 := by
        intro strips
        induction strips with
        | nil =>
          intro acc res1 hacc hfold
          exact hacc res1 hfold
        | cons strip rest ihs =>
          intro acc res1 hacc hfold
          rw [List.foldl_cons] at hfold
          refine ihs _ res1 ?_ hfold
          intro st hst
          cases acc with
          | none => simp at hst
          | some st0 =>
            dsimp only at hst
            cases hrec : recursiveSend env fuel st0.1 st0.2.1 strip with
            | none =>
              rw [hrec] at hst
              simp at hst
            | some st1 =>
              rw [hrec] at hst
              simp only [Option.some.injEq] at hst
              subst hst
              exact ih st0.1 st0.2.1 strip st1 hrec (hacc st0 rfl)
      refine hloop _ _ res ?_ h
      intro st hst
      simp only [Option.some.injEq] at hst
      subst hst
      exact hm

theorem recursiveSend_tuning (env : Env) (fuel : Nat) (g : Globals) (cl : rfbClientRec)
    (box : BoxRec) (res : Globals × rfbClientRec × List BoxRec)
    (h : recursiveSend env fuel g cl box = some res) : SameTuning res.1 res.2.1 g cl := by
  refine recursiveSend_keeps env (fun g1 cl1 => SameTuning g1 cl1 g cl) ?_ ?_ ?_ fuel g cl box
    res h ⟨rfl, rfl, rfl⟩
  · intro g1 cl1 box1 h1
    exact sameTuning_trans (measureRegion_tuning env g1 cl1 box1) h1
  · intro g1 cl1 n h1
    exact h1
  · intro g1 cl1 box1 h1
    exact sameTuning_trans (sendRegion_tuning env g1 cl1 box1) h1

theorem request_tuning (env : Env) (g : Globals) (cl : rfbClientRec)
    (msg : rfbFramebufferUpdateRequestMsg) :
    SameTuning (rfbProcessClientNormalMessage_FramebufferUpdateRequest env g cl msg).1
      (rfbProcessClientNormalMessage_FramebufferUpdateRequest env g cl msg).2 g cl := by
  have hg1 : SameTuning (if cl.isOctopus then { g with send_count := g.send_count + 1 } else g)
      cl g cl := by
    split_ifs <;> exact ⟨rfl, rfl, rfl⟩
  unfold rfbProcessClientNormalMessage_FramebufferUpdateRequest
  dsimp only
  generalize (if cl.isOctopus then { g with send_count := g.send_count + 1 } else g) = g1 at hg1
  have hmark : ∀ r, SameTuning g1 (markNonIncremental (addRequested cl r) msg.incremental r)
      g cl := by
    intro r
    have h2 := addRequested_tuning g cl r
    unfold markNonIncremental
    split_ifs
    · exact ⟨hg1.1, hg1.2.1, h2.2.2⟩
    · exact ⟨hg1.1, hg1.2.1, h2.2.2⟩
  split_ifs
  · exact hg1
  · exact ⟨hg1.1, hg1.2.1, (addRequested_tuning g cl _).2.2⟩
  · exact sameTuning_trans (builder_tuning env g1 _ _) (hmark _)
  · exact hmark _



theorem rttSample_tuning (g : Globals) (r : ℚ) :
    (rttSample g r).serverPushInterval = g.serverPushInterval
    ∧ (rttSample g r).retransmitTimeout = g.retransmitTimeout := by
  unfold rttSample
  split_ifs <;> exact ⟨rfl, rfl⟩


theorem setRetransmitTimeout_tuning (g : Globals) :
    (setRetransmitTimeout g).serverPushInterval = g.serverPushInterval
    ∧ 50 ≤ (setRetransmitTimeout g).retransmitTimeout := by
  unfold setRetransmitTimeout
  refine ⟨rfl, ?_⟩
  dsimp only
  split_ifs <;> omega


theorem throughputSample_tuning (g : Globals) (seqNum : Nat) (numBytes : Int)
    (timeCurrent : Nat) :
    (throughputSample g seqNum numBytes timeCurrent).serverPushInterval = g.serverPushInterval
    ∧ (throughputSample g seqNum numBytes timeCurrent).retransmitTimeout
        = g.retransmitTimeout := by
  unfold throughputSample
  dsimp only
  split_ifs <;> exact ⟨rfl, rfl⟩


theorem ack_tuning (env : Env) (g : Globals) (seqNum : Nat) :
    (rfbProcessClientNormalMessage_FramebufferUpdateAck env g seqNum).serverPushInterval
        = g.serverPushInterval
    ∧ ((rfbProcessClientNormalMessage_FramebufferUpdateAck env g seqNum).retransmitTimeout
          = g.retransmitTimeout
        ∨ 50 ≤ (rfbProcessClientNormalMessage_FramebufferUpdateAck env g seqNum).retransmitTimeout)
    ∧ ((srRecDeleteSeqNum g seqNum).1.1 ≠ 0 →
        50 ≤ (rfbProcessClientNormalMessage_FramebufferUpdateAck env g seqNum).retransmitTimeout)
    := by
  unfold rfbProcessClientNormalMessage_FramebufferUpdateAck
  dsimp only
  by_cases ht : (srRecDeleteSeqNum g seqNum).1.1 ≠ 0
  · rw [if_pos ht]
    dsimp only
    have h3 := throughputSample_tuning
      (setRetransmitTimeout (rttSample (srRecDeleteSeqNum g seqNum).2
        ((env.GetTimeInMillis (srRecDeleteSeqNum g seqNum).2 : ℚ)
          - ((srRecDeleteSeqNum g seqNum).1.1 : ℚ))))
      seqNum (srRecDeleteSeqNum g seqNum).1.2 (env.GetTimeInMillis (srRecDeleteSeqNum g seqNum).2)
    have h2 := setRetransmitTimeout_tuning (rttSample (srRecDeleteSeqNum g seqNum).2
        ((env.GetTimeInMillis (srRecDeleteSeqNum g seqNum).2 : ℚ)
          - ((srRecDeleteSeqNum g seqNum).1.1 : ℚ)))
    have h1 := rttSample_tuning (srRecDeleteSeqNum g seqNum).2
        ((env.GetTimeInMillis (srRecDeleteSeqNum g seqNum).2 : ℚ)
          - ((srRecDeleteSeqNum g seqNum).1.1 : ℚ))
    rw [h3.1, h3.2, h2.1, h1.1]
    exact ⟨rfl, Or.inr h2.2, fun _ => h2.2⟩
  · rw [if_neg ht]
    exact ⟨rfl, Or.inl rfl, fun h => absurd h ht⟩


theorem longerInterval_bounds (v : Nat) (h : 42 ≤ v ∧ v ≤ 1000) :
    42 ≤ longerInterval v ∧ longerInterval v ≤ 1000 := by
  have hm : (v + 5) % ULONG_MOD = v + 5 := by
    apply Nat.mod_eq_of_lt
    unfold ULONG_MOD
    omega
  unfold longerInterval
  rw [hm]
  clear hm
  split_ifs <;> omega

theorem shorterInterval_bounds (v : Nat) (h : 42 ≤ v ∧ v ≤ 1000) :
    42 ≤ shorterInterval v ∧ shorterInterval v ≤ 1000 := by
  have hlt : v < ULONG_MOD := by
    unfold ULONG_MOD
    omega
  have h5 : 5 ≤ v := by omega
  unfold shorterInterval
  rw [ulongSub_eq v 5 hlt h5]
  clear hlt
  split_ifs <;> omega

theorem rampDown_tuning (g : Globals) (cl : rfbClientRec) (now : Nat) :
    (rampDown g cl now).1.retransmitTimeout = g.retransmitTimeout
    ∧ (42 ≤ g.serverPushInterval ∧ g.serverPushInterval ≤ 1000 →
        42 ≤ (rampDown g cl now).1.serverPushInterval
        ∧ (rampDown g cl now).1.serverPushInterval ≤ 1000)
    ∧ ((rampDown g cl now).2.tightQualityLevel = cl.tightQualityLevel
        ∨ (rampDown g cl now).2.tightQualityLevel = max 1 (cl.tightQualityLevel - 1)) := by
  by_cases hq : qualityPercentage cl ≥ intervalPercentage g
  · rw [rampDown, if_pos hq]
    refine ⟨rfl, fun h => h, Or.inr ?_⟩
    dsimp only
    split_ifs <;> omega
  · rw [rampDown, if_neg hq]
    exact ⟨rfl, longerInterval_bounds g.serverPushInterval, Or.inl rfl⟩

theorem rampUp_tuning (g : Globals) (cl : rfbClientRec) (now : Nat) :
    (rampUp g cl now).1.retransmitTimeout = g.retransmitTimeout
    ∧ (42 ≤ g.serverPushInterval ∧ g.serverPushInterval ≤ 1000 →
        42 ≤ (rampUp g cl now).1.serverPushInterval
        ∧ (rampUp g cl now).1.serverPushInterval ≤ 1000)
    ∧ ((rampUp g cl now).2.tightQualityLevel = cl.tightQualityLevel
        ∨ (rampUp g cl now).2.tightQualityLevel = min 3 (cl.tightQualityLevel + 1)) := by
  by_cases hq : qualityPercentage cl ≤ intervalPercentage g
  · rw [rampUp, if_pos hq]
    refine ⟨rfl, fun h => h, Or.inr ?_⟩
    dsimp only
    split_ifs <;> omega
  · rw [rampUp, if_neg hq]
    have aux : ∀ v : Nat,
        (({ g with serverPushInterval := v, lastChange := now } : Globals), cl).1.retransmitTimeout
          = g.retransmitTimeout
        ∧ (({ g with serverPushInterval := v, lastChange := now } : Globals), cl).1.serverPushInterval
          = v
        ∧ (({ g with serverPushInterval := v, lastChange := now } : Globals), cl).2.tightQualityLevel
          = cl.tightQualityLevel := fun v => ⟨rfl, rfl, rfl⟩
    obtain ⟨a1, a2, a3⟩ := aux (shorterInterval g.serverPushInterval)
    refine ⟨a1, ?_, Or.inl a3⟩
    rw [a2]
    exact shorterInterval_bounds g.serverPushInterval

/-- What a controller step does to the tuned variables: the retransmit
timeout stays, the push interval stays within `[42, 1000]`, and the quality
level stays, or is lowered by one (not below 1), or raised by one (not above 3). -/
theorem adaptStep_tuning (g : Globals) (cl : rfbClientRec) (now : Nat) :
    (adaptStep g cl now).1.retransmitTimeout = g.retransmitTimeout
    ∧ (42 ≤ g.serverPushInterval ∧ g.serverPushInterval ≤ 1000 →
        42 ≤ (adaptStep g cl now).1.serverPushInterval
        ∧ (adaptStep g cl now).1.serverPushInterval ≤ 1000)
    ∧ ((adaptStep g cl now).2.tightQualityLevel = cl.tightQualityLevel
        ∨ (adaptStep g cl now).2.tightQualityLevel = max 1 (cl.tightQualityLevel - 1)
        ∨ (adaptStep g cl now).2.tightQualityLevel = min 3 (cl.tightQualityLevel + 1)) := by
  have hd := rampDown_tuning (tickThroughput g now) cl now
  have hu := rampUp_tuning (tickThroughput g now) cl now
  unfold adaptStep adaptRate
  split_ifs
  · exact ⟨hd.1, hd.2.1, hd.2.2.elim Or.inl (fun h => Or.inr (Or.inl h))⟩
  · exact ⟨rfl, fun h => h, Or.inl rfl⟩
  · exact ⟨hu.1, hu.2.1, hu.2.2.elim Or.inl (fun h => Or.inr (Or.inr h))⟩
  · exact ⟨rfl, fun h => h, Or.inl rfl⟩
  · exact ⟨rfl, fun h => h, Or.inl rfl⟩
  · exact ⟨rfl, fun h => h, Or.inl rfl⟩


/-- The scheduler tick changes the tuned variables only in its controller step. -/
theorem rfbServerPushClient_tuning (env : Env) (fuel : Nat) (g : Globals) (cl : rfbClientRec)
    (s : Globals × rfbClientRec × List BoxRec) (h : rfbServerPushClient env fuel g cl = some s) :
    SameTuning s.1 s.2.1 (adaptStep g cl (env.GetTimeInMillis g)).1
      (adaptStep g cl (env.GetTimeInMillis g)).2 := by
  unfold rfbServerPushClient at h
  dsimp only at h
  generalize adaptStep g cl (env.GetTimeInMillis g) = a at h
  split_ifs at h
  · simp only [Option.some.injEq] at h
    subst h
    exact ⟨rfl, rfl, rfl⟩
  · cases hrec : recursiveSend env fuel
        (newFrame (srRecSendRegion (srRecSetupRetransmit env a.1 a.2).1
          (srRecSetupRetransmit env a.1 a.2).2.modifiedRegion))
        (srRecSetupRetransmit env a.1 a.2).2
        (regionExtents (srRecSetupRetransmit env a.1 a.2).2.modifiedRegion) with
    | none =>
      rw [hrec] at h
      simp at h
    | some r =>
      rw [hrec] at h
      simp only [Option.some.injEq] at h
      subst h
      have := recursiveSend_tuning env fuel _ _ _ r hrec
      exact ⟨this.1, this.2.1, this.2.2⟩
  · simp only [Option.some.injEq] at h
    subst h
    exact ⟨rfl, rfl, rfl⟩
  · simp only [Option.some.injEq] at h
    subst h
    exact ⟨rfl, rfl, rfl⟩


/-- One operation of a run and the tuned process-wide variables: the
retransmit timeout stays or is at least 50 afterwards, and a push interval
within `[42, 1000]` stays there. -/
theorem step_tuning (env : Env) (op : Op) (g : Globals) (cl : rfbClientRec)
    (s : Globals × rfbClientRec × Nat) (h : op.step env g cl = some s) :
    (s.1.retransmitTimeout = g.retransmitTimeout ∨ 50 ≤ s.1.retransmitTimeout)
    ∧ (42 ≤ g.serverPushInterval ∧ g.serverPushInterval ≤ 1000 →
        42 ≤ s.1.serverPushInterval ∧ s.1.serverPushInterval ≤ 1000) := by
  cases op with
  | request msg =>
    simp only [Op.step, Option.some.injEq] at h
    subst h
    have := request_tuning env g cl msg
    exact ⟨Or.inl this.2.1, fun hb => by rw [this.1]; exact hb⟩
  | ack seqNum =>
    simp only [Op.step, Option.some.injEq] at h
    subst h
    have := ack_tuning env g seqNum
    exact ⟨this.2.1, fun hb => by rw [this.1]; exact hb⟩
  | push fuel =>
    simp only [Op.step] at h
    cases hp : rfbServerPushClient env fuel g cl with
    | none =>
      rw [hp] at h
      simp at h
    | some r =>
      rw [hp] at h
      simp only [Option.some.injEq] at h
      subst h
      have h1 := rfbServerPushClient_tuning env fuel g cl r hp
      have h2 := adaptStep_tuning g cl (env.GetTimeInMillis g)
      refine ⟨Or.inl (h1.2.1.trans h2.1), fun hb => ?_⟩
      show 42 ≤ r.1.serverPushInterval ∧ r.1.serverPushInterval ≤ 1000
      rw [h1.1]
      exact h2.2.1 hb
  | measure box =>
    simp only [Op.step, Option.some.injEq] at h
    subst h
    have := measureRegion_tuning env g cl box
    exact ⟨Or.inl this.2.1, fun hb => by rw [this.1]; exact hb⟩
  | send box =>
    simp only [Op.step, Option.some.injEq] at h
    subst h
    have := sendRegion_tuning env g cl box
    exact ⟨Or.inl this.2.1, fun hb => by rw [this.1]; exact hb⟩
  | frame =>
    simp only [Op.step, Option.some.injEq] at h
    subst h
    exact ⟨Or.inl rfl, fun hb => hb⟩
  | setupRetransmit =>
    simp only [Op.step, Option.some.injEq] at h
    subst h
    exact ⟨Or.inl rfl, fun hb => hb⟩
  | subtract region =>
    simp only [Op.step, Option.some.injEq] at h
    subst h
    exact ⟨Or.inl rfl, fun hb => hb⟩
  | deleteSeqNum seqNum =>
    simp only [Op.step, Option.some.injEq] at h
    subst h
    exact ⟨Or.inl rfl, fun hb => hb⟩
  | external cl1 =>
    simp only [Op.step, Option.some.injEq] at h
    subst h
    exact ⟨Or.inl rfl, fun hb => hb⟩


theorem runOps_tuning (env : Env) :
    ∀ (ops : List Op) (g : Globals) (cl : rfbClientRec) (res : Globals × rfbClientRec × Nat),
      runOps env ops g cl = some res →
      (res.1.retransmitTimeout = g.retransmitTimeout ∨ 50 ≤ res.1.retransmitTimeout)
      ∧ (50 ≤ g.retransmitTimeout → 50 ≤ res.1.retransmitTimeout)
      ∧ (42 ≤ g.serverPushInterval ∧ g.serverPushInterval ≤ 1000 →
          42 ≤ res.1.serverPushInterval ∧ res.1.serverPushInterval ≤ 1000) := by
  intro ops
  induction ops with
  | nil =>
    intro g cl res h
    simp only [runOps, Option.some.injEq] at h
    subst h
    exact ⟨Or.inl rfl, fun hb => hb, fun hb => hb⟩
  | cons op ops ih =>
    intro g cl res h
    rw [runOps] at h
    cases hs : op.step env g cl with
    | none =>
      rw [hs] at h
      simp at h
    | some s =>
      rw [hs] at h
      dsimp only at h
      cases hr : runOps env ops s.1 s.2.1 with
      | none =>
        rw [hr] at h
        simp at h
      | some s1 =>
        rw [hr] at h
        simp only [Option.some.injEq] at h
        subst h
        have h1 := step_tuning env op g cl s hs
        have h2 := ih s.1 s.2.1 s1 hr
        refine ⟨?_, ?_, fun hb => h2.2.2 (h1.2 hb)⟩
        · show s1.1.retransmitTimeout = g.retransmitTimeout ∨ 50 ≤ s1.1.retransmitTimeout
          rcases h2.1 with e2 | e2
          · rcases h1.1 with e1 | e1
            · exact Or.inl (e2.trans e1)
            · exact Or.inr (by rw [e2]; exact e1)
          · exact Or.inr e2
        · intro hb
          show 50 ≤ s1.1.retransmitTimeout
          apply h2.2.1
          rcases h1.1 with e1 | e1
          · rw [e1]; exact hb
          · exact e1


/-- C16, counterexample. In the initial state `retransmitTimeout` is `25`, and
it is still `25` after a run of eleven update requests and two scheduler ticks
(no ack was processed). -/
theorem C16_initial_timeout_is_25 :
    initGlobals.retransmitTimeout = 25
    ∧ ¬ (50 ≤ initGlobals.retransmitTimeout)
    ∧ (runOps envOk runPullThenPush initGlobals (rfbNewClient 4 1 true true)).map
        (fun s => s.1.retransmitTimeout) = some 25 := by
  decide!

/-- C16, amended. Over any run of operations (requests, acks, scheduler ticks
and the functions they are built from): `retransmitTimeout` keeps its value or
is at least 50 afterwards; once it is at least 50 it stays so; and it is at
least 50 after every run that starts with the processing of an ack that
matches a queue entry.  The initial value `25` is only replaced by such an ack. -/
theorem C16_retransmitTimeout_floor (env : Env) (ops : List Op) (g : Globals)
    (cl : rfbClientRec) (res : Globals × rfbClientRec × Nat)
    (hrun : runOps env ops g cl = some res) :
    (res.1.retransmitTimeout = g.retransmitTimeout ∨ 50 ≤ res.1.retransmitTimeout)
    ∧ (50 ≤ g.retransmitTimeout → 50 ≤ res.1.retransmitTimeout)
    ∧ (∀ seqNum rest, ops = Op.ack seqNum :: rest → (srRecDeleteSeqNum g seqNum).1.1 ≠ 0 →
        50 ≤ res.1.retransmitTimeout) := by
  have h := runOps_tuning env ops g cl res hrun
  refine ⟨h.1, h.2.1, ?_⟩
  intro seqNum rest hops hmatch
  subst hops
  rw [runOps] at hrun
  simp only [Op.step] at hrun
  cases hr : runOps env rest (rfbProcessClientNormalMessage_FramebufferUpdateAck env g seqNum)
      cl with
  | none =>
    rw [hr] at hrun
    simp at hrun
  | some s1 =>
    rw [hr] at hrun
    simp only [Option.some.injEq] at hrun
    subst hrun
    exact (runOps_tuning env rest _ cl s1 hr).2.1 ((ack_tuning env g seqNum).2.2 hmatch)

/-- Witness for the amended C16: the update with sequence number 2, sent at
200 ms, is acknowledged at 1000 ms (first sample `r = 800`), then the scheduler
ticks; `retransmitTimeout` is `800 + 2 * 400 = 1600` afterwards. -/
theorem C16_retransmitTimeout_floor_witness :
    ∃ res, runOps envOk [Op.ack 2, Op.push 3] globalsQueue3 clDrawn = some res
      ∧ res.1.retransmitTimeout = 1600
      ∧ (res.1.retransmitTimeout = globalsQueue3.retransmitTimeout
          ∨ 50 ≤ res.1.retransmitTimeout)
      ∧ (50 ≤ globalsQueue3.retransmitTimeout → 50 ≤ res.1.retransmitTimeout)
      ∧ (∀ seqNum rest, [Op.ack 2, Op.push 3] = Op.ack seqNum :: rest →
          (srRecDeleteSeqNum globalsQueue3 seqNum).1.1 ≠ 0 → 50 ≤ res.1.retransmitTimeout) := by
  have hval : (runOps envOk [Op.ack 2, Op.push 3] globalsQueue3 clDrawn).map
      (fun s => s.1.retransmitTimeout) = some 1600 := by decide!
  cases hres : runOps envOk [Op.ack 2, Op.push 3] globalsQueue3 clDrawn with
  | none => rw [hres] at hval; exact absurd hval (by simp)
  | some res =>
    rw [hres] at hval
    simp only [Option.map_some', Option.some.injEq] at hval
    exact ⟨res, rfl, hval,
      C16_retransmitTimeout_floor envOk [Op.ack 2, Op.push 3] globalsQueue3 clDrawn res hres⟩

/-- C17. The initial push interval is 66, and over any run of operations from
a state with `42 ≤ serverPushInterval ≤ 1000` (scheduler ticks with any clock
and throughput values, with requests and acks in between) the push interval
stays within these bounds. -/
theorem C17_pushInterval_within_bounds (env : Env) (ops : List Op) (g : Globals)
    (cl : rfbClientRec) (res : Globals × rfbClientRec × Nat)
    (hrun : runOps env ops g cl = some res)
    (hg : g.serverPushInterval = initGlobals.serverPushInterval
      ∨ (42 ≤ g.serverPushInterval ∧ g.serverPushInterval ≤ 1000)) :
    initGlobals.serverPushInterval = 66
    ∧ 42 ≤ res.1.serverPushInterval ∧ res.1.serverPushInterval ≤ 1000 := by
  refine ⟨rfl, (runOps_tuning env ops g cl res hrun).2.2 ?_⟩
  rcases hg with hg | hg
  · rw [hg]
    decide
  · exact hg

/-- Witness for C17: a scheduler tick at 5000 ms after a tick in which a
million bytes were sent; sending outruns receiving, the controller ramps down
and lengthens the push interval from 66 to 71. -/
theorem C17_pushInterval_within_bounds_witness :
    ∃ res, runOps envLate [Op.push 3] globalsBusy clDrawn = some res
      ∧ res.1.serverPushInterval = 71
      ∧ initGlobals.serverPushInterval = 66
      ∧ 42 ≤ res.1.serverPushInterval ∧ res.1.serverPushInterval ≤ 1000 := by
  have hval : (runOps envLate [Op.push 3] globalsBusy clDrawn).map
      (fun s => s.1.serverPushInterval) = some 71 := by decide!
  cases hres : runOps envLate [Op.push 3] globalsBusy clDrawn with
  | none => rw [hres] at hval; exact absurd hval (by simp)
  | some res =>
    rw [hres] at hval
    simp only [Option.map_some', Option.some.injEq] at hval
    exact ⟨res, rfl, hval,
      C17_pushInterval_within_bounds envLate [Op.push 3] globalsBusy clDrawn res hres
        (Or.inl rfl)⟩

theorem setEncodingsStep_quality (cl : rfbClientRec) (enc : Nat)
    (h : cl.tightQualityLevel = -1 ∨ (0 ≤ cl.tightQualityLevel ∧ cl.tightQualityLevel ≤ 9)) :
    (setEncodingsStep cl enc).tightQualityLevel = -1
    ∨ (0 ≤ (setEncodingsStep cl enc).tightQualityLevel
        ∧ (setEncodingsStep cl enc).tightQualityLevel ≤ 9) := by
  unfold setEncodingsStep
  split_ifs with h1 h2 h3 h4 h5 h6 h7 h8 h9 h10 h11
  all_goals first
    | exact h
    | (right
       dsimp only
       unfold rfbEncodingQualityLevel0 rfbEncodingQualityLevel9 at *
       omega)

theorem setEncodings_fold_quality (encs : List Nat) :
    ∀ cl : rfbClientRec,
      (cl.tightQualityLevel = -1 ∨ (0 ≤ cl.tightQualityLevel ∧ cl.tightQualityLevel ≤ 9)) →
      ((encs.foldl setEncodingsStep cl).tightQualityLevel = -1
        ∨ (0 ≤ (encs.foldl setEncodingsStep cl).tightQualityLevel
            ∧ (encs.foldl setEncodingsStep cl).tightQualityLevel ≤ 9)) := by
  induction encs with
  | nil => intro cl h; exact h
  | cons enc rest ih =>
    intro cl h
    rw [List.foldl_cons]
    exact ih _ (setEncodingsStep_quality cl enc h)

/-- C18, counterexample. A new session has quality level `-1`; a
`SetEncodings` message with the list `[Tight, QualityLevel9]` sets it to `9`;
and a controller step that ramps up from `-1` leaves it at `0`. -/
theorem C18_quality_level_outside_range :
    (rfbNewClient 4 1 true true).tightQualityLevel = -1
    ∧ (rfbProcessClientNormalMessage_SetEncodings (rfbNewClient 4 1 true true)
        [7, 0xFFFFFFE9] true).tightQualityLevel = 9
    ∧ (rfbServerPushClient envLate 3 initGlobals clDrawn).map
        (fun s => s.2.1.tightQualityLevel) = some 0
    ∧ ¬ (1 ≤ (-1 : Int)) ∧ ¬ ((9 : Int) ≤ 3) ∧ ¬ (1 ≤ (0 : Int)) := by
  refine ⟨by decide, by decide, by decide!, by decide, by decide, by decide⟩

/-- C18, amended. A new session has quality level `-1`; after `SetEncodings`
with any list the level is `-1` or one of the levels `0..9`; a scheduler tick
(with its controller step) leaves the level as it is, or lowers it by one
but not below 1, or raises it by one but not above 3, so that a level within
`[1, 3]` stays within `[1, 3]`. -/
theorem C18_quality_level_steps (env : Env) (fuel : Nat) (g : Globals) (cl : rfbClientRec)
    (s : Globals × rfbClientRec × List BoxRec)
    (hpush : rfbServerPushClient env fuel g cl = some s) :
    (∀ width height first trueColour,
        (rfbNewClient width height first trueColour).tightQualityLevel = -1)
    ∧ (∀ encs complete,
        (rfbProcessClientNormalMessage_SetEncodings cl encs complete).tightQualityLevel = -1
        ∨ (0 ≤ (rfbProcessClientNormalMessage_SetEncodings cl encs complete).tightQualityLevel
            ∧ (rfbProcessClientNormalMessage_SetEncodings cl encs complete).tightQualityLevel
                ≤ 9))
    ∧ (s.2.1.tightQualityLevel = cl.tightQualityLevel
        ∨ s.2.1.tightQualityLevel = max 1 (cl.tightQualityLevel - 1)
        ∨ s.2.1.tightQualityLevel = min 3 (cl.tightQualityLevel + 1))
    ∧ (1 ≤ cl.tightQualityLevel ∧ cl.tightQualityLevel ≤ 3 →
        1 ≤ s.2.1.tightQualityLevel ∧ s.2.1.tightQualityLevel ≤ 3) := by
  have h1 := rfbServerPushClient_tuning env fuel g cl s hpush
  have h2 := (adaptStep_tuning g cl (env.GetTimeInMillis g)).2.2
  rw [← h1.2.2] at h2
  refine ⟨fun _ _ _ _ => rfl, ?_, h2, ?_⟩
  · intro encs complete
    have hf := setEncodings_fold_quality encs
      { cl with preferredEncoding := -1, useCopyRect := false,
                enableCursorShapeUpdates := false, enableCursorPosUpdates := false,
                enableLastRectEncoding := false, tightQualityLevel := -1 } (Or.inl rfl)
    unfold rfbProcessClientNormalMessage_SetEncodings
    dsimp only
    split_ifs <;> exact hf
  · intro hq
    rcases h2 with e | e | e <;> rw [e] <;> omega

/-- Witness for the amended C18: a scheduler tick at 5000 ms with nothing sent
in the last tick ramps up and raises the quality level from 2 to 3. -/
theorem C18_quality_level_steps_witness :
    ∃ s, rfbServerPushClient envLate 3 initGlobals clQuality2 = some s
      ∧ s.2.1.tightQualityLevel = 3
      ∧ (1 ≤ clQuality2.tightQualityLevel ∧ clQuality2.tightQualityLevel ≤ 3 →
          1 ≤ s.2.1.tightQualityLevel ∧ s.2.1.tightQualityLevel ≤ 3) := by
  have hval : (rfbServerPushClient envLate 3 initGlobals clQuality2).map
      (fun s => s.2.1.tightQualityLevel) = some 3 := by decide!
  cases hres : rfbServerPushClient envLate 3 initGlobals clQuality2 with
  | none => rw [hres] at hval; exact absurd hval (by simp)
  | some s =>
    rw [hres] at hval
    simp only [Option.map_some', Option.some.injEq] at hval
    exact ⟨s, rfl, hval,
      (C18_quality_level_steps envLate 3 initGlobals clQuality2 s hres).2.2.2⟩

/-! ### The ack handler: round-trip estimate and receiving throughput -/

theorem throughputSample_rtt (g : Globals) (seqNum : Nat) (numBytes : Int) (timeCurrent : Nat) :
    (throughputSample g seqNum numBytes timeCurrent).srtt = g.srtt
    ∧ (throughputSample g seqNum numBytes timeCurrent).rttvar = g.rttvar
    ∧ (throughputSample g seqNum numBytes timeCurrent).retransmitTimeout
        = g.retransmitTimeout := by
  unfold throughputSample
  dsimp only
  split_ifs <;> exact ⟨rfl, rfl, rfl⟩

theorem toUnsignedLong_eq (x : ℚ) (hx : x < (ULONG_MOD : ℚ)) :
    ((if toUnsignedLong x < 50 then 50 else toUnsignedLong x : Nat) : Int) = max 50 ⌊x⌋ := by
  have hfl : ⌊x⌋ < (ULONG_MOD : Int) := by
    have : ((⌊x⌋ : Int) : ℚ) ≤ x := Int.floor_le x
    have h2 : ((⌊x⌋ : Int) : ℚ) < ((ULONG_MOD : Int) : ℚ) := by
      push_cast
      exact lt_of_le_of_lt this hx
    exact_mod_cast h2
  have hmod : toUnsignedLong x = (⌊x⌋).toNat := by
    unfold toUnsignedLong
    apply Nat.mod_eq_of_lt
    have : ((⌊x⌋).toNat : Int) < (ULONG_MOD : Int) := by
      rcases le_or_lt 0 ⌊x⌋ with h0 | h0
      · rw [Int.toNat_of_nonneg h0]
        exact hfl
      · rw [Int.toNat_eq_zero.mpr (le_of_lt h0)]
        unfold ULONG_MOD
        norm_num
    exact_mod_cast this
  rw [hmod]
  clear hmod hfl hx
  split_ifs with h
  · have : ⌊x⌋ < 50 := by omega
    rw [max_eq_left (le_of_lt this)]
    rfl
  · have : 50 ≤ ⌊x⌋ := by omega
    rw [max_eq_right this]
    omega

/-- The fields of the state after an ack that matched a queue entry, in terms
of the three stages of the handler. -/
theorem ack_matched (env : Env) (g : Globals) (seqNum : Nat)
    (hmatch : (srRecDeleteSeqNum g seqNum).1.1 ≠ 0) :
    (rfbProcessClientNormalMessage_FramebufferUpdateAck env g seqNum).srtt
        = (rttSample (srRecDeleteSeqNum g seqNum).2 (ackSample env g seqNum)).srtt
    ∧ (rfbProcessClientNormalMessage_FramebufferUpdateAck env g seqNum).rttvar
        = (rttSample (srRecDeleteSeqNum g seqNum).2 (ackSample env g seqNum)).rttvar
    ∧ (rfbProcessClientNormalMessage_FramebufferUpdateAck env g seqNum).retransmitTimeout
        = (setRetransmitTimeout
            (rttSample (srRecDeleteSeqNum g seqNum).2 (ackSample env g seqNum))).retransmitTimeout
    ∧ (rfbProcessClientNormalMessage_FramebufferUpdateAck env g seqNum).receivingThroughput
        = (throughputSample
            (setRetransmitTimeout
              (rttSample (srRecDeleteSeqNum g seqNum).2 (ackSample env g seqNum)))
            seqNum (srRecDeleteSeqNum g seqNum).1.2
            (ackTimeCurrent env g seqNum)).receivingThroughput := by
  unfold rfbProcessClientNormalMessage_FramebufferUpdateAck
  dsimp only
  rw [if_pos hmatch]
  dsimp only
  have h := throughputSample_rtt
    (setRetransmitTimeout (rttSample (srRecDeleteSeqNum g seqNum).2 (ackSample env g seqNum)))
    seqNum (srRecDeleteSeqNum g seqNum).1.2 (ackTimeCurrent env g seqNum)
  refine ⟨?_, ?_, ?_, rfl⟩
  · exact h.1
  · exact h.2.1
  · exact h.2.2

/-- C15, counterexample. The update with sequence number 7 is acknowledged in
the millisecond in which it was sent: the first sample is `r = 0` and leaves
`srtt = 0`, `rttvar = 0`.  The second sample, `r = 30` for sequence number 8,
is then treated like a first one: `srtt = 30` and `rttvar = 15`, not
`0.875 * 0 + 0.125 * 30 = 3.75` and `0.75 * 0 + 0.25 * |0 - 30| = 7.5`. -/
theorem C15_second_sample_after_zero_sample :
    (srRecDeleteSeqNum globalsSameMs 7).1.1 = 1100
    ∧ ackSample envS3 globalsSameMs 7 = 0
    ∧ (rfbProcessClientNormalMessage_FramebufferUpdateAck envS3 globalsSameMs 7).srtt = 0
    ∧ (rfbProcessClientNormalMessage_FramebufferUpdateAck envS3 globalsSameMs 7).rttvar = 0
    ∧ ackSample envS3 (rfbProcessClientNormalMessage_FramebufferUpdateAck envS3 globalsSameMs 7) 8
        = 30
    ∧ (rfbProcessClientNormalMessage_FramebufferUpdateAck envS3
        (rfbProcessClientNormalMessage_FramebufferUpdateAck envS3 globalsSameMs 7) 8).srtt = 30
    ∧ (rfbProcessClientNormalMessage_FramebufferUpdateAck envS3
        (rfbProcessClientNormalMessage_FramebufferUpdateAck envS3 globalsSameMs 7) 8).rttvar = 15
    ∧ (30 : ℚ) ≠ (7 / 8) * 0 + (1 / 8) * 30
    ∧ (15 : ℚ) ≠ (3 / 4) * 0 + (1 / 4) * |0 - 30| := by
  refine ⟨by decide, by decide!, by decide!, by decide!, by decide!, by decide!, by decide!,
    by norm_num, by norm_num⟩

/-- C15, amended. On an ack that matches a queue entry, with `r` the sample
`timeCurrent - sendTime` in exact arithmetic: when `srtt` is `0` before the ack
(no sample so far, or only samples that left it at `0`) the handler sets
`srtt = r` and `rttvar = r / 2`; when `srtt` is not `0` it sets
`rttvar = 0.75 * rttvar + 0.25 * |srtt - r|` with the old `srtt` and
`srtt = 0.875 * srtt + 0.125 * r`; and `retransmitTimeout` becomes
`max(50, ⌊srtt + 2 * rttvar⌋)` of the new values (as long as that is below `2^64`). -/
theorem C15_rtt_estimator (env : Env) (g : Globals) (seqNum : Nat)
    (hmatch : (srRecDeleteSeqNum g seqNum).1.1 ≠ 0) :
    (g.srtt = 0 →
        (rfbProcessClientNormalMessage_FramebufferUpdateAck env g seqNum).srtt
          = ackSample env g seqNum
        ∧ (rfbProcessClientNormalMessage_FramebufferUpdateAck env g seqNum).rttvar
          = ackSample env g seqNum / 2)
    ∧ (g.srtt ≠ 0 →
        (rfbProcessClientNormalMessage_FramebufferUpdateAck env g seqNum).rttvar
          = (3 / 4) * g.rttvar + (1 / 4) * |g.srtt - ackSample env g seqNum|
        ∧ (rfbProcessClientNormalMessage_FramebufferUpdateAck env g seqNum).srtt
          = (7 / 8) * g.srtt + (1 / 8) * ackSample env g seqNum)
    ∧ ((rfbProcessClientNormalMessage_FramebufferUpdateAck env g seqNum).srtt
          + 2 * (rfbProcessClientNormalMessage_FramebufferUpdateAck env g seqNum).rttvar
          < (ULONG_MOD : ℚ) →
        ((rfbProcessClientNormalMessage_FramebufferUpdateAck env g seqNum).retransmitTimeout
            : Int)
          = max 50 ⌊(rfbProcessClientNormalMessage_FramebufferUpdateAck env g seqNum).srtt
              + 2 * (rfbProcessClientNormalMessage_FramebufferUpdateAck env g seqNum).rttvar⌋)
    := by
  obtain ⟨e1, e2, e3, -⟩ := ack_matched env g seqNum hmatch
  rw [e1, e2, e3]
  have hs : (srRecDeleteSeqNum g seqNum).2.srtt = g.srtt := rfl
  have hv : (srRecDeleteSeqNum g seqNum).2.rttvar = g.rttvar := rfl
  generalize ackSample env g seqNum = r
  generalize (srRecDeleteSeqNum g seqNum).2 = g1 at hs hv
  refine ⟨?_, ?_, ?_⟩
  · intro h0
    unfold rttSample
    rw [if_pos (hs.trans h0)]
    exact ⟨rfl, rfl⟩
  · intro h0
    unfold rttSample
    rw [if_neg (by rw [hs]; exact h0)]
    dsimp only
    rw [hs, hv]
    refine ⟨?_, rfl⟩
    split_ifs with hneg
    · rw [abs_of_neg hneg]
    · rw [abs_of_nonneg (not_lt.mp hneg)]
  · intro hlt
    unfold setRetransmitTimeout
    dsimp only
    exact toUnsignedLong_eq _ hlt

/-- Witness for the amended C15, scenario S3: the samples `100` and then `30`
give `(srtt, rttvar, retransmitTimeout) = (100, 50, 200)` and then
`(91.25, 55, 201)`. -/
theorem C15_rtt_estimator_witness :
    ackSample envS3 globalsS3 7 = 100
    ∧ (rfbProcessClientNormalMessage_FramebufferUpdateAck envS3 globalsS3 7).srtt = 100
    ∧ (rfbProcessClientNormalMessage_FramebufferUpdateAck envS3 globalsS3 7).rttvar = 50
    ∧ (rfbProcessClientNormalMessage_FramebufferUpdateAck envS3 globalsS3 7).retransmitTimeout
        = 200
    ∧ ackSample envS3 (rfbProcessClientNormalMessage_FramebufferUpdateAck envS3 globalsS3 7) 8
        = 30
    ∧ (rfbProcessClientNormalMessage_FramebufferUpdateAck envS3
        (rfbProcessClientNormalMessage_FramebufferUpdateAck envS3 globalsS3 7) 8).srtt = 365 / 4
    ∧ (rfbProcessClientNormalMessage_FramebufferUpdateAck envS3
        (rfbProcessClientNormalMessage_FramebufferUpdateAck envS3 globalsS3 7) 8).rttvar = 55
    ∧ (rfbProcessClientNormalMessage_FramebufferUpdateAck envS3
        (rfbProcessClientNormalMessage_FramebufferUpdateAck envS3 globalsS3 7) 8).retransmitTimeout
        = 201
    ∧ ((rfbProcessClientNormalMessage_FramebufferUpdateAck envS3 globalsS3 7).srtt ≠ 0 →
        (rfbProcessClientNormalMessage_FramebufferUpdateAck envS3
          (rfbProcessClientNormalMessage_FramebufferUpdateAck envS3 globalsS3 7) 8).rttvar
          = (3 / 4) * (rfbProcessClientNormalMessage_FramebufferUpdateAck envS3 globalsS3 7).rttvar
            + (1 / 4) * |(rfbProcessClientNormalMessage_FramebufferUpdateAck envS3 globalsS3 7).srtt
                - ackSample envS3
                    (rfbProcessClientNormalMessage_FramebufferUpdateAck envS3 globalsS3 7) 8|
        ∧ (rfbProcessClientNormalMessage_FramebufferUpdateAck envS3
          (rfbProcessClientNormalMessage_FramebufferUpdateAck envS3 globalsS3 7) 8).srtt
          = (7 / 8) * (rfbProcessClientNormalMessage_FramebufferUpdateAck envS3 globalsS3 7).srtt
            + (1 / 8) * ackSample envS3
                (rfbProcessClientNormalMessage_FramebufferUpdateAck envS3 globalsS3 7) 8) :=
  ⟨by decide!, by decide!, by decide!, by decide!, by decide!, by decide!, by decide!,
    by decide!,
    (C15_rtt_estimator envS3 (rfbProcessClientNormalMessage_FramebufferUpdateAck envS3 globalsS3 7)
      8 (by decide!)).2.1⟩

theorem sendCursorShapeStep_fail (env : Env) (b : Bool) (r : UpdateResult)
    (h : (sendCursorShapeStep env b r).1 = false) : (sendCursorShapeStep env b r).2.ok = false := by
  unfold sendCursorShapeStep at h ⊢
  cases b with
  | false => simp at h
  | true =>
    simp only [if_true] at h ⊢
    cases hs : env.rfbSendCursorShape { r.cl with cursorWasChanged := false } r.g.ublen with
    | none => rfl
    | some u =>
      rw [hs] at h
      cases h

theorem sendCursorPosStep_fail (env : Env) (b : Bool) (r : UpdateResult)
    (h : (sendCursorPosStep env b r).1 = false) : (sendCursorPosStep env b r).2.ok = false := by
  unfold sendCursorPosStep at h ⊢
  cases b with
  | false => simp at h
  | true =>
    simp only [if_true] at h ⊢
    cases hs : env.rfbSendCursorPos { r.cl with cursorWasMoved := false } r.g.ublen with
    | none => rfl
    | some u =>
      rw [hs] at h
      cases h

theorem sendCopyStep_fail (env : Env) (dx dy : Int) (r : UpdateResult)
    (h : (sendCopyStep env dx dy r).1 = false) : (sendCopyStep env dx dy r).2.ok = false := by
  unfold sendCopyStep at h ⊢
  dsimp only at h ⊢
  by_cases hne : REGION_NOTEMPTY r.updateCopyRegion = true
  · rw [if_pos hne] at h ⊢
    by_cases hs : (rfbSendCopyRegion env r.g r.cl (env.REGION_RECTS r.updateCopyRegion)
        dx dy).1 = false
    · rw [if_pos hs]
    · rw [if_neg hs] at h
      cases h
  · rw [if_neg hne] at h
    cases h

theorem shapeSettled_plan (env : Env) (g : Globals) (cl : rfbClientRec)
    (h : ShapeSettled env g cl) : planCursorShape env g cl = false := by
  unfold planCursorShape cursorIsDrawnAfter
  cases he : cl.enableCursorShapeUpdates
  · rfl
  · rcases h he with hc | ⟨hd, hr⟩
    · rw [hc]
      simp
    · rw [hd, hr]
      simp

theorem builder_cursorIsDrawn (env : Env) (g : Globals) (cl : rfbClientRec) (seqNum : Nat) :
    (rfbSendFramebufferUpdate_numBytes env g cl seqNum).g.cursorIsDrawn
      = cursorIsDrawnAfter env g cl := by
  have h := (builder_framed env g cl seqNum).1
  unfold BufferOnly at h
  rw [h]

theorem builder_clientFlags (env : Env) (g : Globals) (cl : rfbClientRec) (seqNum : Nat) :
    (rfbSendFramebufferUpdate_numBytes env g cl seqNum).cl.readyForSetColourMapEntries
        = cl.readyForSetColourMapEntries
    ∧ (rfbSendFramebufferUpdate_numBytes env g cl seqNum).cl.enableCursorShapeUpdates
        = cl.enableCursorShapeUpdates
    ∧ (rfbSendFramebufferUpdate_numBytes env g cl seqNum).cl.enableCursorPosUpdates
        = cl.enableCursorPosUpdates := by
  have h := (builder_framed env g cl seqNum).2
  unfold ClientKept at h
  refine ⟨?_, ?_, ?_⟩ <;> rw [h]

theorem flagsCleared_refl (a : rfbClientRec) : FlagsCleared a a := ⟨fun h => h, fun h => h⟩

theorem flagsCleared_trans {a b c : rfbClientRec} (h1 : FlagsCleared a b)
    (h2 : FlagsCleared b c) : FlagsCleared a c :=
  ⟨fun h => h2.1 (h1.1 h), fun h => h2.2 (h1.2 h)⟩

theorem sendCursorShapeStep_flags (env : Env) (b : Bool) (r : UpdateResult) :
    FlagsCleared (sendCursorShapeStep env b r).2.cl r.cl
    ∧ (b = true → (sendCursorShapeStep env b r).2.cl.cursorWasChanged = false)
    ∧ (b = false → sendCursorShapeStep env b r = (true, r)) := by
  unfold sendCursorShapeStep
  cases b with
  | false => exact ⟨flagsCleared_refl _, fun h => (by cases h), fun _ => rfl⟩
  | true =>
    simp only [if_true]
    cases env.rfbSendCursorShape { r.cl with cursorWasChanged := false } r.g.ublen with
    | none => exact ⟨⟨fun h => (by cases h), fun h => h⟩, fun _ => rfl, fun h => (by cases h)⟩
    | some u => exact ⟨⟨fun h => (by cases h), fun h => h⟩, fun _ => rfl, fun h => (by cases h)⟩

theorem sendCursorPosStep_flags (env : Env) (b : Bool) (r : UpdateResult) :
    FlagsCleared (sendCursorPosStep env b r).2.cl r.cl
    ∧ (b = true → (sendCursorPosStep env b r).2.cl.cursorWasMoved = false) := by
  unfold sendCursorPosStep
  cases b with
  | false => exact ⟨flagsCleared_refl _, fun h => (by cases h)⟩
  | true =>
    simp only [if_true]
    cases env.rfbSendCursorPos { r.cl with cursorWasMoved := false } r.g.ublen with
    | none => exact ⟨⟨fun h => h, fun h => (by cases h)⟩, fun _ => rfl⟩
    | some u => exact ⟨⟨fun h => h, fun h => (by cases h)⟩, fun _ => rfl⟩

theorem sendCopyStep_cl (env : Env) (dx dy : Int) (r : UpdateResult) :
    (sendCopyStep env dx dy r).2.cl = r.cl := by
  unfold sendCopyStep
  dsimp only
  split_ifs <;> rfl

theorem sendPixelData_cl (env : Env) (seqNum : Nat) (nUpd : Int) (r : UpdateResult) :
    (sendPixelData env seqNum nUpd r).cl = r.cl := by
  unfold sendPixelData
  dsimp only
  split
  · rfl
  · split_ifs <;> rfl

theorem sendUpdateRest_flags (env : Env) (seqNum : Nat) (cs cp : Bool) (dx dy nUpd : Int)
    (r : UpdateResult) :
    FlagsCleared (sendUpdateRest env seqNum cs cp dx dy nUpd r).cl r.cl
    ∧ (cs = true → (sendUpdateRest env seqNum cs cp dx dy nUpd r).cl.cursorWasChanged = false)
    ∧ (cs = false → cp = true →
        (sendUpdateRest env seqNum cs cp dx dy nUpd r).cl.cursorWasMoved = false) := by
  obtain ⟨a1, a2, a3⟩ := sendCursorShapeStep_flags env cs r
  obtain ⟨b1, b2⟩ := sendCursorPosStep_flags env cp (sendCursorShapeStep env cs r).2
  have c1 := sendCopyStep_cl env dx dy (sendCursorPosStep env cp (sendCursorShapeStep env cs r).2).2
  have d1 := sendPixelData_cl env seqNum nUpd
    (sendCopyStep env dx dy (sendCursorPosStep env cp (sendCursorShapeStep env cs r).2).2).2
  have hpos : FlagsCleared (sendCursorPosStep env cp (sendCursorShapeStep env cs r).2).2.cl r.cl :=
    flagsCleared_trans b1 a1
  have hchg : cs = true →
      (sendCursorPosStep env cp (sendCursorShapeStep env cs r).2).2.cl.cursorWasChanged
        = false := by
    intro h
    cases hx : (sendCursorPosStep env cp (sendCursorShapeStep env cs r).2).2.cl.cursorWasChanged
    · rfl
    · have := b1.1 hx
      rw [a2 h] at this
      cases this
  unfold sendUpdateRest
  dsimp only
  split_ifs with h1 h2 h3
  · refine ⟨a1, a2, ?_⟩
    intro hcs _
    rw [a3 hcs] at h1
    cases h1
  · exact ⟨hpos, hchg, fun _ hcp => b2 hcp⟩
  · rw [c1]
    exact ⟨hpos, hchg, fun _ hcp => b2 hcp⟩
  · rw [d1, c1]
    exact ⟨hpos, hchg, fun _ hcp => b2 hcp⟩

theorem builder_flags (env : Env) (g : Globals) (cl : rfbClientRec) (seqNum : Nat) :
    FlagsCleared (rfbSendFramebufferUpdate_numBytes env g cl seqNum).cl cl
    ∧ (planCursorShape env g cl = true →
        (rfbSendFramebufferUpdate_numBytes env g cl seqNum).cl.cursorWasChanged = false)
    ∧ (planCursorShape env g cl = false → planCursorPos cl = true →
        (rfbSendFramebufferUpdate_numBytes env g cl seqNum).cl.cursorWasMoved = false) := by
  unfold rfbSendFramebufferUpdate_numBytes
  dsimp only
  by_cases h1 : (!REGION_NOTEMPTY
      (REGION_INTERSECT cl.requestedRegion
        (REGION_UNION (REGION_SUBTRACT cl.copyRegion cl.modifiedRegion) cl.modifiedRegion))
      && !planCursorShape env g cl && !planCursorPos cl) = true
  · rw [if_pos h1]
    simp only [Bool.and_eq_true, Bool.not_eq_true'] at h1
    refine ⟨⟨fun h => h, fun h => h⟩, ?_, ?_⟩
    · intro h
      rw [h1.1.2] at h
      cases h
    · intro _ h
      rw [h1.2] at h
      cases h
  · rw [if_neg h1]
    unfold sendUpdateBody
    obtain ⟨f1, f2, f3⟩ := sendUpdateRest_flags env seqNum (planCursorShape env g cl)
      (planCursorPos cl) cl.copyDX cl.copyDY _ _
    refine ⟨flagsCleared_trans f1 ?_, f2, f3⟩
    dsimp only
    split_ifs <;> exact ⟨fun h => h, fun h => h⟩

theorem builder_early (env : Env) (g : Globals) (cl : rfbClientRec) (seqNum : Nat)
    (hreq : cl.requestedRegion = ∅) (hs : planCursorShape env g cl = false)
    (hp : planCursorPos cl = false) :
    (rfbSendFramebufferUpdate_numBytes env g cl seqNum).g.ublen = g.ublen
    ∧ (rfbSendFramebufferUpdate_numBytes env g cl seqNum).cl.requestedRegion = ∅ := by
  unfold rfbSendFramebufferUpdate_numBytes
  dsimp only
  rw [if_pos]
  · exact ⟨rfl, hreq⟩
  · rw [hs, hp, hreq]
    simp [REGION_NOTEMPTY, REGION_INTERSECT]

/-- After any call of the builder no cursor shape update will be planned any more. -/
theorem builder_shapeSettled (env : Env) (g : Globals) (cl : rfbClientRec) (seqNum : Nat) :
    ShapeSettled env (rfbSendFramebufferUpdate_numBytes env g cl seqNum).g
      (rfbSendFramebufferUpdate_numBytes env g cl seqNum).cl := by
  obtain ⟨fc, f2, -⟩ := builder_flags env g cl seqNum
  obtain ⟨-, he, -⟩ := builder_clientFlags env g cl seqNum
  have hd := builder_cursorIsDrawn env g cl seqNum
  intro hen
  rw [he] at hen
  rw [hd]
  cases hplan : planCursorShape env g cl
  · -- not planned: the shape is not marked changed, or the cursor stays drawn
    cases hc : cl.cursorWasChanged
    · left
      cases hx : (rfbSendFramebufferUpdate_numBytes env g cl seqNum).cl.cursorWasChanged
      · rfl
      · have := fc.1 hx
        rw [hc] at this
        cases this
    · right
      unfold planCursorShape at hplan
      rw [hen, hc] at hplan
      simp only [Bool.and_true, Bool.true_and, Bool.not_eq_false'] at hplan
      refine ⟨hplan, ?_⟩
      unfold cursorIsDrawnAfter at hplan
      rw [hen] at hplan
      simp only [if_true] at hplan
      cases hg : g.cursorIsDrawn
      · rw [hg] at hplan
        simp at hplan
      · rw [hg] at hplan
        simpa using hplan
  · exact Or.inl (f2 hplan)

theorem posSettled_of_cleared {a b : rfbClientRec} (h : FlagsCleared a b)
    (he : a.enableCursorPosUpdates = b.enableCursorPosUpdates) (hb : PosSettled b) :
    PosSettled a := by
  unfold PosSettled planCursorPos at *
  rw [he]
  cases hen : b.enableCursorPosUpdates
  · rfl
  · rw [hen] at hb
    simp only [Bool.true_and] at hb ⊢
    cases hx : a.cursorWasMoved
    · rfl
    · have := h.2 hx
      rw [hb] at this
      cases this

/-- A call of the builder in a state in which no cursor shape update is
planned leaves no cursor position update planned. -/
theorem builder_posSettled (env : Env) (g : Globals) (cl : rfbClientRec) (seqNum : Nat)
    (h : ShapeSettled env g cl) :
    PosSettled (rfbSendFramebufferUpdate_numBytes env g cl seqNum).cl := by
  obtain ⟨fc, -, f3⟩ := builder_flags env g cl seqNum
  obtain ⟨-, -, he⟩ := builder_clientFlags env g cl seqNum
  cases hp : planCursorPos cl
  · exact posSettled_of_cleared fc he hp
  · unfold PosSettled planCursorPos
    rw [f3 (shapeSettled_plan env g cl h) hp]
    simp

theorem addRequested_fields (cl : rfbClientRec) (r : Region) :
    (addRequested cl r).readyForSetColourMapEntries = true
    ∧ (addRequested cl r).enableCursorShapeUpdates = cl.enableCursorShapeUpdates
    ∧ (addRequested cl r).enableCursorPosUpdates = cl.enableCursorPosUpdates
    ∧ (addRequested cl r).cursorWasChanged = cl.cursorWasChanged
    ∧ (addRequested cl r).cursorWasMoved = cl.cursorWasMoved
    ∧ (addRequested cl r).requestedRegion = cl.requestedRegion ∪ r := by
  unfold addRequested
  cases h : cl.readyForSetColourMapEntries
  · exact ⟨rfl, rfl, rfl, rfl, rfl, rfl⟩
  · exact ⟨rfl, rfl, rfl, rfl, rfl, rfl⟩

theorem colourMapFailed_ready (env : Env) (cl : rfbClientRec) (r : Region)
    (h : ColourMapReady cl) : colourMapFailed env cl r = false := by
  unfold colourMapFailed
  rw [h]
  rfl

theorem measureRegion_ready (env : Env) (g : Globals) (cl : rfbClientRec) (box : BoxRec)
    (h : ColourMapReady cl) :
    measureRegion env g cl box
      = ((rfbSendFramebufferUpdate_numBytes env g
            { addRequested cl (REGION_INIT box) with measuring := true } 0xFFFFFFFF).g.ublen,
         { (rfbSendFramebufferUpdate_numBytes env g
            { addRequested cl (REGION_INIT box) with measuring := true } 0xFFFFFFFF).g with
            ublen := 0 },
         { (rfbSendFramebufferUpdate_numBytes env g
            { addRequested cl (REGION_INIT box) with measuring := true } 0xFFFFFFFF).cl with
            measuring := false, requestedRegion := REGION_EMPTY }) := by
  unfold measureRegion rfbSendFramebufferUpdate
  dsimp only
  rw [colourMapFailed_ready env cl _ h]
  rfl

/-- After `measureRegion` the session is past the colour map set-up. -/
theorem measureRegion_colourMapReady (env : Env) (g : Globals) (cl : rfbClientRec)
    (box : BoxRec) : ColourMapReady (measureRegion env g cl box).2.2 := by
  unfold measureRegion rfbSendFramebufferUpdate
  dsimp only
  split_ifs
  · exact (addRequested_fields cl _).1
  · show _ = true
    dsimp only
    rw [(builder_clientFlags env g _ _).1]
    exact (addRequested_fields cl _).1

/-- A measurement in a session past the colour map set-up leaves an empty
buffer and an empty requested region, and no cursor shape update will be
planned afterwards; when none was planned before, no cursor position update is
planned afterwards either: the state is quiet. -/
theorem measureRegion_settles (env : Env) (g : Globals) (cl : rfbClientRec) (box : BoxRec)
    (h : ColourMapReady cl) :
    ColourMapReady (measureRegion env g cl box).2.2
    ∧ ShapeSettled env (measureRegion env g cl box).2.1 (measureRegion env g cl box).2.2
    ∧ (measureRegion env g cl box).2.1.ublen = 0
    ∧ (measureRegion env g cl box).2.2.requestedRegion = ∅
    ∧ (ShapeSettled env g cl → Quiet env (measureRegion env g cl box).2.1
        (measureRegion env g cl box).2.2) := by
  have hready := measureRegion_colourMapReady env g cl box
  obtain ⟨a1, a2, a3, a4, a5, a6⟩ := addRequested_fields cl (REGION_INIT box)
  have hshape := builder_shapeSettled env g
    { addRequested cl (REGION_INIT box) with measuring := true } 0xFFFFFFFF
  rw [measureRegion_ready env g cl box h] at hready ⊢
  refine ⟨hready, hshape, rfl, rfl, ?_⟩
  intro hs
  refine ⟨hready, hshape, ?_, rfl, rfl⟩
  have hs1 : ShapeSettled env g { addRequested cl (REGION_INIT box) with measuring := true } := by
    intro he
    have he1 : cl.enableCursorShapeUpdates = true := a2 ▸ he
    rcases hs he1 with hc | hc
    · exact Or.inl (a4.trans hc)
    · exact Or.inr hc
  exact builder_posSettled env g _ _ hs1

/-- In a quiet state a box without pixels measures 0 bytes, and the state
stays quiet. -/
theorem measureRegion_quiet (env : Env) (g : Globals) (cl : rfbClientRec) (box : BoxRec)
    (h : Quiet env g cl) (hbox : REGION_INIT box = ∅) :
    (measureRegion env g cl box).1 = 0
    ∧ Quiet env (measureRegion env g cl box).2.1 (measureRegion env g cl box).2.2 := by
  obtain ⟨hr, hs, hp, hu, hq⟩ := h
  refine ⟨?_, (measureRegion_settles env g cl box hr).2.2.2.2 hs⟩
  obtain ⟨a1, a2, a3, a4, a5, a6⟩ := addRequested_fields cl (REGION_INIT box)
  rw [measureRegion_ready env g cl box hr]
  show (rfbSendFramebufferUpdate_numBytes env g _ _).g.ublen = 0
  have hs1 : ShapeSettled env g { addRequested cl (REGION_INIT box) with measuring := true } := by
    intro he
    have he1 : cl.enableCursorShapeUpdates = true := a2 ▸ he
    rcases hs he1 with hc | hc
    · exact Or.inl (a4.trans hc)
    · exact Or.inr hc
  have hp1 : planCursorPos { addRequested cl (REGION_INIT box) with measuring := true }
      = false := by
    unfold PosSettled planCursorPos at hp
    unfold planCursorPos
    dsimp only
    rw [a3, a5]
    exact hp
  have hreq : ({ addRequested cl (REGION_INIT box) with measuring := true }
      : rfbClientRec).requestedRegion = ∅ := by
    show (addRequested cl (REGION_INIT box)).requestedRegion = ∅
    rw [a6, hq, hbox]
    rfl
  rw [(builder_early env g _ 0xFFFFFFFF hreq (shapeSettled_plan env g _ hs1) hp1).1]
  exact hu

theorem sendRegion_ready (env : Env) (g : Globals) (cl : rfbClientRec) (box : BoxRec)
    (h : ColourMapReady cl) :
    sendRegion env g cl box
      = (srRecAdd
          (rfbSendFramebufferUpdate_numBytes env
            { g with sent_count := g.sent_count + 1,
                     seqNumCounter := (g.seqNumCounter + 1) % CARD32_MOD }
            { addRequested cl (REGION_INIT box) with useUdp := true } g.seqNumCounter).g
          { seqNum := g.seqNumCounter,
            time := env.GetTimeInMillis
              (rfbSendFramebufferUpdate_numBytes env
                { g with sent_count := g.sent_count + 1,
                         seqNumCounter := (g.seqNumCounter + 1) % CARD32_MOD }
                { addRequested cl (REGION_INIT box) with useUdp := true } g.seqNumCounter).g,
            numBytes :=
              (rfbSendFramebufferUpdate_numBytes env
                { g with sent_count := g.sent_count + 1,
                         seqNumCounter := (g.seqNumCounter + 1) % CARD32_MOD }
                { addRequested cl (REGION_INIT box) with useUdp := true }
                g.seqNumCounter).numBytes.getD env.uninitialised,
            region :=
              (rfbSendFramebufferUpdate_numBytes env
                { g with sent_count := g.sent_count + 1,
                         seqNumCounter := (g.seqNumCounter + 1) % CARD32_MOD }
                { addRequested cl (REGION_INIT box) with useUdp := true }
                g.seqNumCounter).theRegion },
         { (rfbSendFramebufferUpdate_numBytes env
            { g with sent_count := g.sent_count + 1,
                     seqNumCounter := (g.seqNumCounter + 1) % CARD32_MOD }
            { addRequested cl (REGION_INIT box) with useUdp := true } g.seqNumCounter).cl with
            useUdp := false }) := by
  unfold sendRegion
  dsimp only
  rw [colourMapFailed_ready env cl _ h]
  rfl

/-- After `sendRegion` the session is past the colour map set-up. -/
theorem sendRegion_colourMapReady (env : Env) (g : Globals) (cl : rfbClientRec)
    (box : BoxRec) : ColourMapReady (sendRegion env g cl box).2 := by
  unfold sendRegion
  dsimp only
  split_ifs
  · exact (addRequested_fields cl _).1
  · show _ = true
    dsimp only
    rw [(builder_clientFlags env _ _ _).1]
    exact (addRequested_fields cl _).1

/-- After `sendRegion` in a session past the colour map set-up no cursor shape
update will be planned. -/
theorem sendRegion_shapeSettled (env : Env) (g : Globals) (cl : rfbClientRec) (box : BoxRec)
    (h : ColourMapReady cl) :
    ShapeSettled env (sendRegion env g cl box).1 (sendRegion env g cl box).2 := by
  have hshape := builder_shapeSettled env
    { g with sent_count := g.sent_count + 1,
             seqNumCounter := (g.seqNumCounter + 1) % CARD32_MOD }
    { addRequested cl (REGION_INIT box) with useUdp := true } g.seqNumCounter
  rw [sendRegion_ready env g cl box h]
  exact hshape

/-- In a quiet state `sendRegion` for a box without pixels sends nothing and
leaves the state quiet. -/
theorem sendRegion_quiet (env : Env) (g : Globals) (cl : rfbClientRec) (box : BoxRec)
    (h : Quiet env g cl) (hbox : REGION_INIT box = ∅) :
    Quiet env (sendRegion env g cl box).1 (sendRegion env g cl box).2 := by
  obtain ⟨hr, hs, hp, hu, hq⟩ := h
  have hready := sendRegion_colourMapReady env g cl box
  have hshape := sendRegion_shapeSettled env g cl box hr
  obtain ⟨a1, a2, a3, a4, a5, a6⟩ := addRequested_fields cl (REGION_INIT box)
  have hs1 : ShapeSettled env
      { g with sent_count := g.sent_count + 1,
               seqNumCounter := (g.seqNumCounter + 1) % CARD32_MOD }
      { addRequested cl (REGION_INIT box) with useUdp := true } := by
    intro he
    have he1 : cl.enableCursorShapeUpdates = true := a2 ▸ he
    rcases hs he1 with hc | hc
    · exact Or.inl (a4.trans hc)
    · exact Or.inr hc
  have hp1 : planCursorPos { addRequested cl (REGION_INIT box) with useUdp := true }
      = false := by
    unfold PosSettled planCursorPos at hp
    unfold planCursorPos
    dsimp only
    rw [a3, a5]
    exact hp
  have hreq : ({ addRequested cl (REGION_INIT box) with useUdp := true }
      : rfbClientRec).requestedRegion = ∅ := by
    show (addRequested cl (REGION_INIT box)).requestedRegion = ∅
    rw [a6, hq, hbox]
    rfl
  have hearly := builder_early env
    { g with sent_count := g.sent_count + 1,
             seqNumCounter := (g.seqNumCounter + 1) % CARD32_MOD }
    { addRequested cl (REGION_INIT box) with useUdp := true } g.seqNumCounter hreq
    (shapeSettled_plan env _ _ hs1) hp1
  have hpos := builder_posSettled env
    { g with sent_count := g.sent_count + 1,
             seqNumCounter := (g.seqNumCounter + 1) % CARD32_MOD }
    { addRequested cl (REGION_INIT box) with useUdp := true } g.seqNumCounter hs1
  rw [sendRegion_ready env g cl box hr] at hready hshape ⊢
  exact ⟨hready, hshape, hpos, hearly.1.trans hu, hearly.2⟩

theorem tdiv_half (a rc : Int) (ha : 0 ≤ a) (hrc : 2 ≤ rc) :
    0 ≤ a.tdiv rc ∧ a.tdiv rc * 2 ≤ a := by
  rw [Int.tdiv_eq_ediv ha (by omega)]
  have h1 : 0 ≤ a / rc := Int.ediv_nonneg ha (by omega)
  have h2 : a / rc * rc ≤ a := Int.ediv_mul_le a (by omega)
  refine ⟨h1, ?_⟩
  nlinarith

/-- The strips of a box that measured at least `MAX_UPDATE_SIZE`: each strip
has non-negative width and height, and its width plus height is smaller than
that of the box, or zero when that of the box is zero. -/
theorem splitBoxes_smaller (box : BoxRec) (m : Int) (hm : ¬ m < MAX_UPDATE_SIZE)
    (hw : 0 ≤ box.x2 - box.x1) (hh : 0 ≤ box.y2 - box.y1) :
    ∀ strip ∈ splitBoxes box m,
      0 ≤ strip.x2 - strip.x1 ∧ 0 ≤ strip.y2 - strip.y1 ∧ boxSize strip ≤ boxSize box - 1 := by
  have hm1 : 2900 ≤ m := by
    unfold MAX_UPDATE_SIZE at hm
    omega
  have hrc : 2 ≤ (if m.tdiv MAX_UPDATE_SIZE + 1 > 8 then 8 else m.tdiv MAX_UPDATE_SIZE + 1) := by
    have : m.tdiv MAX_UPDATE_SIZE = m / 2900 := by
      unfold MAX_UPDATE_SIZE
      rw [Int.tdiv_eq_ediv (by omega) (by norm_num)]
      norm_num
    rw [this]
    split_ifs <;> omega
  intro strip hs
  unfold splitBoxes at hs
  dsimp only at hs
  generalize (if m.tdiv MAX_UPDATE_SIZE + 1 > 8 then 8 else m.tdiv MAX_UPDATE_SIZE + 1) = rc
    at hs hrc
  split_ifs at hs with hlong
  · obtain ⟨i, -, rfl⟩ := List.mem_map.mp hs
    obtain ⟨q0, q2⟩ := tdiv_half (box.x2 - box.x1) rc hw hrc
    unfold boxSize xStrip
    dsimp only
    generalize (box.x2 - box.x1).tdiv rc = q at q0 q2
    have e : box.x1 + ((i : Int) + 1) * q - (box.x1 + (i : Int) * q) = q := by ring
    rw [e]
    refine ⟨q0, hh, ?_⟩
    omega
  · obtain ⟨i, -, rfl⟩ := List.mem_map.mp hs
    obtain ⟨q0, q2⟩ := tdiv_half (box.y2 - box.y1) rc hh hrc
    unfold boxSize yStrip
    dsimp only
    generalize (box.y2 - box.y1).tdiv rc = q at q0 q2
    have e : box.y1 + ((i : Int) + 1) * q - (box.y1 + (i : Int) * q) = q := by ring
    rw [e]
    refine ⟨hw, q0, ?_⟩
    omega

theorem regionInit_empty_of_size_zero (box : BoxRec) (hw : 0 ≤ box.x2 - box.x1)
    (hh : 0 ≤ box.y2 - box.y1) (hz : boxSize box = 0) : REGION_INIT box = ∅ := by
  unfold boxSize at hz
  unfold REGION_INIT BoxRec.pixels
  have : box.x2 ≤ box.x1 := by omega
  rw [Finset.Ico_eq_empty (by omega)]
  exact Finset.empty_product _

/-- The loop of `recursiveSend` over the strips returns when every call in it
returns; a property of the state that the calls keep is kept by the loop. -/
theorem recursiveSend_loop (env : Env) (fuel : Nat) (P : Globals → rfbClientRec → Prop)
    (strips : List BoxRec)
    (hcall : ∀ strip ∈ strips, ∀ g cl, P g cl →
      ∃ s, recursiveSend env fuel g cl strip = some s ∧ P s.1 s.2.1) :
    ∀ (st : Globals × rfbClientRec × List BoxRec), P st.1 st.2.1 →
      ∃ res, strips.foldl
          (fun acc strip =>
            match acc with
            | none => none
            | some st =>
              match recursiveSend env fuel st.1 st.2.1 strip with
              | none => none
              | some st1 => some (st1.1, st1.2.1, st.2.2 ++ st1.2.2)) (some st) = some res
        ∧ P res.1 res.2.1 := by
  induction strips with
  | nil =>
    intro st hst
    exact ⟨st, rfl, hst⟩
  | cons strip rest ih =>
    intro st hst
    obtain ⟨s, hs, hP⟩ := hcall strip (List.mem_cons_self _ _) st.1 st.2.1 hst
    rw [List.foldl_cons]
    dsimp only
    rw [hs]
    exact ih (fun b hb => hcall b (List.mem_cons_of_mem _ hb)) (s.1, s.2.1, st.2.2 ++ s.2.2) hP

/-- In a quiet state `recursiveSend` returns at once for a box without pixels. -/
theorem recursiveSend_quiet (env : Env) (g : Globals) (cl : rfbClientRec) (box : BoxRec)
    (h : Quiet env g cl) (hbox : REGION_INIT box = ∅) :
    ∃ s, recursiveSend env 1 g cl box = some s ∧ Quiet env s.1 s.2.1 := by
  obtain ⟨hm0, hq⟩ := measureRegion_quiet env g cl box h hbox
  rw [recursiveSend]
  dsimp only
  rw [if_pos (by rw [hm0]; decide)]
  refine ⟨_, rfl, ?_⟩
  exact sendRegion_quiet env _ _ box hq hbox

/-- When no cursor shape update is planned, `recursiveSend` returns for a box
of width and height zero after at most one level of splitting. -/
theorem recursiveSend_settled (env : Env) (g : Globals) (cl : rfbClientRec) (box : BoxRec)
    (hr : ColourMapReady cl) (hs : ShapeSettled env g cl)
    (hw : 0 ≤ box.x2 - box.x1) (hh : 0 ≤ box.y2 - box.y1) (hz : boxSize box = 0) :
    ∃ s, recursiveSend env 2 g cl box = some s ∧ Quiet env s.1 s.2.1 := by
  have hq := (measureRegion_settles env g cl box hr).2.2.2.2 hs
  have hbox := regionInit_empty_of_size_zero box hw hh hz
  rw [recursiveSend]
  dsimp only
  by_cases hsmall : (measureRegion env g cl box).1 < MAX_UPDATE_SIZE
  · rw [if_pos hsmall]
    refine ⟨_, rfl, ?_⟩
    exact sendRegion_quiet env _ _ box hq hbox
  · rw [if_neg hsmall]
    refine recursiveSend_loop env 1 (Quiet env) _ ?_ _ hq
    intro strip hstrip g1 cl1 h1
    obtain ⟨sw, sh, ss⟩ := splitBoxes_smaller box _ hsmall hw hh strip hstrip
    exact recursiveSend_quiet env g1 cl1 strip h1
      (regionInit_empty_of_size_zero strip sw sh (by omega))

/-- Past the colour map set-up `recursiveSend` returns for a box of width and
height zero after at most two levels of splitting. -/
theorem recursiveSend_ready (env : Env) (g : Globals) (cl : rfbClientRec) (box : BoxRec)
    (hr : ColourMapReady cl)
    (hw : 0 ≤ box.x2 - box.x1) (hh : 0 ≤ box.y2 - box.y1) (hz : boxSize box = 0) :
    ∃ s, recursiveSend env 3 g cl box = some s
      ∧ (ColourMapReady s.2.1 ∧ ShapeSettled env s.1 s.2.1) := by
  obtain ⟨m1, m2, -⟩ := measureRegion_settles env g cl box hr
  rw [recursiveSend]
  dsimp only
  by_cases hsmall : (measureRegion env g cl box).1 < MAX_UPDATE_SIZE
  · rw [if_pos hsmall]
    refine ⟨_, rfl, ?_⟩
    exact ⟨sendRegion_colourMapReady env _ _ box, sendRegion_shapeSettled env _ _ box m1⟩
  · rw [if_neg hsmall]
    refine recursiveSend_loop env 2
      (fun g1 cl1 => ColourMapReady cl1 ∧ ShapeSettled env g1 cl1) _ ?_ _ ⟨m1, m2⟩
    intro strip hstrip g1 cl1 h1
    obtain ⟨sw, sh, ss⟩ := splitBoxes_smaller box _ hsmall hw hh strip hstrip
    obtain ⟨s, e, q⟩ := recursiveSend_settled env g1 cl1 strip h1.1 h1.2 sw sh (by omega)
    exact ⟨s, e, q.1, q.2.1⟩

/-- From any state `recursiveSend` returns for a box of width and height zero
after at most three levels of splitting. -/
theorem recursiveSend_zero_box (env : Env) (g : Globals) (cl : rfbClientRec) (box : BoxRec)
    (hw : 0 ≤ box.x2 - box.x1) (hh : 0 ≤ box.y2 - box.y1) (hz : boxSize box = 0) :
    ∃ s, recursiveSend env 4 g cl box = some s := by
  have m1 := measureRegion_colourMapReady env g cl box
  rw [recursiveSend]
  dsimp only
  by_cases hsmall : (measureRegion env g cl box).1 < MAX_UPDATE_SIZE
  · rw [if_pos hsmall]
    exact ⟨_, rfl⟩
  · rw [if_neg hsmall]
    obtain ⟨res, e, -⟩ := recursiveSend_loop env 3 (fun _ cl1 => ColourMapReady cl1) _
      (by
        intro strip hstrip g1 cl1 h1
        obtain ⟨sw, sh, ss⟩ := splitBoxes_smaller box _ hsmall hw hh strip hstrip
        obtain ⟨s, e, q⟩ := recursiveSend_ready env g1 cl1 strip h1 sw sh (by omega)
        exact ⟨s, e, q.1⟩)
      ((measureRegion env g cl box).2.1, (measureRegion env g cl box).2.2, []) m1
    exact ⟨res, e⟩

/-- The depth of the recursion is bounded by width plus height of the box plus
four: with that much fuel `recursiveSend` returns, from every state. -/
theorem recursiveSend_returns (env : Env) :
    ∀ (n : Nat) (g : Globals) (cl : rfbClientRec) (box : BoxRec),
      0 ≤ box.x2 - box.x1 → 0 ≤ box.y2 - box.y1 → boxSize box ≤ n →
      ∃ s, recursiveSend env (n + 4) g cl box = some s := by
  intro n
  induction n with
  | zero =>
    intro g cl box hw hh hz
    exact recursiveSend_zero_box env g cl box hw hh (by omega)
  | succ n ih =>
    intro g cl box hw hh hz
    rw [show n + 1 + 4 = (n + 4) + 1 from by omega, recursiveSend]
    dsimp only
    by_cases hsmall : (measureRegion env g cl box).1 < MAX_UPDATE_SIZE
    · rw [if_pos hsmall]
      exact ⟨_, rfl⟩
    · rw [if_neg hsmall]
      obtain ⟨res, e, -⟩ := recursiveSend_loop env (n + 4) (fun _ _ => True) _
        (by
          intro strip hstrip g1 cl1 _
          obtain ⟨sw, sh, ss⟩ := splitBoxes_smaller box _ hsmall hw hh strip hstrip
          obtain ⟨s, e⟩ := ih g1 cl1 strip sw sh (by omega)
          exact ⟨s, e, trivial⟩)
        ((measureRegion env g cl box).2.1, (measureRegion env g cl box).2.2, []) trivial
      exact ⟨res, e⟩

/-- More fuel does not change the result of `recursiveSend`. -/
theorem recursiveSend_fuel_succ (env : Env) :
    ∀ (fuel : Nat) (g : Globals) (cl : rfbClientRec) (box : BoxRec) s,
      recursiveSend env fuel g cl box = some s → recursiveSend env (fuel + 1) g cl box = some s := by
  intro fuel
  induction fuel with
  | zero =>
    intro g cl box s h
    simp [recursiveSend] at h
  | succ fuel ih =>
    intro g cl box s h
    rw [recursiveSend] at h ⊢
    dsimp only at h ⊢
    by_cases hsmall : (measureRegion env g cl box).1 < MAX_UPDATE_SIZE
    · rw [if_pos hsmall] at h ⊢
      exact h
    · rw [if_neg hsmall] at h ⊢
      have hloop : ∀ (strips : List BoxRec) (acc : Option (Globals × rfbClientRec × List BoxRec))
          res,
          strips.foldl
            (fun acc strip =>
              match acc with
              | none => none
              | some st =>
                match recursiveSend env fuel st.1 st.2.1 strip with
                | none => none
                | some st1 => some (st1.1, st1.2.1, st.2.2 ++ st1.2.2)) acc = some res →
          strips.foldl
            (fun acc strip =>
              match acc with
              | none => none
              | some st =>
                match recursiveSend env (fuel + 1) st.1 st.2.1 strip with
                | none => none
                | some st1 => some (st1.1, st1.2.1, st.2.2 ++ st1.2.2)) acc = some res := by
        intro strips
        induction strips with
        | nil => intro acc res hf; exact hf
        | cons strip rest ihs =>
          intro acc res hf
          rw [List.foldl_cons] at hf ⊢
          cases acc with
          | none =>
            have hnone : ∀ (l : List BoxRec),
                l.foldl
                  (fun acc strip =>
                    match acc with
                    | none => none
                    | some st =>
                      match recursiveSend env fuel st.1 st.2.1 strip with
                      | none => none
                      | some st1 => some (st1.1, st1.2.1, st.2.2 ++ st1.2.2))
                  (none : Option (Globals × rfbClientRec × List BoxRec)) = none := by
              intro l
              induction l with
              | nil => rfl
              | cons b l ihl => rw [List.foldl_cons]; exact ihl
            dsimp only at hf
            rw [hnone] at hf
            cases hf
          | some st0 =>
            dsimp only at hf ⊢
            cases hrec : recursiveSend env fuel st0.1 st0.2.1 strip with
            | none =>
              rw [hrec] at hf
              have hnone : ∀ (l : List BoxRec),
                  l.foldl
                    (fun acc strip =>
                      match acc with
                      | none => none
                      | some st =>
                        match recursiveSend env fuel st.1 st.2.1 strip with
                        | none => none
                        | some st1 => some (st1.1, st1.2.1, st.2.2 ++ st1.2.2))
                    (none : Option (Globals × rfbClientRec × List BoxRec)) = none := by
                intro l
                induction l with
                | nil => rfl
                | cons b l ihl => rw [List.foldl_cons]; exact ihl
              dsimp only at hf
              rw [hnone] at hf
              cases hf
            | some st1 =>
              rw [hrec] at hf
              rw [ih st0.1 st0.2.1 strip st1 hrec]
              exact ihs _ res hf
      exact hloop _ _ s h

theorem recursiveSend_fuel_le (env : Env) (fuel : Nat) (g : Globals) (cl : rfbClientRec)
    (box : BoxRec) (s : Globals × rfbClientRec × List BoxRec)
    (h : recursiveSend env fuel g cl box = some s) :
    ∀ k, recursiveSend env (fuel + k) g cl box = some s := by
  intro k
  induction k with
  | zero => exact h
  | succ k ih => exact recursiveSend_fuel_succ env (fuel + k) g cl box s ih

/-- C14. For every box with `xLo ≤ xHi` and `yLo ≤ yHi`, every session state
and all collaborators, `recursiveSend` terminates: the depth of its recursion
is at most width plus height of the box plus four (every level has at most
eight calls), so with that bound on the depth it returns a result, and a
larger bound gives the same result. -/
theorem C14_recursiveSend_terminates (env : Env) (g : Globals) (cl : rfbClientRec)
    (box : BoxRec) (hx : box.x1 ≤ box.x2) (hy : box.y1 ≤ box.y2) :
    ∃ s, recursiveSend env (boxSize box + 4) g cl box = some s
      ∧ ∀ fuel, boxSize box + 4 ≤ fuel → recursiveSend env fuel g cl box = some s := by
  obtain ⟨s, hs⟩ := recursiveSend_returns env (boxSize box) g cl box (by omega) (by omega)
    (Nat.le_refl _)
  refine ⟨s, hs, ?_⟩
  intro fuel hf
  have := recursiveSend_fuel_le env (boxSize box + 4) g cl box s hs (fuel - (boxSize box + 4))
  rw [Nat.add_sub_cancel' hf] at this
  exact this

/-- Witness for C14: the box `[0, 0, 10, 1]` on the `10 × 1` screen with an
encoder that needs 600 bytes per pixel; the recursion returns after one level
of splitting, having sent three strips. -/
theorem C14_recursiveSend_terminates_witness :
    sentBoxes (recursiveSend envDense 2 initGlobals (rfbNewClient 10 1 true true) ⟨0, 0, 10, 1⟩)
        = some [⟨0, 0, 3, 1⟩, ⟨3, 0, 6, 1⟩, ⟨6, 0, 9, 1⟩]
    ∧ ∃ s, recursiveSend envDense (boxSize ⟨0, 0, 10, 1⟩ + 4) initGlobals
          (rfbNewClient 10 1 true true) ⟨0, 0, 10, 1⟩ = some s
        ∧ ∀ fuel, boxSize ⟨0, 0, 10, 1⟩ + 4 ≤ fuel →
            recursiveSend envDense fuel initGlobals (rfbNewClient 10 1 true true) ⟨0, 0, 10, 1⟩
              = some s :=
  ⟨by decide,
    C14_recursiveSend_terminates envDense initGlobals (rfbNewClient 10 1 true true) ⟨0, 0, 10, 1⟩
      (by decide) (by decide)⟩

/-! ### Acks: `lastAckSeqNum`, `lastAckTime`, and acks that match no entry -/

theorem ack_lastAck (env : Env) (g : Globals) (seqNum : Nat) :
    (rfbProcessClientNormalMessage_FramebufferUpdateAck env g seqNum).lastAckSeqNum
        = (if (srRecDeleteSeqNum g seqNum).1.1 ≠ 0 then seqNum else g.lastAckSeqNum)
    ∧ (rfbProcessClientNormalMessage_FramebufferUpdateAck env g seqNum).lastAckTime
        = (if (srRecDeleteSeqNum g seqNum).1.1 ≠ 0 then ackTimeCurrent env g seqNum
            else g.lastAckTime) := by
  unfold rfbProcessClientNormalMessage_FramebufferUpdateAck ackTimeCurrent
  dsimp only
  split_ifs <;> exact ⟨rfl, rfl⟩

theorem ack_unmatched (env : Env) (g : Globals) (seqNum : Nat)
    (hno : ∀ x ∈ g.srRec, x.seqNum ≠ seqNum) :
    ackView (rfbProcessClientNormalMessage_FramebufferUpdateAck env g seqNum) = ackView g
    ∧ (srRecDeleteSeqNum g seqNum).1.1 = 0 := by
  have hloop := srRecDeleteSeqNumLoop_absent seqNum g.srRec hno
  have h0 : (srRecDeleteSeqNum g seqNum).1.1 = 0 := by
    simp only [srRecDeleteSeqNum, hloop]
  refine ⟨?_, h0⟩
  unfold rfbProcessClientNormalMessage_FramebufferUpdateAck
  dsimp only
  rw [if_neg (by rw [h0]; exact fun h => h rfl)]
  simp only [ackView, srRecDeleteSeqNum, hloop]

theorem srRecDeleteSeqNumLoop_removes (seqNum : Nat) :
    ∀ q : List SendRegionRec, (q.map (fun e => e.seqNum)).Nodup →
      ∀ x ∈ (srRecDeleteSeqNumLoop seqNum q).2, x.seqNum ≠ seqNum := by
  intro q
  induction q with
  | nil => intro _ x hx; simp [srRecDeleteSeqNumLoop] at hx
  | cons e rest ih =>
    intro hnd x hx
    rw [List.map_cons, List.nodup_cons] at hnd
    by_cases he : e.seqNum = seqNum
    · simp only [srRecDeleteSeqNumLoop, he, if_true] at hx
      intro hxs
      apply hnd.1
      rw [he, ← hxs]
      exact List.mem_map_of_mem _ hx
    · simp only [srRecDeleteSeqNumLoop, he, if_false, List.mem_cons] at hx
      rcases hx with rfl | hx
      · exact he
      · exact ih hnd.2 x hx

/-- C21, counterexample. The queue holds the sequence numbers 1, 2 and 4; an
ack for sequence number 3 is processed at clock 1000.  Afterwards
`lastAckSeqNum` and `lastAckTime` still have their old value `0`: they did not
become the acked number `3` and the current time. -/
theorem C21_unmatched_ack_keeps_lastAck :
    globalsQueue3.srRec.map (fun e => e.seqNum) = [1, 2, 4]
    ∧ envOk.GetTimeInMillis (srRecDeleteSeqNum globalsQueue3 3).2 = 1000
    ∧ (rfbProcessClientNormalMessage_FramebufferUpdateAck envOk globalsQueue3 3).lastAckSeqNum = 0
    ∧ (rfbProcessClientNormalMessage_FramebufferUpdateAck envOk globalsQueue3 3).lastAckTime = 0
    ∧ (rfbProcessClientNormalMessage_FramebufferUpdateAck envOk globalsQueue3 3).lastAckSeqNum ≠ 3
    ∧ (rfbProcessClientNormalMessage_FramebufferUpdateAck envOk globalsQueue3 3).lastAckTime
        ≠ envOk.GetTimeInMillis (srRecDeleteSeqNum globalsQueue3 3).2 := by
  decide

/-- C21, amended. An ack whose sequence number is found in the unacked queue
(the first entry from the head with this number, its send time not `0`) sets
`lastAckSeqNum` to the acked number and `lastAckTime` to the current time; an
ack whose sequence number is not found leaves both as they were. -/
theorem C21_lastAck_updated_on_match (env : Env) (g : Globals) (seqNum : Nat) :
    (∀ (pre : List SendRegionRec) (e : SendRegionRec) (post : List SendRegionRec),
        g.srRec = pre ++ e :: post → (∀ x ∈ pre, x.seqNum ≠ seqNum) → e.seqNum = seqNum →
        e.time ≠ 0 →
        (rfbProcessClientNormalMessage_FramebufferUpdateAck env g seqNum).lastAckSeqNum = seqNum
        ∧ (rfbProcessClientNormalMessage_FramebufferUpdateAck env g seqNum).lastAckTime
            = env.GetTimeInMillis (srRecDeleteSeqNum g seqNum).2)
    ∧ ((∀ x ∈ g.srRec, x.seqNum ≠ seqNum) →
        (rfbProcessClientNormalMessage_FramebufferUpdateAck env g seqNum).lastAckSeqNum
            = g.lastAckSeqNum
        ∧ (rfbProcessClientNormalMessage_FramebufferUpdateAck env g seqNum).lastAckTime
            = g.lastAckTime) := by
  obtain ⟨h1, h2⟩ := ack_lastAck env g seqNum
  constructor
  · intro pre e post hq hpre he ht
    have hfound : (srRecDeleteSeqNum g seqNum).1.1 = e.time := by
      simp only [srRecDeleteSeqNum, hq, srRecDeleteSeqNumLoop_found seqNum e post he pre hpre]
    have hne : (srRecDeleteSeqNum g seqNum).1.1 ≠ 0 := by rw [hfound]; exact ht
    rw [h1, h2, if_pos hne, if_pos hne]
    exact ⟨rfl, rfl⟩
  · intro hno
    have h0 := (ack_unmatched env g seqNum hno).2
    have hne : ¬ (srRecDeleteSeqNum g seqNum).1.1 ≠ 0 := fun h => h h0
    rw [h1, h2, if_neg hne, if_neg hne]
    exact ⟨rfl, rfl⟩

/-- Witness for the amended C21: in the three-entry queue the ack for sequence
number 2 (sent at 200) is found, so `lastAckSeqNum = 2` and `lastAckTime` is
the clock; the ack for the absent number 3 changes neither. -/
theorem C21_lastAck_updated_on_match_witness :
    ((rfbProcessClientNormalMessage_FramebufferUpdateAck envOk globalsQueue3 2).lastAckSeqNum = 2
      ∧ (rfbProcessClientNormalMessage_FramebufferUpdateAck envOk globalsQueue3 2).lastAckTime
          = envOk.GetTimeInMillis (srRecDeleteSeqNum globalsQueue3 2).2)
    ∧ ((rfbProcessClientNormalMessage_FramebufferUpdateAck envOk globalsQueue3 3).lastAckSeqNum
          = globalsQueue3.lastAckSeqNum
      ∧ (rfbProcessClientNormalMessage_FramebufferUpdateAck envOk globalsQueue3 3).lastAckTime
          = globalsQueue3.lastAckTime) :=
  ⟨(C21_lastAck_updated_on_match envOk globalsQueue3 2).1
      [{ seqNum := 1, time := 100, numBytes := 40, region := {(0, 0), (1, 0)} }]
      { seqNum := 2, time := 200, numBytes := 50, region := {(1, 0)} }
      [{ seqNum := 4, time := 950, numBytes := 60, region := {(2, 0), (3, 0)} }]
      (by decide) (by decide) (by decide) (by decide),
   (C21_lastAck_updated_on_match envOk globalsQueue3 3).2 (by decide)⟩

/-- C22. An ack whose sequence number matches no entry of the unacked queue
leaves the queue, `srtt`, `rttvar`, `retransmitTimeout` and
`receivingThroughput` as they were, and the handler closes no socket and
unlinks no session.  When no two entries of the queue carry the same sequence
number, a second ack for a sequence number leaves these variables as the first
ack left them. -/
theorem C22_unmatched_ack_ignored (env : Env) (s : Server) (cl : rfbClientPtr) (seqNum : Nat) :
    ((∀ x ∈ s.g.srRec, x.seqNum ≠ seqNum) →
        ackView (rfbProcessClientNormalMessage env s cl
            (ClientMsg.framebufferUpdateAck seqNum)).g = ackView s.g
        ∧ (rfbProcessClientNormalMessage env s cl
            (ClientMsg.framebufferUpdateAck seqNum)).closedSocks = s.closedSocks
        ∧ (rfbProcessClientNormalMessage env s cl
            (ClientMsg.framebufferUpdateAck seqNum)).rfbClientHead = s.rfbClientHead)
    ∧ ((s.g.srRec.map (fun e => e.seqNum)).Nodup →
        ackView (rfbProcessClientNormalMessage env
            (rfbProcessClientNormalMessage env s cl (ClientMsg.framebufferUpdateAck seqNum)) cl
            (ClientMsg.framebufferUpdateAck seqNum)).g
          = ackView (rfbProcessClientNormalMessage env s cl
              (ClientMsg.framebufferUpdateAck seqNum)).g
        ∧ (rfbProcessClientNormalMessage env
            (rfbProcessClientNormalMessage env s cl (ClientMsg.framebufferUpdateAck seqNum)) cl
            (ClientMsg.framebufferUpdateAck seqNum)).closedSocks = s.closedSocks) := by
  cases hd : s.deref cl with
  | none =>
    have e1 : ∀ t : Server, t.deref cl = none → ∀ m, rfbProcessClientNormalMessage env t cl m = t := by
      intro t ht m
      unfold rfbProcessClientNormalMessage
      rw [ht]
    rw [e1 s hd, e1 s hd]
    exact ⟨fun _ => ⟨rfl, rfl, rfl⟩, fun _ => ⟨rfl, rfl⟩⟩
  | some r =>
    have e1 : ∀ t : Server, t.deref cl = some r →
        rfbProcessClientNormalMessage env t cl (ClientMsg.framebufferUpdateAck seqNum)
          = { t with g := rfbProcessClientNormalMessage_FramebufferUpdateAck env t.g seqNum } := by
      intro t ht
      unfold rfbProcessClientNormalMessage
      rw [ht]
    have hd1 : Server.deref
        { s with g := rfbProcessClientNormalMessage_FramebufferUpdateAck env s.g seqNum } cl
          = some r := hd
    rw [e1 s hd, e1 _ hd1]
    constructor
    · intro hno
      exact ⟨(ack_unmatched env s.g seqNum hno).1, rfl, rfl⟩
    · intro hnd
      refine ⟨?_, rfl⟩
      apply (ack_unmatched env _ seqNum ?_).1
      rw [(ack_queue env s.g seqNum).2.2]
      exact srRecDeleteSeqNumLoop_removes seqNum s.g.srRec hnd

/-- Witness for C22: with the sequence numbers 1, 2 and 4 in flight, the ack
for 3 matches nothing, and the ack for 2 is processed twice. -/
theorem C22_unmatched_ack_ignored_witness :
    (ackView (rfbProcessClientNormalMessage envOk serverQueue3 1
          (ClientMsg.framebufferUpdateAck 3)).g = ackView serverQueue3.g
      ∧ (rfbProcessClientNormalMessage envOk serverQueue3 1
          (ClientMsg.framebufferUpdateAck 3)).closedSocks = serverQueue3.closedSocks
      ∧ (rfbProcessClientNormalMessage envOk serverQueue3 1
          (ClientMsg.framebufferUpdateAck 3)).rfbClientHead = serverQueue3.rfbClientHead)
    ∧ (ackView (rfbProcessClientNormalMessage envOk
          (rfbProcessClientNormalMessage envOk serverQueue3 1 (ClientMsg.framebufferUpdateAck 2)) 1
          (ClientMsg.framebufferUpdateAck 2)).g
        = ackView (rfbProcessClientNormalMessage envOk serverQueue3 1
            (ClientMsg.framebufferUpdateAck 2)).g
      ∧ (rfbProcessClientNormalMessage envOk
          (rfbProcessClientNormalMessage envOk serverQueue3 1 (ClientMsg.framebufferUpdateAck 2)) 1
          (ClientMsg.framebufferUpdateAck 2)).closedSocks = serverQueue3.closedSocks) :=
  ⟨(C22_unmatched_ack_ignored envOk serverQueue3 1 3).1 (by decide),
   (C22_unmatched_ack_ignored envOk serverQueue3 1 2).2 (by decide)⟩

/-! ### `SetEncodings`: preferred encoding, unknown encodings, cursor updates -/

theorem setEncodingsStep_unknown (cl : rfbClientRec) (enc : Nat) (h : knownEncoding enc = false) :
    setEncodingsStep cl enc = cl := by
  simp only [knownEncoding, pixelEncoding, Bool.or_eq_false_iff, decide_eq_false_iff_not] at h
  obtain ⟨⟨⟨⟨⟨⟨⟨h1, h2⟩, h3⟩, h4⟩, h5⟩, h6⟩, h7⟩, h8⟩ := h
  unfold setEncodingsStep
  rw [if_neg h1, if_neg h2, if_neg h3, if_neg h4, if_neg h5, if_neg h6, if_neg h7, if_neg h8]

theorem setEncodings_fold_unknown (encs : List Nat) :
    ∀ cl : rfbClientRec,
      encs.foldl setEncodingsStep cl = (encs.filter knownEncoding).foldl setEncodingsStep cl := by
  induction encs with
  | nil => intro cl; rfl
  | cons enc rest ih =>
    intro cl
    cases hk : knownEncoding enc
    · rw [List.filter_cons_of_neg (by simp [hk]), List.foldl_cons,
        setEncodingsStep_unknown cl enc hk]
      exact ih cl
    · rw [List.filter_cons_of_pos hk, List.foldl_cons, List.foldl_cons]
      exact ih _

theorem setEncodingsStep_preferred (cl : rfbClientRec) (enc : Nat) :
    (setEncodingsStep cl enc).preferredEncoding
      = (if pixelEncoding enc = true ∧ cl.preferredEncoding = -1 then (enc : Int)
          else cl.preferredEncoding) := by
  unfold setEncodingsStep
  by_cases h1 : (enc : Int) = rfbEncodingCopyRect
  · rw [if_pos h1]
    have hp : pixelEncoding enc = false := by
      simp only [pixelEncoding, decide_eq_false_iff_not]
      unfold rfbEncodingCopyRect at h1
      unfold rfbEncodingRaw rfbEncodingRRE rfbEncodingCoRRE rfbEncodingHextile rfbEncodingZlib
        rfbEncodingTight
      omega
    rw [hp]
    simp
  · rw [if_neg h1]
    by_cases h2 : (enc : Int) = rfbEncodingRaw ∨ (enc : Int) = rfbEncodingRRE
        ∨ (enc : Int) = rfbEncodingCoRRE ∨ (enc : Int) = rfbEncodingHextile
        ∨ (enc : Int) = rfbEncodingZlib ∨ (enc : Int) = rfbEncodingTight
    · have hp : pixelEncoding enc = true := by
        simp only [pixelEncoding, decide_eq_true_eq]
        exact h2
      rw [if_pos h2, hp]
      by_cases h3 : cl.preferredEncoding = -1
      · rw [if_pos h3, if_pos ⟨rfl, h3⟩]
      · rw [if_neg h3, if_neg (fun h => h3 h.2)]
    · have hp : pixelEncoding enc = false := by
        simp only [pixelEncoding, decide_eq_false_iff_not]
        exact h2
      rw [if_neg h2, hp]
      simp only [Bool.false_eq_true, false_and, if_false]
      split_ifs <;> rfl

theorem setEncodings_fold_preferred (encs : List Nat) :
    ∀ cl : rfbClientRec,
      (encs.foldl setEncodingsStep cl).preferredEncoding
        = (if cl.preferredEncoding = -1 then
            (match encs.find? pixelEncoding with
              | some enc => (enc : Int)
              | none => -1)
          else cl.preferredEncoding) := by
  induction encs with
  | nil =>
    intro cl
    simp only [List.foldl_nil, List.find?_nil]
    split_ifs with h
    · exact h
    · rfl
  | cons enc rest ih =>
    intro cl
    rw [List.foldl_cons, ih, setEncodingsStep_preferred]
    cases hp : pixelEncoding enc
    · simp only [Bool.false_eq_true, false_and, if_false, List.find?_cons, hp]
    · simp only [true_and, List.find?_cons, hp]
      by_cases h3 : cl.preferredEncoding = -1
      · simp only [h3, if_true]
        have hne : ¬ ((enc : Int) = -1) := by
          have := Int.ofNat_nonneg enc
          omega
        rw [if_neg hne]
      · simp only [h3, if_false]

/-- C27. After a completed `SetEncodings` with the list `encs`, the preferred
encoding is the first element of the list that is one of Raw, RRE, CoRRE,
Hextile, Zlib, Tight, and Raw when the list has none of them.  The session
after the message does not depend on the preferred encoding before it, and
encoding numbers that the handler does not know change nothing: the list with
them taken out, or with one of them put in at any place, gives the same session. -/
theorem C27_preferred_encoding (cl : rfbClientRec) (encs : List Nat) :
    (rfbProcessClientNormalMessage_SetEncodings cl encs true).preferredEncoding
        = firstPixelEncoding encs
    ∧ (∀ (p : Int) (complete : Bool),
        rfbProcessClientNormalMessage_SetEncodings { cl with preferredEncoding := p } encs complete
          = rfbProcessClientNormalMessage_SetEncodings cl encs complete)
    ∧ (∀ complete : Bool,
        rfbProcessClientNormalMessage_SetEncodings cl encs complete
          = rfbProcessClientNormalMessage_SetEncodings cl (encs.filter knownEncoding) complete)
    ∧ (∀ (front back : List Nat) (enc : Nat) (complete : Bool),
        encs = front ++ back → knownEncoding enc = false →
        rfbProcessClientNormalMessage_SetEncodings cl (front ++ enc :: back) complete
          = rfbProcessClientNormalMessage_SetEncodings cl encs complete) := by
  refine ⟨?_, fun _ _ => rfl, ?_, ?_⟩
  · unfold rfbProcessClientNormalMessage_SetEncodings firstPixelEncoding
    have hf := setEncodings_fold_preferred encs
      { cl with preferredEncoding := -1, useCopyRect := false,
                enableCursorShapeUpdates := false, enableCursorPosUpdates := false,
                enableLastRectEncoding := false, tightQualityLevel := -1 }
    rw [if_pos rfl] at hf
    dsimp only
    rw [if_pos rfl]
    generalize List.foldl setEncodingsStep _ encs = cl1 at hf ⊢
    cases hfind : encs.find? pixelEncoding with
    | none =>
      rw [hfind] at hf
      dsimp only at hf
      rw [if_pos hf]
      dsimp only
      split_ifs <;> rfl
    | some enc =>
      rw [hfind] at hf
      dsimp only at hf
      have hne : ¬ (cl1.preferredEncoding = -1) := by
        have := Int.ofNat_nonneg enc
        rw [hf]
        omega
      rw [if_neg hne]
      dsimp only
      split_ifs <;> exact hf
  · intro complete
    unfold rfbProcessClientNormalMessage_SetEncodings
    dsimp only
    rw [← setEncodings_fold_unknown]
  · intro front back enc complete he hk
    have hfilter : (front ++ enc :: back).filter knownEncoding = encs.filter knownEncoding := by
      rw [he, List.filter_append, List.filter_append, List.filter_cons_of_neg (by simp [hk])]
    unfold rfbProcessClientNormalMessage_SetEncodings
    dsimp only
    rw [setEncodings_fold_unknown (front ++ enc :: back), setEncodings_fold_unknown encs, hfilter]

/-- Witness for C27: the list `[CopyRect, 99, Hextile, Tight]` makes Hextile
the preferred encoding, and the unknown number `99` may be put in front of
`[CopyRect, Hextile, Tight]` or anywhere else without changing the session. -/
theorem C27_preferred_encoding_witness :
    (rfbProcessClientNormalMessage_SetEncodings clNormalA [1, 99, 5, 7] true).preferredEncoding = 5
    ∧ knownEncoding 99 = false
    ∧ rfbProcessClientNormalMessage_SetEncodings clNormalA ([1] ++ 99 :: [5, 7]) true
        = rfbProcessClientNormalMessage_SetEncodings clNormalA [1, 5, 7] true :=
  ⟨(C27_preferred_encoding clNormalA [1, 99, 5, 7]).1, by decide,
   (C27_preferred_encoding clNormalA [1, 5, 7]).2.2.2 [1] [5, 7] 99 true rfl (by decide)⟩

theorem setEncodingsStep_shape (cl : rfbClientRec) (enc : Nat)
    (hx : enc ≠ rfbEncodingXCursor) (hr : enc ≠ rfbEncodingRichCursor) :
    (setEncodingsStep cl enc).enableCursorShapeUpdates = cl.enableCursorShapeUpdates := by
  unfold setEncodingsStep
  rw [if_neg hx, if_neg hr]
  split_ifs <;> rfl

theorem setEncodings_fold_shape (encs : List Nat)
    (hx : rfbEncodingXCursor ∉ encs) (hr : rfbEncodingRichCursor ∉ encs) :
    ∀ cl : rfbClientRec,
      (encs.foldl setEncodingsStep cl).enableCursorShapeUpdates = cl.enableCursorShapeUpdates := by
  induction encs with
  | nil => intro cl; rfl
  | cons enc rest ih =>
    intro cl
    rw [List.mem_cons, not_or] at hx hr
    rw [List.foldl_cons, ih hx.2 hr.2]
    exact setEncodingsStep_shape cl enc (fun h => hx.1 h.symm) (fun h => hr.1 h.symm)

theorem setEncodings_cursor_flags (cl : rfbClientRec) (encs : List Nat) :
    (rfbProcessClientNormalMessage_SetEncodings cl encs true).enableCursorShapeUpdates
        = (encs.foldl setEncodingsStep
            { cl with preferredEncoding := -1, useCopyRect := false,
                      enableCursorShapeUpdates := false, enableCursorPosUpdates := false,
                      enableLastRectEncoding := false,
                      tightQualityLevel := -1 }).enableCursorShapeUpdates
    ∧ ((rfbProcessClientNormalMessage_SetEncodings cl encs true).enableCursorPosUpdates = true →
        (rfbProcessClientNormalMessage_SetEncodings cl encs true).enableCursorShapeUpdates
          = true) := by
  unfold rfbProcessClientNormalMessage_SetEncodings
  dsimp only
  rw [if_pos rfl]
  generalize List.foldl setEncodingsStep _ encs = cl1
  have hpref : ∀ c : rfbClientRec,
      (if c.preferredEncoding = -1 then { c with preferredEncoding := rfbEncodingRaw }
        else c).enableCursorShapeUpdates = c.enableCursorShapeUpdates
      ∧ (if c.preferredEncoding = -1 then { c with preferredEncoding := rfbEncodingRaw }
        else c).enableCursorPosUpdates = c.enableCursorPosUpdates := by
    intro c
    split_ifs <;> exact ⟨rfl, rfl⟩
  obtain ⟨q1, q2⟩ := hpref cl1
  generalize (if cl1.preferredEncoding = -1 then { cl1 with preferredEncoding := rfbEncodingRaw }
    else cl1) = cl2 at q1 q2 ⊢
  cases hp : cl2.enableCursorPosUpdates <;> cases hs : cl2.enableCursorShapeUpdates
  all_goals simp [hp, hs, ← q1]

/-- C28. After every completed `SetEncodings` message, a session with cursor
position updates enabled has cursor shape updates enabled; a list with
`PointerPos` but neither `XCursor` nor `RichCursor` leaves the cursor position
updates disabled. -/
theorem C28_cursor_pos_requires_shape (cl : rfbClientRec) (encs : List Nat) :
    ((rfbProcessClientNormalMessage_SetEncodings cl encs true).enableCursorPosUpdates = true →
      (rfbProcessClientNormalMessage_SetEncodings cl encs true).enableCursorShapeUpdates = true)
    ∧ (rfbEncodingPointerPos ∈ encs → rfbEncodingXCursor ∉ encs →
        rfbEncodingRichCursor ∉ encs →
        (rfbProcessClientNormalMessage_SetEncodings cl encs true).enableCursorPosUpdates
          = false) := by
  obtain ⟨h1, h2⟩ := setEncodings_cursor_flags cl encs
  refine ⟨h2, ?_⟩
  intro _ hx hr
  have hs := setEncodings_fold_shape encs hx hr
    { cl with preferredEncoding := -1, useCopyRect := false,
              enableCursorShapeUpdates := false, enableCursorPosUpdates := false,
              enableLastRectEncoding := false, tightQualityLevel := -1 }
  rw [← h1] at hs
  cases hp : (rfbProcessClientNormalMessage_SetEncodings cl encs true).enableCursorPosUpdates
  · rfl
  · rw [h2 hp] at hs
    cases hs

/-- Witness for C28: the list `[Tight, PointerPos]` leaves cursor position
updates disabled, the list `[Tight, PointerPos, RichCursor]` enables both. -/
theorem C28_cursor_pos_requires_shape_witness :
    (rfbProcessClientNormalMessage_SetEncodings clNormalA
        [7, rfbEncodingPointerPos] true).enableCursorPosUpdates = false
    ∧ (rfbProcessClientNormalMessage_SetEncodings clNormalA
        [7, rfbEncodingPointerPos, rfbEncodingRichCursor] true).enableCursorPosUpdates = true
    ∧ (rfbProcessClientNormalMessage_SetEncodings clNormalA
        [7, rfbEncodingPointerPos, rfbEncodingRichCursor] true).enableCursorShapeUpdates = true :=
  ⟨(C28_cursor_pos_requires_shape clNormalA [7, rfbEncodingPointerPos]).2
      (by decide) (by decide) (by decide),
   by decide,
   (C28_cursor_pos_requires_shape clNormalA
      [7, rfbEncodingPointerPos, rfbEncodingRichCursor]).1 (by decide)⟩

/-! ### Connections: closing, version handshake -/

theorem rfbCloseSock_fields (s : Server) (sock : Int) :
    (rfbCloseSock s sock).closedSocks = s.closedSocks ++ [sock]
    ∧ (rfbCloseSock s sock).rfbClientHead
        = s.rfbClientHead.eraseP (fun q => decide (q.2.sock = sock))
    ∧ (rfbCloseSock s sock).authClients = s.authClients
    ∧ (rfbCloseSock s sock).ptrEvents = s.ptrEvents
    ∧ (rfbCloseSock s sock).rfbAlwaysShared = s.rfbAlwaysShared
    ∧ (rfbCloseSock s sock).rfbNeverShared = s.rfbNeverShared
    ∧ (rfbCloseSock s sock).rfbDontDisconnect = s.rfbDontDisconnect
    ∧ (rfbCloseSock s sock).rfbViewOnly = s.rfbViewOnly := by
  unfold rfbCloseSock rfbClientConnectionGone
  dsimp only
  cases hfind : s.rfbClientHead.find? (fun p => decide (p.2.sock = sock)) with
  | none =>
    dsimp only
    refine ⟨rfl, ?_, rfl, rfl, rfl, rfl, rfl, rfl⟩
    rw [List.find?_eq_none] at hfind
    exact (List.eraseP_of_forall_not hfind).symm
  | some p => exact ⟨rfl, rfl, rfl, rfl, rfl, rfl, rfl, rfl⟩

theorem deref_of_head (s t : Server) (h : t.rfbClientHead = s.rfbClientHead)
    (q : rfbClientPtr) : t.deref q = s.deref q := by
  unfold Server.deref
  rw [h]

theorem deref_modify (s : Server) (cl q : rfbClientPtr) (f : rfbClientRec → rfbClientRec) :
    (s.modify cl f).deref q = if q = cl then (s.deref q).map f else s.deref q := by
  unfold Server.modify Server.deref
  dsimp only
  induction s.rfbClientHead with
  | nil => simp
  | cons p rest ih =>
    by_cases hp : p.1 = q
    · by_cases hc : p.1 = cl
      · have hqc : q = cl := hp ▸ hc
        simp [List.find?_cons, hp, hc, hqc]
      · have hqc : ¬ q = cl := fun h => hc (hp.trans h)
        simp [List.find?_cons, hp, hc, hqc]
    · by_cases hc : p.1 = cl
      · simp only [List.map_cons, if_pos hc, List.find?_cons, hp, decide_False] at ih ⊢
        exact ih
      · simp only [List.map_cons, if_neg hc, List.find?_cons, hp, decide_False] at ih ⊢
        exact ih

theorem negotiatedMinor_spec (minor : Int) :
    negotiatedMinor minor
        = (if minor > 8 then 8 else if (4 ≤ minor ∧ minor ≤ 6) ∨ minor < 3 then 3 else minor)
    ∧ (negotiatedMinor minor = 3 ∨ negotiatedMinor minor = 7 ∨ negotiatedMinor minor = 8) := by
  unfold negotiatedMinor
  constructor
  · split_ifs <;> omega
  · split_ifs <;> omega

/-- C26. For a version string with major version 3 and any minor version, the
handshake stores as minor version of the session 8 when `minor > 8`, 3 when
`4 ≤ minor ≤ 6` or `minor < 3`, and `minor` itself otherwise, which is always
one of 3, 7, 8; it closes nothing and hands the session on to authentication.
A version string with another major version closes the socket of the session:
no version is stored in any session and authentication is not started. -/
theorem C26_protocol_version (s : Server) (cl : rfbClientPtr) (r : rfbClientRec)
    (major minor : Int) (hcl : s.deref cl = some r) :
    (major = 3 →
        (rfbProcessClientProtocolVersion s cl (some (some (major, minor)))).deref cl
          = some { r with protocol_tightvnc := false,
                          protocol_minor_ver :=
                            (if minor > 8 then 8
                              else if (4 ≤ minor ∧ minor ≤ 6) ∨ minor < 3 then 3 else minor) }
        ∧ (negotiatedMinor minor = 3 ∨ negotiatedMinor minor = 7 ∨ negotiatedMinor minor = 8)
        ∧ (rfbProcessClientProtocolVersion s cl (some (some (major, minor)))).closedSocks
            = s.closedSocks
        ∧ (rfbProcessClientProtocolVersion s cl (some (some (major, minor)))).authClients
            = s.authClients ++ [cl])
    ∧ (major ≠ 3 →
        (rfbProcessClientProtocolVersion s cl (some (some (major, minor)))).closedSocks
            = s.closedSocks ++ [r.sock]
        ∧ (rfbProcessClientProtocolVersion s cl (some (some (major, minor)))).rfbClientHead
            = s.rfbClientHead.eraseP (fun q => decide (q.2.sock = r.sock))
        ∧ (rfbProcessClientProtocolVersion s cl (some (some (major, minor)))).authClients
            = s.authClients) := by
  unfold rfbProcessClientProtocolVersion
  rw [hcl]
  dsimp only
  constructor
  · intro h3
    rw [if_neg (fun h => h h3)]
    refine ⟨?_, (negotiatedMinor_spec minor).2, rfl, rfl⟩
    rw [← (negotiatedMinor_spec minor).1]
    refine (deref_of_head (s.modify cl (storeVersion minor)) _ rfl cl).trans ?_
    rw [deref_modify, if_pos rfl, hcl]
    rfl
  · intro h3
    rw [if_pos h3]
    obtain ⟨q1, q2, q3, -⟩ := rfbCloseSock_fields s r.sock
    exact ⟨q1, q2, q3⟩

/-- Witness for C26: the client versions 3.5, 3.7 and 3.889 are negotiated to
3.3, 3.7 and 3.8; the version 4.0 closes the socket 6 of the session. -/
theorem C26_protocol_version_witness :
    ((rfbProcessClientProtocolVersion serverFresh 3 (some (some (3, 5)))).deref 3).map
        (fun r => r.protocol_minor_ver) = some 3
    ∧ ((rfbProcessClientProtocolVersion serverFresh 3 (some (some (3, 7)))).deref 3).map
        (fun r => r.protocol_minor_ver) = some 7
    ∧ ((rfbProcessClientProtocolVersion serverFresh 3 (some (some (3, 889)))).deref 3).map
        (fun r => r.protocol_minor_ver) = some 8
    ∧ (rfbProcessClientProtocolVersion serverFresh 3 (some (some (4, 0)))).closedSocks = [6]
    ∧ (rfbProcessClientProtocolVersion serverFresh 3 (some (some (4, 0)))).rfbClientHead = [] := by
  have h5 := ((C26_protocol_version serverFresh 3 clFresh 3 5 (by decide)).1 rfl).1
  have h7 := ((C26_protocol_version serverFresh 3 clFresh 3 7 (by decide)).1 rfl).1
  have h889 := ((C26_protocol_version serverFresh 3 clFresh 3 889 (by decide)).1 rfl).1
  have h4 := (C26_protocol_version serverFresh 3 clFresh 4 0 (by decide)).2 (by decide)
  rw [h5, h7, h889, h4.1, h4.2.1]
  exact ⟨rfl, rfl, rfl, rfl, by decide⟩

/-! ### The pointer lock -/

/-- C24. While a session `a` owns the pointer, a pointer event of another
session `b` is dropped: the owner, `lastEventId`, every session record (so the
cursor position of `b`) and the events handed to the pointer device stay as
they were.  A pointer event of the owner, or of any session while nobody owns
the pointer, makes the sender the owner when its button mask is not `0` and
releases the pointer when it is `0`. -/
theorem C24_pointer_lock (s : Server) (a b : rfbClientPtr) (msg : rfbPointerEventMsg) :
    (a ≠ b → s.pointerClient = some a →
        (rfbProcessClientNormalMessage_PointerEvent s b msg).pointerClient = some a
        ∧ (rfbProcessClientNormalMessage_PointerEvent s b msg).g.lastEventId = s.g.lastEventId
        ∧ (rfbProcessClientNormalMessage_PointerEvent s b msg).rfbClientHead = s.rfbClientHead
        ∧ (rfbProcessClientNormalMessage_PointerEvent s b msg).ptrEvents = s.ptrEvents)
    ∧ (∀ r : rfbClientRec, s.deref b = some r →
        s.pointerClient = some b ∨ s.pointerClient = none →
        (rfbProcessClientNormalMessage_PointerEvent s b msg).pointerClient
            = (if msg.buttonMask = 0 then none else some b)
        ∧ (rfbProcessClientNormalMessage_PointerEvent s b msg).g.lastEventId = msg.eventId) := by
  constructor
  · intro hab hown
    have hdrop : rfbProcessClientNormalMessage_PointerEvent s b msg = s := by
      unfold rfbProcessClientNormalMessage_PointerEvent
      cases s.deref b with
      | none => rfl
      | some r =>
        dsimp only
        rw [if_pos]
        rw [hown]
        exact ⟨rfl, fun h => hab (Option.some.inj h)⟩
    rw [hdrop]
    exact ⟨hown, rfl, rfl, rfl⟩
  · intro r hr hfree
    unfold rfbProcessClientNormalMessage_PointerEvent
    rw [hr]
    dsimp only
    have hno : ¬ (s.pointerClient.isSome = true ∧ s.pointerClient ≠ some b) := by
      rintro ⟨h1, h2⟩
      rcases hfree with h | h
      · exact h2 h
      · rw [h] at h1
        cases h1
    rw [if_neg hno]
    split_ifs <;> exact ⟨rfl, rfl⟩

/-- Witness for C24, scenario S6.  A presses a button and owns the pointer; the
press of B is dropped; A releases; the press of B is accepted, and the run
ends with B as owner, three events at the pointer device and `lastEventId`
the id of the last event of B. -/
theorem C24_pointer_lock_witness :
    (pointerEvents serverAB [(1, pointerAt 1 100)]).pointerClient = some 1
    ∧ ((rfbProcessClientNormalMessage_PointerEvent
          (pointerEvents serverAB [(1, pointerAt 1 100)]) 2 (pointerAt 1 200)).pointerClient
          = some 1
      ∧ (rfbProcessClientNormalMessage_PointerEvent
          (pointerEvents serverAB [(1, pointerAt 1 100)]) 2 (pointerAt 1 200)).g.lastEventId
          = (pointerEvents serverAB [(1, pointerAt 1 100)]).g.lastEventId
      ∧ (rfbProcessClientNormalMessage_PointerEvent
          (pointerEvents serverAB [(1, pointerAt 1 100)]) 2 (pointerAt 1 200)).rfbClientHead
          = (pointerEvents serverAB [(1, pointerAt 1 100)]).rfbClientHead
      ∧ (rfbProcessClientNormalMessage_PointerEvent
          (pointerEvents serverAB [(1, pointerAt 1 100)]) 2 (pointerAt 1 200)).ptrEvents
          = (pointerEvents serverAB [(1, pointerAt 1 100)]).ptrEvents)
    ∧ ((rfbProcessClientNormalMessage_PointerEvent
          (pointerEvents serverAB [(1, pointerAt 1 100), (2, pointerAt 1 200)]) 1
          (pointerAt 0 101)).pointerClient = none
      ∧ (rfbProcessClientNormalMessage_PointerEvent
          (pointerEvents serverAB [(1, pointerAt 1 100), (2, pointerAt 1 200)]) 1
          (pointerAt 0 101)).g.lastEventId = 101)
    ∧ (pointerEvents serverAB eventsS6).pointerClient = some 2
    ∧ (pointerEvents serverAB eventsS6).g.lastEventId = 201
    ∧ (pointerEvents serverAB eventsS6).ptrEvents.map (fun e => (e.cl, e.buttonMask))
        = [(1, 1), (1, 0), (2, 1)] :=
  ⟨by decide,
   (C24_pointer_lock (pointerEvents serverAB [(1, pointerAt 1 100)]) 1 2 (pointerAt 1 200)).1
      (by decide) (by decide),
   (C24_pointer_lock (pointerEvents serverAB [(1, pointerAt 1 100), (2, pointerAt 1 200)]) 1 1
      (pointerAt 0 101)).2 (storeCursor 10 20 clNormalA) (by decide) (by decide),
   by decide, by decide, by decide⟩

/-! ### The sharing policy at initialisation -/

theorem modify_modify (s : Server) (cl : rfbClientPtr) (f g : rfbClientRec → rfbClientRec) :
    (s.modify cl f).modify cl g = s.modify cl (fun r => g (f r)) := by
  unfold Server.modify
  dsimp only
  congr 1
  rw [List.map_map]
  apply List.map_congr_left
  intro p _
  by_cases h : p.1 = cl
  · simp [h]
  · simp [h]

theorem modify_map_fst (s : Server) (cl : rfbClientPtr) (f : rfbClientRec → rfbClientRec) :
    (s.modify cl f).rfbClientHead.map Prod.fst = s.rfbClientHead.map Prod.fst := by
  unfold Server.modify
  dsimp only
  rw [List.map_map]
  apply List.map_congr_left
  intro p _
  by_cases h : p.1 = cl
  · simp [h]
  · simp [h]

theorem modify_map_sock (s : Server) (cl : rfbClientPtr) (f : rfbClientRec → rfbClientRec)
    (hf : ∀ r, (f r).sock = r.sock) :
    (s.modify cl f).rfbClientHead.map (fun p => p.2.sock)
      = s.rfbClientHead.map (fun p => p.2.sock) := by
  unfold Server.modify
  dsimp only
  rw [List.map_map]
  apply List.map_congr_left
  intro p _
  by_cases h : p.1 = cl
  · simp [h, hf]
  · simp [h]

theorem modify_filter_other (s : Server) (cl : rfbClientPtr) (f : rfbClientRec → rfbClientRec) :
    (s.modify cl f).rfbClientHead.filter (isOtherNormal cl)
      = s.rfbClientHead.filter (isOtherNormal cl) := by
  unfold Server.modify
  dsimp only
  induction s.rfbClientHead with
  | nil => rfl
  | cons p rest ih =>
    by_cases h : p.1 = cl
    · have h1 : isOtherNormal cl p = false := by simp [isOtherNormal, h]
      have h2 : isOtherNormal cl (p.1, f p.2) = false := by simp [isOtherNormal, h]
      rw [List.map_cons, if_pos h, List.filter_cons_of_neg (by simp [h2]),
        List.filter_cons_of_neg (by simp [h1])]
      exact ih
    · rw [List.map_cons, if_neg h]
      cases hv : isOtherNormal cl p
      · rw [List.filter_cons_of_neg (by simp [hv]), List.filter_cons_of_neg (by simp [hv])]
        exact ih
      · rw [List.filter_cons_of_pos hv, List.filter_cons_of_pos hv, ih]

theorem otherClientNormal_iff (s : Server) (cl : rfbClientPtr) :
    otherClientNormal s cl = true
      ↔ ∃ p ∈ s.rfbClientHead, p.1 ≠ cl ∧ p.2.state = ClientState.RFB_NORMAL := by
  unfold otherClientNormal
  rw [List.any_eq_true]
  constructor
  · rintro ⟨p, hp, hv⟩
    simp only [isOtherNormal, Bool.and_eq_true, decide_eq_true_eq] at hv
    exact ⟨p, hp, hv⟩
  · rintro ⟨p, hp, hv⟩
    refine ⟨p, hp, ?_⟩
    simp only [isOtherNormal, Bool.and_eq_true, decide_eq_true_eq]
    exact hv

theorem otherClientNormal_modify (s : Server) (cl : rfbClientPtr)
    (f : rfbClientRec → rfbClientRec) :
    otherClientNormal (s.modify cl f) cl = otherClientNormal s cl := by
  have h : ∀ t : Server, otherClientNormal t cl
      = !(t.rfbClientHead.filter (isOtherNormal cl)).isEmpty := by
    intro t
    unfold otherClientNormal
    induction t.rfbClientHead with
    | nil => rfl
    | cons p rest ih =>
      cases hv : isOtherNormal cl p
      · rw [List.any_cons, hv, Bool.false_or, ih, List.filter_cons_of_neg (by simp [hv])]
      · rw [List.any_cons, hv, Bool.true_or, List.filter_cons_of_pos hv]
        rfl
  rw [h, h, modify_filter_other]

theorem closeOtherClients_spec (cl : rfbClientPtr) :
    ∀ (rest kept : List (rfbClientPtr × rfbClientRec)) (t : Server),
      t.rfbClientHead = kept ++ rest →
      (t.rfbClientHead.map Prod.fst).Nodup →
      (t.rfbClientHead.map (fun p => p.2.sock)).Nodup →
      (closeOtherClients cl (rest.map Prod.fst) t).closedSocks
          = t.closedSocks ++ (rest.filter (isOtherNormal cl)).map (fun p => p.2.sock)
      ∧ (closeOtherClients cl (rest.map Prod.fst) t).rfbClientHead
          = kept ++ rest.filter (fun p => !isOtherNormal cl p) := by
  intro rest
  induction rest with
  | nil =>
    intro kept t hl _ _
    simp only [List.map_nil, closeOtherClients, List.filter_nil, List.append_nil] at hl ⊢
    exact ⟨trivial, hl⟩
  | cons p rest ih =>
    intro kept t hl hptr hsock
    have hptr1 := hptr
    have hsock1 := hsock
    rw [hl, List.map_append, List.map_cons, List.nodup_middle, List.nodup_cons,
      ← List.map_append] at hptr1 hsock1
    have hderef : t.deref p.1 = some p.2 := by
      unfold Server.deref
      rw [hl, List.find?_append]
      have hk : kept.find? (fun q => decide (q.1 = p.1)) = none := by
        rw [List.find?_eq_none]
        intro x hx hxp
        apply hptr1.1
        rw [decide_eq_true_eq] at hxp
        rw [← hxp]
        exact List.mem_map_of_mem _ (List.mem_append_left _ hx)
      rw [hk, List.find?_cons_of_pos _ (by simp)]
      rfl
    rw [List.map_cons]
    unfold closeOtherClients
    rw [hderef]
    dsimp only
    cases hv : isOtherNormal cl p
    · simp only [Bool.false_eq_true, if_false]
      have hl1 : t.rfbClientHead = (kept ++ [p]) ++ rest := by
        rw [hl, List.append_assoc]
        rfl
      obtain ⟨q1, q2⟩ := ih (kept ++ [p]) t hl1 hptr hsock
      rw [q1, q2, List.filter_cons_of_neg (by simp [hv]),
        List.filter_cons_of_pos (by simp [hv]), List.append_assoc]
      exact ⟨rfl, rfl⟩
    · simp only [if_true]
      obtain ⟨c1, c2, -⟩ := rfbCloseSock_fields t p.2.sock
      have hl1 : (rfbCloseSock t p.2.sock).rfbClientHead = kept ++ rest := by
        rw [c2, hl, List.eraseP_append_right, List.eraseP_cons_of_pos (by simp)]
        intro b hb hbp
        apply hsock1.1
        rw [decide_eq_true_eq] at hbp
        rw [← hbp]
        exact List.mem_map_of_mem (fun q : rfbClientPtr × rfbClientRec => q.2.sock)
          (List.mem_append_left _ hb)
      have hp2 : ((rfbCloseSock t p.2.sock).rfbClientHead.map Prod.fst).Nodup := by
        rw [hl1]
        exact hptr1.2
      have hs2 : ((rfbCloseSock t p.2.sock).rfbClientHead.map (fun q => q.2.sock)).Nodup := by
        rw [hl1]
        exact hsock1.2
      obtain ⟨q1, q2⟩ := ih kept (rfbCloseSock t p.2.sock) hl1 hp2 hs2
      rw [q1, q2, c1, List.filter_cons_of_pos hv, List.filter_cons_of_neg (by simp [hv]),
        List.map_cons, List.append_assoc]
      exact ⟨rfl, rfl⟩

theorem modify_filter_kept (s : Server) (cl : rfbClientPtr) (f : rfbClientRec → rfbClientRec) :
    ((s.modify cl f).rfbClientHead.filter (fun p => !isOtherNormal cl p)).map Prod.fst
      = (s.rfbClientHead.filter (fun p => !isOtherNormal cl p)).map Prod.fst := by
  unfold Server.modify
  dsimp only
  induction s.rfbClientHead with
  | nil => rfl
  | cons p rest ih =>
    by_cases h : p.1 = cl
    · have h1 : isOtherNormal cl p = false := by simp [isOtherNormal, h]
      have h2 : isOtherNormal cl (p.1, f p.2) = false := by simp [isOtherNormal, h]
      rw [List.map_cons, if_pos h, List.filter_cons_of_pos (by simp [h2]),
        List.filter_cons_of_pos (by simp [h1]), List.map_cons, List.map_cons, ih]
    · rw [List.map_cons, if_neg h]
      cases hv : isOtherNormal cl p
      · rw [List.filter_cons_of_pos (by simp [hv]), List.filter_cons_of_pos (by simp [hv]),
          List.map_cons, List.map_cons, ih]
      · rw [List.filter_cons_of_neg (by simp [hv]), List.filter_cons_of_neg (by simp [hv])]
        exact ih

theorem find_filter_kept (cl : rfbClientPtr) (l : List (rfbClientPtr × rfbClientRec)) :
    (l.filter (fun p => !isOtherNormal cl p)).find? (fun p => decide (p.1 = cl))
      = l.find? (fun p => decide (p.1 = cl)) := by
  induction l with
  | nil => rfl
  | cons p rest ih =>
    by_cases h : p.1 = cl
    · have h1 : isOtherNormal cl p = false := by simp [isOtherNormal, h]
      rw [List.filter_cons_of_pos (by simp [h1]), List.find?_cons_of_pos _ (by simp [h]),
        List.find?_cons_of_pos _ (by simp [h])]
    · cases hv : isOtherNormal cl p
      · rw [List.filter_cons_of_pos (by simp [hv]), List.find?_cons_of_neg _ (by simp [h]),
          List.find?_cons_of_neg _ (by simp [h])]
        exact ih
      · rw [List.filter_cons_of_neg (by simp [hv]), List.find?_cons_of_neg _ (by simp [h])]
        exact ih

/-- The handler of the `ClientInit` message once the message was read and the
`ServerInit` message (and the capability lists, when they are due) written:
the session enters the state `RFB_NORMAL`, then the sharing policy runs. -/
theorem init_policy (s : Server) (cl : rfbClientPtr) (r : rfbClientRec) (shared : Nat)
    (capsWrote : Bool) (hcl : s.deref cl = some r)
    (hcaps : r.protocol_tightvnc = true → capsWrote = true) :
    rfbProcessClientInitMessage s cl (some shared) true capsWrote
      = (if exclusiveAccess s r shared then
          if s.rfbDontDisconnect then
            if otherClientNormal s cl then rfbCloseSock (s.modify cl enterNormal) r.sock
            else s.modify cl enterNormal
          else closeOtherClients cl (s.rfbClientHead.map Prod.fst) (s.modify cl enterNormal)
        else s.modify cl enterNormal) := by
  have hs1 : (if r.protocol_tightvnc = true then rfbSendInteractionCaps s cl capsWrote
      else s).modify cl enterNormal = s.modify cl enterNormal := by
    cases ht : r.protocol_tightvnc
    · rfl
    · rw [if_pos rfl]
      unfold rfbSendInteractionCaps
      rw [hcl, hcaps ht]
      dsimp only
      simp only [Bool.not_true, Bool.false_eq_true, if_false]
      rw [modify_modify]
      rfl
  unfold rfbProcessClientInitMessage
  rw [hcl]
  dsimp only
  rw [hs1, otherClientNormal_modify, modify_map_fst]
  rfl

/-- C25. At client initialisation (the `ClientInit` message was read and the
answer written), with `exclusive` the condition "not a reverse connection and
(`neverShared` or (not `alwaysShared` and the shared flag is 0))":
when `exclusive` is false no socket is closed and no session unlinked;
when `exclusive` and `dontDisconnect` hold, the socket of the new session is
closed exactly when another session is in the state `RFB_NORMAL`, and no other
socket is closed; when `exclusive` holds and `dontDisconnect` does not, the
sockets closed are those of the other sessions in the state `RFB_NORMAL`, these
sessions are unlinked, and the new session stays, now in the state `RFB_NORMAL`. -/
theorem C25_sharing_policy (s : Server) (cl : rfbClientPtr) (r : rfbClientRec) (shared : Nat)
    (capsWrote : Bool) (hcl : s.deref cl = some r)
    (hptr : (s.rfbClientHead.map Prod.fst).Nodup)
    (hsock : (s.rfbClientHead.map (fun p => p.2.sock)).Nodup)
    (hcaps : r.protocol_tightvnc = true → capsWrote = true) :
    exclusiveAccess s r shared
        = (!r.reverseConnection
            && (s.rfbNeverShared || (!s.rfbAlwaysShared && decide (shared = 0))))
    ∧ (exclusiveAccess s r shared = false →
        (rfbProcessClientInitMessage s cl (some shared) true capsWrote).closedSocks
            = s.closedSocks
        ∧ (rfbProcessClientInitMessage s cl (some shared) true capsWrote).rfbClientHead.map
            Prod.fst = s.rfbClientHead.map Prod.fst)
    ∧ (exclusiveAccess s r shared = true → s.rfbDontDisconnect = true →
        (rfbProcessClientInitMessage s cl (some shared) true capsWrote).closedSocks
            = s.closedSocks ++ (if otherClientNormal s cl then [r.sock] else [])
        ∧ (otherClientNormal s cl = true
            ↔ ∃ p ∈ s.rfbClientHead, p.1 ≠ cl ∧ p.2.state = ClientState.RFB_NORMAL))
    ∧ (exclusiveAccess s r shared = true → s.rfbDontDisconnect = false →
        (rfbProcessClientInitMessage s cl (some shared) true capsWrote).closedSocks
            = s.closedSocks
                ++ (s.rfbClientHead.filter (isOtherNormal cl)).map (fun p => p.2.sock)
        ∧ (rfbProcessClientInitMessage s cl (some shared) true capsWrote).rfbClientHead.map
            Prod.fst = (s.rfbClientHead.filter (fun p => !isOtherNormal cl p)).map Prod.fst
        ∧ (rfbProcessClientInitMessage s cl (some shared) true capsWrote).deref cl
            = some (enterNormal r)) := by
  rw [init_policy s cl r shared capsWrote hcl hcaps]
  refine ⟨rfl, ?_, ?_, ?_⟩
  · intro hex
    rw [hex]
    simp only [Bool.false_eq_true, if_false]
    exact ⟨rfl, modify_map_fst s cl enterNormal⟩
  · intro hex hdd
    rw [hex, hdd]
    simp only [if_true]
    refine ⟨?_, otherClientNormal_iff s cl⟩
    cases otherClientNormal s cl
    · simp only [Bool.false_eq_true, if_false, List.append_nil]
      rfl
    · simp only [if_true]
      exact (rfbCloseSock_fields (s.modify cl enterNormal) r.sock).1
  · intro hex hdd
    rw [hex, hdd]
    simp only [Bool.false_eq_true, if_false, if_true]
    have hp2 : ((s.modify cl enterNormal).rfbClientHead.map Prod.fst).Nodup := by
      rw [modify_map_fst]
      exact hptr
    have hs2 : ((s.modify cl enterNormal).rfbClientHead.map (fun p => p.2.sock)).Nodup := by
      rw [modify_map_sock s cl enterNormal (fun _ => rfl)]
      exact hsock
    obtain ⟨q1, q2⟩ := closeOtherClients_spec cl (s.modify cl enterNormal).rfbClientHead []
      (s.modify cl enterNormal) rfl hp2 hs2
    rw [modify_map_fst] at q1 q2
    rw [List.nil_append] at q2
    refine ⟨?_, ?_, ?_⟩
    · rw [q1, modify_filter_other]
      rfl
    · rw [q2, modify_filter_kept]
    · unfold Server.deref
      rw [q2, find_filter_kept]
      have hd := deref_modify s cl cl enterNormal
      rw [if_pos rfl, hcl] at hd
      exact hd

/-- Witness for C25: the sessions A and B are in the state `RFB_NORMAL` when a
third session sends `ClientInit`.  With the shared flag set nothing is closed;
with the shared flag `0` the sockets 5 and 4 of B and A are closed and only
the new session stays; with the shared flag `0` and `dontDisconnect` the
socket 6 of the new session is closed and A and B stay. -/
theorem C25_sharing_policy_witness :
    ((rfbProcessClientInitMessage serverABC 3 (some 1) true true).closedSocks = []
      ∧ (rfbProcessClientInitMessage serverABC 3 (some 1) true true).rfbClientHead.map Prod.fst
          = [3, 2, 1])
    ∧ ((rfbProcessClientInitMessage serverABC 3 (some 0) true true).closedSocks = [5, 4]
      ∧ (rfbProcessClientInitMessage serverABC 3 (some 0) true true).rfbClientHead.map Prod.fst
          = [3]
      ∧ (rfbProcessClientInitMessage serverABC 3 (some 0) true true).deref 3
          = some (enterNormal clInit))
    ∧ (rfbProcessClientInitMessage { serverABC with rfbDontDisconnect := true } 3 (some 0)
          true true).closedSocks = [6]
    ∧ (rfbProcessClientInitMessage { serverABC with rfbDontDisconnect := true } 3 (some 0)
          true true).rfbClientHead.map Prod.fst = [2, 1] :=
  ⟨(C25_sharing_policy serverABC 3 clInit 1 true (by decide) (by decide) (by decide)
      (by decide)).2.1 (by decide),
   (C25_sharing_policy serverABC 3 clInit 0 true (by decide) (by decide) (by decide)
      (by decide)).2.2.2 (by decide) (by decide),
   ((C25_sharing_policy { serverABC with rfbDontDisconnect := true } 3 clInit 0 true (by decide)
      (by decide) (by decide) (by decide)).2.2.1 (by decide) (by decide)).1,
   by decide⟩

/-! ### The emission order of CopyRects -/

theorem copyOrder_emittedBefore (rects : List BoxRec) (dx dy : Int) (hc : CanonicalBands rects) :
    (copyOrder rects dx dy).Pairwise (emittedBefore dx dy) := by
  unfold CanonicalBands at hc
  unfold copyOrder
  by_cases hdy : dy ≤ 0
  · by_cases hdx : dx ≤ 0
    · simp only [hdy, hdx, if_true, ne_eq, not_true_eq_false, decide_False]
      rw [bandOrder_false _ _ (Nat.le_refl _)]
      refine hc.imp ?_
      intro a b h
      unfold emittedBefore
      rcases h with h | h
      · exact Or.inl ⟨h.1, Or.inl ⟨hdx, h.2.2⟩⟩
      · exact Or.inr ⟨by omega, Or.inl ⟨hdy, h.1⟩⟩
    · simp only [hdy, hdx, if_true, if_false, ne_eq, show ¬ ((-1 : Int) = 1) by decide,
        not_false_eq_true, decide_True]
      have h := bandOrder_true_pairwise bandBefore
        (by
          intro a b c h1 h2 h3
          rcases h1 with h1 | h1 <;> rcases h2 with h2 | h2 <;> omega)
        rects.length rects (Nat.le_refl _) hc
      refine h.imp ?_
      intro a b h
      unfold emittedBefore
      rcases h with ⟨h1, h | h⟩ | ⟨h1, h | h⟩
      · exact Or.inl ⟨h1, Or.inr ⟨by omega, h.2.2⟩⟩
      · omega
      · exact absurd h.1 h1
      · exact Or.inr ⟨h1, Or.inl ⟨hdy, h.1⟩⟩
  · by_cases hdx : dx ≤ 0
    · simp only [hdy, hdx, if_true, if_false, ne_eq, show ¬ ((1 : Int) = -1) by decide,
        not_false_eq_true, decide_True]
      have hrev : rects.reverse.Pairwise (fun a b => bandBefore b a) :=
        List.pairwise_reverse.2 hc
      have h := bandOrder_true_pairwise (fun a b => bandBefore b a)
        (by
          intro a b c h1 h2 h3
          rcases h1 with h1 | h1 <;> rcases h2 with h2 | h2 <;> omega)
        rects.length rects.reverse (by simp) hrev
      refine h.imp ?_
      intro a b h
      unfold emittedBefore
      rcases h with ⟨h1, h | h⟩ | ⟨h1, h | h⟩
      · exact Or.inl ⟨h1, Or.inl ⟨hdx, h.2.2⟩⟩
      · omega
      · exact absurd h.1.symm h1
      · exact Or.inr ⟨h1, Or.inr ⟨by omega, h.1⟩⟩
    · simp only [hdy, hdx, if_false, ne_eq, not_true_eq_false, decide_False]
      rw [bandOrder_false _ _ (by simp)]
      have hrev : rects.reverse.Pairwise (fun a b => bandBefore b a) :=
        List.pairwise_reverse.2 hc
      refine hrev.imp ?_
      intro a b h
      unfold emittedBefore
      rcases h with h | h
      · exact Or.inl ⟨h.1.symm, Or.inr ⟨by omega, h.2.2⟩⟩
      · exact Or.inr ⟨by omega, Or.inr ⟨by omega, h.1⟩⟩

theorem emitBand_ok (env : Env) (cl : rfbClientRec) (rects : List BoxRec) (dx dy x_inc : Int)
    (hflush : ∀ g1 : Globals, (rfbSendUpdateBuf env g1 cl).1 = true) :
    ∀ (n : Nat) (t : Int) (g : Globals) (out : List CopyRectMsg),
      (emitBand env cl rects dx dy x_inc n t g out).1 = true := by
  intro n
  induction n with
  | zero => intro t g out; rfl
  | succ n ih =>
    intro t g out
    unfold emitBand
    dsimp only
    have hfl : (if g.ublen + sz_rfbFramebufferUpdateRectHeader + sz_rfbCopyRect
        > env.UPDATE_BUF_SIZE then rfbSendUpdateBuf env g cl else (true, g)).1 = true := by
      split_ifs
      · exact hflush g
      · rfl
    rw [if_neg (by rw [hfl]; exact Bool.noConfusion)]
    exact ih _ _ _

theorem copyLoop_ok (env : Env) (cl : rfbClientRec) (rects : List BoxRec)
    (dx dy x_inc y_inc : Int)
    (hflush : ∀ g1 : Globals, (rfbSendUpdateBuf env g1 cl).1 = true) :
    ∀ (fuel n : Nat) (t : Int) (g : Globals) (out : List CopyRectMsg)
      (res : Bool × Globals × List CopyRectMsg),
      copyLoop env cl rects dx dy x_inc y_inc fuel n t g out = some res → res.1 = true := by
  intro fuel
  induction fuel with
  | zero =>
    intro n t g out res h
    cases n with
    | zero =>
      simp only [copyLoop, Option.some.injEq] at h
      rw [← h]
    | succ n => simp [copyLoop] at h
  | succ fuel ih =>
    intro n t g out res h
    cases n with
    | zero =>
      simp only [copyLoop, Option.some.injEq] at h
      rw [← h]
    | succ n =>
      rw [copyLoop_succ] at h
      rw [if_neg (by rw [emitBand_ok env cl rects dx dy x_inc hflush]; exact Bool.noConfusion)]
        at h
      exact ih _ _ _ _ _ h

/-- C29. For a region in canonical banded form and every offset `(dx, dy)`,
`rfbSendCopyRegion` writes the rectangles in the order `copyOrder`: this order
holds every rectangle of the region exactly once; bands come from top to
bottom when `dy ≤ 0` and from bottom to top when `dy > 0`, and the rectangles
of a band in ascending x when `dx ≤ 0` and in descending x when `dx > 0`.
Every CopyRect written carries the source position `(x - dx, y - dy)`.  The
function writes a leading part of the order, all of it when it returns `TRUE`,
and it returns `TRUE` whenever no flush of the buffer fails. -/
theorem C29_copyRect_emission_order (env : Env) (g : Globals) (cl : rfbClientRec)
    (rects : List BoxRec) (dx dy : Int) (hc : CanonicalBands rects) :
    (copyOrder rects dx dy).Perm rects
    ∧ (copyOrder rects dx dy).Pairwise (emittedBefore dx dy)
    ∧ (rfbSendCopyRegion env g cl rects dx dy).2.2
        <+: (copyOrder rects dx dy).map (copyRectOf dx dy)
    ∧ ((rfbSendCopyRegion env g cl rects dx dy).1 = true →
        (rfbSendCopyRegion env g cl rects dx dy).2.2
          = (copyOrder rects dx dy).map (copyRectOf dx dy))
    ∧ (∀ m ∈ (rfbSendCopyRegion env g cl rects dx dy).2.2,
        m.srcX = m.x - dx ∧ m.srcY = m.y - dy)
    ∧ ((∀ g1 : Globals, (rfbSendUpdateBuf env g1 cl).1 = true) →
        (rfbSendCopyRegion env g cl rects dx dy).1 = true) := by
  obtain ⟨pre, suf, e1, e2, e3⟩ := rfbSendCopyRegion_spec env g cl rects dx dy
  rw [List.nil_append] at e1
  refine ⟨copyOrder_perm rects dx dy, copyOrder_emittedBefore rects dx dy hc, ?_, ?_, ?_, ?_⟩
  · rw [e1]
    exact ⟨suf, e2⟩
  · intro hok
    rw [e1, ← e2, e3 hok, List.append_nil]
  · intro m hm
    rw [e1] at hm
    have hm2 : m ∈ (copyOrder rects dx dy).map (copyRectOf dx dy) := by
      rw [← e2]
      exact List.mem_append_left _ hm
    rw [List.mem_map] at hm2
    obtain ⟨r, _, rfl⟩ := hm2
    exact ⟨rfl, rfl⟩
  · intro hflush
    obtain ⟨res, hres⟩ := copyLoop_isSome env g cl rects dx dy
    unfold rfbSendCopyRegion
    dsimp only
    rw [hres]
    exact copyLoop_ok env cl rects dx dy _ _ hflush _ _ _ _ _ res hres

/-- Witness for C29, scenario S5: the rectangles `(0,0,10,10)` and
`(0,10,10,20)` copied by `(5, 5)` are written bottom band first; and a region
of two bands with two rectangles each, copied by `(5, -5)`, is written from
the top band on, each band from the right. -/
theorem C29_copyRect_emission_order_witness :
    copyOrder rectsS5 5 5 = [⟨0, 10, 10, 20⟩, ⟨0, 0, 10, 10⟩]
    ∧ (rfbSendCopyRegion envOk initGlobals clBusy rectsS5 5 5).2.2
        = [{ x := 0, y := 10, w := 10, h := 10, srcX := -5, srcY := 5 },
           { x := 0, y := 0, w := 10, h := 10, srcX := -5, srcY := -5 }]
    ∧ (copyOrder rectsS5 5 5).Pairwise (emittedBefore 5 5)
    ∧ copyOrder rectsTwoBands 5 (-5) = [⟨3, 0, 5, 1⟩, ⟨0, 0, 2, 1⟩, ⟨2, 1, 5, 3⟩, ⟨0, 1, 1, 3⟩]
    ∧ (rfbSendCopyRegion envOk initGlobals clBusy rectsTwoBands 5 (-5)).2.2
        = (copyOrder rectsTwoBands 5 (-5)).map (copyRectOf 5 (-5)) := by
  have h5 := C29_copyRect_emission_order envOk initGlobals clBusy rectsS5 5 5 (by decide)
  have h2 := C29_copyRect_emission_order envOk initGlobals clBusy rectsTwoBands 5 (-5)
    (by decide)
  refine ⟨by decide, ?_, h5.2.1, by decide, h2.2.2.2.1 (by decide)⟩
  rw [h5.2.2.2.1 (by decide)]
  decide

/-! ### Pull mode, the eleventh request, and the gate of the scheduler -/

theorem request_primary (env : Env) (g : Globals) (cl : rfbClientRec)
    (msg : rfbFramebufferUpdateRequestMsg) (hO : cl.isOctopus = true) :
    rfbProcessClientNormalMessage_FramebufferUpdateRequest env g cl msg
      = (if g.send_count + 1 > 10 then
          ({ g with send_count := g.send_count + 1, canSend := true }, cl)
        else pullUpdate env { g with send_count := g.send_count + 1 } cl msg) := by
  unfold rfbProcessClientNormalMessage_FramebufferUpdateRequest pullUpdate
  simp only [hO, if_true, Bool.true_and, decide_eq_true_eq]

theorem builder_bufferFields (env : Env) (g : Globals) (cl : rfbClientRec) (seqNum : Nat) :
    (rfbSendFramebufferUpdate_numBytes env g cl seqNum).g.canSend = g.canSend
    ∧ (rfbSendFramebufferUpdate_numBytes env g cl seqNum).g.send_count = g.send_count
    ∧ (rfbSendFramebufferUpdate_numBytes env g cl seqNum).g.frameSeqNumCounter
        = g.frameSeqNumCounter
    ∧ (rfbSendFramebufferUpdate_numBytes env g cl seqNum).cl.isOctopus = cl.isOctopus := by
  obtain ⟨hb, hk⟩ := builder_framed env g cl seqNum
  unfold BufferOnly at hb
  unfold ClientKept at hk
  refine ⟨?_, ?_, ?_, ?_⟩
  · rw [hb]
  · rw [hb]
  · rw [hb]
  · rw [hk]

theorem pullUpdate_fields (env : Env) (g1 : Globals) (cl : rfbClientRec)
    (msg : rfbFramebufferUpdateRequestMsg) :
    (pullUpdate env g1 cl msg).1.canSend = g1.canSend
    ∧ (pullUpdate env g1 cl msg).1.send_count = g1.send_count
    ∧ (pullUpdate env g1 cl msg).1.frameSeqNumCounter = g1.frameSeqNumCounter
    ∧ (pullUpdate env g1 cl msg).1.seqNumCounter = g1.seqNumCounter
    ∧ (pullUpdate env g1 cl msg).1.srRec = g1.srRec
    ∧ ((pullUpdate env g1 cl msg).1.sentUpdates = g1.sentUpdates
        ∨ ∃ n, (pullUpdate env g1 cl msg).1.sentUpdates
            = g1.sentUpdates ++ [{ seqNum := 0xFFFFFFFF, nRects := n, udp := cl.useUdp }])
    ∧ (pullUpdate env g1 cl msg).2.isOctopus = cl.isOctopus
    ∧ (pullUpdate env g1 cl msg).2.useUdp = cl.useUdp
    ∧ (pullUpdate env g1 cl msg).2.measuring = cl.measuring := by
  have hadd : ∀ r : Region, (addRequested cl r).isOctopus = cl.isOctopus := by
    intro r
    unfold addRequested
    split_ifs <;> rfl
  have hmark : ∀ (c : rfbClientRec) (i : Nat) (r : Region),
      (markNonIncremental c i r).isOctopus = c.isOctopus := by
    intro c i r
    unfold markNonIncremental
    split_ifs <;> rfl
  unfold pullUpdate
  dsimp only
  generalize REGION_INIT (BoxRec.mk msg.x msg.y ((msg.x : Int) + msg.w) ((msg.y : Int) + msg.h))
    = rect
  obtain ⟨a1, a2, -⟩ := addRequested_flags cl rect
  obtain ⟨m1, m2⟩ := markNonIncremental_flags (addRequested cl rect) msg.incremental rect
  split_ifs with h1 h2
  · exact ⟨rfl, rfl, rfl, rfl, rfl, Or.inl rfl, hadd rect, a1, a2⟩
  · obtain ⟨b1, b2, b3, b4⟩ := builder_bufferFields env g1
      (markNonIncremental (addRequested cl rect) msg.incremental rect) 0xFFFFFFFF
    obtain ⟨⟨q1, q2, q3⟩, q4, q5⟩ := builder_queueEffect env g1
      (markNonIncremental (addRequested cl rect) msg.incremental rect) 0xFFFFFFFF
    refine ⟨b1, b2, b3, q1, q2, ?_, ?_, ?_, ?_⟩
    · rcases q3 with q3 | ⟨_, n, q3⟩
      · exact Or.inl q3
      · refine Or.inr ⟨n, ?_⟩
        rw [m1, a1] at q3
        exact q3
    · exact b4.trans ((hmark _ _ _).trans (hadd rect))
    · exact q4.trans (m1.trans a1)
    · exact q5.trans (m2.trans a2)
  · exact ⟨rfl, rfl, rfl, rfl, rfl, Or.inl rfl, (hmark _ _ _).trans (hadd rect),
      m1.trans a1, m2.trans a2⟩

theorem controllerFrame_trans {g2 g1 g : Globals} {cl2 cl1 cl : rfbClientRec}
    (h1 : ControllerFrame g2 cl2 g1 cl1) (h2 : ControllerFrame g1 cl1 g cl) :
    ControllerFrame g2 cl2 g cl := by
  unfold ControllerFrame at *
  obtain ⟨a1, a2⟩ := h1
  obtain ⟨b1, b2⟩ := h2
  constructor
  · rw [a1, b1]
  · rw [a2, b2]

theorem controllerFrame_interval (g : Globals) (cl : rfbClientRec) (v w : Nat) :
    ControllerFrame { g with serverPushInterval := v, lastChange := w } cl g cl :=
  ⟨rfl, rfl⟩

theorem rampDown_frame (g : Globals) (cl : rfbClientRec) (now : Nat) :
    ControllerFrame (rampDown g cl now).1 (rampDown g cl now).2 g cl := by
  by_cases hq : qualityPercentage cl ≥ intervalPercentage g
  · rw [rampDown, if_pos hq]
    exact ⟨rfl, rfl⟩
  · rw [rampDown, if_neg hq]
    exact controllerFrame_interval g cl _ _

theorem rampUp_frame (g : Globals) (cl : rfbClientRec) (now : Nat) :
    ControllerFrame (rampUp g cl now).1 (rampUp g cl now).2 g cl := by
  by_cases hq : qualityPercentage cl ≤ intervalPercentage g
  · rw [rampUp, if_pos hq]
    exact ⟨rfl, rfl⟩
  · rw [rampUp, if_neg hq]
    exact controllerFrame_interval g cl _ _

theorem adaptRate_frame (g : Globals) (cl : rfbClientRec) (now : Nat) :
    ControllerFrame (adaptRate g cl now).1 (adaptRate g cl now).2 g cl := by
  unfold adaptRate
  split_ifs
  · exact rampDown_frame g cl now
  · exact ⟨rfl, rfl⟩
  · exact rampUp_frame g cl now
  · exact ⟨rfl, rfl⟩
  · exact ⟨rfl, rfl⟩

theorem adaptStep_frame (g : Globals) (cl : rfbClientRec) (now : Nat) :
    ControllerFrame (adaptStep g cl now).1 (adaptStep g cl now).2 g cl := by
  unfold adaptStep
  split_ifs
  · exact controllerFrame_trans (adaptRate_frame (tickThroughput g now) cl now) ⟨rfl, rfl⟩
  · exact ⟨rfl, rfl⟩

/-- The gate of the scheduler: while `canSend` is false a tick returns before
the retransmit scan.  It runs the controller and nothing else, so the queue,
both sequence counters, the record of sent updates and the regions of the
session stay as they were and no box is handed to `sendRegion`. -/
theorem push_gate (env : Env) (fuel : Nat) (g : Globals) (cl : rfbClientRec)
    (hcan : g.canSend = false) :
    ∃ s, rfbServerPushClient env fuel g cl = some s
      ∧ ControllerFrame s.1 s.2.1 g cl ∧ s.2.2 = [] := by
  have ha := adaptStep_frame g cl (env.GetTimeInMillis g)
  have hcan1 : (adaptStep g cl (env.GetTimeInMillis g)).1.canSend = false := by
    rw [ha.1]
    exact hcan
  unfold rfbServerPushClient
  dsimp only
  generalize adaptStep g cl (env.GetTimeInMillis g) = a at *
  split_ifs with h1 h2
  all_goals exact ⟨_, rfl, ha, rfl⟩

theorem controllerFrame_fields {g1 g : Globals} {cl1 cl : rfbClientRec}
    (h : ControllerFrame g1 cl1 g cl) :
    g1.canSend = g.canSend ∧ g1.send_count = g.send_count ∧ g1.srRec = g.srRec
    ∧ g1.srRecCount = g.srRecCount ∧ g1.seqNumCounter = g.seqNumCounter
    ∧ g1.frameSeqNumCounter = g.frameSeqNumCounter ∧ g1.sentUpdates = g.sentUpdates
    ∧ g1.last_update = g.last_update
    ∧ cl1.isOctopus = cl.isOctopus ∧ cl1.useUdp = cl.useUdp ∧ cl1.measuring = cl.measuring
    ∧ cl1.modifiedRegion = cl.modifiedRegion ∧ cl1.copyRegion = cl.copyRegion
    ∧ cl1.requestedRegion = cl.requestedRegion := by
  obtain ⟨a, b⟩ := h
  refine ⟨?_, ?_, ?_, ?_, ?_, ?_, ?_, ?_, ?_, ?_, ?_, ?_, ?_, ?_⟩
  all_goals first
    | rw [a]
    | rw [b]

theorem ack_frame (env : Env) (g : Globals) (seqNum : Nat) :
    (rfbProcessClientNormalMessage_FramebufferUpdateAck env g seqNum).canSend = g.canSend
    ∧ (rfbProcessClientNormalMessage_FramebufferUpdateAck env g seqNum).send_count
        = g.send_count
    ∧ (rfbProcessClientNormalMessage_FramebufferUpdateAck env g seqNum).frameSeqNumCounter
        = g.frameSeqNumCounter := by
  unfold rfbProcessClientNormalMessage_FramebufferUpdateAck srRecDeleteSeqNum
    throughputSample setRetransmitTimeout rttSample
  dsimp only
  split_ifs <;> exact ⟨rfl, rfl, rfl⟩

theorem step_pullState (env : Env) (op : Op) (n : Nat) (g : Globals) (cl : rfbClientRec)
    (h : PullState n g cl) (hop : op.isServerOp = true)
    (hn : op.isRequest = true → n < 10) :
    ∃ s, op.step env g cl = some s
      ∧ PullState (n + (if op.isRequest = true then 1 else 0)) s.1 s.2.1 := by
  obtain ⟨hO, hu, hm, hc, hcan, hq, hs, hf, hsent⟩ := h
  cases op with
  | request msg =>
    have hlt : n < 10 := hn rfl
    refine ⟨_, rfl, ?_⟩
    have hreq := request_primary env g cl msg hO
    rw [if_neg (by rw [hc]; omega)] at hreq
    obtain ⟨p1, p2, p3, p4, p5, p6, p7, p8, p9⟩ :=
      pullUpdate_fields env { g with send_count := g.send_count + 1 } cl msg
    dsimp only
    rw [hreq]
    refine ⟨p7.trans hO, p8.trans hu, p9.trans hm, ?_, p1.trans hcan, p5.trans hq,
      p4.trans hs, p3.trans hf, ?_⟩
    · rw [p2]
      simp only [Op.isRequest, if_true]
      rw [hc]
      push_cast
      rfl
    · intro u hu1
      rcases p6 with p6 | ⟨k, p6⟩
      · rw [p6] at hu1
        exact hsent u hu1
      · rw [p6, List.mem_append, List.mem_singleton] at hu1
        rcases hu1 with hu1 | hu1
        · exact hsent u hu1
        · rw [hu1]
          exact ⟨hu, rfl⟩
  | ack seqNum =>
    refine ⟨_, rfl, ?_⟩
    obtain ⟨a1, a2, a3⟩ := ack_queue env g seqNum
    obtain ⟨b1, b2, b3⟩ := ack_frame env g seqNum
    dsimp only
    refine ⟨hO, hu, hm, ?_, b1.trans hcan, ?_, a1.trans hs, b3.trans hf, ?_⟩
    · rw [b2, hc]
      simp [Op.isRequest]
    · rw [a3, hq]
      rfl
    · rw [a2]
      exact hsent
  | push fuel =>
    obtain ⟨s, hs1, hfr, hnil⟩ := push_gate env fuel g cl hcan
    obtain ⟨c1, c2, c3, c4, c5, c6, c7, c8, d1, d2, d3, -⟩ := controllerFrame_fields hfr
    refine ⟨(s.1, s.2.1, 1 + s.2.2.length), ?_, ?_⟩
    · simp only [Op.step, hs1]
    · dsimp only
      refine ⟨d1.trans hO, d2.trans hu, d3.trans hm, ?_, c1.trans hcan, c3.trans hq,
        c5.trans hs, c6.trans hf, ?_⟩
      · rw [c2, hc]
        simp [Op.isRequest]
      · rw [c7]
        exact hsent
  | external cl1 =>
    refine ⟨_, rfl, ?_⟩
    dsimp only
    refine ⟨hop, hu, hm, ?_, hcan, hq, hs, hf, hsent⟩
    rw [hc]
    simp [Op.isRequest]
  | measure box => cases hop
  | send box => cases hop
  | frame => cases hop
  | setupRetransmit => cases hop
  | subtract region => cases hop
  | deleteSeqNum seqNum => cases hop

theorem requestCount_cons (op : Op) (ops : List Op) :
    requestCount (op :: ops) = (if op.isRequest = true then 1 else 0) + requestCount ops := by
  unfold requestCount
  cases h : op.isRequest
  · rw [List.filter_cons_of_neg (by simp [h])]
    simp
  · rw [List.filter_cons_of_pos h, List.length_cons]
    simp
    omega

theorem runOps_pullState (env : Env) :
    ∀ (ops : List Op) (n : Nat) (g : Globals) (cl : rfbClientRec),
      PullState n g cl → ops.all Op.isServerOp = true → n + requestCount ops ≤ 10 →
      ∃ res, runOps env ops g cl = some res ∧ PullState (n + requestCount ops) res.1 res.2.1 := by
  intro ops
  induction ops with
  | nil =>
    intro n g cl h _ _
    exact ⟨(g, cl, 0), rfl, h⟩
  | cons op ops ih =>
    intro n g cl h hall hle
    rw [List.all_cons, Bool.and_eq_true] at hall
    rw [requestCount_cons] at hle ⊢
    have hn : op.isRequest = true → n < 10 := by
      intro hr
      rw [if_pos hr] at hle
      omega
    obtain ⟨s, hs, hps⟩ := step_pullState env op n g cl h hall.1 hn
    obtain ⟨res, hres, hpr⟩ := ih (n + (if op.isRequest = true then 1 else 0)) s.1 s.2.1 hps
      hall.2 (by omega)
    refine ⟨(res.1, res.2.1, s.2.2 + res.2.2), ?_, ?_⟩
    · rw [runOps, hs]
      dsimp only
      rw [hres]
    · rw [← Nat.add_assoc]
      exact hpr

theorem pullState_init (width height : Int) (trueColour : Bool) :
    PullState 0 initGlobals (rfbNewClient width height true trueColour) := by
  refine ⟨rfl, rfl, rfl, rfl, rfl, rfl, rfl, rfl, ?_⟩
  intro u hu
  cases hu

/-- C23. For the primary session on a fresh server, over any run of message
handlers, scheduler ticks and drawing with at most ten update requests: the
run returns, server push is still disabled (`canSend` is false), `send_count`
is the number of requests, the queue is empty, no sequence counter was
advanced, and every update sent went over the reliable stream with sequence
number `0xFFFFFFFF`.  Each of these requests (`send_count < 10` before it) is
answered in pull mode by `pullUpdate` and leaves `canSend` as it is; the
request that finds `send_count = 10`, the eleventh, only sets `canSend`.  A
scheduler tick with `canSend` false returns after its controller step: the
queue, both sequence counters, the record of sent updates and the regions of
the session are unchanged and nothing is handed to `sendRegion`. -/
theorem C23_pull_then_push (env : Env) :
    (∀ (ops : List Op) (width height : Int) (trueColour : Bool),
        ops.all Op.isServerOp = true → requestCount ops ≤ 10 →
        ∃ res, runOps env ops initGlobals (rfbNewClient width height true trueColour) = some res
          ∧ PullState (requestCount ops) res.1 res.2.1)
    ∧ (∀ (g : Globals) (cl : rfbClientRec) (msg : rfbFramebufferUpdateRequestMsg),
        cl.isOctopus = true → g.send_count < 10 →
        rfbProcessClientNormalMessage_FramebufferUpdateRequest env g cl msg
            = pullUpdate env { g with send_count := g.send_count + 1 } cl msg
        ∧ (rfbProcessClientNormalMessage_FramebufferUpdateRequest env g cl msg).1.canSend
            = g.canSend
        ∧ (rfbProcessClientNormalMessage_FramebufferUpdateRequest env g cl msg).2.useUdp
            = cl.useUdp)
    ∧ (∀ (g : Globals) (cl : rfbClientRec) (msg : rfbFramebufferUpdateRequestMsg),
        cl.isOctopus = true → g.send_count = 10 →
        rfbProcessClientNormalMessage_FramebufferUpdateRequest env g cl msg
            = ({ g with send_count := 11, canSend := true }, cl))
    ∧ (∀ (fuel : Nat) (g : Globals) (cl : rfbClientRec), g.canSend = false →
        ∃ s, rfbServerPushClient env fuel g cl = some s
          ∧ s.1.canSend = false ∧ s.1.srRec = g.srRec ∧ s.1.srRecCount = g.srRecCount
          ∧ s.1.seqNumCounter = g.seqNumCounter
          ∧ s.1.frameSeqNumCounter = g.frameSeqNumCounter
          ∧ s.1.sentUpdates = g.sentUpdates
          ∧ s.2.1.modifiedRegion = cl.modifiedRegion ∧ s.2.1.copyRegion = cl.copyRegion
          ∧ s.2.1.requestedRegion = cl.requestedRegion
          ∧ s.2.2 = []) := by
  refine ⟨?_, ?_, ?_, ?_⟩
  · intro ops width height trueColour hall hle
    have h := runOps_pullState env ops 0 initGlobals (rfbNewClient width height true trueColour)
      (pullState_init width height trueColour) hall (by omega)
    rw [Nat.zero_add] at h
    exact h
  · intro g cl msg hO hlt
    have hreq := request_primary env g cl msg hO
    rw [if_neg (by omega)] at hreq
    obtain ⟨p1, -, -, -, -, -, -, p8, -⟩ :=
      pullUpdate_fields env { g with send_count := g.send_count + 1 } cl msg
    rw [hreq]
    exact ⟨rfl, p1, p8⟩
  · intro g cl msg hO h10
    have hreq := request_primary env g cl msg hO
    rw [if_pos (by omega)] at hreq
    rw [hreq, h10]
    rfl
  · intro fuel g cl hcan
    obtain ⟨s, hs1, hfr, hnil⟩ := push_gate env fuel g cl hcan
    obtain ⟨c1, -, c3, c4, c5, c6, c7, -, -, -, -, d4, d5, d6⟩ := controllerFrame_fields hfr
    exact ⟨s, hs1, c1.trans hcan, c3, c4, c5, c6, c7, d4, d5, d6, hnil⟩

/-- Witness for C23, scenario S2.  Ten requests of the primary client with
drawing and a scheduler tick in between leave the server in pull mode; the
eleventh request enables server push, and the next tick pushes an update with
sequence number 1 over the datagram channel. -/
theorem C23_pull_then_push_witness :
    (∃ res, runOps envOk (runS2.take 12) initGlobals (rfbNewClient 4 1 true true) = some res
        ∧ PullState (requestCount (runS2.take 12)) res.1 res.2.1)
    ∧ requestCount (runS2.take 12) = 10
    ∧ (runOps envOk (runS2.take 12) initGlobals (rfbNewClient 4 1 true true)).map
        (fun s => (s.1.canSend, s.1.send_count, pushSeqNums s.1, pullSeqNums s.1,
          s.1.srRec.length))
        = some (false, 10, [], [4294967295, 4294967295], 0)
    ∧ (runOps envOk runS2 initGlobals (rfbNewClient 4 1 true true)).map
        (fun s => (s.1.canSend, s.1.send_count, pushSeqNums s.1, pullSeqNums s.1,
          s.1.srRec.length))
        = some (true, 11, [1], [4294967295, 4294967295], 1) :=
  ⟨(C23_pull_then_push envOk).1 (runS2.take 12) 4 1 true (by decide) (by decide),
   by decide, by decide!, by decide!⟩

/-! ### The rectangle count of the header and the LastRect marker -/

theorem sendPixelData_header (env : Env) (seqNum : Nat) (nUpd : Int) (r : UpdateResult) :
    (sendPixelData env seqNum nUpd r).nRects = r.nRects
    ∧ ((sendPixelData env seqNum nUpd r).ok = true →
        (sendPixelData env seqNum nUpd r).lastRect = decide (nUpd = 0xFFFF)) := by
  unfold sendPixelData
  dsimp only
  cases hs : sendRects env r.cl (env.REGION_RECTS r.updateRegion) r.g.ublen with
  | none => exact ⟨rfl, fun h => absurd h Bool.false_ne_true⟩
  | some u =>
    dsimp only
    generalize (if nUpd = 65535 then
          rfbSendLastRectMarker env { r.g with ublen := u, handleNewBlock := 0 } r.cl
        else (true, { r.g with ublen := u, handleNewBlock := 0 })) = marker
    by_cases h1 : nUpd = 65535 ∧ marker.1 = false
    · rw [if_pos h1]
      exact ⟨rfl, fun h => absurd h Bool.false_ne_true⟩
    · rw [if_neg h1]
      by_cases h2 : (rfbSendUpdateBuf env marker.2 r.cl).1 = false
      · rw [if_pos h2]
        exact ⟨rfl, fun h => absurd h Bool.false_ne_true⟩
      · rw [if_neg h2]
        exact ⟨rfl, fun _ => rfl⟩

theorem sendCursorShapeStep_nRects (env : Env) (b : Bool) (r : UpdateResult) :
    (sendCursorShapeStep env b r).2.nRects = r.nRects := by
  unfold sendCursorShapeStep
  split_ifs
  · split <;> rfl
  · rfl

theorem sendCursorPosStep_nRects (env : Env) (b : Bool) (r : UpdateResult) :
    (sendCursorPosStep env b r).2.nRects = r.nRects := by
  unfold sendCursorPosStep
  split_ifs
  · split <;> rfl
  · rfl

theorem sendCopyStep_nRects (env : Env) (dx dy : Int) (r : UpdateResult) :
    (sendCopyStep env dx dy r).2.nRects = r.nRects := by
  unfold sendCopyStep
  dsimp only
  split_ifs <;> rfl

theorem sendUpdateRest_header (env : Env) (seqNum : Nat) (cs cp : Bool) (dx dy nUpd : Int)
    (r : UpdateResult) :
    (sendUpdateRest env seqNum cs cp dx dy nUpd r).nRects = r.nRects
    ∧ ((sendUpdateRest env seqNum cs cp dx dy nUpd r).ok = true →
        (sendUpdateRest env seqNum cs cp dx dy nUpd r).lastRect = decide (nUpd = 0xFFFF)) := by
  have n1 := sendCursorShapeStep_nRects env cs r
  have n2 := sendCursorPosStep_nRects env cp (sendCursorShapeStep env cs r).2
  have n3 := sendCopyStep_nRects env dx dy
    (sendCursorPosStep env cp (sendCursorShapeStep env cs r).2).2
  unfold sendUpdateRest
  dsimp only
  split_ifs with h1 h2 h3
  · refine ⟨n1, fun hok => ?_⟩
    rw [sendCursorShapeStep_fail env cs r h1] at hok
    cases hok
  · refine ⟨n2.trans n1, fun hok => ?_⟩
    rw [sendCursorPosStep_fail env cp _ h2] at hok
    cases hok
  · refine ⟨n3.trans (n2.trans n1), fun hok => ?_⟩
    rw [sendCopyStep_fail env dx dy _ h3] at hok
    cases hok
  · obtain ⟨p1, p2⟩ := sendPixelData_header env seqNum nUpd
      (sendCopyStep env dx dy (sendCursorPosStep env cp (sendCursorShapeStep env cs r).2).2).2
    exact ⟨p1.trans (n3.trans (n2.trans n1)), p2⟩

/-- What the builder writes into the header field `nRects` and when it writes
the LastRect marker, from the header on.  With `nUpd` the count of the pixel
rectangles as the builder computes it: the field is `0xFFFF` when
`nUpd = 0xFFFF`, and otherwise the 16-bit value of the number of CopyRects
plus `nUpd` plus one for each planned cursor update; a completed update ends
with the LastRect marker exactly when `nUpd = 0xFFFF`. -/
theorem sendUpdateBody_header (env : Env) (seqNum : Nat) (cs cp : Bool) (dx dy : Int)
    (r : UpdateResult) :
    (sendUpdateBody env seqNum cs cp dx dy r).nRects
        = (if nUpdateRegionRects env r.cl (env.REGION_RECTS r.updateRegion) = 0xFFFF then 0xFFFF
            else (((env.REGION_RECTS r.updateCopyRegion).length : Int)
                    + nUpdateRegionRects env r.cl (env.REGION_RECTS r.updateRegion)
                    + flagInt cs + flagInt cp) % 65536)
    ∧ ((sendUpdateBody env seqNum cs cp dx dy r).ok = true →
        ((sendUpdateBody env seqNum cs cp dx dy r).lastRect = true
          ↔ nUpdateRegionRects env r.cl (env.REGION_RECTS r.updateRegion) = 0xFFFF)) := by
  unfold sendUpdateBody
  obtain ⟨p1, p2⟩ := sendUpdateRest_header env seqNum cs cp dx dy
    (nUpdateRegionRects env r.cl (env.REGION_RECTS r.updateRegion))
    { r with nRects := headerNRects env cs cp r,
             g := { r.g with ublen := sz_rfbFramebufferUpdateMsg } }
  constructor
  · rw [p1]
    show headerNRects env cs cp r = _
    unfold headerNRects
    dsimp only
    by_cases h : nUpdateRegionRects env r.cl (env.REGION_RECTS r.updateRegion) = 65535
    · rw [if_neg (fun hn => hn h), if_pos h]
    · rw [if_pos h, if_neg h]
  · intro hok
    rw [p2 hok, decide_eq_true_eq]

theorem rfbSendUpdateBuf_stream_ok (env : Env) (g : Globals) (cl : rfbClientRec)
    (hu : cl.useUdp = false) (hw : ∀ (g1 : Globals) (n : Int), 0 ≤ env.WriteExact g1 n) :
    (rfbSendUpdateBuf env g cl).1 = true := by
  unfold rfbSendUpdateBuf
  rw [hu]
  simp only [Bool.false_eq_true, if_false]
  split_ifs with h1 h2
  · rfl
  · have := hw g g.ublen
    omega
  · rfl

theorem rfbSendCopyRegion_ok (env : Env) (g : Globals) (cl : rfbClientRec)
    (rects : List BoxRec) (dx dy : Int)
    (hflush : ∀ g1 : Globals, (rfbSendUpdateBuf env g1 cl).1 = true) :
    (rfbSendCopyRegion env g cl rects dx dy).1 = true := by
  obtain ⟨res, hres⟩ := copyLoop_isSome env g cl rects dx dy
  unfold rfbSendCopyRegion
  dsimp only
  rw [hres]
  exact copyLoop_ok env cl rects dx dy _ _ hflush _ _ _ _ _ res hres

theorem sendRects_some (env : Env) (cl : rfbClientRec)
    (henc : ∀ enc c u x y w h, env.rfbSendRectEncoding enc c u x y w h ≠ none) :
    ∀ (rects : List BoxRec) (u : Int), ∃ v, sendRects env cl rects u = some v := by
  intro rects
  induction rects with
  | nil => intro u; exact ⟨u, rfl⟩
  | cons r rest ih =>
    intro u
    unfold sendRects
    split_ifs
    · cases hs : env.rfbSendRectEncoding cl.preferredEncoding cl u r.x1 r.y1 (r.x2 - r.x1)
          (r.y2 - r.y1) with
      | none => exact absurd hs (henc _ _ _ _ _ _ _)
      | some v => exact ih v
    · exact ih u

theorem nUpdateRegionRects_raw (env : Env) (cl : rfbClientRec) (rects : List BoxRec)
    (h : cl.preferredEncoding = rfbEncodingRaw) :
    nUpdateRegionRects env cl rects = (rects.length : Int) := by
  unfold nUpdateRegionRects
  rw [h]
  rw [if_neg (by decide), if_neg (by decide), if_neg (by decide)]

theorem rfbSendLastRectMarker_stream_ok (env : Env) (g : Globals) (cl : rfbClientRec)
    (hu : cl.useUdp = false) (hw : ∀ (g1 : Globals) (n : Int), 0 ≤ env.WriteExact g1 n) :
    (rfbSendLastRectMarker env g cl).1 = true := by
  have hf := rfbSendUpdateBuf_stream_ok env g cl hu hw
  unfold rfbSendLastRectMarker
  dsimp only
  by_cases h : g.ublen + sz_rfbFramebufferUpdateRectHeader > env.UPDATE_BUF_SIZE
  · rw [if_pos h, if_neg (by rw [hf]; decide)]
  · rw [if_neg h]
    rfl

theorem sendPixelData_succeeds (env : Env) (seqNum : Nat) (nUpd : Int) (r : UpdateResult)
    (hu : r.cl.useUdp = false) (hw : ∀ (g1 : Globals) (n : Int), 0 ≤ env.WriteExact g1 n)
    (henc : ∀ enc c u x y w h, env.rfbSendRectEncoding enc c u x y w h ≠ none) :
    (sendPixelData env seqNum nUpd r).ok = true := by
  obtain ⟨v, hv⟩ := sendRects_some env r.cl henc (env.REGION_RECTS r.updateRegion) r.g.ublen
  unfold sendPixelData
  dsimp only
  rw [hv]
  dsimp only
  have hmk : (if nUpd = 65535 then
          rfbSendLastRectMarker env { r.g with ublen := v, handleNewBlock := 0 } r.cl
        else (true, { r.g with ublen := v, handleNewBlock := 0 })).1 = true := by
    split_ifs
    · exact rfbSendLastRectMarker_stream_ok env _ r.cl hu hw
    · rfl
  generalize (if nUpd = 65535 then
          rfbSendLastRectMarker env { r.g with ublen := v, handleNewBlock := 0 } r.cl
        else (true, { r.g with ublen := v, handleNewBlock := 0 })) = marker at hmk
  have hfl := rfbSendUpdateBuf_stream_ok env marker.2 r.cl hu hw
  rw [if_neg (fun h => by rw [hmk] at h; exact Bool.noConfusion h.2),
    if_neg (by rw [hfl]; decide)]

theorem sendCursorShapeStep_succeeds (env : Env) (b : Bool) (r : UpdateResult)
    (hshape : ∀ c u, env.rfbSendCursorShape c u ≠ none) :
    (sendCursorShapeStep env b r).1 = true := by
  unfold sendCursorShapeStep
  cases b with
  | false => rfl
  | true =>
    simp only [if_true]
    cases hs : env.rfbSendCursorShape { r.cl with cursorWasChanged := false } r.g.ublen with
    | none => exact absurd hs (hshape _ _)
    | some u => rfl

theorem sendCursorPosStep_succeeds (env : Env) (b : Bool) (r : UpdateResult)
    (hpos : ∀ c u, env.rfbSendCursorPos c u ≠ none) :
    (sendCursorPosStep env b r).1 = true := by
  unfold sendCursorPosStep
  cases b with
  | false => rfl
  | true =>
    simp only [if_true]
    cases hs : env.rfbSendCursorPos { r.cl with cursorWasMoved := false } r.g.ublen with
    | none => exact absurd hs (hpos _ _)
    | some u => rfl

theorem sendCopyStep_succeeds (env : Env) (dx dy : Int) (r : UpdateResult)
    (hu : r.cl.useUdp = false) (hw : ∀ (g1 : Globals) (n : Int), 0 ≤ env.WriteExact g1 n) :
    (sendCopyStep env dx dy r).1 = true := by
  have hc := rfbSendCopyRegion_ok env r.g r.cl (env.REGION_RECTS r.updateCopyRegion) dx dy
    (fun g1 => rfbSendUpdateBuf_stream_ok env g1 r.cl hu hw)
  unfold sendCopyStep
  dsimp only
  by_cases hne : REGION_NOTEMPTY r.updateCopyRegion = true
  · rw [if_pos hne, if_neg (by rw [hc]; decide)]
  · rw [if_neg hne]

theorem sendUpdateRest_succeeds (env : Env) (seqNum : Nat) (cs cp : Bool) (dx dy nUpd : Int)
    (r : UpdateResult) (hu : r.cl.useUdp = false)
    (hw : ∀ (g1 : Globals) (n : Int), 0 ≤ env.WriteExact g1 n)
    (hshape : ∀ c u, env.rfbSendCursorShape c u ≠ none)
    (hpos : ∀ c u, env.rfbSendCursorPos c u ≠ none)
    (henc : ∀ enc c u x y w h, env.rfbSendRectEncoding enc c u x y w h ≠ none) :
    (sendUpdateRest env seqNum cs cp dx dy nUpd r).ok = true := by
  have b1 := sendCursorShapeStep_same env cs r
  have b2 := (sendCursorPosStep_same env cp (sendCursorShapeStep env cs r).2).chain b1
  have b3 := (sendCopyStep_same env dx dy
    (sendCursorPosStep env cp (sendCursorShapeStep env cs r).2).2).chain b2
  have s1 := sendCursorShapeStep_succeeds env cs r hshape
  have s2 := sendCursorPosStep_succeeds env cp (sendCursorShapeStep env cs r).2 hpos
  have s3 := sendCopyStep_succeeds env dx dy
    (sendCursorPosStep env cp (sendCursorShapeStep env cs r).2).2
    (b2.2.2.2.2.2.2.1.trans hu) hw
  unfold sendUpdateRest
  dsimp only
  rw [if_neg (by rw [s1]; decide),
    if_neg (by rw [s2]; decide),
    if_neg (by rw [s3]; decide)]
  exact sendPixelData_succeeds env seqNum nUpd _ (b3.2.2.2.2.2.2.1.trans hu) hw henc

/-- Over the stream transport, with collaborators that never fail, the builder
returns TRUE. -/
theorem builder_succeeds (env : Env) (g : Globals) (cl : rfbClientRec) (seqNum : Nat)
    (hu : cl.useUdp = false)
    (hw : ∀ (g1 : Globals) (n : Int), 0 ≤ env.WriteExact g1 n)
    (hshape : ∀ c u, env.rfbSendCursorShape c u ≠ none)
    (hpos : ∀ c u, env.rfbSendCursorPos c u ≠ none)
    (henc : ∀ enc c u x y w h, env.rfbSendRectEncoding enc c u x y w h ≠ none) :
    (rfbSendFramebufferUpdate_numBytes env g cl seqNum).ok = true := by
  unfold rfbSendFramebufferUpdate_numBytes
  dsimp only
  split_ifs with h hm
  · rfl
  · unfold sendUpdateBody
    exact sendUpdateRest_succeeds env seqNum _ _ _ _ _ _ hu hw hshape hpos henc
  · unfold sendUpdateBody
    exact sendUpdateRest_succeeds env seqNum _ _ _ _ _ _ hu hw hshape hpos henc

/-- An update that the builder built is the emission stage run on a result
whose session is the given one up to the fields the builder writes. -/
theorem builder_body (env : Env) (g : Globals) (cl : rfbClientRec) (seqNum : Nat)
    (hb : (rfbSendFramebufferUpdate_numBytes env g cl seqNum).built = true) :
    ∃ r0 : UpdateResult, ClientKept r0.cl cl
      ∧ rfbSendFramebufferUpdate_numBytes env g cl seqNum
          = sendUpdateBody env seqNum (planCursorShape env g cl) (planCursorPos cl)
              cl.copyDX cl.copyDY r0 := by
  unfold rfbSendFramebufferUpdate_numBytes at hb ⊢
  dsimp only at hb ⊢
  split_ifs at hb ⊢ with h hm
  · refine ⟨?w, ?h1, ?h2⟩
    case h2 => exact rfl
    case h1 => exact rfl
  · refine ⟨?v, ?k1, ?k2⟩
    case k2 => exact rfl
    case k1 => exact rfl

/-- The header field `nRects` and the LastRect marker of an update that the
builder built, with `nUpd` the count of pixel rectangles that the builder
computes for the session `cl1` it holds at the header (the session it was
given, up to the fields the builder writes). -/
theorem builder_header (env : Env) (g : Globals) (cl : rfbClientRec) (seqNum : Nat)
    (hb : (rfbSendFramebufferUpdate_numBytes env g cl seqNum).built = true) :
    ∃ cl1 : rfbClientRec, ClientKept cl1 cl
      ∧ (rfbSendFramebufferUpdate_numBytes env g cl seqNum).nRects
          = (if nUpdateRegionRects env cl1 (env.REGION_RECTS
                (rfbSendFramebufferUpdate_numBytes env g cl seqNum).updateRegion) = 0xFFFF
              then 0xFFFF
              else (((env.REGION_RECTS
                      (rfbSendFramebufferUpdate_numBytes env g cl seqNum).updateCopyRegion).length
                        : Int)
                    + nUpdateRegionRects env cl1 (env.REGION_RECTS
                        (rfbSendFramebufferUpdate_numBytes env g cl seqNum).updateRegion)
                    + flagInt (planCursorShape env g cl) + flagInt (planCursorPos cl)) % 65536)
      ∧ ((rfbSendFramebufferUpdate_numBytes env g cl seqNum).ok = true →
          ((rfbSendFramebufferUpdate_numBytes env g cl seqNum).lastRect = true
            ↔ nUpdateRegionRects env cl1 (env.REGION_RECTS
                (rfbSendFramebufferUpdate_numBytes env g cl seqNum).updateRegion) = 0xFFFF)) := by
  obtain ⟨r0, hk, he⟩ := builder_body env g cl seqNum hb
  rw [he]
  obtain ⟨p1, p2⟩ := sendUpdateBody_header env seqNum (planCursorShape env g cl)
    (planCursorPos cl) cl.copyDX cl.copyDY r0
  obtain ⟨-, -, -, -, -, -, -, q1, q2, -⟩ := sendUpdateBody_same env seqNum
    (planCursorShape env g cl) (planCursorPos cl) cl.copyDX cl.copyDY r0
  refine ⟨r0.cl, hk, ?_, ?_⟩
  · rw [q1, q2]
    exact p1
  · rw [q1]
    exact p2

/-! ### A stipple pattern of 65534 rectangles -/

theorem stippleCount_eq : stippleCount = 65534 := by
  unfold stippleCount
  rfl

theorem stippleRegion_subset :
    stippleRegion ⊆ REGION_INIT { x1 := 0, y1 := 0, x2 := 660, y2 := 668 } := by
  intro p hp
  unfold stippleRegion at hp
  rw [Finset.mem_image] at hp
  unfold REGION_INIT
  rw [mem_pixels]
  obtain ⟨i, hi, rfl⟩ := hp
  rw [Finset.mem_range, stippleCount_eq] at hi
  unfold stipplePixel
  dsimp only
  omega

theorem stippleRegion_ne_empty : (∅ : Region) ≠ stippleRegion := by
  intro h
  have hm : stipplePixel 0 ∈ stippleRegion := by
    unfold stippleRegion
    exact Finset.mem_image.2 ⟨0, Finset.mem_range.2 (by rw [stippleCount_eq]; norm_num), rfl⟩
  rw [← h] at hm
  exact Finset.not_mem_empty _ hm

/-- The rectangles `stippleRects` cover exactly the pixels of `stippleRegion`. -/
theorem stippleRects_pixels (p : Int × Int) :
    p ∈ stippleRegion ↔ ∃ b ∈ stippleRects, p ∈ b.pixels := by
  unfold stippleRegion stippleRects
  rw [Finset.mem_image]
  constructor
  · rintro ⟨i, hi, rfl⟩
    refine ⟨_, List.mem_map.2 ⟨i, List.mem_range.2 (Finset.mem_range.1 hi), rfl⟩, ?_⟩
    rw [mem_pixels]
    dsimp only
    omega
  · rintro ⟨b, hb, hp⟩
    obtain ⟨i, hi, rfl⟩ := List.mem_map.1 hb
    rw [mem_pixels] at hp
    dsimp only at hp
    refine ⟨i, Finset.mem_range.2 (List.mem_range.1 hi), ?_⟩
    apply Prod.ext <;> omega

theorem stippleRects_length : stippleRects.length = 65534 := by
  unfold stippleRects
  rw [List.length_map, List.length_range, stippleCount_eq]

theorem envStipple_rects_eq (r : Region) :
    envStipple.REGION_RECTS r = if r = stippleRegion then stippleRects else pixelRects r := rfl

theorem envStipple_rects : envStipple.REGION_RECTS stippleRegion = stippleRects := by
  rw [envStipple_rects_eq, if_pos rfl]

theorem envStipple_rects_empty : envStipple.REGION_RECTS ∅ = [] := by
  rw [envStipple_rects_eq, if_neg stippleRegion_ne_empty]
  decide

/-- C30, the code at the failing input. On the `660 × 668` screen a stipple of
65534 isolated pixels is modified, the session uses Raw encoding over the
stream transport, its cursor shape changed and the client asked for the whole
screen.  The region has 65534 rectangles, the builder counts 65534 pixel
rectangles (not the sentinel), plans one cursor-shape update and no CopyRect,
and returns TRUE: the header field `nRects` is `0 + 65534 + 1 + 0 = 0xFFFF`
although no LastRect marker ends the update. -/
theorem C30_nRects_aliases_lastRect_sentinel :
    (∀ p, p ∈ stippleRegion ↔ ∃ b ∈ envStipple.REGION_RECTS stippleRegion, p ∈ b.pixels)
    ∧ (envStipple.REGION_RECTS stippleRegion).length = 65534
    ∧ nUpdateRegionRects envStipple clStipple (envStipple.REGION_RECTS stippleRegion) = 65534
    ∧ planCursorShape envStipple initGlobals clStipple = true
    ∧ planCursorPos clStipple = false
    ∧ (rfbSendFramebufferUpdate_numBytes envStipple initGlobals clStipple 0xFFFFFFFF).ok = true
    ∧ (rfbSendFramebufferUpdate_numBytes envStipple initGlobals clStipple 0xFFFFFFFF).built = true
    ∧ (rfbSendFramebufferUpdate_numBytes envStipple initGlobals clStipple 0xFFFFFFFF).updateRegion
        = stippleRegion
    ∧ (rfbSendFramebufferUpdate_numBytes envStipple initGlobals clStipple
        0xFFFFFFFF).updateCopyRegion = ∅
    ∧ (rfbSendFramebufferUpdate_numBytes envStipple initGlobals clStipple 0xFFFFFFFF).nRects
        = 0xFFFF
    ∧ (rfbSendFramebufferUpdate_numBytes envStipple initGlobals clStipple 0xFFFFFFFF).lastRect
        = false := by
  have hplan : planCursorShape envStipple initGlobals clStipple = true := by decide
  have hpos : planCursorPos clStipple = false := by decide
  have hlen : ((stippleRects.length : Nat) : Int) = 65534 := by
    rw [stippleRects_length]
    rfl
  have hok := builder_succeeds envStipple initGlobals clStipple 0xFFFFFFFF rfl
    (fun _ _ => le_refl (0 : Int)) (fun _ u => Option.some_ne_none (u + 20))
    (fun _ u => Option.some_ne_none (u + 12))
    (fun _ _ u _ _ w h => Option.some_ne_none (u + 12 + 4 * w * h))
  have hacc := builder_accounting envStipple initGlobals clStipple 0xFFFFFFFF
  unfold rfbSendFramebufferUpdate at hacc
  rcases hacc with ⟨-, -, -, h, -⟩ | ⟨hb, -, hcopy, hupd, -⟩
  · rw [hplan] at h
    cases h
  have hc0 : (rfbSendFramebufferUpdate_numBytes envStipple initGlobals clStipple
      0xFFFFFFFF).updateCopyRegion = ∅ := by
    rw [hcopy]
    show ((∅ : Region) \ _) ∩ _ ∩ _ = ∅
    rw [Finset.empty_sdiff, Finset.empty_inter, Finset.empty_inter]
  have hu0 : (rfbSendFramebufferUpdate_numBytes envStipple initGlobals clStipple
      0xFFFFFFFF).updateRegion = stippleRegion := by
    rw [hupd, hc0]
    show (REGION_INIT { x1 := 0, y1 := 0, x2 := 660, y2 := 668 }
      ∩ ((∅ : Region) \ stippleRegion ∪ stippleRegion)) \ ∅ = stippleRegion
    rw [Finset.empty_sdiff, Finset.empty_union, Finset.sdiff_empty,
      Finset.inter_eq_right.2 stippleRegion_subset]
  obtain ⟨cl1, hk, hn, hl⟩ := builder_header envStipple initGlobals clStipple 0xFFFFFFFF hb
  have hpe : cl1.preferredEncoding = rfbEncodingRaw := by
    unfold ClientKept at hk
    rw [hk]
    rfl
  have hnu : nUpdateRegionRects envStipple cl1 stippleRects = 65534 := by
    rw [nUpdateRegionRects_raw envStipple cl1 stippleRects hpe, hlen]
  rw [hu0, hc0, envStipple_rects, envStipple_rects_empty, hplan, hpos, hnu] at hn
  rw [hu0, envStipple_rects, hnu] at hl
  refine ⟨fun p => ?_, ?_, ?_, hplan, hpos, hok, hb, hu0, hc0, ?_, ?_⟩
  · rw [envStipple_rects]
    exact stippleRects_pixels p
  · rw [envStipple_rects]
    exact stippleRects_length
  · rw [envStipple_rects, nUpdateRegionRects_raw envStipple clStipple stippleRects rfl, hlen]
  · rw [hn]
    decide
  · cases hlr : (rfbSendFramebufferUpdate_numBytes envStipple initGlobals clStipple
        0xFFFFFFFF).lastRect
    · rfl
    · exact absurd ((hl hok).1 hlr) (by decide)

/-! ### The controller with a quality level of at most 3 -/

theorem percentages_signs (g : Globals) (cl : rfbClientRec)
    (hq : cl.tightQualityLevel ≤ 3) (hhi : g.serverPushInterval ≤ 1000) :
    qualityPercentage cl ≤ 0 ∧ 0 ≤ intervalPercentage g := by
  have h1 : (cl.tightQualityLevel : ℚ) ≤ 3 := by exact_mod_cast hq
  have h2 : (g.serverPushInterval : ℚ) ≤ 1000 := by exact_mod_cast hhi
  unfold qualityPercentage intervalPercentage
  constructor
  · apply div_nonpos_of_nonpos_of_nonneg
    · linarith
    · norm_num
  · apply div_nonneg
    · linarith
    · norm_num

theorem longerInterval_ge (v : Nat) (h : v ≤ 1000) : v ≤ longerInterval v := by
  have hm : (v + 5) % ULONG_MOD = v + 5 := by
    apply Nat.mod_eq_of_lt
    unfold ULONG_MOD
    omega
  unfold longerInterval
  rw [hm]
  clear hm
  split_ifs <;> omega

theorem rampUp_quality_branch (g : Globals) (cl : rfbClientRec) (now : Nat)
    (hq : cl.tightQualityLevel ≤ 3) (hhi : g.serverPushInterval ≤ 1000) :
    rampUp g cl now
      = ({ g with lastChange := now },
         { cl with tightQualityLevel :=
            if cl.tightQualityLevel + 1 > 3 then 3 else cl.tightQualityLevel + 1 }) := by
  obtain ⟨h1, h2⟩ := percentages_signs g cl hq hhi
  rw [rampUp, if_pos (le_trans h1 h2)]

theorem rampDown_interval_ge (g : Globals) (cl : rfbClientRec) (now : Nat)
    (hhi : g.serverPushInterval ≤ 1000) :
    g.serverPushInterval ≤ (rampDown g cl now).1.serverPushInterval := by
  by_cases hq : qualityPercentage cl ≥ intervalPercentage g
  · rw [rampDown, if_pos hq]
  · rw [rampDown, if_neg hq]
    exact longerInterval_ge g.serverPushInterval hhi

theorem adaptStep_interval_ge (g : Globals) (cl : rfbClientRec) (now : Nat)
    (hq : cl.tightQualityLevel ≤ 3) (hhi : g.serverPushInterval ≤ 1000) :
    g.serverPushInterval ≤ (adaptStep g cl now).1.serverPushInterval := by
  have e1 : (tickThroughput g now).serverPushInterval = g.serverPushInterval := rfl
  have hd := rampDown_interval_ge (tickThroughput g now) cl now (by rw [e1]; exact hhi)
  have hu := rampUp_quality_branch (tickThroughput g now) cl now hq (by rw [e1]; exact hhi)
  rw [e1] at hd
  unfold adaptStep adaptRate
  split_ifs
  · exact hd
  · exact le_refl _
  · rw [hu]
    exact le_refl _
  · exact le_refl _
  · exact le_refl _
  · exact le_refl _

theorem step_interval_ge (env : Env) (op : Op) (g : Globals) (cl : rfbClientRec)
    (s : Globals × rfbClientRec × Nat) (h : op.step env g cl = some s)
    (hq : cl.tightQualityLevel ≤ 3) (hhi : g.serverPushInterval ≤ 1000) :
    g.serverPushInterval ≤ s.1.serverPushInterval := by
  cases op with
  | request msg =>
    simp only [Op.step, Option.some.injEq] at h
    subst h
    exact le_of_eq (request_tuning env g cl msg).1.symm
  | ack seqNum =>
    simp only [Op.step, Option.some.injEq] at h
    subst h
    exact le_of_eq (ack_tuning env g seqNum).1.symm
  | push fuel =>
    simp only [Op.step] at h
    cases hp : rfbServerPushClient env fuel g cl with
    | none =>
      rw [hp] at h
      simp at h
    | some r =>
      rw [hp] at h
      simp only [Option.some.injEq] at h
      subst h
      have h1 := rfbServerPushClient_tuning env fuel g cl r hp
      show g.serverPushInterval ≤ r.1.serverPushInterval
      rw [h1.1]
      exact adaptStep_interval_ge g cl (env.GetTimeInMillis g) hq hhi
  | measure box =>
    simp only [Op.step, Option.some.injEq] at h
    subst h
    exact le_of_eq (measureRegion_tuning env g cl box).1.symm
  | send box =>
    simp only [Op.step, Option.some.injEq] at h
    subst h
    exact le_of_eq (sendRegion_tuning env g cl box).1.symm
  | frame =>
    simp only [Op.step, Option.some.injEq] at h
    subst h
    exact le_refl _
  | setupRetransmit =>
    simp only [Op.step, Option.some.injEq] at h
    subst h
    exact le_refl _
  | subtract region =>
    simp only [Op.step, Option.some.injEq] at h
    subst h
    exact le_refl _
  | deleteSeqNum seqNum =>
    simp only [Op.step, Option.some.injEq] at h
    subst h
    exact le_refl _
  | external cl1 =>
    simp only [Op.step, Option.some.injEq] at h
    subst h
    exact le_refl _

/-- A run of `ops1 ++ ops2` is the run of `ops1` followed by the run of `ops2`. -/
theorem runOps_append (env : Env) :
    ∀ (ops1 ops2 : List Op) (g : Globals) (cl : rfbClientRec)
      (res : Globals × rfbClientRec × Nat),
      runOps env (ops1 ++ ops2) g cl = some res →
      ∃ s1 s2, runOps env ops1 g cl = some s1 ∧ runOps env ops2 s1.1 s1.2.1 = some s2
        ∧ res.1 = s2.1 ∧ res.2.1 = s2.2.1 := by
  intro ops1
  induction ops1 with
  | nil =>
    intro ops2 g cl res h
    exact ⟨(g, cl, 0), res, rfl, h, rfl, rfl⟩
  | cons op ops ih =>
    intro ops2 g cl res h
    rw [List.cons_append, runOps] at h
    cases hs : op.step env g cl with
    | none =>
      rw [hs] at h
      simp at h
    | some s =>
      rw [hs] at h
      dsimp only at h
      cases hr : runOps env (ops ++ ops2) s.1 s.2.1 with
      | none =>
        rw [hr] at h
        simp at h
      | some r =>
        rw [hr] at h
        simp only [Option.some.injEq] at h
        subst h
        obtain ⟨s1, s2, e1, e2, e3, e4⟩ := ih ops2 s.1 s.2.1 r hr
        refine ⟨(s1.1, s1.2.1, s.2.2 + s1.2.2), s2, ?_, e2, e3, e4⟩
        rw [runOps, hs]
        dsimp only
        rw [e1]

/-- The run of `ops1` followed by the run of `ops2` is a run of `ops1 ++ ops2`. -/
theorem runOps_append_some (env : Env) :
    ∀ (ops1 ops2 : List Op) (g : Globals) (cl : rfbClientRec)
      (s1 s2 : Globals × rfbClientRec × Nat),
      runOps env ops1 g cl = some s1 → runOps env ops2 s1.1 s1.2.1 = some s2 →
      runOps env (ops1 ++ ops2) g cl = some (s2.1, s2.2.1, s1.2.2 + s2.2.2) := by
  intro ops1
  induction ops1 with
  | nil =>
    intro ops2 g cl s1 s2 h1 h2
    simp only [runOps, Option.some.injEq] at h1
    subst h1
    simp only [List.nil_append, Nat.zero_add]
    exact h2
  | cons op ops ih =>
    intro ops2 g cl s1 s2 h1 h2
    rw [runOps] at h1
    cases hst : op.step env g cl with
    | none =>
      rw [hst] at h1
      simp at h1
    | some st =>
      rw [hst] at h1
      dsimp only at h1
      cases hr : runOps env ops st.1 st.2.1 with
      | none =>
        rw [hr] at h1
        simp at h1
      | some r =>
        rw [hr] at h1
        simp only [Option.some.injEq] at h1
        subst h1
        have := ih ops2 st.1 st.2.1 r s2 hr h2
        rw [List.cons_append, runOps, hst]
        dsimp only
        rw [this]
        simp only [Option.some.injEq, Prod.mk.injEq, true_and]
        omega

/-- Along a run in which the quality level is at most 3 before every
operation, the push interval at the end is at least the one at the start. -/
theorem runOps_interval_ge (env : Env) :
    ∀ (ops : List Op) (g : Globals) (cl : rfbClientRec) (res : Globals × rfbClientRec × Nat),
      42 ≤ g.serverPushInterval → g.serverPushInterval ≤ 1000 →
      (∀ ops1 ops2 s, ops = ops1 ++ ops2 → runOps env ops1 g cl = some s →
        s.2.1.tightQualityLevel ≤ 3) →
      runOps env ops g cl = some res →
      g.serverPushInterval ≤ res.1.serverPushInterval := by
  intro ops
  induction ops with
  | nil =>
    intro g cl res _ _ _ h
    simp only [runOps, Option.some.injEq] at h
    subst h
    exact le_refl _
  | cons op ops ih =>
    intro g cl res hlo hhi hq h
    rw [runOps] at h
    cases hs : op.step env g cl with
    | none =>
      rw [hs] at h
      simp at h
    | some s =>
      rw [hs] at h
      dsimp only at h
      cases hr : runOps env ops s.1 s.2.1 with
      | none =>
        rw [hr] at h
        simp at h
      | some s1 =>
        rw [hr] at h
        simp only [Option.some.injEq] at h
        subst h
        have hq0 : cl.tightQualityLevel ≤ 3 := hq [] (op :: ops) (g, cl, 0) rfl rfl
        have h1 := step_interval_ge env op g cl s hs hq0 hhi
        have hb := (step_tuning env op g cl s hs).2 ⟨hlo, hhi⟩
        have h2 := ih s.1 s.2.1 s1 hb.1 hb.2 (fun ops1 ops2 t e ht => by
          have := hq (op :: ops1) ops2 (t.1, t.2.1, s.2.2 + t.2.2) (by rw [e]; rfl) (by
            rw [runOps, hs]
            dsimp only
            rw [ht])
          exact this) hr
        exact le_trans h1 h2

/-- C38. With exact arithmetic, for a quality level of at most 3 and a push
interval within `[42, 1000]`: the quality percentage is at most 0 and the
interval percentage at least 0, so the ramp-up branch raises the quality level
(not above 3) and leaves the push interval alone, and a controller step never
shortens the push interval.  Along every run in which the quality level is at
most 3 before every operation the push interval is non-decreasing: between
any two points of the run the later value is at least the earlier one. -/
theorem C38_pushInterval_nondecreasing (env : Env) (g : Globals) (cl : rfbClientRec)
    (hq : cl.tightQualityLevel ≤ 3)
    (hlo : 42 ≤ g.serverPushInterval) (hhi : g.serverPushInterval ≤ 1000) :
    (qualityPercentage cl ≤ 0 ∧ 0 ≤ intervalPercentage g)
    ∧ (∀ now, (rampUp g cl now).1.serverPushInterval = g.serverPushInterval
        ∧ (rampUp g cl now).2.tightQualityLevel = min 3 (cl.tightQualityLevel + 1))
    ∧ (∀ now, g.serverPushInterval ≤ (adaptStep g cl now).1.serverPushInterval)
    ∧ (∀ (ops1 ops2 : List Op) (s1 s2 : Globals × rfbClientRec × Nat),
        (∀ opsA opsB s, ops1 ++ ops2 = opsA ++ opsB → runOps env opsA g cl = some s →
          s.2.1.tightQualityLevel ≤ 3) →
        runOps env ops1 g cl = some s1 → runOps env (ops1 ++ ops2) g cl = some s2 →
        g.serverPushInterval ≤ s1.1.serverPushInterval
        ∧ s1.1.serverPushInterval ≤ s2.1.serverPushInterval) := by
  refine ⟨percentages_signs g cl hq hhi, fun now => ?_,
    fun now => adaptStep_interval_ge g cl now hq hhi, ?_⟩
  · rw [rampUp_quality_branch g cl now hq hhi]
    refine ⟨rfl, ?_⟩
    show (if cl.tightQualityLevel + 1 > 3 then 3 else cl.tightQualityLevel + 1)
      = min 3 (cl.tightQualityLevel + 1)
    split_ifs <;> omega
  · intro ops1 ops2 s1 s2 hstay h1 h2
    obtain ⟨t1, t2, e1, e2, e3, -⟩ := runOps_append env ops1 ops2 g cl s2 h2
    rw [h1] at e1
    simp only [Option.some.injEq] at e1
    subst e1
    have hb := (runOps_tuning env ops1 g cl s1 h1).2.2 ⟨hlo, hhi⟩
    have ha := runOps_interval_ge env ops1 g cl s1 hlo hhi
      (fun opsA opsB s e hs => hstay opsA (opsB ++ ops2) s (by rw [e, List.append_assoc]) hs) h1
    have hc := runOps_interval_ge env ops2 s1.1 s1.2.1 t2 hb.1 hb.2
      (fun opsA opsB s e hs => by
        have hrun := runOps_append_some env ops1 opsA g cl s1 s h1 hs
        exact hstay (ops1 ++ opsA) opsB (s.1, s.2.1, s1.2.2 + s.2.2)
          (by rw [e, List.append_assoc]) hrun) e2
    rw [e3]
    exact ⟨ha, hc⟩

/-- Witness for C38: with quality level 2 and the initial push interval 66, a
tick at 5000 ms finds a sending throughput of 0 below the receiving
throughput and ramps up: the quality level becomes 3 and the push interval
stays 66. -/
theorem C38_pushInterval_nondecreasing_witness :
    clQuality2.tightQualityLevel ≤ 3
    ∧ 42 ≤ initGlobals.serverPushInterval ∧ initGlobals.serverPushInterval ≤ 1000
    ∧ (adaptStep initGlobals clQuality2 5000).2.tightQualityLevel = 3
    ∧ (adaptStep initGlobals clQuality2 5000).1.serverPushInterval = 66
    ∧ (rampUp initGlobals clQuality2 5000).1.serverPushInterval = 66
    ∧ (rampUp initGlobals clQuality2 5000).2.tightQualityLevel = 3
    ∧ initGlobals.serverPushInterval
        ≤ (adaptStep initGlobals clQuality2 5000).1.serverPushInterval :=
  ⟨by decide, by decide, by decide, by decide!, by decide!,
    ((C38_pushInterval_nondecreasing envOk initGlobals clQuality2 (by decide) (by decide)
      (by decide)).2.1 5000).1.trans rfl,
    ((C38_pushInterval_nondecreasing envOk initGlobals clQuality2 (by decide) (by decide)
      (by decide)).2.1 5000).2.trans (by decide),
    (C38_pushInterval_nondecreasing envOk initGlobals clQuality2 (by decide) (by decide)
      (by decide)).2.2.1 5000⟩

/-! ### Closing a session and the process-wide state -/

/-- C37, counterexample. The session with socket 4 is the only one of the
server and three updates are unacked.  After `rfbClientConnectionGone(4)` the
session is gone and `canSend` is false, but the queue still holds the three
entries: it is not what `srRecFree` would leave. -/
theorem C37_queue_survives_disconnect :
    serverQueue3.rfbClientHead.map (fun p => p.2.sock) = [4]
    ∧ serverQueue3.g.srRec.map (fun e => e.seqNum) = [1, 2, 4]
    ∧ (rfbClientConnectionGone serverQueue3 4).rfbClientHead = []
    ∧ (rfbClientConnectionGone serverQueue3 4).g.canSend = false
    ∧ (rfbClientConnectionGone serverQueue3 4).g.srRec.map (fun e => e.seqNum) = [1, 2, 4]
    ∧ (rfbClientConnectionGone serverQueue3 4).g.srRec = serverQueue3.g.srRec
    ∧ (rfbClientConnectionGone serverQueue3 4).g.srRec ≠ (srRecFree serverQueue3.g).srRec := by
  refine ⟨by decide, by decide, by decide, by decide, by decide, by decide, by decide⟩

/-- C37, amended. When the session of a connected client is closed
(`rfbClientConnectionGone` for its socket), the session is unlinked and
`canSend` becomes false, and this is the only change of the process-wide
variables: no entry of the unacked queue is destroyed (the queue and its count
are the same afterwards), and the push interval, the retransmit timeout,
`srtt`, `rttvar`, the sending and receiving throughput and both sequence
counters are unchanged. -/
theorem C37_connection_gone_keeps_queue (s : Server) (sock : Int)
    (p : rfbClientPtr × rfbClientRec)
    (hconn : s.rfbClientHead.find? (fun q => decide (q.2.sock = sock)) = some p) :
    (rfbClientConnectionGone s sock).g = { s.g with canSend := false }
    ∧ (rfbClientConnectionGone s sock).rfbClientHead
        = s.rfbClientHead.eraseP (fun q => decide (q.2.sock = sock))
    ∧ (rfbClientConnectionGone s sock).g.canSend = false
    ∧ (rfbClientConnectionGone s sock).g.srRec = s.g.srRec
    ∧ (rfbClientConnectionGone s sock).g.srRecCount = s.g.srRecCount
    ∧ (rfbClientConnectionGone s sock).g.serverPushInterval = s.g.serverPushInterval
    ∧ (rfbClientConnectionGone s sock).g.retransmitTimeout = s.g.retransmitTimeout
    ∧ (rfbClientConnectionGone s sock).g.srtt = s.g.srtt
    ∧ (rfbClientConnectionGone s sock).g.rttvar = s.g.rttvar
    ∧ (rfbClientConnectionGone s sock).g.sendingThroughput = s.g.sendingThroughput
    ∧ (rfbClientConnectionGone s sock).g.receivingThroughput = s.g.receivingThroughput
    ∧ (rfbClientConnectionGone s sock).g.seqNumCounter = s.g.seqNumCounter
    ∧ (rfbClientConnectionGone s sock).g.frameSeqNumCounter = s.g.frameSeqNumCounter := by
  unfold rfbClientConnectionGone
  rw [hconn]
  exact ⟨rfl, rfl, rfl, rfl, rfl, rfl, rfl, rfl, rfl, rfl, rfl, rfl, rfl⟩

/-- Witness for the amended C37: closing the session with socket 4 of
`serverQueue3` leaves the three unacked entries, the counter at 5 and the
retransmit timeout at 100. -/
theorem C37_connection_gone_keeps_queue_witness :
    serverQueue3.rfbClientHead.find? (fun q => decide (q.2.sock = 4)) = some (1, clNormalA)
    ∧ (rfbClientConnectionGone serverQueue3 4).g.srRec = queue3
    ∧ (rfbClientConnectionGone serverQueue3 4).g.seqNumCounter = 5
    ∧ (rfbClientConnectionGone serverQueue3 4).g.retransmitTimeout = 100 :=
  ⟨by decide,
    (C37_connection_gone_keeps_queue serverQueue3 4 (1, clNormalA) (by decide)).2.2.2.1,
    (C37_connection_gone_keeps_queue serverQueue3 4 (1, clNormalA)
      (by decide)).2.2.2.2.2.2.2.2.2.2.2.1,
    (C37_connection_gone_keeps_queue serverQueue3 4 (1, clNormalA)
      (by decide)).2.2.2.2.2.2.1⟩

/-! ### `sendRegion` and the unacked queue -/

/-- C36, the code at two failing inputs. First: a frame was started (the
counter stands at 1), pixel `(0, 0)` is requested and only pixel `(3, 0)` is
modified, and `sendRegion` is called for the box of pixel `(1, 0)`.  The
builder returns on its path for "nothing to send" and nothing is handed to the
transport, but `sendRegion` has taken the sequence number 1 (the counter
stands at 2) and appends an entry with this number, an empty region and an
uninitialised byte count.  Second: the datagram socket refuses the datagram,
the builder returns FALSE, and `sendRegion` again takes the sequence number
and appends an entry. -/
theorem C36_sendRegion_queues_unsent_update :
    (newFrame initGlobals).seqNumCounter = 1
    ∧ (newFrame initGlobals).srRec = []
    ∧ (rfbSendFramebufferUpdate_numBytes envOk
        { newFrame initGlobals with sent_count := 1, seqNumCounter := 2 }
        { addRequested clIdle (REGION_INIT ⟨1, 0, 2, 1⟩) with useUdp := true } 1).built = false
    ∧ (sendRegion envOk (newFrame initGlobals) clIdle ⟨1, 0, 2, 1⟩).1.sentUpdates = []
    ∧ (sendRegion envOk (newFrame initGlobals) clIdle ⟨1, 0, 2, 1⟩).1.seqNumCounter = 2
    ∧ (sendRegion envOk (newFrame initGlobals) clIdle ⟨1, 0, 2, 1⟩).1.srRec
        = [{ seqNum := 1, time := 1000, numBytes := envOk.uninitialised, region := ∅ }]
    ∧ (rfbSendFramebufferUpdate_numBytes envDown
        { newFrame initGlobals with sent_count := 1, seqNumCounter := 2 }
        { addRequested clDrawn (REGION_INIT ⟨0, 0, 4, 1⟩) with useUdp := true } 1).ok = false
    ∧ (sendRegion envDown (newFrame initGlobals) clDrawn ⟨0, 0, 4, 1⟩).1.sentUpdates = []
    ∧ (sendRegion envDown (newFrame initGlobals) clDrawn ⟨0, 0, 4, 1⟩).1.seqNumCounter = 2
    ∧ (sendRegion envDown (newFrame initGlobals) clDrawn ⟨0, 0, 4, 1⟩).1.srRec.map
        (fun e => (e.seqNum, e.region)) = [(1, {(1, 0), (2, 0)})] := by
  refine ⟨by decide, by decide, by decide, by decide, by decide, by decide, by decide,
    by decide, by decide, by decide⟩

/-! ### Measuring and the pending cursor updates -/

/-- What the builder does to the two cursor flags, in measure mode as outside
it: a planned cursor shape update clears `cursorWasChanged` and a planned
cursor position update, reached when the cursor shape step did not fail,
clears `cursorWasMoved`. -/
theorem measureRegion_clears_cursor_flags (env : Env) (g : Globals) (cl : rfbClientRec)
    (box : BoxRec) (hc : colourMapFailed env cl (REGION_INIT box) = false) :
    (planCursorShape env g cl = true →
      (measureRegion env g cl box).2.2.cursorWasChanged = false)
    ∧ (planCursorShape env g cl = false → planCursorPos cl = true →
      (measureRegion env g cl box).2.2.cursorWasMoved = false) := by
  have hplan : planCursorShape env g { addRequested cl (REGION_INIT box) with measuring := true }
      = planCursorShape env g cl := by
    unfold planCursorShape cursorIsDrawnAfter addRequested
    split_ifs <;> rfl
  have hpos : planCursorPos { addRequested cl (REGION_INIT box) with measuring := true }
      = planCursorPos cl := by
    unfold planCursorPos addRequested
    split_ifs <;> rfl
  have hb := builder_flags env g { addRequested cl (REGION_INIT box) with measuring := true }
    0xFFFFFFFF
  rw [hplan, hpos] at hb
  unfold measureRegion
  dsimp only
  rw [if_neg (by rw [hc]; decide)]
  exact ⟨fun h => hb.2.1 h, fun h1 h2 => hb.2.2 h1 h2⟩

/-- C34, the code at the failing input. On the `4 × 1` screen two pixels are
modified and a cursor shape and a cursor position update are pending.  The
measurement of the whole screen plans both cursor updates and counts them (76
bytes: header, cursor shape, cursor position, two pixel rectangles), and it
clears `cursorWasChanged` and `cursorWasMoved`: after `measureRegion` no cursor
update is planned any more.  So the update that `recursiveSend` sends right
after the measurement has the two pixel rectangles only (`nRects = 2`, 44
bytes), while the same box sent from the state before the measurement has the
two cursor updates as well (`nRects = 4`). -/
theorem C34_measuring_clears_cursor_flags :
    planCursorShape envOk initGlobals clCursorPending = true
    ∧ planCursorPos clCursorPending = true
    ∧ clCursorPending.cursorWasChanged = true
    ∧ clCursorPending.cursorWasMoved = true
    ∧ (measureRegion envOk initGlobals clCursorPending ⟨0, 0, 4, 1⟩).1 = 76
    ∧ (measureRegion envOk initGlobals clCursorPending ⟨0, 0, 4, 1⟩).2.2.cursorWasChanged = false
    ∧ (measureRegion envOk initGlobals clCursorPending ⟨0, 0, 4, 1⟩).2.2.cursorWasMoved = false
    ∧ planCursorShape envOk (measureRegion envOk initGlobals clCursorPending ⟨0, 0, 4, 1⟩).2.1
        (measureRegion envOk initGlobals clCursorPending ⟨0, 0, 4, 1⟩).2.2 = false
    ∧ planCursorPos (measureRegion envOk initGlobals clCursorPending ⟨0, 0, 4, 1⟩).2.2 = false
    ∧ (recursiveSend envOk 1 (newFrame initGlobals) clCursorPending ⟨0, 0, 4, 1⟩).map
        (fun s => (s.1.sentUpdates, s.1.srRec.map (fun e => e.numBytes), s.2.2))
        = some ([{ seqNum := 1, nRects := 2, udp := true }], [44], [⟨0, 0, 4, 1⟩])
    ∧ (sendRegion envOk (newFrame initGlobals) clCursorPending ⟨0, 0, 4, 1⟩).1.sentUpdates
        = [{ seqNum := 1, nRects := 4, udp := true }] := by
  refine ⟨by decide, by decide, by decide, by decide, by decide, by decide, by decide,
    by decide, by decide, by decide, by decide⟩

/-! ### The frame of `measureRegion` -/

theorem rfbSendUpdateBuf_measuring (env : Env) (g : Globals) (cl : rfbClientRec)
    (hm : cl.measuring = true) : rfbSendUpdateBuf env g cl = (true, g) := by
  unfold rfbSendUpdateBuf
  rw [if_pos hm]

theorem emitBand_transport (env : Env) (s w : Globals → Int → Int) (cl : rfbClientRec)
    (rects : List BoxRec) (dx dy x_inc : Int) (hm : cl.measuring = true) :
    ∀ (n : Nat) (thisRect : Int) (g : Globals) (out : List CopyRectMsg),
      emitBand { env with sendto := s, WriteExact := w } cl rects dx dy x_inc n thisRect g out
        = emitBand env cl rects dx dy x_inc n thisRect g out := by
  intro n
  induction n with
  | zero =>
    intro thisRect g out
    rfl
  | succ n ih =>
    intro thisRect g out
    rw [emitBand, emitBand]
    dsimp only
    rw [rfbSendUpdateBuf_measuring _ g cl hm, rfbSendUpdateBuf_measuring env g cl hm]
    split_ifs
    · rfl
    · exact ih _ _ _
    · rfl
    · exact ih _ _ _

theorem copyLoop_transport (env : Env) (s w : Globals → Int → Int) (cl : rfbClientRec)
    (rects : List BoxRec) (dx dy x_inc y_inc : Int) (hm : cl.measuring = true) :
    ∀ (fuel nrects : Nat) (thisRect : Int) (g : Globals) (out : List CopyRectMsg),
      copyLoop { env with sendto := s, WriteExact := w } cl rects dx dy x_inc y_inc fuel nrects
          thisRect g out
        = copyLoop env cl rects dx dy x_inc y_inc fuel nrects thisRect g out := by
  intro fuel
  induction fuel with
  | zero =>
    intro nrects thisRect g out
    cases nrects <;> rfl
  | succ fuel ih =>
    intro nrects thisRect g out
    cases nrects with
    | zero => rfl
    | succ nrects =>
      rw [copyLoop, copyLoop]
      rw [emitBand_transport env s w cl rects dx dy x_inc hm]
      split_ifs <;> first
        | rfl
        | exact ih _ _ _ _

theorem rfbSendCopyRegion_transport (env : Env) (s w : Globals → Int → Int) (g : Globals)
    (cl : rfbClientRec) (rects : List BoxRec) (dx dy : Int) (hm : cl.measuring = true) :
    rfbSendCopyRegion { env with sendto := s, WriteExact := w } g cl rects dx dy
      = rfbSendCopyRegion env g cl rects dx dy := by
  unfold rfbSendCopyRegion
  dsimp only
  rw [copyLoop_transport env s w cl rects dx dy _ _ hm]

theorem rfbSendLastRectMarker_transport (env : Env) (s w : Globals → Int → Int) (g : Globals)
    (cl : rfbClientRec) (hm : cl.measuring = true) :
    rfbSendLastRectMarker { env with sendto := s, WriteExact := w } g cl
      = rfbSendLastRectMarker env g cl := by
  unfold rfbSendLastRectMarker
  dsimp only
  rw [rfbSendUpdateBuf_measuring _ g cl hm, rfbSendUpdateBuf_measuring env g cl hm]

theorem sendRects_transport (env : Env) (s w : Globals → Int → Int) (cl : rfbClientRec) :
    ∀ (rects : List BoxRec) (u : Int),
      sendRects { env with sendto := s, WriteExact := w } cl rects u = sendRects env cl rects u := by
  intro rects
  induction rects with
  | nil =>
    intro u
    rfl
  | cons r rest ih =>
    intro u
    rw [sendRects, sendRects]
    dsimp only
    split_ifs
    · cases env.rfbSendRectEncoding cl.preferredEncoding cl u r.x1 r.y1 (r.x2 - r.x1)
          (r.y2 - r.y1) with
      | none => rfl
      | some v => exact ih v
    · exact ih u

theorem nRectsTight_transport (env : Env) (s w : Globals → Int → Int) (cl : rfbClientRec) :
    ∀ (rects : List BoxRec) (n : Int),
      nRectsTight { env with sendto := s, WriteExact := w } cl rects n
        = nRectsTight env cl rects n := by
  intro rects
  induction rects with
  | nil =>
    intro n
    rfl
  | cons r rest ih =>
    intro n
    rw [nRectsTight, nRectsTight]
    dsimp only
    split_ifs
    · rfl
    · exact ih _

theorem nUpdateRegionRects_transport (env : Env) (s w : Globals → Int → Int)
    (cl : rfbClientRec) (rects : List BoxRec) :
    nUpdateRegionRects { env with sendto := s, WriteExact := w } cl rects
      = nUpdateRegionRects env cl rects := by
  unfold nUpdateRegionRects
  rw [nRectsTight_transport env s w cl rects 0]
  rfl

theorem sendCopyStep_transport (env : Env) (s w : Globals → Int → Int) (dx dy : Int)
    (r : UpdateResult) (hm : r.cl.measuring = true) :
    sendCopyStep { env with sendto := s, WriteExact := w } dx dy r = sendCopyStep env dx dy r := by
  unfold sendCopyStep
  dsimp only
  rw [rfbSendCopyRegion_transport env s w r.g r.cl _ dx dy hm]

theorem sendPixelData_transport (env : Env) (s w : Globals → Int → Int) (seqNum : Nat)
    (nUpd : Int) (r : UpdateResult) (hm : r.cl.measuring = true) :
    sendPixelData { env with sendto := s, WriteExact := w } seqNum nUpd r
      = sendPixelData env seqNum nUpd r := by
  unfold sendPixelData
  dsimp only
  rw [sendRects_transport env s w r.cl]
  cases sendRects env r.cl (env.REGION_RECTS r.updateRegion) r.g.ublen with
  | none => rfl
  | some u =>
    dsimp only
    rw [rfbSendLastRectMarker_transport env s w _ r.cl hm]
    generalize (if nUpd = 65535 then
          rfbSendLastRectMarker env { r.g with ublen := u, handleNewBlock := 0 } r.cl
        else (true, { r.g with ublen := u, handleNewBlock := 0 })) = marker
    rw [rfbSendUpdateBuf_measuring _ marker.2 r.cl hm, rfbSendUpdateBuf_measuring env marker.2 r.cl hm]

theorem sendUpdateRest_transport (env : Env) (s w : Globals → Int → Int) (seqNum : Nat)
    (cs cp : Bool) (dx dy nUpd : Int) (r : UpdateResult) (hm : r.cl.measuring = true) :
    sendUpdateRest { env with sendto := s, WriteExact := w } seqNum cs cp dx dy nUpd r
      = sendUpdateRest env seqNum cs cp dx dy nUpd r := by
  have b1 := sendCursorShapeStep_same env cs r
  have b2 := (sendCursorPosStep_same env cp (sendCursorShapeStep env cs r).2).chain b1
  have b3 := (sendCopyStep_same env dx dy
    (sendCursorPosStep env cp (sendCursorShapeStep env cs r).2).2).chain b2
  have e1 : sendCursorShapeStep { env with sendto := s, WriteExact := w } cs r
      = sendCursorShapeStep env cs r := rfl
  have e2 : ∀ r1, sendCursorPosStep { env with sendto := s, WriteExact := w } cp r1
      = sendCursorPosStep env cp r1 := fun _ => rfl
  unfold sendUpdateRest
  dsimp only
  rw [e1, e2, sendCopyStep_transport env s w dx dy _ (b2.2.2.2.2.2.1.trans hm),
    sendPixelData_transport env s w seqNum nUpd _ (b3.2.2.2.2.2.1.trans hm)]

theorem sendUpdateBody_transport (env : Env) (s w : Globals → Int → Int) (seqNum : Nat)
    (cs cp : Bool) (dx dy : Int) (r : UpdateResult) (hm : r.cl.measuring = true) :
    sendUpdateBody { env with sendto := s, WriteExact := w } seqNum cs cp dx dy r
      = sendUpdateBody env seqNum cs cp dx dy r := by
  unfold sendUpdateBody headerNRects
  dsimp only
  rw [nUpdateRegionRects_transport env s w r.cl]
  exact sendUpdateRest_transport env s w seqNum cs cp dx dy _ _ hm

/-- In measure mode the builder never consults the transport: with any other
`sendto` and `WriteExact` it returns the same result. -/
theorem builder_transport (env : Env) (s w : Globals → Int → Int) (g : Globals)
    (cl : rfbClientRec) (seqNum : Nat) (hm : cl.measuring = true) :
    rfbSendFramebufferUpdate_numBytes { env with sendto := s, WriteExact := w } g cl seqNum
      = rfbSendFramebufferUpdate_numBytes env g cl seqNum := by
  have e1 : cursorIsDrawnAfter { env with sendto := s, WriteExact := w } g cl
      = cursorIsDrawnAfter env g cl := rfl
  have e2 : planCursorShape { env with sendto := s, WriteExact := w } g cl
      = planCursorShape env g cl := rfl
  unfold rfbSendFramebufferUpdate_numBytes
  dsimp only
  rw [e1, e2]
  split_ifs with h1 h2
  · rfl
  · rw [hm] at h2
    cases h2
  · exact sendUpdateBody_transport env s w seqNum _ _ _ _ _ hm

theorem measureRegion_transport (env : Env) (s w : Globals → Int → Int) (g : Globals)
    (cl : rfbClientRec) (box : BoxRec) :
    measureRegion { env with sendto := s, WriteExact := w } g cl box
      = measureRegion env g cl box := by
  have e1 : colourMapFailed { env with sendto := s, WriteExact := w } cl (REGION_INIT box)
      = colourMapFailed env cl (REGION_INIT box) := rfl
  unfold measureRegion rfbSendFramebufferUpdate
  dsimp only
  rw [e1, builder_transport env s w g _ _ rfl]

theorem builder_measuring_regions (env : Env) (g : Globals) (cl : rfbClientRec) (seqNum : Nat)
    (hm : cl.measuring = true) :
    (rfbSendFramebufferUpdate_numBytes env g cl seqNum).cl.modifiedRegion = cl.modifiedRegion
    ∧ (rfbSendFramebufferUpdate_numBytes env g cl seqNum).cl.copyDX = cl.copyDX
    ∧ (rfbSendFramebufferUpdate_numBytes env g cl seqNum).cl.copyDY = cl.copyDY := by
  unfold rfbSendFramebufferUpdate_numBytes
  dsimp only
  split_ifs with h1 h2
  · exact ⟨rfl, rfl, rfl⟩
  · rw [hm] at h2
    cases h2
  · obtain ⟨q1, -, -, q4, q5, -⟩ := sendUpdateBody_same env seqNum (planCursorShape env g cl)
      (planCursorPos cl) cl.copyDX cl.copyDY
      { ok := true, g := { g with cursorIsDrawn := cursorIsDrawnAfter env g cl },
        cl := { cl with copyRegion := REGION_SUBTRACT cl.copyRegion cl.modifiedRegion,
                        requestedRegion := REGION_TRANSLATE cl.requestedRegion cl.copyDX cl.copyDY },
        built := true,
        theRegion := REGION_INTERSECT cl.requestedRegion
          (REGION_UNION (REGION_SUBTRACT cl.copyRegion cl.modifiedRegion) cl.modifiedRegion),
        updateRegion := REGION_SUBTRACT
          (REGION_INTERSECT cl.requestedRegion
            (REGION_UNION (REGION_SUBTRACT cl.copyRegion cl.modifiedRegion) cl.modifiedRegion))
          (REGION_INTERSECT
            (REGION_INTERSECT (REGION_SUBTRACT cl.copyRegion cl.modifiedRegion) cl.requestedRegion)
            (REGION_TRANSLATE cl.requestedRegion cl.copyDX cl.copyDY)),
        updateCopyRegion := REGION_INTERSECT
          (REGION_INTERSECT (REGION_SUBTRACT cl.copyRegion cl.modifiedRegion) cl.requestedRegion)
          (REGION_TRANSLATE cl.requestedRegion cl.copyDX cl.copyDY),
        copyRects := [], nRects := 0, lastRect := false, numBytes := none }
    exact ⟨q1, q4, q5⟩

theorem addRequested_regions (cl : rfbClientRec) (r : Region) :
    (addRequested cl r).modifiedRegion = cl.modifiedRegion
    ∧ (addRequested cl r).copyDX = cl.copyDX ∧ (addRequested cl r).copyDY = cl.copyDY
    ∧ (addRequested cl r).requestedRegion = cl.requestedRegion ∪ r := by
  unfold addRequested
  split_ifs <;> exact ⟨rfl, rfl, rfl, rfl⟩

/-! ### The push interval as the gate of the scheduler -/

theorem builder_pushFields (env : Env) (g : Globals) (cl : rfbClientRec) (seqNum : Nat) :
    (rfbSendFramebufferUpdate_numBytes env g cl seqNum).g.frameSeqNumCounter
        = g.frameSeqNumCounter
    ∧ (rfbSendFramebufferUpdate_numBytes env g cl seqNum).g.last_update = g.last_update := by
  obtain ⟨hb, -⟩ := builder_framed env g cl seqNum
  unfold BufferOnly at hb
  constructor
  · rw [hb]
  · rw [hb]

theorem measureRegion_pushFields (env : Env) (g : Globals) (cl : rfbClientRec) (box : BoxRec) :
    (measureRegion env g cl box).2.1.frameSeqNumCounter = g.frameSeqNumCounter
    ∧ (measureRegion env g cl box).2.1.last_update = g.last_update := by
  unfold measureRegion rfbSendFramebufferUpdate
  dsimp only
  split_ifs
  · exact ⟨rfl, rfl⟩
  · exact builder_pushFields env g _ _

theorem sendRegion_pushFields (env : Env) (g : Globals) (cl : rfbClientRec) (box : BoxRec) :
    (sendRegion env g cl box).1.frameSeqNumCounter = g.frameSeqNumCounter
    ∧ (sendRegion env g cl box).1.last_update = g.last_update := by
  unfold sendRegion srRecAdd
  dsimp only
  split_ifs
  · exact ⟨rfl, rfl⟩
  · exact builder_pushFields env _ _ _

theorem recursiveSend_pushFields (env : Env) (fuel : Nat) (g : Globals) (cl : rfbClientRec)
    (box : BoxRec) (res : Globals × rfbClientRec × List BoxRec)
    (h : recursiveSend env fuel g cl box = some res) :
    res.1.frameSeqNumCounter = g.frameSeqNumCounter ∧ res.1.last_update = g.last_update := by
  refine recursiveSend_keeps env
    (fun g1 _ => g1.frameSeqNumCounter = g.frameSeqNumCounter ∧ g1.last_update = g.last_update)
    ?_ ?_ ?_ fuel g cl box res h ⟨rfl, rfl⟩
  · intro g1 cl1 box1 h1
    obtain ⟨a, b⟩ := measureRegion_pushFields env g1 cl1 box1
    exact ⟨a.trans h1.1, b.trans h1.2⟩
  · intro g1 cl1 n h1
    exact h1
  · intro g1 cl1 box1 h1
    obtain ⟨a, b⟩ := sendRegion_pushFields env g1 cl1 box1
    exact ⟨a.trans h1.1, b.trans h1.2⟩

theorem succ_mod_ne (n : Nat) : (n + 1) % CARD32_MOD ≠ n := by
  unfold CARD32_MOD
  omega

/-- The scheduler tick, case by case: either the three tests pass (an update
is pending, more than the push interval passed since `last_update`, server
push is enabled), then the sweep and the splitter run, a frame is started and
`last_update` becomes the clock value; or the tick runs the controller only. -/
theorem push_cases (env : Env) (fuel : Nat) (g : Globals) (cl : rfbClientRec)
    (s : Globals × rfbClientRec × List BoxRec)
    (h : rfbServerPushClient env fuel g cl = some s) :
    (env.FB_UPDATE_PENDING (adaptStep g cl (env.GetTimeInMillis g)).1
          (adaptStep g cl (env.GetTimeInMillis g)).2 = true
      ∧ ulongSub (env.GetTimeInMillis g) g.last_update
          > (adaptStep g cl (env.GetTimeInMillis g)).1.serverPushInterval
      ∧ (adaptStep g cl (env.GetTimeInMillis g)).1.canSend = true
      ∧ s.1.frameSeqNumCounter = (g.frameSeqNumCounter + 1) % CARD32_MOD
      ∧ s.1.last_update = env.GetTimeInMillis g)
    ∨ (¬ (env.FB_UPDATE_PENDING (adaptStep g cl (env.GetTimeInMillis g)).1
            (adaptStep g cl (env.GetTimeInMillis g)).2 = true
          ∧ ulongSub (env.GetTimeInMillis g) g.last_update
              > (adaptStep g cl (env.GetTimeInMillis g)).1.serverPushInterval
          ∧ (adaptStep g cl (env.GetTimeInMillis g)).1.canSend = true)
      ∧ ControllerFrame s.1 s.2.1 g cl ∧ s.2.2 = []) := by
  have ha := adaptStep_frame g cl (env.GetTimeInMillis g)
  obtain ⟨-, -, -, -, -, c6, -, c8, -⟩ := controllerFrame_fields ha
  unfold rfbServerPushClient at h
  dsimp only at h
  rw [c8] at h
  generalize adaptStep g cl (env.GetTimeInMillis g) = a at *
  split_ifs at h with h1 h2 h3
  · simp only [Option.some.injEq] at h
    subst h
    right
    refine ⟨fun hc => ?_, ha, rfl⟩
    rw [h3] at hc
    exact Bool.noConfusion hc.2.2
  · cases hrec : recursiveSend env fuel
        (newFrame (srRecSendRegion (srRecSetupRetransmit env a.1 a.2).1
          (srRecSetupRetransmit env a.1 a.2).2.modifiedRegion))
        (srRecSetupRetransmit env a.1 a.2).2
        (regionExtents (srRecSetupRetransmit env a.1 a.2).2.modifiedRegion) with
    | none =>
      rw [hrec] at h
      simp at h
    | some r =>
      rw [hrec] at h
      simp only [Option.some.injEq] at h
      subst h
      left
      have hf := (recursiveSend_pushFields env fuel _ _ _ r hrec).1
      refine ⟨h1, h2, ?_, ?_, rfl⟩
      · cases hcs : a.1.canSend
        · exact absurd hcs h3
        · rfl
      · show r.1.frameSeqNumCounter = _
        rw [hf, ← c6]
        rfl
  · simp only [Option.some.injEq] at h
    subst h
    right
    exact ⟨fun hc => h2 hc.2.1, ha, rfl⟩
  · simp only [Option.some.injEq] at h
    subst h
    right
    exact ⟨fun hc => h1 hc.1, ha, rfl⟩

theorem request_last_update (env : Env) (g : Globals) (cl : rfbClientRec)
    (msg : rfbFramebufferUpdateRequestMsg) :
    (rfbProcessClientNormalMessage_FramebufferUpdateRequest env g cl msg).1.last_update
      = g.last_update := by
  have hg1 : (if cl.isOctopus then { g with send_count := g.send_count + 1 } else g).last_update
      = g.last_update := by
    split_ifs <;> rfl
  unfold rfbProcessClientNormalMessage_FramebufferUpdateRequest rfbSendFramebufferUpdate
  dsimp only
  generalize (if cl.isOctopus then { g with send_count := g.send_count + 1 } else g) = g1 at hg1
  split_ifs
  · exact hg1
  · exact hg1
  · exact (builder_pushFields env g1 _ _).2.trans hg1
  · exact hg1

theorem ack_last_update (env : Env) (g : Globals) (seqNum : Nat) :
    (rfbProcessClientNormalMessage_FramebufferUpdateAck env g seqNum).last_update
      = g.last_update := by
  unfold rfbProcessClientNormalMessage_FramebufferUpdateAck srRecDeleteSeqNum
    throughputSample setRetransmitTimeout rttSample
  dsimp only
  split_ifs <;> rfl

/-- Only the scheduler tick writes `last_update`. -/
theorem step_last_update (env : Env) (op : Op) (g : Globals) (cl : rfbClientRec)
    (s : Globals × rfbClientRec × Nat) (hop : ∀ fuel, op ≠ Op.push fuel)
    (h : op.step env g cl = some s) : s.1.last_update = g.last_update := by
  cases op with
  | request msg =>
    simp only [Op.step, Option.some.injEq] at h
    subst h
    exact request_last_update env g cl msg
  | ack seqNum =>
    simp only [Op.step, Option.some.injEq] at h
    subst h
    exact ack_last_update env g seqNum
  | push fuel => exact absurd rfl (hop fuel)
  | measure box =>
    simp only [Op.step, Option.some.injEq] at h
    subst h
    exact (measureRegion_pushFields env g cl box).2
  | send box =>
    simp only [Op.step, Option.some.injEq] at h
    subst h
    exact (sendRegion_pushFields env g cl box).2
  | frame =>
    simp only [Op.step, Option.some.injEq] at h
    subst h
    rfl
  | setupRetransmit =>
    simp only [Op.step, Option.some.injEq] at h
    subst h
    rfl
  | subtract region =>
    simp only [Op.step, Option.some.injEq] at h
    subst h
    rfl
  | deleteSeqNum seqNum =>
    simp only [Op.step, Option.some.injEq] at h
    subst h
    rfl
  | external cl1 =>
    simp only [Op.step, Option.some.injEq] at h
    subst h
    rfl

/-- C32. Let `now` be the clock value of a scheduler tick, not before the time
`last_update` of the previous push.  If the tick runs the retransmit sweep and
the splitter (it starts a frame: `frameSeqNumCounter` advances), then
`now - last_update` is more than, so at least, the push interval that the
controller step of this tick left, and `last_update` becomes `now`; a tick
that passes the three tests of the scheduler does start a frame.  A call for
which `now - last_update` is not more than that push interval returns and
changes neither the queue, nor the two sequence counters, nor the sent
updates, nor the three regions, nor `last_update`.  No other operation writes
`last_update`, so it is the time of the previous push. -/
theorem C32_push_interval_gate (env : Env) (fuel : Nat) (g : Globals) (cl : rfbClientRec)
    (hnow : env.GetTimeInMillis g < ULONG_MOD)
    (hprev : g.last_update ≤ env.GetTimeInMillis g) :
    (∀ s, rfbServerPushClient env fuel g cl = some s →
        s.1.frameSeqNumCounter ≠ g.frameSeqNumCounter →
        env.GetTimeInMillis g - g.last_update > s.1.serverPushInterval
        ∧ env.GetTimeInMillis g - g.last_update ≥ s.1.serverPushInterval
        ∧ s.1.serverPushInterval
            = (adaptStep g cl (env.GetTimeInMillis g)).1.serverPushInterval
        ∧ s.1.last_update = env.GetTimeInMillis g)
    ∧ (∀ s, rfbServerPushClient env fuel g cl = some s →
        env.FB_UPDATE_PENDING (adaptStep g cl (env.GetTimeInMillis g)).1
          (adaptStep g cl (env.GetTimeInMillis g)).2 = true →
        env.GetTimeInMillis g - g.last_update
          > (adaptStep g cl (env.GetTimeInMillis g)).1.serverPushInterval →
        (adaptStep g cl (env.GetTimeInMillis g)).1.canSend = true →
        s.1.frameSeqNumCounter = (g.frameSeqNumCounter + 1) % CARD32_MOD
        ∧ s.1.frameSeqNumCounter ≠ g.frameSeqNumCounter)
    ∧ (env.GetTimeInMillis g - g.last_update
          ≤ (adaptStep g cl (env.GetTimeInMillis g)).1.serverPushInterval →
        ∃ s, rfbServerPushClient env fuel g cl = some s ∧ s.2.2 = []
          ∧ s.1.srRec = g.srRec ∧ s.1.srRecCount = g.srRecCount
          ∧ s.1.seqNumCounter = g.seqNumCounter
          ∧ s.1.frameSeqNumCounter = g.frameSeqNumCounter
          ∧ s.1.sentUpdates = g.sentUpdates
          ∧ s.1.last_update = g.last_update
          ∧ s.2.1.modifiedRegion = cl.modifiedRegion ∧ s.2.1.copyRegion = cl.copyRegion
          ∧ s.2.1.requestedRegion = cl.requestedRegion)
    ∧ (∀ (op : Op) (s : Globals × rfbClientRec × Nat), (∀ f, op ≠ Op.push f) →
        op.step env g cl = some s → s.1.last_update = g.last_update) := by
  have hsub := ulongSub_eq (env.GetTimeInMillis g) g.last_update hnow hprev
  refine ⟨?_, ?_, ?_, fun op s hop h => step_last_update env op g cl s hop h⟩
  · intro s hs hne
    have ht := (rfbServerPushClient_tuning env fuel g cl s hs).1
    rcases push_cases env fuel g cl s hs with ⟨-, h2, -, -, h5⟩ | ⟨-, hfr, -⟩
    · rw [hsub, ← ht] at h2
      exact ⟨h2, le_of_lt h2, ht, h5⟩
    · exact absurd (controllerFrame_fields hfr).2.2.2.2.2.1 hne
  · intro s hs h1 h2 h3
    rcases push_cases env fuel g cl s hs with ⟨-, -, -, h4, -⟩ | ⟨hn, -, -⟩
    · exact ⟨h4, by rw [h4]; exact succ_mod_ne _⟩
    · rw [← hsub] at h2
      exact absurd ⟨h1, h2, h3⟩ hn
  · intro hle
    have ha := adaptStep_frame g cl (env.GetTimeInMillis g)
    obtain ⟨-, -, c3, c4, c5, c6, c7, c8, -, -, -, d4, d5, d6⟩ := controllerFrame_fields ha
    rw [← hsub] at hle
    refine ⟨((adaptStep g cl (env.GetTimeInMillis g)).1, (adaptStep g cl (env.GetTimeInMillis g)).2,
      []), ?_, rfl, c3, c4, c5, c6, c7, c8, d4, d5, d6⟩
    unfold rfbServerPushClient
    dsimp only
    rw [c8]
    generalize adaptStep g cl (env.GetTimeInMillis g) = a at *
    rw [if_neg (not_lt.mpr hle)]
    split_ifs <;> rfl

/-- Witness for C32, with the clock at 5000 ms and a push interval of 66 ms.
A tick 10 ms after the previous push returns without any change of the queue,
the counters and the regions; a tick before which no push happened starts
frame 1, sends the box of the two drawn pixels and sets `last_update` to 5000. -/
theorem C32_push_interval_gate_witness :
    envLate.GetTimeInMillis globalsRecent < ULONG_MOD
    ∧ globalsRecent.last_update ≤ envLate.GetTimeInMillis globalsRecent
    ∧ envLate.GetTimeInMillis globalsRecent - globalsRecent.last_update = 10
    ∧ (adaptStep globalsRecent clDrawn 5000).1.serverPushInterval = 66
    ∧ (∃ s, rfbServerPushClient envLate 3 globalsRecent clDrawn = some s ∧ s.2.2 = []
        ∧ s.1.srRec = globalsRecent.srRec ∧ s.1.srRecCount = globalsRecent.srRecCount
        ∧ s.1.seqNumCounter = globalsRecent.seqNumCounter
        ∧ s.1.frameSeqNumCounter = globalsRecent.frameSeqNumCounter
        ∧ s.1.sentUpdates = globalsRecent.sentUpdates
        ∧ s.1.last_update = globalsRecent.last_update
        ∧ s.2.1.modifiedRegion = clDrawn.modifiedRegion
        ∧ s.2.1.copyRegion = clDrawn.copyRegion
        ∧ s.2.1.requestedRegion = clDrawn.requestedRegion)
    ∧ (rfbServerPushClient envLate 3 globalsPush clDrawn).map
        (fun s => (s.1.frameSeqNumCounter, s.1.last_update, s.1.serverPushInterval, s.2.2))
        = some (1, 5000, 66, [⟨1, 0, 3, 1⟩]) :=
  ⟨by decide, by decide, by decide, by decide!,
    (C32_push_interval_gate envLate 3 globalsRecent clDrawn (by decide) (by decide)).2.2.1
      (by decide!),
    by decide!⟩

/-! ### The splitter: when it sends and how it splits -/

theorem splitLoop_none (env : Env) (fuel : Nat) (strips : List BoxRec) :
    strips.foldl
      (fun acc strip =>
        match acc with
        | none => none
        | some st =>
          match recursiveSend env fuel st.1 st.2.1 strip with
          | none => none
          | some st1 => some (st1.1, st1.2.1, st.2.2 ++ st1.2.2))
      (none : Option (Globals × rfbClientRec × List BoxRec)) = none := by
  induction strips with
  | nil => rfl
  | cons strip rest ih =>
    rw [List.foldl_cons]
    exact ih

/-- The loop of `recursiveSend` over the strips recurses on them in order. -/
theorem splitLoop_eq_recurseInOrder (env : Env) (fuel : Nat) :
    ∀ (strips : List BoxRec) (st : Globals × rfbClientRec × List BoxRec),
      strips.foldl
        (fun acc strip =>
          match acc with
          | none => none
          | some st =>
            match recursiveSend env fuel st.1 st.2.1 strip with
            | none => none
            | some st1 => some (st1.1, st1.2.1, st.2.2 ++ st1.2.2))
        (some st) = recurseInOrder env fuel strips st := by
  intro strips
  induction strips with
  | nil =>
    intro st
    rfl
  | cons strip rest ih =>
    intro st
    rw [List.foldl_cons, recurseInOrder]
    dsimp only
    cases hrec : recursiveSend env fuel st.1 st.2.1 strip with
    | none => exact splitLoop_none env fuel rest
    | some st1 => exact ih _

theorem flatMap_cast_list (l : List Nat) :
    (l.flatMap fun (a : Nat) => [(a : Int)]) = l.map (fun (a : Nat) => (a : Int)) := by
  induction l with
  | nil => rfl
  | cons a l ih => simp [ih]

/-- For a measured size of at least `MAX_UPDATE_SIZE` the count of strips that
the code computes is the one of the specification, between 2 and 8. -/
theorem stripCount_spec (m : Int) (hm : MAX_UPDATE_SIZE ≤ m) :
    (if m.tdiv MAX_UPDATE_SIZE + 1 > 8 then 8 else m.tdiv MAX_UPDATE_SIZE + 1) = stripCount m
    ∧ 2 ≤ stripCount m ∧ stripCount m ≤ 8 := by
  unfold MAX_UPDATE_SIZE at hm
  have h1 : m.tdiv MAX_UPDATE_SIZE = m / 2900 := by
    unfold MAX_UPDATE_SIZE
    rw [Int.tdiv_eq_ediv (by omega) (by norm_num)]
    norm_num
  have h2 : stripCount m = min (m / 2900 + 1) 8 := by
    unfold stripCount MAX_UPDATE_SIZE
    norm_num
  rw [h1, h2]
  refine ⟨?_, ?_, ?_⟩
  · split_ifs <;> omega
  · omega
  · omega

/-- The strips that the code recurses on are the ones of the specification
(for a box that is not upside down, so that the truncating division of C is
the floor). -/
theorem splitBoxes_spec (box : BoxRec) (m : Int) (hm : MAX_UPDATE_SIZE ≤ m)
    (hh : box.y1 ≤ box.y2) : splitBoxes box m = stripsOf box (stripCount m) := by
  obtain ⟨h1, h2, -⟩ := stripCount_spec m hm
  unfold splitBoxes stripsOf xStrip yStrip
  dsimp only
  rw [h1]
  simp only [List.pure_def, List.bind_eq_flatMap]
  split_ifs with hlong
  · rw [Int.tdiv_eq_ediv (by omega) (by omega), flatMap_cast_list, List.map_map]
    rfl
  · rw [Int.tdiv_eq_ediv (by omega) (by omega), flatMap_cast_list, List.map_map]
    rfl

/-- C31, counterexample. With an encoder that needs 1444 bytes per rectangle
the update for the two drawn pixels of the `4 × 1` screen measures exactly
`MAX_UPDATE_SIZE = 2900` bytes.  `recursiveSend` does not send the box as one
update: it splits it into two strips and sends two updates. -/
theorem C31_split_at_exactly_max_update_size :
    (measureRegion envExact initGlobals clDrawn ⟨0, 0, 4, 1⟩).1 = 2900
    ∧ (measureRegion envExact initGlobals clDrawn ⟨0, 0, 4, 1⟩).1 ≤ MAX_UPDATE_SIZE
    ∧ sentBoxes (recursiveSend envExact 2 initGlobals clDrawn ⟨0, 0, 4, 1⟩)
        = some [⟨0, 0, 2, 1⟩, ⟨2, 0, 4, 1⟩]
    ∧ sentBoxes (recursiveSend envExact 2 initGlobals clDrawn ⟨0, 0, 4, 1⟩)
        ≠ some [⟨0, 0, 4, 1⟩]
    ∧ (recursiveSend envExact 2 initGlobals clDrawn ⟨0, 0, 4, 1⟩).map
        (fun s => s.1.sentUpdates.length) = some 2 := by
  refine ⟨by decide, by decide, by decide, by decide, by decide⟩

/-- C31, amended. `recursiveSend` measures the box.  It sends the box as one
update (it adds the measured size to `tickSentBytes` and calls `sendRegion`
for the box) exactly when the measured size is less than `MAX_UPDATE_SIZE`.
Otherwise it splits the box into `n = min(⌊size / MAX_UPDATE_SIZE⌋ + 1, 8)`
strips, `2 ≤ n ≤ 8`: vertical strips of width `⌊(xHi − xLo) / n⌋` when
`xHi − xLo > yHi − yLo`, horizontal strips of height `⌊(yHi − yLo) / n⌋`
otherwise; it recurses on each strip in order, from the state after the
measurement, and calls `sendRegion` for the box itself in no case. -/
theorem C31_send_or_split (env : Env) (fuel : Nat) (g : Globals) (cl : rfbClientRec)
    (box : BoxRec) (hh : box.y1 ≤ box.y2) :
    ((measureRegion env g cl box).1 < MAX_UPDATE_SIZE →
      recursiveSend env (fuel + 1) g cl box
        = some ((sendRegion env
              { (measureRegion env g cl box).2.1 with
                tickSentBytes := (measureRegion env g cl box).2.1.tickSentBytes
                  + (measureRegion env g cl box).1 }
              (measureRegion env g cl box).2.2 box).1,
            (sendRegion env
              { (measureRegion env g cl box).2.1 with
                tickSentBytes := (measureRegion env g cl box).2.1.tickSentBytes
                  + (measureRegion env g cl box).1 }
              (measureRegion env g cl box).2.2 box).2,
            [box]))
    ∧ (MAX_UPDATE_SIZE ≤ (measureRegion env g cl box).1 →
      2 ≤ stripCount (measureRegion env g cl box).1
      ∧ stripCount (measureRegion env g cl box).1 ≤ 8
      ∧ (stripsOf box (stripCount (measureRegion env g cl box).1)).length
          = (stripCount (measureRegion env g cl box).1).toNat
      ∧ recursiveSend env (fuel + 1) g cl box
          = recurseInOrder env fuel (stripsOf box (stripCount (measureRegion env g cl box).1))
              ((measureRegion env g cl box).2.1, (measureRegion env g cl box).2.2, [])) := by
  constructor
  · intro hlt
    rw [recursiveSend]
    dsimp only
    rw [if_pos hlt]
  · intro hge
    obtain ⟨-, h2, h3⟩ := stripCount_spec _ hge
    refine ⟨h2, h3, ?_, ?_⟩
    · unfold stripsOf
      split_ifs <;> rw [List.length_map, List.length_range]
    · rw [recursiveSend]
      dsimp only
      rw [if_neg (not_lt.mpr hge), splitBoxes_spec box _ hge hh]
      exact splitLoop_eq_recurseInOrder env fuel _ _

/-- Witness for the amended C31: on the `10 × 1` screen with an encoder that
needs 600 bytes per pixel the box `[0, 0, 10, 1]` measures 6012 bytes, so it is
split into `min(2 + 1, 8) = 3` vertical strips of width `⌊10 / 3⌋ = 3`, and
`recursiveSend` is the recursion on these strips in order. -/
theorem C31_send_or_split_witness :
    (measureRegion envDense initGlobals (rfbNewClient 10 1 true true) ⟨0, 0, 10, 1⟩).1 = 6012
    ∧ stripCount 6012 = 3
    ∧ stripsOf ⟨0, 0, 10, 1⟩ 3 = [⟨0, 0, 3, 1⟩, ⟨3, 0, 6, 1⟩, ⟨6, 0, 9, 1⟩]
    ∧ recursiveSend envDense (1 + 1) initGlobals (rfbNewClient 10 1 true true) ⟨0, 0, 10, 1⟩
        = recurseInOrder envDense 1
            (stripsOf ⟨0, 0, 10, 1⟩
              (stripCount (measureRegion envDense initGlobals (rfbNewClient 10 1 true true)
                ⟨0, 0, 10, 1⟩).1))
            ((measureRegion envDense initGlobals (rfbNewClient 10 1 true true) ⟨0, 0, 10, 1⟩).2.1,
              (measureRegion envDense initGlobals (rfbNewClient 10 1 true true)
                ⟨0, 0, 10, 1⟩).2.2, []) :=
  ⟨by decide, by decide, by decide,
    ((C31_send_or_split envDense 1 initGlobals (rfbNewClient 10 1 true true) ⟨0, 0, 10, 1⟩
      (by decide)).2 (by decide)).2.2.2⟩

/-! ### The boxes of one frame do not overlap -/

theorem inside_refl (a : BoxRec) : a.inside a :=
  ⟨le_refl _, le_refl _, le_refl _, le_refl _⟩

theorem inside_trans {a b c : BoxRec} (h1 : a.inside b) (h2 : b.inside c) : a.inside c := by
  unfold BoxRec.inside at *
  omega

theorem inside_pixels {a b : BoxRec} (h : a.inside b) : a.pixels ⊆ b.pixels := by
  intro p hp
  rw [mem_pixels] at hp ⊢
  unfold BoxRec.inside at h
  omega

theorem apart_of_inside {a b s t : BoxRec} (ha : a.inside s) (hb : b.inside t)
    (h : s.apart t) : a.apart b := by
  unfold BoxRec.inside BoxRec.apart at *
  omega

theorem apart_disjoint {a b : BoxRec} (h : a.apart b) : Disjoint a.pixels b.pixels := by
  rw [Finset.disjoint_left]
  intro p hp hq
  rw [mem_pixels] at hp hq
  unfold BoxRec.apart at h
  omega

/-- The strips of a box: each has its corners in order and lies inside the
box, and each strip ends where the next one begins. -/
theorem stripsOf_apart (box : BoxRec) (n : Int) (hn : 2 ≤ n)
    (hx : box.x1 ≤ box.x2) (hy : box.y1 ≤ box.y2) :
    (∀ s ∈ stripsOf box n, s.x1 ≤ s.x2 ∧ s.y1 ≤ s.y2 ∧ s.inside box)
    ∧ (stripsOf box n).Pairwise BoxRec.apart := by
  have hn0 : (0 : Int) < n := by omega
  have hcast : ((n.toNat : Nat) : Int) = n := Int.toNat_of_nonneg (by omega)
  have hq : ∀ a : Int, 0 ≤ a → 0 ≤ a / n ∧ a / n * n ≤ a :=
    fun a ha => ⟨Int.ediv_nonneg ha (by omega), Int.ediv_mul_le a (by omega)⟩
  unfold stripsOf
  split_ifs with hlong
  · obtain ⟨q0, q1⟩ := hq (box.x2 - box.x1) (by omega)
    generalize (box.x2 - box.x1) / n = q at q0 q1
    constructor
    · intro s hs
      obtain ⟨i, hi, rfl⟩ := List.mem_map.1 hs
      rw [List.mem_range] at hi
      have hi1 : ((i : Int) + 1) ≤ n := by omega
      have h0 : (0 : Int) ≤ (i : Int) * q := mul_nonneg (by omega) q0
      have h1 : ((i : Int) + 1) * q ≤ n * q := mul_le_mul_of_nonneg_right hi1 q0
      unfold BoxRec.inside
      dsimp only
      refine ⟨?_, hy, ?_, ?_, le_refl _, le_refl _⟩
      · nlinarith
      · omega
      · nlinarith
    · rw [List.pairwise_map]
      refine List.Pairwise.imp ?_ (List.pairwise_lt_range n.toNat)
      intro i j hij
      left
      show box.x1 + ((i : Int) + 1) * q ≤ box.x1 + (j : Int) * q
      have : ((i : Int) + 1) * q ≤ (j : Int) * q :=
        mul_le_mul_of_nonneg_right (by omega) q0
      omega
  · obtain ⟨q0, q1⟩ := hq (box.y2 - box.y1) (by omega)
    generalize (box.y2 - box.y1) / n = q at q0 q1
    constructor
    · intro s hs
      obtain ⟨i, hi, rfl⟩ := List.mem_map.1 hs
      rw [List.mem_range] at hi
      have hi1 : ((i : Int) + 1) ≤ n := by omega
      have h0 : (0 : Int) ≤ (i : Int) * q := mul_nonneg (by omega) q0
      have h1 : ((i : Int) + 1) * q ≤ n * q := mul_le_mul_of_nonneg_right hi1 q0
      unfold BoxRec.inside
      dsimp only
      refine ⟨hx, ?_, le_refl _, le_refl _, ?_, ?_⟩
      · nlinarith
      · omega
      · nlinarith
    · rw [List.pairwise_map]
      refine List.Pairwise.imp ?_ (List.pairwise_lt_range n.toNat)
      intro i j hij
      right
      right
      left
      show box.y1 + ((i : Int) + 1) * q ≤ box.y1 + (j : Int) * q
      have : ((i : Int) + 1) * q ≤ (j : Int) * q :=
        mul_le_mul_of_nonneg_right (by omega) q0
      omega

/-- The recursion over strips that do not overlap: when every call keeps its
boxes inside its strip and apart from one another, then so does the loop. -/
theorem recurseInOrder_apart (env : Env) (fuel : Nat) (box : BoxRec)
    (hcall : ∀ (g : Globals) (cl : rfbClientRec) (strip : BoxRec)
      (r : Globals × rfbClientRec × List BoxRec),
      recursiveSend env fuel g cl strip = some r → strip.x1 ≤ strip.x2 → strip.y1 ≤ strip.y2 →
      (∀ b ∈ r.2.2, b.x1 ≤ b.x2 ∧ b.y1 ≤ b.y2 ∧ b.inside strip)
      ∧ r.2.2.Pairwise BoxRec.apart) :
    ∀ (strips : List BoxRec) (st res : Globals × rfbClientRec × List BoxRec),
      recurseInOrder env fuel strips st = some res →
      (∀ s ∈ strips, s.x1 ≤ s.x2 ∧ s.y1 ≤ s.y2 ∧ s.inside box) →
      strips.Pairwise BoxRec.apart →
      st.2.2.Pairwise BoxRec.apart →
      (∀ b ∈ st.2.2, b.x1 ≤ b.x2 ∧ b.y1 ≤ b.y2 ∧ b.inside box) →
      (∀ b ∈ st.2.2, ∀ s ∈ strips, ∀ c : BoxRec, c.inside s → b.apart c) →
      (∀ b ∈ res.2.2, b.x1 ≤ b.x2 ∧ b.y1 ≤ b.y2 ∧ b.inside box)
      ∧ res.2.2.Pairwise BoxRec.apart := by
  intro strips
  induction strips with
  | nil =>
    intro st res h _ _ hacc hin _
    simp only [recurseInOrder, Option.some.injEq] at h
    subst h
    exact ⟨hin, hacc⟩
  | cons s rest ih =>
    intro st res h hs hp hacc hin hfar
    rw [recurseInOrder] at h
    cases hrec : recursiveSend env fuel st.1 st.2.1 s with
    | none =>
      rw [hrec] at h
      simp at h
    | some st1 =>
      rw [hrec] at h
      dsimp only at h
      obtain ⟨sx, sy, sin⟩ := hs s (List.mem_cons_self _ _)
      obtain ⟨c1, c2⟩ := hcall st.1 st.2.1 s st1 hrec sx sy
      rw [List.pairwise_cons] at hp
      refine ih _ res h (fun t ht => hs t (List.mem_cons_of_mem _ ht)) hp.2 ?_ ?_ ?_
      · show (st.2.2 ++ st1.2.2).Pairwise BoxRec.apart
        rw [List.pairwise_append]
        exact ⟨hacc, c2, fun a ha b hb => hfar a ha s (List.mem_cons_self _ _) b (c1 b hb).2.2⟩
      · intro b hb
        rcases List.mem_append.1 hb with hb | hb
        · exact hin b hb
        · exact ⟨(c1 b hb).1, (c1 b hb).2.1, inside_trans (c1 b hb).2.2 sin⟩
      · intro b hb t ht c hc
        rcases List.mem_append.1 hb with hb | hb
        · exact hfar b hb t (List.mem_cons_of_mem _ ht) c hc
        · exact apart_of_inside (c1 b hb).2.2 hc (hp.1 t ht)

/-- The boxes that `recursiveSend` hands to `sendRegion` have their corners in
order, lie inside the input box and do not overlap one another. -/
theorem recursiveSend_apart (env : Env) :
    ∀ (fuel : Nat) (g : Globals) (cl : rfbClientRec) (box : BoxRec)
      (res : Globals × rfbClientRec × List BoxRec),
      recursiveSend env fuel g cl box = some res → box.x1 ≤ box.x2 → box.y1 ≤ box.y2 →
      (∀ b ∈ res.2.2, b.x1 ≤ b.x2 ∧ b.y1 ≤ b.y2 ∧ b.inside box)
      ∧ res.2.2.Pairwise BoxRec.apart := by
  intro fuel
  induction fuel with
  | zero =>
    intro g cl box res h _ _
    simp [recursiveSend] at h
  | succ fuel ih =>
    intro g cl box res h hx hy
    rw [recursiveSend] at h
    dsimp only at h
    by_cases hsmall : (measureRegion env g cl box).1 < MAX_UPDATE_SIZE
    · rw [if_pos hsmall] at h
      simp only [Option.some.injEq] at h
      subst h
      constructor
      · intro b hb
        rw [List.mem_singleton] at hb
        subst hb
        exact ⟨hx, hy, inside_refl _⟩
      · exact List.pairwise_singleton _ _
    · rw [if_neg hsmall, splitBoxes_spec box _ (not_lt.mp hsmall) hy,
        splitLoop_eq_recurseInOrder] at h
      obtain ⟨-, n2, -⟩ := stripCount_spec _ (not_lt.mp hsmall)
      obtain ⟨s1, s2⟩ := stripsOf_apart box _ n2 hx hy
      exact recurseInOrder_apart env fuel box ih _ _ res h s1 s2 List.Pairwise.nil
        (fun b hb => by cases hb) (fun b hb => by cases hb)

theorem regionExtents_ordered (r : Region) :
    (regionExtents r).x1 ≤ (regionExtents r).x2 ∧ (regionExtents r).y1 ≤ (regionExtents r).y2 := by
  unfold regionExtents
  dsimp only
  rcases Finset.eq_empty_or_nonempty r with he | ⟨p, hp⟩
  · subst he
    simp
  · obtain ⟨a, ha⟩ := Finset.min_of_mem (Finset.mem_image_of_mem Prod.fst hp)
    obtain ⟨b, hb⟩ := Finset.max_of_mem (Finset.mem_image_of_mem (fun q => q.1 + 1) hp)
    obtain ⟨c, hc⟩ := Finset.min_of_mem (Finset.mem_image_of_mem Prod.snd hp)
    obtain ⟨d, hd⟩ := Finset.max_of_mem (Finset.mem_image_of_mem (fun q => q.2 + 1) hp)
    have h1 := Finset.min_le_of_eq (Finset.mem_image_of_mem Prod.fst hp) ha
    have h2 := Finset.le_max_of_eq (Finset.mem_image_of_mem (fun q => q.1 + 1) hp) hb
    have h3 := Finset.min_le_of_eq (Finset.mem_image_of_mem Prod.snd hp) hc
    have h4 := Finset.le_max_of_eq (Finset.mem_image_of_mem (fun q => q.2 + 1) hp) hd
    rw [ha, hb, hc, hd]
    simp only [WithTop.untop'_coe, WithBot.unbot'_coe]
    dsimp only at h2 h4
    constructor <;> omega

/-- The boxes that one scheduler tick hands to `sendRegion` do not overlap. -/
theorem push_boxes_apart (env : Env) (fuel : Nat) (g : Globals) (cl : rfbClientRec)
    (s : Globals × rfbClientRec × List BoxRec)
    (h : rfbServerPushClient env fuel g cl = some s) : s.2.2.Pairwise BoxRec.apart := by
  unfold rfbServerPushClient at h
  dsimp only at h
  generalize adaptStep g cl (env.GetTimeInMillis g) = a at h
  split_ifs at h
  · simp only [Option.some.injEq] at h
    subst h
    exact List.Pairwise.nil
  · cases hrec : recursiveSend env fuel
        (newFrame (srRecSendRegion (srRecSetupRetransmit env a.1 a.2).1
          (srRecSetupRetransmit env a.1 a.2).2.modifiedRegion))
        (srRecSetupRetransmit env a.1 a.2).2
        (regionExtents (srRecSetupRetransmit env a.1 a.2).2.modifiedRegion) with
    | none =>
      rw [hrec] at h
      simp at h
    | some r =>
      rw [hrec] at h
      simp only [Option.some.injEq] at h
      subst h
      obtain ⟨ex, ey⟩ := regionExtents_ordered (srRecSetupRetransmit env a.1 a.2).2.modifiedRegion
      exact (recursiveSend_apart env fuel _ _ _ r hrec ex ey).2
  · simp only [Option.some.injEq] at h
    subst h
    exact List.Pairwise.nil
  · simp only [Option.some.injEq] at h
    subst h
    exact List.Pairwise.nil

/-- C39. For every box with `xLo ≤ xHi` and `yLo ≤ yHi`, every state and all
collaborators, `recursiveSend` returns (with a depth bound of width plus
height plus four), and whenever it returns, the boxes it handed to
`sendRegion` have their corners in order, lie inside the input box (so do
their pixels) and are pairwise non-overlapping: of any two of them one ends
where the other begins or before, along `x` or along `y`, so no pixel belongs
to two of them.  The boxes of one push frame are those of one call of
`recursiveSend` for the bounding box of the modified region, so they do not
overlap either. -/
theorem C39_sent_boxes_disjoint (env : Env) (g : Globals) (cl : rfbClientRec) (box : BoxRec)
    (hx : box.x1 ≤ box.x2) (hy : box.y1 ≤ box.y2) :
    (∃ s, recursiveSend env (boxSize box + 4) g cl box = some s)
    ∧ ∀ (fuel : Nat) (res : Globals × rfbClientRec × List BoxRec),
        recursiveSend env fuel g cl box = some res →
        (∀ b ∈ res.2.2, b.x1 ≤ b.x2 ∧ b.y1 ≤ b.y2 ∧ b.inside box ∧ b.pixels ⊆ box.pixels)
        ∧ res.2.2.Pairwise BoxRec.apart
        ∧ res.2.2.Pairwise (fun a b => Disjoint a.pixels b.pixels)
        ∧ (∀ (i j : Nat) (hi : i < res.2.2.length) (hj : j < res.2.2.length), i ≠ j →
            ∀ p, ¬ (p ∈ (res.2.2.get ⟨i, hi⟩).pixels ∧ p ∈ (res.2.2.get ⟨j, hj⟩).pixels))
        ∧ (∀ s, rfbServerPushClient env fuel g cl = some s →
            s.2.2.Pairwise (fun a b => Disjoint a.pixels b.pixels)) := by
  refine ⟨recursiveSend_returns env (boxSize box) g cl box (by omega) (by omega)
    (Nat.le_refl _), ?_⟩
  intro fuel res h
  obtain ⟨h1, h2⟩ := recursiveSend_apart env fuel g cl box res h hx hy
  have h3 : res.2.2.Pairwise (fun a b => Disjoint a.pixels b.pixels) :=
    h2.imp (fun hab => apart_disjoint hab)
  refine ⟨fun b hb => ⟨(h1 b hb).1, (h1 b hb).2.1, (h1 b hb).2.2, inside_pixels (h1 b hb).2.2⟩,
    h2, h3, ?_, fun s hs => (push_boxes_apart env fuel g cl s hs).imp
      (fun hab => apart_disjoint hab)⟩
  intro i j hi hj hij p hp
  rcases Nat.lt_or_gt_of_ne hij with hlt | hgt
  · have := List.pairwise_iff_get.1 h3 ⟨i, hi⟩ ⟨j, hj⟩ hlt
    exact Finset.disjoint_left.1 this hp.1 hp.2
  · have := List.pairwise_iff_get.1 h3 ⟨j, hj⟩ ⟨i, hi⟩ hgt
    exact Finset.disjoint_left.1 this hp.2 hp.1

/-- Witness for C39: the three strips sent for the box `[0, 0, 10, 1]` of the
`10 × 1` screen lie inside the box and do not overlap. -/
theorem C39_sent_boxes_disjoint_witness :
    sentBoxes (recursiveSend envDense 2 initGlobals (rfbNewClient 10 1 true true) ⟨0, 0, 10, 1⟩)
        = some [⟨0, 0, 3, 1⟩, ⟨3, 0, 6, 1⟩, ⟨6, 0, 9, 1⟩]
    ∧ (∃ s, recursiveSend envDense (boxSize ⟨0, 0, 10, 1⟩ + 4) initGlobals
          (rfbNewClient 10 1 true true) ⟨0, 0, 10, 1⟩ = some s)
    ∧ ∀ (fuel : Nat) (res : Globals × rfbClientRec × List BoxRec),
        recursiveSend envDense fuel initGlobals (rfbNewClient 10 1 true true) ⟨0, 0, 10, 1⟩
          = some res →
        (∀ b ∈ res.2.2, b.x1 ≤ b.x2 ∧ b.y1 ≤ b.y2 ∧ b.inside ⟨0, 0, 10, 1⟩
          ∧ b.pixels ⊆ BoxRec.pixels ⟨0, 0, 10, 1⟩)
        ∧ res.2.2.Pairwise BoxRec.apart
        ∧ res.2.2.Pairwise (fun a b => Disjoint a.pixels b.pixels)
        ∧ (∀ (i j : Nat) (hi : i < res.2.2.length) (hj : j < res.2.2.length), i ≠ j →
            ∀ p, ¬ (p ∈ (res.2.2.get ⟨i, hi⟩).pixels ∧ p ∈ (res.2.2.get ⟨j, hj⟩).pixels))
        ∧ (∀ s, rfbServerPushClient envDense fuel initGlobals (rfbNewClient 10 1 true true)
              = some s →
            s.2.2.Pairwise (fun a b => Disjoint a.pixels b.pixels)) :=
  ⟨by decide,
    C39_sent_boxes_disjoint envDense initGlobals (rfbNewClient 10 1 true true) ⟨0, 0, 10, 1⟩
      (by decide) (by decide)⟩

/-! ### Retransmission: the numbers of a frame after the sweep -/

theorem seqNumsFrom_append (c k1 k2 : Nat) :
    seqNumsFrom c (k1 + k2) = seqNumsFrom c k1 ++ seqNumsFrom ((c + k1) % CARD32_MOD) k2 := by
  unfold seqNumsFrom
  rw [List.range_add, List.map_append, List.map_map]
  congr 1
  apply List.map_congr_left
  intro i _
  show (c + (k1 + i)) % CARD32_MOD = ((c + k1) % CARD32_MOD + i) % CARD32_MOD
  unfold CARD32_MOD
  omega

theorem numbered_zero (g1 g : Globals) (hc : g.seqNumCounter < CARD32_MOD)
    (h : SameQueue g1 g) : Numbered 0 g1 g := by
  obtain ⟨h1, h2, h3⟩ := h
  refine ⟨?_, ?_, [], ?_, ?_, ?_⟩
  · rw [h1, Nat.add_zero, Nat.mod_eq_of_lt hc]
  · rw [h2]
    simp [seqNumsFrom]
  · rw [h3, List.append_nil]
  · simp [seqNumsFrom]
  · intro u hu
    cases hu

theorem numbered_trans {k1 k2 : Nat} {a b c : Globals} (h2 : Numbered k2 a b)
    (h1 : Numbered k1 b c) : Numbered (k1 + k2) a c := by
  obtain ⟨a1, a2, sa, a3, a4, a5⟩ := h2
  obtain ⟨b1, b2, sb, b3, b4, b5⟩ := h1
  refine ⟨?_, ?_, sb ++ sa, ?_, ?_, ?_⟩
  · rw [a1, b1]
    unfold CARD32_MOD
    omega
  · rw [a2, b2, seqNumsFrom_append, b1, List.append_assoc]
  · rw [a3, b3, List.append_assoc]
  · rw [List.map_append, seqNumsFrom_append, ← b1]
    exact List.Sublist.append b4 a4
  · intro u hu
    rcases List.mem_append.1 hu with hu | hu
    · exact b5 u hu
    · exact a5 u hu

theorem measureRegion_sameQueue (env : Env) (g : Globals) (cl : rfbClientRec) (box : BoxRec) :
    SameQueue (measureRegion env g cl box).2.1 g := by
  unfold measureRegion rfbSendFramebufferUpdate
  dsimp only
  split_ifs
  · exact ⟨rfl, rfl, rfl⟩
  · obtain ⟨⟨q1, q2, q3⟩, -, -⟩ := builder_queueEffect env g
      { addRequested cl (REGION_INIT box) with measuring := true } 0xFFFFFFFF
    refine ⟨q1, q2, ?_⟩
    rcases q3 with q3 | ⟨hf, -⟩
    · exact q3
    · cases hf

theorem numbered_one (a g : Globals) (hc : g.seqNumCounter < CARD32_MOD)
    (h1 : a.seqNumCounter = (g.seqNumCounter + 1) % CARD32_MOD)
    (h2 : a.srRec.map (fun e => e.seqNum) = g.srRec.map (fun e => e.seqNum) ++ [g.seqNumCounter])
    (h3 : a.sentUpdates = g.sentUpdates
      ∨ ∃ n, a.sentUpdates
          = g.sentUpdates ++ [{ seqNum := g.seqNumCounter, nRects := n, udp := true }]) :
    Numbered 1 a g := by
  have hone : seqNumsFrom g.seqNumCounter 1 = [g.seqNumCounter] := by
    unfold seqNumsFrom
    rw [show List.range 1 = [0] from rfl]
    simp [Nat.mod_eq_of_lt hc]
  unfold Numbered
  rw [hone]
  refine ⟨h1, h2, ?_⟩
  rcases h3 with h3 | ⟨n, h3⟩
  · refine ⟨[], ?_, ?_, ?_⟩
    · rw [h3, List.append_nil]
    · exact List.nil_sublist _
    · intro u hu
      cases hu
  · refine ⟨[{ seqNum := g.seqNumCounter, nRects := n, udp := true }], h3, ?_, ?_⟩
    · exact List.Sublist.refl _
    · intro u hu
      rw [List.mem_singleton] at hu
      rw [hu]

/-- In a session past the colour map set-up `sendRegion` takes the sequence
number that the counter holds, advances the counter by one and appends one
entry with this number, whatever the builder returns; an update that reaches
the transport carries this number. -/
theorem sendRegion_numbered (env : Env) (g : Globals) (cl : rfbClientRec) (box : BoxRec)
    (hr : ColourMapReady cl) (hc : g.seqNumCounter < CARD32_MOD) :
    Numbered 1 (sendRegion env g cl box).1 g := by
  rw [sendRegion_ready env g cl box hr]
  obtain ⟨⟨q1, q2, q3⟩, -, -⟩ := builder_queueEffect env
    { g with sent_count := g.sent_count + 1,
             seqNumCounter := (g.seqNumCounter + 1) % CARD32_MOD }
    { addRequested cl (REGION_INIT box) with useUdp := true } g.seqNumCounter
  apply numbered_one _ g hc
  · exact q1
  · show List.map _ (_ ++ _) = _
    rw [List.map_append, q2]
    rfl
  · rcases q3 with q3 | ⟨-, n, q3⟩
    · exact Or.inl q3
    · exact Or.inr ⟨n, q3⟩

theorem numbered_counter_lt {k : Nat} {a b : Globals} (h : Numbered k a b) :
    a.seqNumCounter < CARD32_MOD := by
  rw [h.1]
  exact Nat.mod_lt _ (by decide)

theorem recurseInOrder_numbered (env : Env) (fuel : Nat) (g0 : Globals)
    (hcall : ∀ (g : Globals) (cl : rfbClientRec) (strip : BoxRec)
      (r : Globals × rfbClientRec × List BoxRec),
      recursiveSend env fuel g cl strip = some r → g.seqNumCounter < CARD32_MOD →
      Numbered r.2.2.length r.1 g) :
    ∀ (strips : List BoxRec) (st res : Globals × rfbClientRec × List BoxRec),
      recurseInOrder env fuel strips st = some res →
      Numbered st.2.2.length st.1 g0 → Numbered res.2.2.length res.1 g0 := by
  intro strips
  induction strips with
  | nil =>
    intro st res h hn
    simp only [recurseInOrder, Option.some.injEq] at h
    subst h
    exact hn
  | cons s rest ih =>
    intro st res h hn
    rw [recurseInOrder] at h
    cases hrec : recursiveSend env fuel st.1 st.2.1 s with
    | none =>
      rw [hrec] at h
      simp at h
    | some st1 =>
      rw [hrec] at h
      dsimp only at h
      refine ih _ res h ?_
      show Numbered (st.2.2 ++ st1.2.2).length st1.1 g0
      rw [List.length_append]
      exact numbered_trans (hcall st.1 st.2.1 s st1 hrec (numbered_counter_lt hn)) hn

/-- The sequence numbers of one call of `recursiveSend`: the boxes handed to
`sendRegion` take the numbers from the counter value on, one after the other. -/
theorem recursiveSend_numbered (env : Env) :
    ∀ (fuel : Nat) (g : Globals) (cl : rfbClientRec) (box : BoxRec)
      (res : Globals × rfbClientRec × List BoxRec),
      recursiveSend env fuel g cl box = some res → g.seqNumCounter < CARD32_MOD →
      Numbered res.2.2.length res.1 g := by
  intro fuel
  induction fuel with
  | zero =>
    intro g cl box res h _
    simp [recursiveSend] at h
  | succ fuel ih =>
    intro g cl box res h hc
    have hm := measureRegion_sameQueue env g cl box
    have hm0 := numbered_zero _ g hc hm
    rw [recursiveSend] at h
    dsimp only at h
    by_cases hsmall : (measureRegion env g cl box).1 < MAX_UPDATE_SIZE
    · rw [if_pos hsmall] at h
      simp only [Option.some.injEq] at h
      subst h
      have hs := sendRegion_numbered env
        { (measureRegion env g cl box).2.1 with
          tickSentBytes := (measureRegion env g cl box).2.1.tickSentBytes
            + (measureRegion env g cl box).1 }
        (measureRegion env g cl box).2.2 box (measureRegion_colourMapReady env g cl box)
        (by rw [hm.1]; exact hc)
      have := numbered_trans hs (numbered_zero _ g hc ⟨hm.1, hm.2.1, hm.2.2⟩)
      exact this
    · rw [if_neg hsmall, splitLoop_eq_recurseInOrder] at h
      exact recurseInOrder_numbered env fuel g ih _ _ res h hm0

theorem splitBoxes_ne_nil (box : BoxRec) (m : Int) (hm : ¬ m < MAX_UPDATE_SIZE) :
    splitBoxes box m ≠ [] := by
  obtain ⟨h1, h2, -⟩ := stripCount_spec m (not_lt.mp hm)
  have hpos : (stripCount m).toNat ≠ 0 := by omega
  unfold splitBoxes
  dsimp only
  rw [h1]
  simp only [List.pure_def, List.bind_eq_flatMap]
  rw [flatMap_cast_list]
  split_ifs
  · intro h
    rw [List.map_eq_nil_iff, List.map_eq_nil_iff, List.range_eq_nil] at h
    exact hpos h
  · intro h
    rw [List.map_eq_nil_iff, List.map_eq_nil_iff, List.range_eq_nil] at h
    exact hpos h

theorem recurseInOrder_nonempty (env : Env) (fuel : Nat)
    (hcall : ∀ (g : Globals) (cl : rfbClientRec) (strip : BoxRec)
      (r : Globals × rfbClientRec × List BoxRec),
      recursiveSend env fuel g cl strip = some r → r.2.2 ≠ []) :
    ∀ (strips : List BoxRec) (st res : Globals × rfbClientRec × List BoxRec),
      recurseInOrder env fuel strips st = some res → (st.2.2 ≠ [] ∨ strips ≠ []) →
      res.2.2 ≠ [] := by
  intro strips
  induction strips with
  | nil =>
    intro st res h hne
    simp only [recurseInOrder, Option.some.injEq] at h
    subst h
    rcases hne with hne | hne
    · exact hne
    · exact absurd rfl hne
  | cons s rest ih =>
    intro st res h _
    rw [recurseInOrder] at h
    cases hrec : recursiveSend env fuel st.1 st.2.1 s with
    | none =>
      rw [hrec] at h
      simp at h
    | some st1 =>
      rw [hrec] at h
      dsimp only at h
      refine ih _ res h (Or.inl ?_)
      show st.2.2 ++ st1.2.2 ≠ []
      intro hnil
      exact hcall st.1 st.2.1 s st1 hrec (List.append_eq_nil.1 hnil).2

/-- A call of `recursiveSend` that returns has handed at least one box to `sendRegion`. -/
theorem recursiveSend_nonempty (env : Env) :
    ∀ (fuel : Nat) (g : Globals) (cl : rfbClientRec) (box : BoxRec)
      (res : Globals × rfbClientRec × List BoxRec),
      recursiveSend env fuel g cl box = some res → res.2.2 ≠ [] := by
  intro fuel
  induction fuel with
  | zero =>
    intro g cl box res h
    simp [recursiveSend] at h
  | succ fuel ih =>
    intro g cl box res h
    rw [recursiveSend] at h
    dsimp only at h
    by_cases hsmall : (measureRegion env g cl box).1 < MAX_UPDATE_SIZE
    · rw [if_pos hsmall] at h
      simp only [Option.some.injEq] at h
      subst h
      exact List.cons_ne_nil _ _
    · rw [if_neg hsmall, splitLoop_eq_recurseInOrder] at h
      exact recurseInOrder_nonempty env fuel ih _ _ res h
        (Or.inr (splitBoxes_ne_nil box _ hsmall))

/-- A scheduler tick that starts a frame: its result is the result of
`recursiveSend`, called after the retransmit sweep, the subtraction of the
modified region from the queue and the frame start, for the bounding box of
the modified region that the sweep left. -/
theorem push_runs (env : Env) (fuel : Nat) (g : Globals) (cl : rfbClientRec)
    (s : Globals × rfbClientRec × List BoxRec)
    (h : rfbServerPushClient env fuel g cl = some s)
    (hframe : s.1.frameSeqNumCounter ≠ g.frameSeqNumCounter) :
    ∃ r, recursiveSend env fuel
        (newFrame (srRecSendRegion
          (srRecSetupRetransmit env (adaptStep g cl (env.GetTimeInMillis g)).1
            (adaptStep g cl (env.GetTimeInMillis g)).2).1
          (srRecSetupRetransmit env (adaptStep g cl (env.GetTimeInMillis g)).1
            (adaptStep g cl (env.GetTimeInMillis g)).2).2.modifiedRegion))
        (srRecSetupRetransmit env (adaptStep g cl (env.GetTimeInMillis g)).1
          (adaptStep g cl (env.GetTimeInMillis g)).2).2
        (regionExtents (srRecSetupRetransmit env (adaptStep g cl (env.GetTimeInMillis g)).1
          (adaptStep g cl (env.GetTimeInMillis g)).2).2.modifiedRegion) = some r
      ∧ s = ({ r.1 with last_update := env.GetTimeInMillis g }, r.2.1, r.2.2) := by
  have ha := adaptStep_frame g cl (env.GetTimeInMillis g)
  obtain ⟨-, -, -, -, -, c6, -⟩ := controllerFrame_fields ha
  unfold rfbServerPushClient at h
  dsimp only at h
  generalize adaptStep g cl (env.GetTimeInMillis g) = a at *
  split_ifs at h with h1 h2 h3
  · simp only [Option.some.injEq] at h
    subst h
    exact absurd c6 hframe
  · cases hrec : recursiveSend env fuel
        (newFrame (srRecSendRegion (srRecSetupRetransmit env a.1 a.2).1
          (srRecSetupRetransmit env a.1 a.2).2.modifiedRegion))
        (srRecSetupRetransmit env a.1 a.2).2
        (regionExtents (srRecSetupRetransmit env a.1 a.2).2.modifiedRegion) with
    | none =>
      rw [hrec] at h
      simp at h
    | some r =>
      rw [hrec] at h
      simp only [Option.some.injEq] at h
      exact ⟨r, rfl, h.symm⟩
  · simp only [Option.some.injEq] at h
    subst h
    exact absurd c6 hframe
  · simp only [Option.some.injEq] at h
    subst h
    exact absurd c6 hframe

/-- The retransmit sweep over a queue of two entries that are both older than
the retransmit timeout: both are removed and both regions are united into the
modified region. -/
theorem sweep_two_old (env : Env) (g : Globals) (cl : rfbClientRec) (e1 e2 : SendRegionRec)
    (hq : g.srRec = [e1, e2]) (hnow : env.GetTimeInMillis g < ULONG_MOD)
    (h1 : e1.time + g.retransmitTimeout < env.GetTimeInMillis g)
    (h2 : e2.time + g.retransmitTimeout < env.GetTimeInMillis g) :
    (srRecSetupRetransmit env g cl).1.srRec = []
    ∧ (srRecSetupRetransmit env g cl).2.modifiedRegion
        = cl.modifiedRegion ∪ e1.region ∪ e2.region
    ∧ (srRecSetupRetransmit env g cl).1.seqNumCounter = g.seqNumCounter
    ∧ (srRecSetupRetransmit env g cl).1.sentUpdates = g.sentUpdates := by
  have s1 := ulongSub_eq (env.GetTimeInMillis g) e1.time hnow (by omega)
  have s2 := ulongSub_eq (env.GetTimeInMillis g) e2.time hnow (by omega)
  have o1 : ulongSub (env.GetTimeInMillis g) e1.time > g.retransmitTimeout := by
    rw [s1]
    omega
  have o2 : ulongSub (env.GetTimeInMillis g) e2.time > g.retransmitTimeout := by
    rw [s2]
    omega
  have hloop : srRecSetupRetransmitLoop (env.GetTimeInMillis g) g.retransmitTimeout [e1, e2]
      cl.modifiedRegion = ([], cl.modifiedRegion ∪ e1.region ∪ e2.region) := by
    rw [srRecSetupRetransmitLoop, if_pos o1, srRecSetupRetransmitLoop, if_pos o2,
      srRecSetupRetransmitLoop]
    rfl
  unfold srRecSetupRetransmit
  dsimp only
  rw [hq, hloop]
  exact ⟨rfl, rfl, rfl, rfl⟩

theorem seqNumsFrom_head (c k : Nat) (hk : k ≠ 0) :
    (seqNumsFrom c k).head? = some (c % CARD32_MOD) := by
  obtain ⟨j, rfl⟩ := Nat.exists_eq_succ_of_ne_zero hk
  rw [show j.succ = 1 + j from by omega, seqNumsFrom_append]
  rfl

/-- C33, amended. The queue holds exactly two entries (in scenario S4 those
with the sequence numbers 1 and 2) and both are older than the retransmit
timeout when the sweep reads the clock.  A scheduler tick that starts a frame
then removes both entries, unites both regions into the modified region,
computes the bounding box of that enlarged region and makes one call of
`recursiveSend` for it: the boxes sent lie inside this bounding box and do not
overlap, so the old regions are not sent as separate updates.  The frame start
skips one sequence number: the boxes sent get the numbers `seqNumCounter + 1`,
`seqNumCounter + 2`, .. (as 32-bit values), the first one `seqNumCounter + 1`;
afterwards the queue holds exactly the entries of these boxes, and every
update of this tick that reached the transport went over the datagram channel
with one of these numbers, in increasing order. -/
theorem C33_retransmit_folding (env : Env) (fuel : Nat) (g : Globals) (cl : rfbClientRec)
    (e1 e2 : SendRegionRec) (s : Globals × rfbClientRec × List BoxRec)
    (hq : g.srRec = [e1, e2])
    (hclock : env.GetTimeInMillis (adaptStep g cl (env.GetTimeInMillis g)).1 < ULONG_MOD)
    (hold1 : e1.time + g.retransmitTimeout
      < env.GetTimeInMillis (adaptStep g cl (env.GetTimeInMillis g)).1)
    (hold2 : e2.time + g.retransmitTimeout
      < env.GetTimeInMillis (adaptStep g cl (env.GetTimeInMillis g)).1)
    (h : rfbServerPushClient env fuel g cl = some s)
    (hframe : s.1.frameSeqNumCounter ≠ g.frameSeqNumCounter) :
    ((srRecSetupRetransmit env (adaptStep g cl (env.GetTimeInMillis g)).1
        (adaptStep g cl (env.GetTimeInMillis g)).2).1.srRec = []
      ∧ (srRecSetupRetransmit env (adaptStep g cl (env.GetTimeInMillis g)).1
          (adaptStep g cl (env.GetTimeInMillis g)).2).2.modifiedRegion
          = cl.modifiedRegion ∪ e1.region ∪ e2.region)
    ∧ (∃ (g2 : Globals) (cl2 : rfbClientRec) (r : Globals × rfbClientRec × List BoxRec),
        cl2.modifiedRegion = cl.modifiedRegion ∪ e1.region ∪ e2.region
        ∧ g2.srRec = [] ∧ g2.seqNumCounter = (g.seqNumCounter + 1) % CARD32_MOD
        ∧ recursiveSend env fuel g2 cl2
            (regionExtents (cl.modifiedRegion ∪ e1.region ∪ e2.region)) = some r
        ∧ s = ({ r.1 with last_update := env.GetTimeInMillis g }, r.2.1, r.2.2))
    ∧ s.2.2 ≠ []
    ∧ (∀ b ∈ s.2.2, b.inside (regionExtents (cl.modifiedRegion ∪ e1.region ∪ e2.region)))
    ∧ s.2.2.Pairwise BoxRec.apart
    ∧ s.1.srRec.map (fun e => e.seqNum)
        = seqNumsFrom ((g.seqNumCounter + 1) % CARD32_MOD) s.2.2.length
    ∧ s.1.srRec.head?.map (fun e => e.seqNum) = some ((g.seqNumCounter + 1) % CARD32_MOD)
    ∧ s.1.seqNumCounter = (g.seqNumCounter + 1 + s.2.2.length) % CARD32_MOD
    ∧ ∃ sent : List SentUpdate, s.1.sentUpdates = g.sentUpdates ++ sent
        ∧ (sent.map (fun u => u.seqNum)).Sublist
            (seqNumsFrom ((g.seqNumCounter + 1) % CARD32_MOD) s.2.2.length)
        ∧ ∀ u ∈ sent, u.udp = true := by
  obtain ⟨r, hr, hs⟩ := push_runs env fuel g cl s h hframe
  have ha := adaptStep_frame g cl (env.GetTimeInMillis g)
  obtain ⟨-, -, c3, -, c5, -, c7, -, -, -, -, d4, -, -⟩ := controllerFrame_fields ha
  have ht := (adaptStep_tuning g cl (env.GetTimeInMillis g)).1
  generalize adaptStep g cl (env.GetTimeInMillis g) = a at *
  obtain ⟨w1, w2, w3, w4⟩ := sweep_two_old env a.1 a.2 e1 e2 (c3.trans hq) hclock
    (by rw [ht]; exact hold1) (by rw [ht]; exact hold2)
  rw [d4] at w2
  rw [w2] at hr
  have g2q : (newFrame (srRecSendRegion (srRecSetupRetransmit env a.1 a.2).1
      (cl.modifiedRegion ∪ e1.region ∪ e2.region))).srRec = [] := by
    show srRecSendRegionLoop _ (srRecSetupRetransmit env a.1 a.2).1.srRec = []
    rw [w1]
    rfl
  have g2c : (newFrame (srRecSendRegion (srRecSetupRetransmit env a.1 a.2).1
      (cl.modifiedRegion ∪ e1.region ∪ e2.region))).seqNumCounter
      = (g.seqNumCounter + 1) % CARD32_MOD := by
    show ((srRecSetupRetransmit env a.1 a.2).1.seqNumCounter + 1) % CARD32_MOD = _
    rw [w3, c5]
  have g2u : (newFrame (srRecSendRegion (srRecSetupRetransmit env a.1 a.2).1
      (cl.modifiedRegion ∪ e1.region ∪ e2.region))).sentUpdates = g.sentUpdates := by
    show (srRecSetupRetransmit env a.1 a.2).1.sentUpdates = _
    rw [w4, c7]
  have hlt : (newFrame (srRecSendRegion (srRecSetupRetransmit env a.1 a.2).1
      (cl.modifiedRegion ∪ e1.region ∪ e2.region))).seqNumCounter < CARD32_MOD := by
    rw [g2c]
    exact Nat.mod_lt _ (by decide)
  obtain ⟨n1, n2, sent, n3, n4, n5⟩ := recursiveSend_numbered env fuel _ _ _ r hr hlt
  obtain ⟨ex, ey⟩ := regionExtents_ordered (cl.modifiedRegion ∪ e1.region ∪ e2.region)
  obtain ⟨p1, p2⟩ := recursiveSend_apart env fuel _ _ _ r hr ex ey
  have hne := recursiveSend_nonempty env fuel _ _ _ r hr
  rw [g2q, g2c, List.map_nil, List.nil_append] at n2
  rw [g2c] at n1 n4
  rw [g2u] at n3
  have hk : r.2.2.length ≠ 0 := fun hz => hne (List.length_eq_zero.1 hz)
  subst hs
  refine ⟨⟨w1, w2⟩, ⟨_, _, r, w2, g2q, g2c, hr, rfl⟩, hne, fun b hb => (p1 b hb).2.2, p2, n2,
    ?_, ?_, sent, n3, n4, n5⟩
  · show (r.1.srRec.head?).map (fun e => e.seqNum) = _
    rw [← List.head?_map, n2, seqNumsFrom_head _ _ hk, Nat.mod_mod]
  · show r.1.seqNumCounter = (g.seqNumCounter + 1 + r.2.2.length) % CARD32_MOD
    rw [n1, Nat.mod_add_mod]

/-- C33, counterexample. Scenario S4 on the `4 × 1` screen: after eleven
requests and a first scheduler tick the queue holds exactly the entries with
the sequence numbers 1 and 2 (both sent at 1000 ms, the counter stands at 3,
the retransmit timeout is 25 ms) and no ack arrives.  At the next tick the
clock stands at 2000 ms, both entries are swept, and the four updates of this
tick carry the numbers 4, 5, 6 and 7: no update carries the number 3. -/
theorem C33_first_update_after_sweep_carries_4 :
    (runOps envS4 runS4InFlight initGlobals (rfbNewClient 4 1 true true)).map
        (fun s => (s.1.srRec.map (fun e => (e.seqNum, e.time)), s.1.seqNumCounter,
          s.1.retransmitTimeout, envS4.GetTimeInMillis s.1, pushSeqNums s.1))
      = some ([(1, 1000), (2, 1000)], 3, 25, 2000, [1, 2])
    ∧ (runOps envS4 runS4 initGlobals (rfbNewClient 4 1 true true)).map
        (fun s => (s.1.srRec.map (fun e => e.seqNum), pushSeqNums s.1))
      = some ([4, 5, 6, 7], [1, 2, 4, 5, 6, 7])
    ∧ (rfbServerPushClient envS4 4 stateS4.1 clS4).map
        (fun r => (r.2.2, (r.1.sentUpdates.drop stateS4.1.sentUpdates.length).head?))
      = some ([⟨0, 0, 1, 1⟩, ⟨1, 0, 2, 1⟩, ⟨2, 0, 3, 1⟩, ⟨3, 0, 4, 1⟩],
          some { seqNum := 4, nRects := 1, udp := true }) := by
  refine ⟨by decide!, by decide!, by decide!⟩

/-- C33, amended, at the state of scenario S4: the queue holds the entries with
the sequence numbers 1 and 2, both 1000 ms old, the counter stands at 3, and
the tick sends four boxes numbered 4, 5, 6 and 7. -/
theorem C33_retransmit_folding_witness :
    stateS4.1.srRec
        = [{ seqNum := 1, time := 1000, numBytes := 1456, region := {(1, 0)} },
           { seqNum := 2, time := 1000, numBytes := 1456, region := {(2, 0)} }]
    ∧ stateS4.1.seqNumCounter = 3
    ∧ ∃ s, rfbServerPushClient envS4 4 stateS4.1 clS4 = some s
        ∧ s.1.frameSeqNumCounter ≠ stateS4.1.frameSeqNumCounter
        ∧ s.2.2 ≠ []
        ∧ (∀ b ∈ s.2.2, b.inside
            (regionExtents (clS4.modifiedRegion ∪ ({(1, 0)} : Region) ∪ ({(2, 0)} : Region))))
        ∧ s.2.2.Pairwise BoxRec.apart
        ∧ s.1.srRec.map (fun e => e.seqNum)
            = seqNumsFrom ((stateS4.1.seqNumCounter + 1) % CARD32_MOD) s.2.2.length
        ∧ s.1.srRec.head?.map (fun e => e.seqNum)
            = some ((stateS4.1.seqNumCounter + 1) % CARD32_MOD) := by
  have hq : stateS4.1.srRec
      = [{ seqNum := 1, time := 1000, numBytes := 1456, region := {(1, 0)} },
         { seqNum := 2, time := 1000, numBytes := 1456, region := {(2, 0)} }] := by decide!
  have hval : (rfbServerPushClient envS4 4 stateS4.1 clS4).map
      (fun s => s.1.frameSeqNumCounter) = some 2 := by decide!
  have hfr : stateS4.1.frameSeqNumCounter = 1 := by decide!
  refine ⟨hq, by decide!, ?_⟩
  cases hs : rfbServerPushClient envS4 4 stateS4.1 clS4 with
  | none => rw [hs] at hval; cases hval
  | some s =>
    rw [hs] at hval
    have hf : s.1.frameSeqNumCounter ≠ stateS4.1.frameSeqNumCounter := by
      rw [hfr]
      have h2 : s.1.frameSeqNumCounter = 2 := Option.some.inj hval
      rw [h2]
      decide
    have hthm := C33_retransmit_folding envS4 4 stateS4.1 clS4 _ _ s hq (by decide!)
      (by decide!) (by decide!) hs hf
    exact ⟨s, rfl, hf, hthm.2.2.1, hthm.2.2.2.1, hthm.2.2.2.2.1, hthm.2.2.2.2.2.1,
      hthm.2.2.2.2.2.2.1⟩

/-! ### `measureRegion` in a session past the colour map set-up -/

theorem emitBand_setup (env : Env) (f : rfbClientRec → Bool) (cl : rfbClientRec)
    (rects : List BoxRec) (dx dy x_inc : Int) (hm : cl.measuring = true) :
    ∀ (n : Nat) (thisRect : Int) (g : Globals) (out : List CopyRectMsg),
      emitBand { env with rfbSetClientColourMap := f } cl rects dx dy x_inc n thisRect g out
        = emitBand env cl rects dx dy x_inc n thisRect g out := by
  intro n
  induction n with
  | zero =>
    intro thisRect g out
    rfl
  | succ n ih =>
    intro thisRect g out
    rw [emitBand, emitBand]
    dsimp only
    rw [rfbSendUpdateBuf_measuring _ g cl hm, rfbSendUpdateBuf_measuring env g cl hm]
    split_ifs
    · rfl
    · exact ih _ _ _
    · rfl
    · exact ih _ _ _

theorem copyLoop_setup (env : Env) (f : rfbClientRec → Bool) (cl : rfbClientRec)
    (rects : List BoxRec) (dx dy x_inc y_inc : Int) (hm : cl.measuring = true) :
    ∀ (fuel nrects : Nat) (thisRect : Int) (g : Globals) (out : List CopyRectMsg),
      copyLoop { env with rfbSetClientColourMap := f } cl rects dx dy x_inc y_inc fuel nrects
          thisRect g out
        = copyLoop env cl rects dx dy x_inc y_inc fuel nrects thisRect g out := by
  intro fuel
  induction fuel with
  | zero =>
    intro nrects thisRect g out
    cases nrects <;> rfl
  | succ fuel ih =>
    intro nrects thisRect g out
    cases nrects with
    | zero => rfl
    | succ nrects =>
      rw [copyLoop, copyLoop]
      rw [emitBand_setup env f cl rects dx dy x_inc hm]
      split_ifs <;> first
        | rfl
        | exact ih _ _ _ _

theorem rfbSendCopyRegion_setup (env : Env) (f : rfbClientRec → Bool) (g : Globals)
    (cl : rfbClientRec) (rects : List BoxRec) (dx dy : Int) (hm : cl.measuring = true) :
    rfbSendCopyRegion { env with rfbSetClientColourMap := f } g cl rects dx dy
      = rfbSendCopyRegion env g cl rects dx dy := by
  unfold rfbSendCopyRegion
  dsimp only
  rw [copyLoop_setup env f cl rects dx dy _ _ hm]

theorem rfbSendLastRectMarker_setup (env : Env) (f : rfbClientRec → Bool) (g : Globals)
    (cl : rfbClientRec) (hm : cl.measuring = true) :
    rfbSendLastRectMarker { env with rfbSetClientColourMap := f } g cl
      = rfbSendLastRectMarker env g cl := by
  unfold rfbSendLastRectMarker
  dsimp only
  rw [rfbSendUpdateBuf_measuring _ g cl hm, rfbSendUpdateBuf_measuring env g cl hm]

theorem sendRects_setup (env : Env) (f : rfbClientRec → Bool) (cl : rfbClientRec) :
    ∀ (rects : List BoxRec) (u : Int),
      sendRects { env with rfbSetClientColourMap := f } cl rects u = sendRects env cl rects u := by
  intro rects
  induction rects with
  | nil =>
    intro u
    rfl
  | cons r rest ih =>
    intro u
    rw [sendRects, sendRects]
    dsimp only
    split_ifs
    · cases env.rfbSendRectEncoding cl.preferredEncoding cl u r.x1 r.y1 (r.x2 - r.x1)
          (r.y2 - r.y1) with
      | none => rfl
      | some v => exact ih v
    · exact ih u

theorem nRectsTight_setup (env : Env) (f : rfbClientRec → Bool) (cl : rfbClientRec) :
    ∀ (rects : List BoxRec) (n : Int),
      nRectsTight { env with rfbSetClientColourMap := f } cl rects n
        = nRectsTight env cl rects n := by
  intro rects
  induction rects with
  | nil =>
    intro n
    rfl
  | cons r rest ih =>
    intro n
    rw [nRectsTight, nRectsTight]
    dsimp only
    split_ifs
    · rfl
    · exact ih _

theorem nUpdateRegionRects_setup (env : Env) (f : rfbClientRec → Bool)
    (cl : rfbClientRec) (rects : List BoxRec) :
    nUpdateRegionRects { env with rfbSetClientColourMap := f } cl rects
      = nUpdateRegionRects env cl rects := by
  unfold nUpdateRegionRects
  rw [nRectsTight_setup env f cl rects 0]
  rfl

theorem sendCopyStep_setup (env : Env) (f : rfbClientRec → Bool) (dx dy : Int)
    (r : UpdateResult) (hm : r.cl.measuring = true) :
    sendCopyStep { env with rfbSetClientColourMap := f } dx dy r = sendCopyStep env dx dy r := by
  unfold sendCopyStep
  dsimp only
  rw [rfbSendCopyRegion_setup env f r.g r.cl _ dx dy hm]

theorem sendPixelData_setup (env : Env) (f : rfbClientRec → Bool) (seqNum : Nat)
    (nUpd : Int) (r : UpdateResult) (hm : r.cl.measuring = true) :
    sendPixelData { env with rfbSetClientColourMap := f } seqNum nUpd r
      = sendPixelData env seqNum nUpd r := by
  unfold sendPixelData
  dsimp only
  rw [sendRects_setup env f r.cl]
  cases sendRects env r.cl (env.REGION_RECTS r.updateRegion) r.g.ublen with
  | none => rfl
  | some u =>
    dsimp only
    rw [rfbSendLastRectMarker_setup env f _ r.cl hm]
    generalize (if nUpd = 65535 then
          rfbSendLastRectMarker env { r.g with ublen := u, handleNewBlock := 0 } r.cl
        else (true, { r.g with ublen := u, handleNewBlock := 0 })) = marker
    rw [rfbSendUpdateBuf_measuring _ marker.2 r.cl hm, rfbSendUpdateBuf_measuring env marker.2 r.cl hm]

theorem sendUpdateRest_setup (env : Env) (f : rfbClientRec → Bool) (seqNum : Nat)
    (cs cp : Bool) (dx dy nUpd : Int) (r : UpdateResult) (hm : r.cl.measuring = true) :
    sendUpdateRest { env with rfbSetClientColourMap := f } seqNum cs cp dx dy nUpd r
      = sendUpdateRest env seqNum cs cp dx dy nUpd r := by
  have b1 := sendCursorShapeStep_same env cs r
  have b2 := (sendCursorPosStep_same env cp (sendCursorShapeStep env cs r).2).chain b1
  have b3 := (sendCopyStep_same env dx dy
    (sendCursorPosStep env cp (sendCursorShapeStep env cs r).2).2).chain b2
  have e1 : sendCursorShapeStep { env with rfbSetClientColourMap := f } cs r
      = sendCursorShapeStep env cs r := rfl
  have e2 : ∀ r1, sendCursorPosStep { env with rfbSetClientColourMap := f } cp r1
      = sendCursorPosStep env cp r1 := fun _ => rfl
  unfold sendUpdateRest
  dsimp only
  rw [e1, e2, sendCopyStep_setup env f dx dy _ (b2.2.2.2.2.2.1.trans hm),
    sendPixelData_setup env f seqNum nUpd _ (b3.2.2.2.2.2.1.trans hm)]

theorem sendUpdateBody_setup (env : Env) (f : rfbClientRec → Bool) (seqNum : Nat)
    (cs cp : Bool) (dx dy : Int) (r : UpdateResult) (hm : r.cl.measuring = true) :
    sendUpdateBody { env with rfbSetClientColourMap := f } seqNum cs cp dx dy r
      = sendUpdateBody env seqNum cs cp dx dy r := by
  unfold sendUpdateBody headerNRects
  dsimp only
  rw [nUpdateRegionRects_setup env f r.cl]
  exact sendUpdateRest_setup env f seqNum cs cp dx dy _ _ hm

/-- In measure mode the builder never runs the colour map set-up: with any
other `rfbSetClientColourMap` it returns the same result. -/
theorem builder_setup (env : Env) (f : rfbClientRec → Bool) (g : Globals)
    (cl : rfbClientRec) (seqNum : Nat) (hm : cl.measuring = true) :
    rfbSendFramebufferUpdate_numBytes { env with rfbSetClientColourMap := f } g cl seqNum
      = rfbSendFramebufferUpdate_numBytes env g cl seqNum := by
  have e1 : cursorIsDrawnAfter { env with rfbSetClientColourMap := f } g cl
      = cursorIsDrawnAfter env g cl := rfl
  have e2 : planCursorShape { env with rfbSetClientColourMap := f } g cl
      = planCursorShape env g cl := rfl
  unfold rfbSendFramebufferUpdate_numBytes
  dsimp only
  rw [e1, e2]
  split_ifs with h1 h2
  · rfl
  · rw [hm] at h2
    cases h2
  · exact sendUpdateBody_setup env f seqNum _ _ _ _ _ hm

/-- In a session past the colour map set-up `measureRegion` does not run the
set-up: with any other `rfbSetClientColourMap` it returns the same result. -/
theorem measureRegion_setup (env : Env) (f : rfbClientRec → Bool) (g : Globals)
    (cl : rfbClientRec) (box : BoxRec) (hr : cl.readyForSetColourMapEntries = true) :
    measureRegion { env with rfbSetClientColourMap := f } g cl box
      = measureRegion env g cl box := by
  have e1 := colourMapFailed_ready { env with rfbSetClientColourMap := f } cl
    (REGION_INIT box) hr
  have e2 := colourMapFailed_ready env cl (REGION_INIT box) hr
  unfold measureRegion rfbSendFramebufferUpdate
  dsimp only
  rw [e1, e2, builder_setup env f g _ _ rfl]

theorem pastSetup_of_eq {g1 g : Globals} {cl1 cl : rfbClientRec}
    (h1 : g1.send_count = g.send_count) (h2 : g1.canSend = g.canSend)
    (h3 : cl1.readyForSetColourMapEntries = cl.readyForSetColourMapEntries)
    (h : PastSetup g cl) : PastSetup g1 cl1 := by
  unfold PastSetup at *
  rw [h1, h2, h3]
  exact h

theorem markNonIncremental_ready (cl : rfbClientRec) (inc : Nat) (r : Region) :
    (markNonIncremental cl inc r).readyForSetColourMapEntries
      = cl.readyForSetColourMapEntries := by
  unfold markNonIncremental
  split_ifs <;> rfl

/-- An update request leaves the session past the colour map set-up, unless it
is swallowed (a request of the primary client after its tenth), which leaves
the session as it was. -/
theorem request_ready (env : Env) (g : Globals) (cl : rfbClientRec)
    (msg : rfbFramebufferUpdateRequestMsg) :
    (rfbProcessClientNormalMessage_FramebufferUpdateRequest env g cl
        msg).2.readyForSetColourMapEntries = true
    ∨ ((rfbProcessClientNormalMessage_FramebufferUpdateRequest env g cl msg).2 = cl
        ∧ g.send_count + 1 > 10) := by
  unfold rfbProcessClientNormalMessage_FramebufferUpdateRequest rfbSendFramebufferUpdate
  dsimp only
  cases hoct : cl.isOctopus
  · simp only [Bool.false_and, Bool.false_eq_true, if_false]
    left
    split_ifs
    · exact (addRequested_fields cl _).1
    · dsimp only
      rw [(builder_clientFlags env _ _ _).1, markNonIncremental_ready]
      exact (addRequested_fields cl _).1
    · dsimp only
      rw [markNonIncremental_ready]
      exact (addRequested_fields cl _).1
  · simp only [Bool.true_and, if_true]
    by_cases hsw : g.send_count + 1 > 10
    · right
      rw [if_pos (by simpa using hsw)]
      exact ⟨rfl, hsw⟩
    · left
      rw [if_neg (by simpa using hsw)]
      split_ifs
      · exact (addRequested_fields cl _).1
      · dsimp only
        rw [(builder_clientFlags env _ _ _).1, markNonIncremental_ready]
        exact (addRequested_fields cl _).1
      · dsimp only
        rw [markNonIncremental_ready]
        exact (addRequested_fields cl _).1

/-- A scheduler tick leaves a session past the colour map set-up past it. -/
theorem push_ready (env : Env) (fuel : Nat) (g : Globals) (cl : rfbClientRec)
    (s : Globals × rfbClientRec × List BoxRec)
    (h : rfbServerPushClient env fuel g cl = some s)
    (hr : cl.readyForSetColourMapEntries = true) :
    s.2.1.readyForSetColourMapEntries = true := by
  have ha := adaptStep_frame g cl (env.GetTimeInMillis g)
  rcases push_cases env fuel g cl s h with ⟨-, -, -, h4, -⟩ | ⟨-, hfr, -⟩
  · have hne : s.1.frameSeqNumCounter ≠ g.frameSeqNumCounter := by
      rw [h4]
      exact succ_mod_ne _
    obtain ⟨r, hrec, hs⟩ := push_runs env fuel g cl s h hne
    have hstart : (srRecSetupRetransmit env (adaptStep g cl (env.GetTimeInMillis g)).1
        (adaptStep g cl (env.GetTimeInMillis g)).2).2.readyForSetColourMapEntries = true := by
      show (adaptStep g cl (env.GetTimeInMillis g)).2.readyForSetColourMapEntries = true
      rw [ha.2]
      exact hr
    have hres := recursiveSend_keeps env (fun _ cl1 => cl1.readyForSetColourMapEntries = true)
      (fun g1 cl1 box1 _ => measureRegion_colourMapReady env g1 cl1 box1)
      (fun _ _ _ h1 => h1)
      (fun g1 cl1 box1 _ => sendRegion_colourMapReady env g1 cl1 box1)
      fuel _ _ _ r hrec hstart
    rw [hs]
    exact hres
  · rw [hfr.2]
    exact hr

/-- One operation that does not clear the flag keeps `PastSetup`. -/
theorem step_pastSetup (env : Env) (op : Op) (g : Globals) (cl : rfbClientRec)
    (s : Globals × rfbClientRec × Nat) (hk : op.keepsReady cl) (hp : PastSetup g cl)
    (h : op.step env g cl = some s) : PastSetup s.1 s.2.1 := by
  cases op with
  | request msg =>
    simp only [Op.step, Option.some.injEq] at h
    subst h
    rcases request_ready env g cl msg with hready | ⟨hsame, hsw⟩
    · exact Or.inr hready
    · rcases hp with ⟨h0, -⟩ | hready
      · rw [h0] at hsw
        exact absurd hsw (by decide)
      · right
        show (rfbProcessClientNormalMessage_FramebufferUpdateRequest env g cl
          msg).2.readyForSetColourMapEntries = true
        rw [hsame]
        exact hready
  | ack seqNum =>
    simp only [Op.step, Option.some.injEq] at h
    subst h
    obtain ⟨a1, a2, -⟩ := ack_frame env g seqNum
    exact pastSetup_of_eq a2 a1 rfl hp
  | push fuel =>
    simp only [Op.step] at h
    cases hpush : rfbServerPushClient env fuel g cl with
    | none =>
      rw [hpush] at h
      cases h
    | some r =>
      rw [hpush] at h
      simp only [Option.some.injEq] at h
      subst h
      rcases hp with ⟨h0, hc⟩ | hready
      · obtain ⟨r1, e1, hfr, -⟩ := push_gate env fuel g cl hc
        rw [hpush] at e1
        simp only [Option.some.injEq] at e1
        subst e1
        obtain ⟨c1, c2, -⟩ := controllerFrame_fields hfr
        left
        exact ⟨c2.trans h0, c1.trans hc⟩
      · exact Or.inr (push_ready env fuel g cl r hpush hready)
  | measure box =>
    simp only [Op.step, Option.some.injEq] at h
    subst h
    exact Or.inr (measureRegion_colourMapReady env g cl box)
  | send box =>
    simp only [Op.step, Option.some.injEq] at h
    subst h
    exact Or.inr (sendRegion_colourMapReady env g cl box)
  | frame =>
    simp only [Op.step, Option.some.injEq] at h
    subst h
    exact pastSetup_of_eq rfl rfl rfl hp
  | setupRetransmit =>
    simp only [Op.step, Option.some.injEq] at h
    subst h
    exact pastSetup_of_eq rfl rfl rfl hp
  | subtract region =>
    simp only [Op.step, Option.some.injEq] at h
    subst h
    exact pastSetup_of_eq rfl rfl rfl hp
  | deleteSeqNum seqNum =>
    simp only [Op.step, Option.some.injEq] at h
    subst h
    exact pastSetup_of_eq rfl rfl rfl hp
  | external cl1 =>
    simp only [Op.step, Option.some.injEq] at h
    subst h
    rcases hp with hleft | hready
    · exact Or.inl hleft
    · exact Or.inr (hk hready)

/-- Over a run in which no operation clears the flag, `PastSetup` is kept. -/
theorem runOps_pastSetup (env : Env) :
    ∀ (ops : List Op) (g : Globals) (cl : rfbClientRec) (s : Globals × rfbClientRec × Nat),
      KeepsReady env ops g cl → PastSetup g cl → runOps env ops g cl = some s →
      PastSetup s.1 s.2.1 := by
  intro ops
  induction ops with
  | nil =>
    intro g cl s _ hp h
    simp only [runOps, Option.some.injEq] at h
    subst h
    exact hp
  | cons op ops ih =>
    intro g cl s hk hp h
    rw [runOps] at h
    obtain ⟨hk1, hk2⟩ := hk
    cases hstep : op.step env g cl with
    | none =>
      rw [hstep] at h
      cases h
    | some s1 =>
      rw [hstep] at h hk2
      dsimp only at h hk2
      cases hrest : runOps env ops s1.1 s1.2.1 with
      | none =>
        rw [hrest] at h
        cases h
      | some s2 =>
        rw [hrest] at h
        simp only [Option.some.injEq] at h
        subst h
        exact ih s1.1 s1.2.1 s2 hk2 (step_pastSetup env op g cl s1 hk1 hp hstep) hrest

/-- Whenever server push is enabled the session is past the colour map set-up:
in every state that a run reaches from the initial state of the process and
any session, without an operation that clears the flag, `canSend` implies
`readyForSetColourMapEntries`.  The scheduler calls `recursiveSend`, the only
caller of `measureRegion`, under `canSend` only, and `measureRegion` and
`sendRegion` leave the flag set, so every call of `measureRegion` finds it set. -/
theorem push_enabled_ready (env : Env) (ops : List Op) (cl : rfbClientRec)
    (s : Globals × rfbClientRec × Nat) (hk : KeepsReady env ops initGlobals cl)
    (h : runOps env ops initGlobals cl = some s) (hc : s.1.canSend = true) :
    s.2.1.readyForSetColourMapEntries = true := by
  rcases runOps_pastSetup env ops initGlobals cl s hk (Or.inl ⟨rfl, rfl⟩) h with ⟨-, hf⟩ | hr
  · rw [hc] at hf
    cases hf
  · exact hr

/-- C35. For every box and every state in which `measureRegion` is called (the
session is past the colour map set-up, see `push_enabled_ready`):
`measureRegion` hands no update to the transport of either channel and
consults neither the transport nor the colour map set-up (with any other
`sendto`, `WriteExact` and `rfbSetClientColourMap` it returns the same value
and state), appends nothing to the unacked queue, and leaves `seqNumCounter`,
the modified region and the copy offset unchanged; on return `measuring` is
false, the buffer length is 0 and the requested region is empty. -/
theorem C35_measureRegion_frame (env : Env) (g : Globals) (cl : rfbClientRec) (box : BoxRec)
    (hready : cl.readyForSetColourMapEntries = true) :
    (measureRegion env g cl box).2.1.sentUpdates = g.sentUpdates
    ∧ (∀ (s w : Globals → Int → Int) (f : rfbClientRec → Bool),
        measureRegion { env with sendto := s, WriteExact := w, rfbSetClientColourMap := f }
          g cl box = measureRegion env g cl box)
    ∧ (measureRegion env g cl box).2.1.srRec = g.srRec
    ∧ (measureRegion env g cl box).2.1.srRecCount = g.srRecCount
    ∧ (measureRegion env g cl box).2.1.seqNumCounter = g.seqNumCounter
    ∧ (measureRegion env g cl box).2.2.modifiedRegion = cl.modifiedRegion
    ∧ (measureRegion env g cl box).2.2.copyDX = cl.copyDX
    ∧ (measureRegion env g cl box).2.2.copyDY = cl.copyDY
    ∧ (measureRegion env g cl box).2.2.measuring = false
    ∧ (measureRegion env g cl box).2.1.ublen = 0
    ∧ (measureRegion env g cl box).2.2.requestedRegion = ∅ := by
  obtain ⟨a1, a2, a3, -⟩ := addRequested_regions cl (REGION_INIT box)
  refine ⟨?_, fun s w f =>
    (measureRegion_transport { env with rfbSetClientColourMap := f } s w g cl box).trans
      (measureRegion_setup env f g cl box hready), ?_⟩
  all_goals rw [measureRegion_ready env g cl box hready]
  all_goals dsimp only
  · obtain ⟨⟨-, -, q3⟩, -, -⟩ := builder_queueEffect env g
      { addRequested cl (REGION_INIT box) with measuring := true } 0xFFFFFFFF
    rcases q3 with q3 | ⟨hf, -⟩
    · exact q3
    · cases hf
  · obtain ⟨⟨q1, q2, -⟩, -, -⟩ := builder_queueEffect env g
      { addRequested cl (REGION_INIT box) with measuring := true } 0xFFFFFFFF
    obtain ⟨hb, -⟩ := builder_framed env g
      { addRequested cl (REGION_INIT box) with measuring := true } 0xFFFFFFFF
    obtain ⟨m1, m2, m3⟩ := builder_measuring_regions env g
      { addRequested cl (REGION_INIT box) with measuring := true } 0xFFFFFFFF rfl
    unfold BufferOnly at hb
    refine ⟨q2, ?_, q1, m1.trans a1, m2.trans a2, m3.trans a3, rfl, rfl, rfl⟩
    rw [hb]

/-- Witness for C35: the session of a client without true colour, after its
first request and with two pixels drawn on since, is past the colour map
set-up; measuring the whole `4 × 1` screen gives 44 bytes, also with
collaborators whose colour map set-up would fail, and leaves the regions, the
queue and the counter as they were, with an empty buffer and nothing requested. -/
theorem C35_measureRegion_frame_witness :
    (rfbNewClient 4 1 true false).readyForSetColourMapEntries = false
    ∧ clMappedDrawn.readyForSetColourMapEntries = true
    ∧ clMappedDrawn.formatTrueColour = false
    ∧ (measureRegion envOk initGlobals clMappedDrawn ⟨0, 0, 4, 1⟩).1 = 44
    ∧ (measureRegion envNoColourMap initGlobals clMappedDrawn ⟨0, 0, 4, 1⟩).1 = 44
    ∧ (measureRegion envOk initGlobals clMappedDrawn ⟨0, 0, 4, 1⟩).2.2.modifiedRegion
        = {(1, 0), (2, 0)}
    ∧ (measureRegion envOk initGlobals clMappedDrawn ⟨0, 0, 4, 1⟩).2.2.measuring = false
    ∧ (measureRegion envOk initGlobals clMappedDrawn ⟨0, 0, 4, 1⟩).2.1.ublen = 0
    ∧ (measureRegion envOk initGlobals clMappedDrawn ⟨0, 0, 4, 1⟩).2.2.requestedRegion = ∅
    ∧ (measureRegion envOk initGlobals clMappedDrawn ⟨0, 0, 4, 1⟩).2.1.srRec = []
    ∧ (measureRegion envOk initGlobals clMappedDrawn ⟨0, 0, 4, 1⟩).2.1.sentUpdates = [] :=
  ⟨by decide, by decide, by decide, by decide, by decide,
    (C35_measureRegion_frame envOk initGlobals clMappedDrawn ⟨0, 0, 4, 1⟩
      (by decide)).2.2.2.2.2.1.trans (by decide),
    (C35_measureRegion_frame envOk initGlobals clMappedDrawn ⟨0, 0, 4, 1⟩
      (by decide)).2.2.2.2.2.2.2.2.1,
    (C35_measureRegion_frame envOk initGlobals clMappedDrawn ⟨0, 0, 4, 1⟩
      (by decide)).2.2.2.2.2.2.2.2.2.1,
    (C35_measureRegion_frame envOk initGlobals clMappedDrawn ⟨0, 0, 4, 1⟩
      (by decide)).2.2.2.2.2.2.2.2.2.2,
    (C35_measureRegion_frame envOk initGlobals clMappedDrawn ⟨0, 0, 4, 1⟩
      (by decide)).2.2.1.trans (by decide),
    (C35_measureRegion_frame envOk initGlobals clMappedDrawn ⟨0, 0, 4, 1⟩
      (by decide)).1.trans (by decide)⟩

end Octopus
